import Mathlib

/-!
# Reactive exp-6 pair style: a shallow embedding of `USER-DPD/pair_exp6_rx.cpp`

The development embeds `PairExp6rx::getParamsEXP6`, `PairExp6rx::func_rin`,
`PairExp6rx::expValue` and the pair loop of `PairExp6rx::compute`, the functions
`read_file`, `setup`, `allocate`, `settings`, `coeff`, `init_one`, `write_restart` and
`read_restart` of the same class, and the five builders of `USER-OMP/neigh_respa_omp.cpp`.

* Floating-point numbers are idealised as elements of a linearly ordered field `F`
  (the intended instance is `ℝ`).
* The libm calls (`sqrt`, `exp`, `cbrt`, `pow`) are the fields of a `MathLib F` record, so
  every definition stays executable; closed statements instantiate the record with the real
  functions.
* Division inside `getParamsEXP6` is an explicit argument `dv`, so that results can be stated
  for an arbitrary outcome of a division by zero; theorems that use the value of a quotient
  assume `dv a b = a / b` for `b ≠ 0`. The pair loop uses the field division.
* `error->all` is modelled by the `Except String` monad.
* Local variables of `compute` that survive from one pair to the next (`evdwlOld`,
  `fpairOldEXP6_12`, `fpairOldEXP6_21`) are fields of the loop state.
-/

namespace PairExp6rx

/-! ## Arithmetic environment -/

/-- The libm functions called by the pair style. -/
structure MathLib (F : Type) where
  /-- C `sqrt` -/
  sqrt : F → F
  /-- C `exp` -/
  exp : F → F
  /-- C `cbrt` -/
  cbrt : F → F
  /-- C `pow` -/
  pow : F → F → F

/-- Value of the `<float.h>` constant `DBL_MIN_EXP` for IEEE double precision. -/
def DBL_MIN_EXP : Int := -1021

/-- Macro `#define oneFluidApproxParameter (-1)`. -/
def oneFluidApproxParameter : Int := -1

/-- Macro `#define isOneFluidApprox(_site) ( (_site) == oneFluidApproxParameter )`. -/
def isOneFluidApprox (site : Int) : Bool := site == oneFluidApproxParameter

/-- Macro `#define exp6PotentialType (1)`. -/
def exp6PotentialType : Int := 1

/-- Modelled from the spec: `MathSpecial::powint` (math_special.h is not among the sources);
the integer power used for the inverse-power-law core of exponent 12. -/
def powint {F : Type} [LinearOrderedField F] (x : F) (n : Nat) : F := x ^ n

/-- Function `PairExp6rx::expValue`: the exponential, cut to zero below `DBL_MIN_EXP`. -/
def expValue {F : Type} [LinearOrderedField F] (m : MathLib F) (value : F) : F :=
  if value < (DBL_MIN_EXP : F) then 0 else m.exp value

/-- Function `PairExp6rx::func_rin`. -/
def func_rin {F : Type} [LinearOrderedField F] (m : MathLib F) (alpha : F) : F :=
  let a : F := 3.7682065
  let b : F := -1.4308614
  expValue m (a + b * m.sqrt alpha)

/-- Constant `const int nRep = 12;` of `compute`. -/
def nRep : Nat := 12

/-- Constant `const double shift = 1.05;` of `compute`. -/
def shift {F : Type} [LinearOrderedField F] : F := 1.05

/-! ## Data model -/

/-- One record of `params` (struct `Param` of pair_exp6_rx.h, fields read by the code). -/
structure Param (F : Type) where
  epsilon : F
  rm : F
  alpha : F
  ispecies : Int
  potentialType : Int

/-- Members of the pair style read by `getParamsEXP6`. Arrays are total functions of the
index. -/
structure Exp6Config (F : Type) where
  nspecies : Nat
  params : Nat → Param F
  mol2param : Nat → Int
  isite1 : Int
  isite2 : Int
  fuchslinR : F
  fuchslinEpsilon : F

/-- The sixteen per-particle entries of `PairExp6ParamDataType` (the out-parameters of
`getParamsEXP6`). -/
structure ParamData (F : Type) where
  epsilon1 : F
  alpha1 : F
  rm1 : F
  fraction1 : F
  epsilon2 : F
  alpha2 : F
  rm2 : F
  fraction2 : F
  epsilonOld1 : F
  alphaOld1 : F
  rmOld1 : F
  fractionOld1 : F
  epsilonOld2 : F
  alphaOld2 : F
  rmOld2 : F
  fractionOld2 : F

/-! ## getParamsEXP6 -/

/-- Accumulators of the first species loop of `getParamsEXP6`. -/
structure Totals (F : Type) where
  nTotal : F
  nTotal_old : F
  nTotalOFA : F
  nTotalOFA_old : F

/-- Accumulators of the one-fluid moments in the second species loop. -/
structure OFASums (F : Type) where
  rm3 : F
  epsilon : F
  alpha : F
  rm3_old : F
  epsilon_old : F
  alpha_old : F

/-- State of the second species loop: the out-parameters and the moment accumulators. -/
structure Resolve (F : Type) where
  out : ParamData F
  sums : OFASums F

/-- The guard `iparam < 0 || params[iparam].potentialType != exp6PotentialType` that makes
the species loops `continue`. -/
def skipSpecies {F : Type} (cfg : Exp6Config F) (ispecies : Nat) : Bool :=
  decide (cfg.mol2param ispecies < 0) ||
    (cfg.params (cfg.mol2param ispecies).toNat).potentialType != exp6PotentialType

/-- The guard `isite1 == params[iparam].ispecies || isite2 == params[iparam].ispecies`. -/
def pinnedSpecies {F : Type} (cfg : Exp6Config F) (ispecies : Nat) : Bool :=
  cfg.isite1 == (cfg.params (cfg.mol2param ispecies).toNat).ispecies ||
    cfg.isite2 == (cfg.params (cfg.mol2param ispecies).toNat).ispecies

/-- Body of the first loop (lines 907-919): totals of the particle and of its fluid part. -/
def totalsStep {F : Type} [LinearOrderedField F] (cfg : Exp6Config F)
    (dvector : Nat → Nat → F) (id : Nat) (acc : Totals F) (ispecies : Nat) : Totals F :=
  let acc1 : Totals F :=
    { acc with
      nTotal := acc.nTotal + dvector ispecies id
      nTotal_old := acc.nTotal_old + dvector (ispecies + cfg.nspecies) id }
  if skipSpecies cfg ispecies then acc1
  else if isOneFluidApprox cfg.isite1 || isOneFluidApprox cfg.isite2 then
    if pinnedSpecies cfg ispecies then acc1
    else
      { acc1 with
        nTotalOFA_old := acc1.nTotalOFA_old + dvector (ispecies + cfg.nspecies) id
        nTotalOFA := acc1.nTotalOFA + dvector ispecies id }
  else acc1

/-- Body of the inner `jspecies` loop (lines 968-993). -/
def innerStep {F : Type} [LinearOrderedField F] (m : MathLib F) (dv : F → F → F)
    (cfg : Exp6Config F) (dvector : Nat → Nat → F) (id : Nat) (tot : Totals F)
    (fractionOFA fractionOFA_old : F) (ispecies : Nat) (s : OFASums F) (jspecies : Nat) :
    OFASums F :=
  let pi := cfg.params (cfg.mol2param ispecies).toNat
  let rmi := pi.rm
  let epsiloni := pi.epsilon
  let alphai := pi.alpha
  let xMolei := dv (dvector ispecies id) tot.nTotalOFA
  let xMolei_old := dv (dvector (ispecies + cfg.nspecies) id) tot.nTotalOFA_old
  if skipSpecies cfg jspecies then s
  else if pinnedSpecies cfg jspecies then s
  else
    let pj := cfg.params (cfg.mol2param jspecies).toNat
    let rmj := pj.rm
    let epsilonj := pj.epsilon
    let alphaj := pj.alpha
    let xMolej := dv (dvector jspecies id) tot.nTotalOFA
    let xMolej_old := dv (dvector (jspecies + cfg.nspecies) id) tot.nTotalOFA_old
    let rmij := dv (rmi + rmj) 2
    let rm3ij := rmij * rmij * rmij
    let epsilonij := m.sqrt (epsiloni * epsilonj)
    let alphaij := m.sqrt (alphai * alphaj)
    let s1 : OFASums F :=
      if fractionOFA_old > 0 then
        { s with
          rm3_old := s.rm3_old + xMolei_old * xMolej_old * rm3ij
          epsilon_old := s.epsilon_old + xMolei_old * xMolej_old * rm3ij * epsilonij
          alpha_old := s.alpha_old + xMolei_old * xMolej_old * rm3ij * epsilonij * alphaij }
      else s
    if fractionOFA > 0 then
      { s1 with
        rm3 := s1.rm3 + xMolei * xMolej * rm3ij
        epsilon := s1.epsilon + xMolei * xMolej * rm3ij * epsilonij
        alpha := s1.alpha + xMolei * xMolej * rm3ij * epsilonij * alphaij }
    else s1

/-- Body of the second `ispecies` loop (lines 927-995). -/
def outerStep {F : Type} [LinearOrderedField F] (m : MathLib F) (dv : F → F → F)
    (cfg : Exp6Config F) (dvector : Nat → Nat → F) (id : Nat) (tot : Totals F)
    (fractionOFA fractionOFA_old : F) (acc : Resolve F) (ispecies : Nat) : Resolve F :=
  if skipSpecies cfg ispecies then acc
  else
    let p := cfg.params (cfg.mol2param ispecies).toNat
    let out1 : ParamData F :=
      if cfg.isite1 = p.ispecies then
        { acc.out with
          rmOld1 := p.rm
          rm1 := p.rm
          epsilonOld1 := p.epsilon
          epsilon1 := p.epsilon
          alphaOld1 := p.alpha
          alpha1 := p.alpha
          fractionOld1 := dv (dvector (ispecies + cfg.nspecies) id) tot.nTotal_old
          fraction1 := dv (dvector ispecies id) tot.nTotal }
      else acc.out
    let out2 : ParamData F :=
      if cfg.isite2 = p.ispecies then
        { out1 with
          rmOld2 := p.rm
          rm2 := p.rm
          epsilonOld2 := p.epsilon
          epsilon2 := p.epsilon
          alphaOld2 := p.alpha
          alpha2 := p.alpha
          fractionOld2 := dv (dvector (ispecies + cfg.nspecies) id) tot.nTotal_old
          fraction2 := dv (dvector ispecies id) tot.nTotal }
      else out1
    if isOneFluidApprox cfg.isite1 || isOneFluidApprox cfg.isite2 then
      if pinnedSpecies cfg ispecies then { out := out2, sums := acc.sums }
      else
        { out := out2
          sums := (List.range cfg.nspecies).foldl
            (innerStep m dv cfg dvector id tot fractionOFA fractionOFA_old ispecies) acc.sums }
    else { out := out2, sums := acc.sums }

/-- The triple `(rm, epsilon, alpha)` of a one-fluid site before scaling (lines 998-1006,
repeated at 1010-1018, 1053-1061 and 1064-1072). -/
def ofaResolve {F : Type} [LinearOrderedField F] (m : MathLib F) (dv : F → F → F)
    (rm3 epsilon alpha : F) : F × F × F :=
  let rm1 := m.cbrt rm3
  if rm1 < 1e-16 then (0, 0, 0)
  else
    let epsilon1 := dv epsilon rm3
    let alpha1 := dv (dv alpha epsilon1) rm3
    (rm1, epsilon1, alpha1)

/-- Fuchslin-like scaling of one value by the fluid population (lines 1023-1035, repeated
for `rm` at 1037-1049 and for site 2 at 1077-1103). -/
def fuchslin {F : Type} [LinearOrderedField F] (m : MathLib F) (dv : F → F → F)
    (expo nTotalOFA value : F) : F :=
  if expo < 0 then
    let powfuch := m.pow nTotalOFA (-expo)
    if powfuch < 1e-15 then 0 else value * dv 1 powfuch
  else value * m.pow nTotalOFA expo

/-- The first loop of `getParamsEXP6` run over all species. -/
def getTotals {F : Type} [LinearOrderedField F] (cfg : Exp6Config F)
    (dvector : Nat → Nat → F) (id : Nat) : Totals F :=
  (List.range cfg.nspecies).foldl (totalsStep cfg dvector id)
    { nTotal := 0, nTotal_old := 0, nTotalOFA := 0, nTotalOFA_old := 0 }

/-- The second species loop of `getParamsEXP6` (lines 927-995) run over all species, from
the entry values `init` of the out-parameters and zeroed moment accumulators. -/
def resolveLoop {F : Type} [LinearOrderedField F] (m : MathLib F) (dv : F → F → F)
    (cfg : Exp6Config F) (dvector : Nat → Nat → F) (id : Nat) (tot : Totals F)
    (fractionOFA fractionOFA_old : F) (init : ParamData F) : Resolve F :=
  (List.range cfg.nspecies).foldl
    (outerStep m dv cfg dvector id tot fractionOFA fractionOFA_old)
    { out := init
      sums := { rm3 := 0, epsilon := 0, alpha := 0,
                rm3_old := 0, epsilon_old := 0, alpha_old := 0 } }

/-- The two one-fluid blocks that close `getParamsEXP6` (lines 997-1050 for site 1 and
1052-1104 for site 2). -/
def ofaSites {F : Type} [LinearOrderedField F] (m : MathLib F) (dv : F → F → F)
    (cfg : Exp6Config F) (tot : Totals F) (fractionOFA fractionOFA_old : F)
    (res : Resolve F) : ParamData F :=
  let s := res.sums
  let out1 : ParamData F :=
    if isOneFluidApprox cfg.isite1 then
      let cur := ofaResolve m dv s.rm3 s.epsilon s.alpha
      let old := ofaResolve m dv s.rm3_old s.epsilon_old s.alpha_old
      { res.out with
        rm1 := fuchslin m dv cfg.fuchslinR tot.nTotalOFA cur.1
        epsilon1 := fuchslin m dv cfg.fuchslinEpsilon tot.nTotalOFA cur.2.1
        alpha1 := cur.2.2
        fraction1 := fractionOFA
        rmOld1 := fuchslin m dv cfg.fuchslinR tot.nTotalOFA_old old.1
        epsilonOld1 := fuchslin m dv cfg.fuchslinEpsilon tot.nTotalOFA_old old.2.1
        alphaOld1 := old.2.2
        fractionOld1 := fractionOFA_old }
    else res.out
  if isOneFluidApprox cfg.isite2 then
    let cur := ofaResolve m dv s.rm3 s.epsilon s.alpha
    let old := ofaResolve m dv s.rm3_old s.epsilon_old s.alpha_old
    { out1 with
      rm2 := fuchslin m dv cfg.fuchslinR tot.nTotalOFA cur.1
      epsilon2 := fuchslin m dv cfg.fuchslinEpsilon tot.nTotalOFA cur.2.1
      alpha2 := cur.2.2
      fraction2 := fractionOFA
      rmOld2 := fuchslin m dv cfg.fuchslinR tot.nTotalOFA_old old.1
      epsilonOld2 := fuchslin m dv cfg.fuchslinEpsilon tot.nTotalOFA_old old.2.1
      alphaOld2 := old.2.2
      fractionOld2 := fractionOFA_old }
  else out1

/-- Function `PairExp6rx::getParamsEXP6`. The argument `dv` is the floating-point division,
`init` holds the values of the sixteen out-parameters on entry. -/
def getParamsEXP6 {F : Type} [LinearOrderedField F] (m : MathLib F) (dv : F → F → F)
    (cfg : Exp6Config F) (dvector : Nat → Nat → F) (id : Nat) (init : ParamData F) :
    Except String (ParamData F) :=
  let tot := getTotals cfg dvector id
  if tot.nTotal < 1e-8 ∨ tot.nTotal_old < 1e-8 then
    .error "The number of molecules in CG particle is less than 1e-8."
  else
    let fractionOFA_old := dv tot.nTotalOFA_old tot.nTotal_old
    let fractionOFA := dv tot.nTotalOFA tot.nTotal
    .ok (ofaSites m dv cfg tot fractionOFA fractionOFA_old
      (resolveLoop m dv cfg dvector id tot fractionOFA fractionOFA_old init))

/-- The out-parameters that `getParamsEXP6` returns when it does not raise. -/
def resolved {F : Type} [LinearOrderedField F] (m : MathLib F) (dv : F → F → F)
    (cfg : Exp6Config F) (dvector : Nat → Nat → F) (id : Nat) (init : ParamData F) :
    ParamData F :=
  let tot := getTotals cfg dvector id
  ofaSites m dv cfg tot (dv tot.nTotalOFA tot.nTotal) (dv tot.nTotalOFA_old tot.nTotal_old)
    (resolveLoop m dv cfg dvector id tot (dv tot.nTotalOFA tot.nTotal)
      (dv tot.nTotalOFA_old tot.nTotal_old) init)

/-! ## The regularised exp-6 form evaluated in compute -/

/-- Separation and cutoff quantities of one pair (lines 239-246). -/
structure PairGeom (F : Type) where
  r : F
  r2inv : F
  r6inv : F
  rCut : F
  rCutInv : F
  rCut2inv : F
  rCut6inv : F

/-- Lines 239-246 of `compute`. -/
def pairGeom {F : Type} [LinearOrderedField F] (m : MathLib F) (rsq cutsq : F) : PairGeom F :=
  let r2inv := 1 / rsq
  let r6inv := r2inv * r2inv * r2inv
  let r := m.sqrt rsq
  let rCut2inv := 1 / cutsq
  let rCut6inv := rCut2inv * rCut2inv * rCut2inv
  let rCut := m.sqrt cutsq
  let rCutInv := 1 / rCut
  { r := r, r2inv := r2inv, r6inv := r6inv, rCut := rCut, rCutInv := rCutInv,
    rCut2inv := rCut2inv, rCut6inv := rCut6inv }

/-- The convenient quantities and the shifted potential of one directed evaluation
(lines 293-304; the same statements are repeated at 331-343, 387-398 and 419-430). -/
structure Exp6Terms (F : Type) where
  rminv : F
  buck1 : F
  buck2 : F
  rexp : F
  rm6ij : F
  rCutExp : F
  urc : F
  durc : F
  rin1 : F

/-- Lines 293-304 for the directed mix `(alpha, epsilon, rm)`. -/
def exp6Terms {F : Type} [LinearOrderedField F] (m : MathLib F) (g : PairGeom F)
    (alpha epsilon rm : F) : Exp6Terms F :=
  let rminv := 1 / rm
  let buck1 := epsilon / (alpha - 6)
  let rexp := expValue m (alpha * (1 - g.r * rminv))
  let rm2ij := rm * rm
  let rm6ij := rm2ij * rm2ij * rm2ij
  let rCutExp := expValue m (alpha * (1 - g.rCut * rminv))
  let buck2 := 6 * alpha
  let urc := buck1 * (6 * rCutExp - alpha * rm6ij * g.rCut6inv)
  let durc := -buck1 * buck2 * (rCutExp * rminv - g.rCutInv * rm6ij * g.rCut6inv)
  let rin1 := shift * rm * func_rin m alpha
  { rminv := rminv, buck1 := buck1, buck2 := buck2, rexp := rexp, rm6ij := rm6ij,
    rCutExp := rCutExp, urc := urc, durc := durc, rin1 := rin1 }

/-- Quantities of the core branch `r < rin1` (lines 306-317). -/
structure CoreTerms (F : Type) where
  rin6 : F
  rin6inv : F
  rin1exp : F
  uin1 : F
  win1 : F
  aRep : F
  uin1rep : F

/-- Lines 306-317 for the directed mix `(alpha, epsilon, rm)`. -/
def coreTerms {F : Type} [LinearOrderedField F] (m : MathLib F) (g : PairGeom F)
    (alpha : F) (t : Exp6Terms F) : CoreTerms F :=
  let rin1 := t.rin1
  let rin6 := rin1 * rin1 * rin1 * rin1 * rin1 * rin1
  let rin6inv := 1 / rin6
  let rin1exp := expValue m (alpha * (1 - rin1 * t.rminv))
  let uin1 := t.buck1 * (6 * rin1exp - alpha * t.rm6ij * rin6inv) - t.urc
    - t.durc * (rin1 - g.rCut)
  let win1 := -t.buck1 * t.buck2 * (rin1 * rin1exp * t.rminv - t.rm6ij * rin6inv)
    - rin1 * t.durc
  let aRep := -1 * win1 * powint rin1 nRep / (nRep : F)
  let uin1rep := aRep / powint rin1 nRep
  { rin6 := rin6, rin6inv := rin6inv, rin1exp := rin1exp, uin1 := uin1, win1 := win1,
    aRep := aRep, uin1rep := uin1rep }

/-- Core branch, line 319: `forceExp6 = -double(nRep)*aRep/powint(r,nRep)`. -/
def coreForceExp6 {F : Type} [LinearOrderedField F] (g : PairGeom F) (c : CoreTerms F) : F :=
  -(nRep : F) * c.aRep / powint g.r nRep

/-- Core branch, line 322: `uin1 - uin1rep + aRep/powint(r,nRep)`. -/
def coreEvdwl {F : Type} [LinearOrderedField F] (g : PairGeom F) (c : CoreTerms F) : F :=
  c.uin1 - c.uin1rep + c.aRep / powint g.r nRep

/-- Outer branch, line 324. -/
def outerForceExp6 {F : Type} [LinearOrderedField F] (g : PairGeom F) (t : Exp6Terms F) : F :=
  t.buck1 * t.buck2 * (g.r * t.rexp * t.rminv - t.rm6ij * g.r6inv) + g.r * t.durc

/-- Outer branch, line 327. -/
def outerEvdwl {F : Type} [LinearOrderedField F] (g : PairGeom F) (alpha : F)
    (t : Exp6Terms F) : F :=
  t.buck1 * (6 * t.rexp - alpha * t.rm6ij * g.r6inv) - t.urc - t.durc * (g.r - g.rCut)

/-- Result of one directed evaluation. -/
structure Exp6Eval (F : Type) where
  forceExp6 : F
  fpair : F
  evdwl : F

/-- One directed evaluation of the regularised exp-6 form (lines 293-328). The
current-snapshot copies (lines 387-417 and 419-449) evaluate the energy only. -/
def exp6Directed {F : Type} [LinearOrderedField F] (m : MathLib F) (g : PairGeom F)
    (factor_lj alpha epsilon rm : F) : Exp6Eval F :=
  let t := exp6Terms m g alpha epsilon rm
  if g.r < t.rin1 then
    let c := coreTerms m g alpha t
    { forceExp6 := coreForceExp6 g c
      fpair := factor_lj * coreForceExp6 g c * g.r2inv
      evdwl := coreEvdwl g c }
  else
    { forceExp6 := outerForceExp6 g t
      fpair := factor_lj * outerForceExp6 g t * g.r2inv
      evdwl := outerEvdwl g alpha t }

/-! ## The pair loop of compute -/

/-- The Lorentz-Berthelot mixes of a pair (lines 274-286). -/
structure PairMix (F : Type) where
  alphaOld12_ij : F
  rmOld12_ij : F
  epsilonOld12_ij : F
  alphaOld21_ij : F
  rmOld21_ij : F
  epsilonOld21_ij : F
  alpha12_ij : F
  rm12_ij : F
  epsilon12_ij : F
  alpha21_ij : F
  rm21_ij : F
  epsilon21_ij : F

/-- Lines 274-286: mixing of the resolved parameters of particles i and j. -/
def mixPair {F : Type} [LinearOrderedField F] (m : MathLib F) (pi pj : ParamData F) :
    PairMix F :=
  { alphaOld12_ij := m.sqrt (pi.alphaOld1 * pj.alphaOld2)
    rmOld12_ij := 0.5 * (pi.rmOld1 + pj.rmOld2)
    epsilonOld12_ij := m.sqrt (pi.epsilonOld1 * pj.epsilonOld2)
    alphaOld21_ij := m.sqrt (pi.alphaOld2 * pj.alphaOld1)
    rmOld21_ij := 0.5 * (pi.rmOld2 + pj.rmOld1)
    epsilonOld21_ij := m.sqrt (pi.epsilonOld2 * pj.epsilonOld1)
    alpha12_ij := m.sqrt (pi.alpha1 * pj.alpha2)
    rm12_ij := 0.5 * (pi.rm1 + pj.rm2)
    epsilon12_ij := m.sqrt (pi.epsilon1 * pj.epsilon2)
    alpha21_ij := m.sqrt (pi.alpha2 * pj.alpha1)
    rm21_ij := 0.5 * (pi.rm2 + pj.rm1)
    epsilon21_ij := m.sqrt (pi.epsilon2 * pj.epsilon1) }

/-- One call of the tally sink, `ev_tally(i,j,nlocal,newton_pair,evdwl,0.0,fpair,...)`. -/
structure TallyCall (F : Type) where
  i : Nat
  j : Nat
  nlocal : Nat
  newton_pair : Bool
  evdwl : F
  ecoul : F
  fpair : F
  delx : F
  dely : F
  delz : F

/-- Mutable state of the pair loop: the per-atom arrays written by `compute`, the locals
that keep their value from one pair to the next, and the log of `ev_tally` calls. -/
structure ComputeState (F : Type) where
  f : Nat → Nat → F
  uCG : Nat → F
  uCGnew : Nat → F
  evdwlOld : F
  fpairOldEXP6_12 : F
  fpairOldEXP6_21 : F
  tally : List (TallyCall F)

/-- Read-only inputs of the pair loop. `sbmask` and `neighmask` stand for `sbmask(j)` and
`j & NEIGHMASK`, whose bit layout is declared outside the sources. -/
structure PairEnv (F : Type) where
  x : Nat → Nat → F
  type : Nat → Nat
  nlocal : Nat
  nghost : Nat
  special_lj : Nat → F
  newton_pair : Bool
  cutsq : Nat → Nat → F
  evflag : Bool
  sbmask : Nat → Nat
  neighmask : Nat → Nat

/-- The update `a[i] += v` of a per-atom scalar array. -/
def addAt {F : Type} [LinearOrderedField F] (a : Nat → F) (i : Nat) (v : F) : Nat → F :=
  fun k => if k = i then a k + v else a k

/-- The update `f[i][0] += vx; f[i][1] += vy; f[i][2] += vz`. -/
def addForce {F : Type} [LinearOrderedField F] (f : Nat → Nat → F) (i : Nat) (vx vy vz : F) :
    Nat → Nat → F :=
  fun k d =>
    if k = i then
      (if d = 0 then f k d + vx else if d = 1 then f k d + vy
        else if d = 2 then f k d + vz else f k d)
    else f k d

/-- The mixing rule of lines 370-373, 454-455 and 466-467: the 12 term alone when the two
sites coincide, both directed terms otherwise. -/
def mixSites {F : Type} [LinearOrderedField F] (m : MathLib F) (isite1 isite2 : Int)
    (f1i f2j f2i f1j v12 v21 : F) : F :=
  if isite1 = isite2 then m.sqrt (f1i * f2j) * v12
  else m.sqrt (f1i * f2j) * v12 + m.sqrt (f2i * f1j) * v21

/-- The previous-snapshot block of the pair body (lines 288-380). -/
def computePairOld {F : Type} [LinearOrderedField F] (m : MathLib F) (cfg : Exp6Config F)
    (env : PairEnv F) (g : PairGeom F) (factor_lj : F) (pi pj : ParamData F)
    (i j : Nat) (st : ComputeState F) : Except String (ComputeState F) :=
  let mx := mixPair m pi pj
  if mx.rmOld12_ij ≠ 0 ∧ mx.rmOld21_ij ≠ 0 then
    if mx.alphaOld21_ij = 6 ∨ mx.alphaOld12_ij = 6 then
      .error "alpha_ij is 6.0 in pair exp6"
    else
      let e12 := exp6Directed m g factor_lj mx.alphaOld12_ij mx.epsilonOld12_ij mx.rmOld12_ij
      let e21 := exp6Directed m g factor_lj mx.alphaOld21_ij mx.epsilonOld21_ij mx.rmOld21_ij
      let evdwlOld := mixSites m cfg.isite1 cfg.isite2 pi.fractionOld1 pj.fractionOld2
        pi.fractionOld2 pj.fractionOld1 e12.evdwl e21.evdwl * factor_lj
      let uCG1 := addAt st.uCG i (0.5 * evdwlOld)
      let uCG2 := if env.newton_pair ∨ j < env.nlocal then addAt uCG1 j (0.5 * evdwlOld)
        else uCG1
      .ok { st with
            uCG := uCG2
            evdwlOld := evdwlOld
            fpairOldEXP6_12 := e12.fpair
            fpairOldEXP6_21 := e21.fpair }
  else .ok st

/-- The current-snapshot block of the pair body (lines 382-476). -/
def computePairNew {F : Type} [LinearOrderedField F] (m : MathLib F) (cfg : Exp6Config F)
    (env : PairEnv F) (g : PairGeom F) (factor_lj : F) (pi pj : ParamData F)
    (i j : Nat) (delx dely delz : F) (st : ComputeState F) :
    Except String (ComputeState F) :=
  let mx := mixPair m pi pj
  if mx.rm12_ij ≠ 0 ∧ mx.rm21_ij ≠ 0 then
    if mx.alpha21_ij = 6 ∨ mx.alpha12_ij = 6 then
      .error "alpha_ij is 6.0 in pair exp6"
    else
      let evdwlEXP6_12 :=
        (exp6Directed m g factor_lj mx.alpha12_ij mx.epsilon12_ij mx.rm12_ij).evdwl
      let evdwlEXP6_21 :=
        (exp6Directed m g factor_lj mx.alpha21_ij mx.epsilon21_ij mx.rm21_ij).evdwl
      let fpair := mixSites m cfg.isite1 cfg.isite2 pi.fractionOld1 pj.fractionOld2
        pi.fractionOld2 pj.fractionOld1 st.fpairOldEXP6_12 st.fpairOldEXP6_21
      let f1 := addForce st.f i (delx * fpair) (dely * fpair) (delz * fpair)
      let f2 := if env.newton_pair ∨ j < env.nlocal then
          addForce f1 j (-(delx * fpair)) (-(dely * fpair)) (-(delz * fpair))
        else f1
      let evdwl := mixSites m cfg.isite1 cfg.isite2 pi.fraction1 pj.fraction2
        pi.fraction2 pj.fraction1 evdwlEXP6_12 evdwlEXP6_21 * factor_lj
      let uCGnew1 := addAt st.uCGnew i (0.5 * evdwl)
      let uCGnew2 := if env.newton_pair ∨ j < env.nlocal then addAt uCGnew1 j (0.5 * evdwl)
        else uCGnew1
      let tally := if env.evflag then
          st.tally ++ [{ i := i, j := j, nlocal := env.nlocal, newton_pair := env.newton_pair,
                         evdwl := st.evdwlOld, ecoul := 0, fpair := fpair,
                         delx := delx, dely := dely, delz := delz }]
        else st.tally
      .ok { st with f := f2, uCGnew := uCGnew2, tally := tally }
  else .ok st

/-- The factor `factor_lj = special_lj[sbmask(j)]` of a list entry (line 228). -/
def pairFactor {F : Type} (env : PairEnv F) (jraw : Nat) : F :=
  env.special_lj (env.sbmask jraw)

/-- Component `d` of the separation vector `x[i] - x[j]` (lines 231-233). -/
def pairDel {F : Type} [LinearOrderedField F] (env : PairEnv F) (i jraw d : Nat) : F :=
  env.x i d - env.x (env.neighmask jraw) d

/-- The squared separation `rsq` (line 235). -/
def pairRsq {F : Type} [LinearOrderedField F] (env : PairEnv F) (i jraw : Nat) : F :=
  pairDel env i jraw 0 * pairDel env i jraw 0 + pairDel env i jraw 1 * pairDel env i jraw 1
    + pairDel env i jraw 2 * pairDel env i jraw 2

/-- The squared cutoff `cutsq[itype][jtype]` of the pair. -/
def pairCutsq {F : Type} (env : PairEnv F) (i jraw : Nat) : F :=
  env.cutsq (env.type i) (env.type (env.neighmask jraw))

/-- Body of the `jj` loop (lines 227-477) for the list entry `jraw` of atom `i`. -/
def computePair {F : Type} [LinearOrderedField F] (m : MathLib F) (cfg : Exp6Config F)
    (env : PairEnv F) (pd : Nat → ParamData F) (i : Nat) (st : ComputeState F)
    (jraw : Nat) : Except String (ComputeState F) :=
  let factor_lj := pairFactor env jraw
  let j := env.neighmask jraw
  let delx := pairDel env i jraw 0
  let dely := pairDel env i jraw 1
  let delz := pairDel env i jraw 2
  let rsq := pairRsq env i jraw
  if rsq < pairCutsq env i jraw then
    let g := pairGeom m rsq (pairCutsq env i jraw)
    (computePairOld m cfg env g factor_lj (pd i) (pd j) i j st).bind
      (computePairNew m cfg env g factor_lj (pd i) (pd j) i j delx dely delz)
  else .ok st

/-- The `jj` loop over the neighbours of atom `i`. -/
def computeNeighbors {F : Type} [LinearOrderedField F] (m : MathLib F) (cfg : Exp6Config F)
    (env : PairEnv F) (pd : Nat → ParamData F) (st : ComputeState F) (i : Nat)
    (jlist : List Nat) : Except String (ComputeState F) :=
  jlist.foldlM (computePair m cfg env pd i) st

/-- The `ii` loop over the atoms of the neighbour list (lines 198-479). -/
def computeLoop {F : Type} [LinearOrderedField F] (m : MathLib F) (cfg : Exp6Config F)
    (env : PairEnv F) (pd : Nat → ParamData F) (ilist : List Nat)
    (firstneigh : Nat → List Nat) (st : ComputeState F) : Except String (ComputeState F) :=
  ilist.foldlM (fun s i => computeNeighbors m cfg env pd s i (firstneigh i)) st

/-- Lines 170-188: `getParamsEXP6` for every local and ghost atom; `init` holds the
contents of the freshly allocated arrays. -/
def paramTable {F : Type} [LinearOrderedField F] (m : MathLib F) (dv : F → F → F)
    (cfg : Exp6Config F) (dvector : Nat → Nat → F) (np_total : Nat)
    (init : Nat → ParamData F) : Except String (Nat → ParamData F) :=
  (List.range np_total).foldlM
    (fun tbl i => (getParamsEXP6 m dv cfg dvector i (init i)).map
      (fun p k => if k = i then p else tbl k))
    init

/-- Function `PairExp6rx::compute`: parameter resolution for all atoms, then the pair loop. The
state `st0` carries the arrays on entry and the indeterminate initial values of
`fpairOldEXP6_12` and `fpairOldEXP6_21`; `evdwlOld` starts at 0.0 (line 106). -/
def compute {F : Type} [LinearOrderedField F] (m : MathLib F) (dv : F → F → F)
    (cfg : Exp6Config F) (env : PairEnv F) (dvector : Nat → Nat → F)
    (init : Nat → ParamData F) (ilist : List Nat) (firstneigh : Nat → List Nat)
    (st0 : ComputeState F) : Except String (ComputeState F) :=
  (paramTable m dv cfg dvector (env.nlocal + env.nghost) init).bind
    (fun pd => computeLoop m cfg env pd ilist firstneigh { st0 with evdwlOld := 0 })

/-! ## Quantities of one pair named by the claims -/

/-- Geometry of the pair `(i, jraw)`. -/
def pairGeomOf {F : Type} [LinearOrderedField F] (m : MathLib F) (env : PairEnv F)
    (i jraw : Nat) : PairGeom F :=
  pairGeom m (pairRsq env i jraw) (pairCutsq env i jraw)

/-- The previous-snapshot block of the pair is evaluated (guard of line 288). -/
def oldGate {F : Type} [LinearOrderedField F] (m : MathLib F) (pi pj : ParamData F) : Prop :=
  (mixPair m pi pj).rmOld12_ij ≠ 0 ∧ (mixPair m pi pj).rmOld21_ij ≠ 0

/-- The current-snapshot block of the pair is evaluated (guard of line 382). -/
def newGate {F : Type} [LinearOrderedField F] (m : MathLib F) (pi pj : ParamData F) : Prop :=
  (mixPair m pi pj).rm12_ij ≠ 0 ∧ (mixPair m pi pj).rm21_ij ≠ 0

/-- A directed previous-snapshot alpha equals 6.0 (test of line 289). -/
def oldAlphaSix {F : Type} [LinearOrderedField F] (m : MathLib F) (pi pj : ParamData F) :
    Prop :=
  (mixPair m pi pj).alphaOld21_ij = 6 ∨ (mixPair m pi pj).alphaOld12_ij = 6

/-- A directed current-snapshot alpha equals 6.0 (test of line 383). -/
def newAlphaSix {F : Type} [LinearOrderedField F] (m : MathLib F) (pi pj : ParamData F) :
    Prop :=
  (mixPair m pi pj).alpha21_ij = 6 ∨ (mixPair m pi pj).alpha12_ij = 6

/-- The previous-snapshot mixed force magnitude of a pair: the mix, by the previous site
fractions, of the directed force magnitudes evaluated from the previous-snapshot mixes. -/
def pairFpairOld {F : Type} [LinearOrderedField F] (m : MathLib F) (cfg : Exp6Config F)
    (g : PairGeom F) (factor_lj : F) (pi pj : ParamData F) : F :=
  let mx := mixPair m pi pj
  mixSites m cfg.isite1 cfg.isite2 pi.fractionOld1 pj.fractionOld2 pi.fractionOld2
    pj.fractionOld1
    (exp6Directed m g factor_lj mx.alphaOld12_ij mx.epsilonOld12_ij mx.rmOld12_ij).fpair
    (exp6Directed m g factor_lj mx.alphaOld21_ij mx.epsilonOld21_ij mx.rmOld21_ij).fpair

/-- The previous-snapshot mixed energy of a pair: fraction-weighted, scaled by the special
factor, evaluated from the previous-snapshot parameters at the pair separation. -/
def pairEvdwlOld {F : Type} [LinearOrderedField F] (m : MathLib F) (cfg : Exp6Config F)
    (g : PairGeom F) (factor_lj : F) (pi pj : ParamData F) : F :=
  let mx := mixPair m pi pj
  mixSites m cfg.isite1 cfg.isite2 pi.fractionOld1 pj.fractionOld2 pi.fractionOld2
    pj.fractionOld1
    (exp6Directed m g factor_lj mx.alphaOld12_ij mx.epsilonOld12_ij mx.rmOld12_ij).evdwl
    (exp6Directed m g factor_lj mx.alphaOld21_ij mx.epsilonOld21_ij mx.rmOld21_ij).evdwl
    * factor_lj

/-- The current-snapshot mixed energy of a pair. -/
def pairEvdwlNew {F : Type} [LinearOrderedField F] (m : MathLib F) (cfg : Exp6Config F)
    (g : PairGeom F) (factor_lj : F) (pi pj : ParamData F) : F :=
  let mx := mixPair m pi pj
  mixSites m cfg.isite1 cfg.isite2 pi.fraction1 pj.fraction2 pi.fraction2 pj.fraction1
    (exp6Directed m g factor_lj mx.alpha12_ij mx.epsilon12_ij mx.rm12_ij).evdwl
    (exp6Directed m g factor_lj mx.alpha21_ij mx.epsilon21_ij mx.rm21_ij).evdwl
    * factor_lj

/-- The force arrays after `f[i] += del*fpair` and, when `newton_pair || j < nlocal`,
`f[j] -= del*fpair` (lines 457-464). -/
def applyForce {F : Type} [LinearOrderedField F] (env : PairEnv F) (f : Nat → Nat → F)
    (i j : Nat) (delx dely delz fpair : F) : Nat → Nat → F :=
  if env.newton_pair ∨ j < env.nlocal then
    addForce (addForce f i (delx * fpair) (dely * fpair) (delz * fpair)) j
      (-(delx * fpair)) (-(dely * fpair)) (-(delz * fpair))
  else addForce f i (delx * fpair) (dely * fpair) (delz * fpair)

/-- The previous-snapshot fields of two parameter entries coincide. -/
def SameOld {F : Type} (p q : ParamData F) : Prop :=
  p.epsilonOld1 = q.epsilonOld1 ∧ p.alphaOld1 = q.alphaOld1 ∧ p.rmOld1 = q.rmOld1 ∧
  p.fractionOld1 = q.fractionOld1 ∧ p.epsilonOld2 = q.epsilonOld2 ∧
  p.alphaOld2 = q.alphaOld2 ∧ p.rmOld2 = q.rmOld2 ∧ p.fractionOld2 = q.fractionOld2

/-! ## Concrete scenarios -/

/-- Species A of the end-to-end scenario of the specification. -/
def paramA {F : Type} [LinearOrderedField F] : Param F :=
  { epsilon := 1, rm := 2, alpha := 12, ispecies := 0, potentialType := exp6PotentialType }

/-- Species B of the end-to-end scenario of the specification. -/
def paramB {F : Type} [LinearOrderedField F] : Param F :=
  { epsilon := 2, rm := 4, alpha := 14, ispecies := 1, potentialType := exp6PotentialType }

/-- Two species A and B, both with a record; the sites are given, the Fuchslin exponents
are zero. -/
def scenarioConfig {F : Type} [LinearOrderedField F] (isite1 isite2 : Int) : Exp6Config F :=
  { nspecies := 2
    params := fun k => if k = 0 then paramA else paramB
    mol2param := fun s => if s = 0 then 0 else if s = 1 then 1 else -1
    isite1 := isite1
    isite2 := isite2
    fuchslinR := 0
    fuchslinEpsilon := 0 }

/-- Two species, A with a record and a second species without one; both sites are the
one-fluid site, the Fuchslin exponents are zero. -/
def fluidConfig {F : Type} [LinearOrderedField F] : Exp6Config F :=
  { nspecies := 2
    params := fun _ => paramA
    mol2param := fun s => if s = 0 then 0 else -1
    isite1 := -1
    isite2 := -1
    fuchslinR := 0
    fuchslinEpsilon := 0 }

/-- One species with the record `(epsilon, rm, alpha)`; both sites are the one-fluid site. -/
def oneSpeciesConfig {F : Type} [LinearOrderedField F] (epsilon rm alpha fuchslinR
    fuchslinEpsilon : F) : Exp6Config F :=
  { nspecies := 1
    params := fun _ =>
      { epsilon := epsilon, rm := rm, alpha := alpha, ispecies := 0,
        potentialType := exp6PotentialType }
    mol2param := fun s => if s = 0 then 0 else -1
    isite1 := -1
    isite2 := -1
    fuchslinR := fuchslinR
    fuchslinEpsilon := fuchslinEpsilon }

/-- Atoms on the x axis, atom `k` at `x = 3k`; one atom type with cutoff 10; `nlocal` owned
atoms and no ghost; no special factor (all factors 1); Newton pair on; tally requested. -/
def lineEnv {F : Type} [LinearOrderedField F] (nlocal : Nat) : PairEnv F :=
  { x := fun k d => if d = 0 then 3 * (k : F) else 0
    type := fun _ => 1
    nlocal := nlocal
    nghost := 0
    special_lj := fun _ => 1
    newton_pair := true
    cutsq := fun _ _ => 100
    evflag := true
    sbmask := fun j => j / 2 ^ 30 % 4
    neighmask := fun j => j % 2 ^ 30 }

/-- Resolved parameters of a particle whose two sites both carry the record of species A,
with current site fraction `fr` and previous site fraction `fo`. -/
def likeA {F : Type} [LinearOrderedField F] (fr fo : F) : ParamData F :=
  { epsilon1 := 1, alpha1 := 12, rm1 := 2, fraction1 := fr,
    epsilon2 := 1, alpha2 := 12, rm2 := 2, fraction2 := fr,
    epsilonOld1 := 1, alphaOld1 := 12, rmOld1 := 2, fractionOld1 := fo,
    epsilonOld2 := 1, alphaOld2 := 12, rmOld2 := 2, fractionOld2 := fo }

/-- Resolved parameters of a particle made of species A only in both snapshots. -/
def pureA {F : Type} [LinearOrderedField F] : ParamData F := likeA 1 1

/-- As `pureA`, with previous-snapshot fractions one quarter. -/
def quarterA {F : Type} [LinearOrderedField F] : ParamData F := likeA 1 0.25

/-- The current-snapshot fields of two parameter entries coincide. -/
def SameNew {F : Type} (p q : ParamData F) : Prop :=
  p.epsilon1 = q.epsilon1 ∧ p.alpha1 = q.alpha1 ∧ p.rm1 = q.rm1 ∧
  p.fraction1 = q.fraction1 ∧ p.epsilon2 = q.epsilon2 ∧
  p.alpha2 = q.alpha2 ∧ p.rm2 = q.rm2 ∧ p.fraction2 = q.fraction2

/-- Current snapshot of pure A on both one-fluid sites, previous snapshot with an empty
fluid part: all previous entries zero. -/
def freshA {F : Type} [LinearOrderedField F] : ParamData F :=
  { epsilon1 := 1, alpha1 := 12, rm1 := 2, fraction1 := 1,
    epsilon2 := 1, alpha2 := 12, rm2 := 2, fraction2 := 1,
    epsilonOld1 := 0, alphaOld1 := 0, rmOld1 := 0, fractionOld1 := 0,
    epsilonOld2 := 0, alphaOld2 := 0, rmOld2 := 0, fractionOld2 := 0 }

/-- Composition of the end-to-end scenario: every particle is pure A in both snapshots
(rows 0, 1: current A, B; rows 2, 3: previous A, B). -/
def dvPureA {F : Type} [LinearOrderedField F] : Nat → Nat → F :=
  fun row _ => if row = 0 ∨ row = 2 then 1 else 0

/-- Every particle is pure A now and was one quarter A, three quarters B before. -/
def dvQuarterA {F : Type} [LinearOrderedField F] : Nat → Nat → F :=
  fun row _ => if row = 0 then 1 else if row = 2 then 0.25 else if row = 3 then 0.75 else 0

/-- Every particle is pure A now; particles 0 and 1 were pure A before, the others were
made of the second species only. -/
def dvFresh {F : Type} [LinearOrderedField F] : Nat → Nat → F :=
  fun row id =>
    if row = 0 then 1
    else if row = 2 then (if id < 2 then 1 else 0)
    else if row = 3 then (if id < 2 then 0 else 1)
    else 0

/-- Every composition entry of every particle equals `c`. -/
def dvConst {F : Type} (c : F) : Nat → Nat → F := fun _ _ => c

/-- Both sites with epsilon 1, alpha 6 and an `rm` scaled down to zero, fractions 1, in
both snapshots. -/
def alphaSixRmZero {F : Type} [LinearOrderedField F] : ParamData F :=
  { epsilon1 := 1, alpha1 := 6, rm1 := 0, fraction1 := 1,
    epsilon2 := 1, alpha2 := 6, rm2 := 0, fraction2 := 1,
    epsilonOld1 := 1, alphaOld1 := 6, rmOld1 := 0, fractionOld1 := 1,
    epsilonOld2 := 1, alphaOld2 := 6, rmOld2 := 0, fractionOld2 := 1 }

/-- All sixteen entries zero. -/
def zeroParams {F : Type} [LinearOrderedField F] : ParamData F :=
  { epsilon1 := 0, alpha1 := 0, rm1 := 0, fraction1 := 0,
    epsilon2 := 0, alpha2 := 0, rm2 := 0, fraction2 := 0,
    epsilonOld1 := 0, alphaOld1 := 0, rmOld1 := 0, fractionOld1 := 0,
    epsilonOld2 := 0, alphaOld2 := 0, rmOld2 := 0, fractionOld2 := 0 }

/-- Zero forces and energies, an empty tally log, and the value `u` in the two locals
`fpairOldEXP6_12` and `fpairOldEXP6_21` that `compute` does not set on entry. -/
def startState {F : Type} [LinearOrderedField F] (u : F) : ComputeState F :=
  { f := fun _ _ => 0
    uCG := fun _ => 0
    uCGnew := fun _ => 0
    evdwlOld := 0
    fpairOldEXP6_12 := u
    fpairOldEXP6_21 := u
    tally := [] }

/-! ## Specification-side quantities of the one-fluid approximation -/

/-- Total of the current composition entries of particle `id` over all species, as the
specification words it. -/
def specTotal {F : Type} [LinearOrderedField F] (cfg : Exp6Config F)
    (dvector : Nat → Nat → F) (id : Nat) : F :=
  ((List.range cfg.nspecies).map (fun s => dvector s id)).sum

/-- Total of the previous composition entries of particle `id` over all species. -/
def specTotalOld {F : Type} [LinearOrderedField F] (cfg : Exp6Config F)
    (dvector : Nat → Nat → F) (id : Nat) : F :=
  ((List.range cfg.nspecies).map (fun s => dvector (s + cfg.nspecies) id)).sum

/-- A species is eligible for the one-fluid average when it has an exp6 record and is not
pinned to either site. -/
def ofaEligible {F : Type} (cfg : Exp6Config F) (s : Nat) : Bool :=
  !skipSpecies cfg s && !pinnedSpecies cfg s

/-- The eligible species in increasing order. -/
def ofaSpecies {F : Type} (cfg : Exp6Config F) : List Nat :=
  (List.range cfg.nspecies).filter (ofaEligible cfg)

/-- The eligible population of the current snapshot. -/
def specPopulation {F : Type} [LinearOrderedField F] (cfg : Exp6Config F)
    (dvector : Nat → Nat → F) (id : Nat) : F :=
  ((ofaSpecies cfg).map (fun s => dvector s id)).sum

/-- The eligible population of the previous snapshot. -/
def specPopulationOld {F : Type} [LinearOrderedField F] (cfg : Exp6Config F)
    (dvector : Nat → Nat → F) (id : Nat) : F :=
  ((ofaSpecies cfg).map (fun s => dvector (s + cfg.nspecies) id)).sum

/-- Weight of the `rm3` moment: none. -/
def weightRm3 {F : Type} [LinearOrderedField F] (_pi _pj : Param F) : F := 1

/-- Weight of the `epsilon` moment: `epsilon_ij = sqrt(epsilon_i * epsilon_j)`. -/
def weightEpsilon {F : Type} [LinearOrderedField F] (m : MathLib F) (pi pj : Param F) : F :=
  m.sqrt (pi.epsilon * pj.epsilon)

/-- Weight of the `alpha` moment: `epsilon_ij * alpha_ij`. -/
def weightAlpha {F : Type} [LinearOrderedField F] (m : MathLib F) (pi pj : Param F) : F :=
  m.sqrt (pi.epsilon * pj.epsilon) * m.sqrt (pi.alpha * pj.alpha)

/-- The composition-weighted moment of the specification,
`sum over eligible (i,j) of x_i * x_j * rm_ij^3 * w_ij` with `rm_ij = (rm_i + rm_j)/2`. -/
def specMoment {F : Type} [LinearOrderedField F] (cfg : Exp6Config F) (x : Nat → F)
    (w : Param F → Param F → F) : F :=
  ((ofaSpecies cfg).map (fun i =>
    ((ofaSpecies cfg).map (fun j =>
      x i * x j
        * (((cfg.params (cfg.mol2param i).toNat).rm
            + (cfg.params (cfg.mol2param j).toNat).rm) / 2) ^ 3
        * w (cfg.params (cfg.mol2param i).toNat) (cfg.params (cfg.mol2param j).toNat))).sum)).sum

/-- Mole fraction of species `s` within the eligible subset, current snapshot. -/
def specMoleFraction {F : Type} [LinearOrderedField F] (cfg : Exp6Config F)
    (dvector : Nat → Nat → F) (id : Nat) (s : Nat) : F :=
  dvector s id / specPopulation cfg dvector id

/-- Mole fraction of species `s` within the eligible subset, previous snapshot. -/
def specMoleFractionOld {F : Type} [LinearOrderedField F] (cfg : Exp6Config F)
    (dvector : Nat → Nat → F) (id : Nat) (s : Nat) : F :=
  dvector (s + cfg.nspecies) id / specPopulationOld cfg dvector id

/-- The term added to a moment accumulator by one pass of the inner loop body, as the code
computes it: `xMolei*xMolej*rm3ij*w` with `rmij = (rmi+rmj)/2.0` and
`rm3ij = rmij*rmij*rmij`. -/
def codeTerm {F : Type} [LinearOrderedField F] (dv : F → F → F) (cfg : Exp6Config F)
    (x : Nat → F) (w : Param F → Param F → F) (i j : Nat) : F :=
  x i * x j
    * (dv ((cfg.params (cfg.mol2param i).toNat).rm + (cfg.params (cfg.mol2param j).toNat).rm) 2
      * dv ((cfg.params (cfg.mol2param i).toNat).rm + (cfg.params (cfg.mol2param j).toNat).rm) 2
      * dv ((cfg.params (cfg.mol2param i).toNat).rm + (cfg.params (cfg.mol2param j).toNat).rm) 2)
    * w (cfg.params (cfg.mol2param i).toNat) (cfg.params (cfg.mol2param j).toNat)

/-- The double sum accumulated by the two species loops for one moment. -/
def codeMoment {F : Type} [LinearOrderedField F] (dv : F → F → F) (cfg : Exp6Config F)
    (x : Nat → F) (w : Param F → Param F → F) : F :=
  ((ofaSpecies cfg).map (fun i =>
    ((ofaSpecies cfg).map (fun j => codeTerm dv cfg x w i j)).sum)).sum

/-- Site-1 outputs of a particle equal the record `p` with the given fractions. -/
def Site1Is {F : Type} (p : Param F) (fr frOld : F) (o : ParamData F) : Prop :=
  o.epsilon1 = p.epsilon ∧ o.alpha1 = p.alpha ∧ o.rm1 = p.rm ∧ o.fraction1 = fr ∧
  o.epsilonOld1 = p.epsilon ∧ o.alphaOld1 = p.alpha ∧ o.rmOld1 = p.rm ∧ o.fractionOld1 = frOld

/-- Site-2 outputs of a particle equal the record `p` with the given fractions. -/
def Site2Is {F : Type} (p : Param F) (fr frOld : F) (o : ParamData F) : Prop :=
  o.epsilon2 = p.epsilon ∧ o.alpha2 = p.alpha ∧ o.rm2 = p.rm ∧ o.fraction2 = fr ∧
  o.epsilonOld2 = p.epsilon ∧ o.alphaOld2 = p.alpha ∧ o.rmOld2 = p.rm ∧ o.fractionOld2 = frOld

/-- The resolved triple `(rm, epsilon, alpha)` of a one-fluid site in terms of the three
moments: the quotients of the specification when `cbrt(rm3)` is at least `1e-16`, and zero
below that threshold. -/
def OfaTriple {F : Type} [LinearOrderedField F] (m : MathLib F) (rm3 E A rm epsilon alpha : F) :
    Prop :=
  (¬ m.cbrt rm3 < 1e-16 →
    rm = m.cbrt rm3 ∧ epsilon = E / rm3 ∧ alpha = A / (epsilon * rm3)) ∧
  (m.cbrt rm3 < 1e-16 → rm = 0 ∧ epsilon = 0 ∧ alpha = 0)

/-! ## The real-number interpretation of the libm functions -/

/-- The record `m` is the real-number libm: real square root, exponential, cube root
(odd extension of the positive root) and power. -/
structure IsRealLib (m : MathLib ℝ) : Prop where
  sqrt_eq : m.sqrt = Real.sqrt
  exp_eq : m.exp = Real.exp
  cbrt_eq : ∀ x, m.cbrt x = if x < 0 then -(-x) ^ (3:ℝ)⁻¹ else x ^ (3:ℝ)⁻¹
  pow_eq : ∀ x y, m.pow x y = x ^ y

/-- A value of alpha whose square root is `3.7682065 / 1.4308614`, so that over the reals
`func_rin` is exactly 1 and the inner radius is `1.05 * rm`. -/
def alphaRinOne : ℚ := (37682065 / 14308614) ^ 2

/-! ## Statement helpers for the scaling, mixing and ledger claims -/

/-- The Fuchslin factor `s(N, e)` as the specification words it: `N^e` for a non-negative
exponent; for a negative exponent `0` when `N^(-e)` is below `1e-15` and `1 / N^(-e)`
otherwise. -/
def fuchslinScale {F : Type} [LinearOrderedField F] (m : MathLib F) (N e : F) : F :=
  if 0 ≤ e then m.pow N e
  else if m.pow N (-e) < 1e-15 then 0 else 1 / m.pow N (-e)

/-- The triple `(rm, epsilon, alpha)` that the one-fluid blocks of `getParamsEXP6` hold for
the current snapshot before the Fuchslin scaling (values at lines 998-1006). -/
def unscaledTriple {F : Type} [LinearOrderedField F] (m : MathLib F) (dv : F → F → F)
    (cfg : Exp6Config F) (dvector : Nat → Nat → F) (id : Nat) (init : ParamData F) :
    F × F × F :=
  let tot := getTotals cfg dvector id
  let s := (resolveLoop m dv cfg dvector id tot (dv tot.nTotalOFA tot.nTotal)
    (dv tot.nTotalOFA_old tot.nTotal_old) init).sums
  ofaResolve m dv s.rm3 s.epsilon s.alpha

/-- The triple `(rm, epsilon, alpha)` that the one-fluid blocks of `getParamsEXP6` hold for
the previous snapshot before the Fuchslin scaling (values at lines 1010-1018). -/
def unscaledTripleOld {F : Type} [LinearOrderedField F] (m : MathLib F) (dv : F → F → F)
    (cfg : Exp6Config F) (dvector : Nat → Nat → F) (id : Nat) (init : ParamData F) :
    F × F × F :=
  let tot := getTotals cfg dvector id
  let s := (resolveLoop m dv cfg dvector id tot (dv tot.nTotalOFA tot.nTotal)
    (dv tot.nTotalOFA_old tot.nTotal_old) init).sums
  ofaResolve m dv s.rm3_old s.epsilon_old s.alpha_old

/-- The configuration with the two Fuchslin exponents replaced. -/
def withExponents {F : Type} (cfg : Exp6Config F) (fuchslinR fuchslinEpsilon : F) :
    Exp6Config F :=
  { cfg with fuchslinR := fuchslinR, fuchslinEpsilon := fuchslinEpsilon }

/-- The site-1 entries (both snapshots) of two parameter entries coincide. -/
def SameSite1 {F : Type} (p q : ParamData F) : Prop :=
  p.epsilon1 = q.epsilon1 ∧ p.alpha1 = q.alpha1 ∧ p.rm1 = q.rm1 ∧ p.fraction1 = q.fraction1 ∧
  p.epsilonOld1 = q.epsilonOld1 ∧ p.alphaOld1 = q.alphaOld1 ∧ p.rmOld1 = q.rmOld1 ∧
  p.fractionOld1 = q.fractionOld1

/-- The site-2 entries (both snapshots) of two parameter entries coincide. -/
def SameSite2 {F : Type} (p q : ParamData F) : Prop :=
  p.epsilon2 = q.epsilon2 ∧ p.alpha2 = q.alpha2 ∧ p.rm2 = q.rm2 ∧ p.fraction2 = q.fraction2 ∧
  p.epsilonOld2 = q.epsilonOld2 ∧ p.alphaOld2 = q.alphaOld2 ∧ p.rmOld2 = q.rmOld2 ∧
  p.fractionOld2 = q.fractionOld2

/-- The site-1 and site-2 tuples `(epsilon, alpha, rm, fraction)` of a particle are identical
in both snapshots. -/
def SitesAgree {F : Type} (p : ParamData F) : Prop :=
  p.epsilon1 = p.epsilon2 ∧ p.alpha1 = p.alpha2 ∧ p.rm1 = p.rm2 ∧ p.fraction1 = p.fraction2 ∧
  p.epsilonOld1 = p.epsilonOld2 ∧ p.alphaOld1 = p.alphaOld2 ∧ p.rmOld1 = p.rmOld2 ∧
  p.fractionOld1 = p.fractionOld2

/-- The directed 12 and 21 mixes `(rm, epsilon, alpha)` of a pair are equal in both
snapshots. -/
def MixesAgree {F : Type} (mx : PairMix F) : Prop :=
  mx.rm12_ij = mx.rm21_ij ∧ mx.epsilon12_ij = mx.epsilon21_ij ∧ mx.alpha12_ij = mx.alpha21_ij ∧
  mx.rmOld12_ij = mx.rmOld21_ij ∧ mx.epsilonOld12_ij = mx.epsilonOld21_ij ∧
  mx.alphaOld12_ij = mx.alphaOld21_ij

/-- The two sites are configured alike in one of the two ways of the claim: both are the
one-fluid site, or both are pinned to one species `s` that has an exp6 record. -/
def EqualSites {F : Type} (cfg : Exp6Config F) : Prop :=
  cfg.isite1 = cfg.isite2 ∧
  (isOneFluidApprox cfg.isite1 = true ∨
    ∃ s, s < cfg.nspecies ∧ cfg.isite1 = (s : Int) ∧ 0 ≤ cfg.mol2param s ∧
      (cfg.params (cfg.mol2param s).toNat).potentialType = exp6PotentialType)

/-- The ledger update of lines 377-379 (and 469-471): `a[i] += 0.5*e`, and `a[j] += 0.5*e`
when `newton_pair || j < nlocal`. -/
def creditHalves {F : Type} [LinearOrderedField F] (env : PairEnv F) (a : Nat → F)
    (i j : Nat) (e : F) : Nat → F :=
  if env.newton_pair ∨ j < env.nlocal then addAt (addAt a i (0.5 * e)) j (0.5 * e)
  else addAt a i (0.5 * e)

/-- Entries with epsilon 1, alpha 12 and fraction 1 on both sites and in both snapshots, with
`rm` equal to `rmSite1` on site 1 and to `rmSite2` on site 2. -/
def skewA {F : Type} [LinearOrderedField F] (rmSite1 rmSite2 : F) : ParamData F :=
  { epsilon1 := 1, alpha1 := 12, rm1 := rmSite1, fraction1 := 1,
    epsilon2 := 1, alpha2 := 12, rm2 := rmSite2, fraction2 := 1,
    epsilonOld1 := 1, alphaOld1 := 12, rmOld1 := rmSite1, fractionOld1 := 1,
    epsilonOld2 := 1, alphaOld2 := 12, rmOld2 := rmSite2, fractionOld2 := 1 }

/-- The line of atoms of `lineEnv 4` with the special factors of the default
`special_bonds lj 0.0 0.0 0.0`: code 0 (no special relation) scales by 1, the codes 1, 2, 3
scale by 0. -/
def bondedEnv {F : Type} [LinearOrderedField F] : PairEnv F :=
  { lineEnv 4 with special_lj := fun c => if c = 0 then 1 else 0 }

/-- One species (rows 0: current, 1: previous). Every particle holds one molecule now;
particles 0 and 1 held one molecule before, the others `1e-4` molecules. -/
def dvDilute {F : Type} [LinearOrderedField F] : Nat → Nat → F :=
  fun row id =>
    if row = 0 then 1
    else if row = 1 then (if id < 2 then 1 else 1e-4)
    else 0

/-- As `pureA`, with the previous-snapshot `rm` of both sites scaled to zero. -/
def diluteA {F : Type} [LinearOrderedField F] : ParamData F :=
  { (likeA 1 1 : ParamData F) with rmOld1 := 0, rmOld2 := 0 }

/-! ## read_file and setup -/

/-- One record of `params` as `read_file` stores it (struct `Param` of pair_exp6_rx.h before
`coeff` sets `potentialType`). C strings are lists of characters; `V` is the type of the
values that `atof` returns. -/
structure ParamRecord (V : Type) where
  ispecies : Nat
  name : List Char
  potential : List Char
  alpha : V
  epsilon : V
  rm : V

/-- The two comparisons of a `double` with `0.0` that `read_file` makes (lines 769-770):
`leZero v` is the C expression `v <= 0.0` and `ltZero v` is `v < 0.0`. -/
class DoubleTests (V : Type) where
  leZero : V → Bool
  ltZero : V → Bool

/-- The comparisons on numbers. -/
instance numberTests {F : Type} [LinearOrderedField F] : DoubleTests F :=
  { leZero := fun v => decide (v ≤ 0), ltZero := fun v => decide (v < 0) }

/-- The comparisons on the values of `atof`, which are numbers (`some v`) or NaN (`none`, what
`atof` returns for the tokens `nan` and `NAN`): every comparison with a NaN is false.
Infinities are not modelled. -/
instance doubleTests {F : Type} [LinearOrderedField F] : DoubleTests (Option F) :=
  { leZero := fun v => match v with
      | some x => decide (x ≤ 0)
      | none => false
    ltZero := fun v => match v with
      | some x => decide (x < 0)
      | none => false }

/-- Local `int params_per_line = 5;` of `read_file`. -/
def params_per_line : Nat := 5

/-- The statement `if ((ptr = strchr(line,'#'))) *ptr = '\0';`: the text is cut at its first
`#`. -/
def stripComment (line : List Char) : List Char :=
  line.takeWhile (fun c => c != '#')

/-- The separator set `" \t\n\r\f"` passed to `strtok`. -/
def isSeparator (c : Char) : Bool :=
  c == ' ' || c == '\t' || c == '\n' || c == '\r' || c == '\x0c'

/-- The successive results of `strtok(line," \t\n\r\f")`, `strtok(NULL," \t\n\r\f")`, ...:
the maximal runs of characters outside the separator set. `cur` holds the run being read,
last character first. -/
def strtokAux : List Char → List Char → List (List Char)
  | [], cur => if cur.isEmpty then [] else [cur.reverse]
  | c :: cs, cur =>
    if isSeparator c then
      (if cur.isEmpty then strtokAux cs [] else cur.reverse :: strtokAux cs [])
    else strtokAux cs (c :: cur)

/-- The array `words` filled at lines 740-742. -/
def strtokWords (line : List Char) : List (List Char) := strtokAux line []

/-- Modelled from the spec: `Atom::count_words` (atom.cpp is not among the sources), the
number of whitespace-separated tokens of the text. -/
def count_words (line : List Char) : Nat := (strtokWords line).length

/-- The loop `for (ispecies = 0; ispecies < nspecies; ispecies++) if (strcmp(w,dname[ispecies])
== 0) break;` (lines 744-745): the index of the first declared name equal to `w`, and the
number of declared names when there is none. -/
def findSpecies (w : List Char) : List (List Char) → Nat
  | [] => 0
  | d :: ds => if w = d then 0 else findSpecies w ds + 1

/-- Lines 735-775, executed once the text of a logical record is complete: the token count
is checked, the species name is looked up among the declared names `dname`, and the record is
validated and stored. The result is the new contents of `params`. The values of `atof` are
compared through `DoubleTests`, so that a NaN passes the test of lines 769-770 as it does in
C. -/
def storeRecord {V : Type} [DoubleTests V] (atof : List Char → V)
    (dname : List (List Char)) (params : List (ParamRecord V)) (line : List Char) :
    Except String (List (ParamRecord V)) :=
  if count_words line ≠ params_per_line then
    .error "Incorrect format in exp6/rx potential file"
  else
    let words := strtokWords line
    let ispecies := findSpecies (words.getD 0 []) dname
    if ispecies = dname.length then .ok params
    else
      let potential := words.getD 1 []
      if potential = "exp6".toList then
        let alpha := atof (words.getD 2 [])
        let epsilon := atof (words.getD 3 [])
        let rm := atof (words.getD 4 [])
        if DoubleTests.leZero epsilon || DoubleTests.leZero rm || DoubleTests.ltZero alpha then
          .error "Illegal exp6/rx parameters.  Rm and Epsilon must be greater than zero.  Alpha cannot be negative."
        else
          .ok (params ++ [{ ispecies := ispecies, name := dname.getD ispecies [],
                            potential := potential, alpha := alpha, epsilon := epsilon,
                            rm := rm }])
      else
        .error "Illegal exp6/rx parameters.  Interaction potential does not exist."

/-- State of `read_file` between two calls of `fgets`: `pending` is the text accumulated so
far when control is inside the loop `while (nwords < params_per_line)` of lines 718-733, and
`none` at the head of the outer `while (1)`; `params` holds the records stored so far. -/
structure ReadState (V : Type) where
  pending : Option (List Char)
  params : List (ParamRecord V)

/-- What follows a call of `fgets`, once the text `line` has been stripped of its comment:
with fewer than `params_per_line` words one more line is needed (the inner loop goes on),
otherwise the record is complete and lines 735-775 run. -/
def afterRead {V : Type} [DoubleTests V] (atof : List Char → V)
    (dname : List (List Char)) (params : List (ParamRecord V)) (line : List Char) :
    Except String (ReadState V) :=
  if count_words line < params_per_line then .ok { pending := some line, params := params }
  else (storeRecord atof dname params line).map (fun ps => { pending := none, params := ps })

/-- One call of `fgets` returning the physical line `l`, with what follows it. At the head of
the outer loop (lines 699-714) the line replaces the buffer and a line without words is
skipped; inside the inner loop (lines 719-732) the line is appended to the buffer. -/
def readLine {V : Type} [DoubleTests V] (atof : List Char → V)
    (dname : List (List Char)) (st : ReadState V) (l : List Char) :
    Except String (ReadState V) :=
  match st.pending with
  | none =>
    let line := stripComment l
    if count_words line = 0 then .ok st else afterRead atof dname st.params line
  | some acc => afterRead atof dname st.params (stripComment (acc ++ l))

/-- What `fgets` returning `NULL` leads to: at the head of the outer loop the file is done;
inside the inner loop the loop is left with fewer than `params_per_line` words and line 736
raises the format error. -/
def readEof {V : Type} (st : ReadState V) : Except String (List (ParamRecord V)) :=
  match st.pending with
  | none => .ok st.params
  | some _ => .error "Incorrect format in exp6/rx potential file"

/-- Function `PairExp6rx::read_file` from the state `st` on: `lines` are the strings that
the successive calls of `fgets` return before the end of the file. -/
def readFrom {V : Type} [DoubleTests V] (atof : List Char → V)
    (dname : List (List Char)) (st : ReadState V) (lines : List (List Char)) :
    Except String (List (ParamRecord V)) :=
  (lines.foldlM (readLine atof dname) st).bind readEof

/-- Function `PairExp6rx::read_file` on an opened file. `atof` is the libc conversion,
`dname` the declared species names (`atom->dname`, `nspecies` entries), `lines` the physical
lines of the file; the bound `MAXLINE` of the line buffer is not modelled. With `V = Option F`
the values of `atof` are numbers or NaN; with `V = F` the file holds no token that `atof`
turns into a NaN. -/
def read_file {V : Type} [DoubleTests V] (atof : List Char → V)
    (dname : List (List Char)) (lines : List (List Char)) :
    Except String (List (ParamRecord V)) :=
  readFrom atof dname { pending := none, params := [] } lines

/-- Values of `atof` on the number tokens of the sample files. -/
def atofSample : List Char → ℚ := fun s =>
  if s = "12".toList then 12
  else if s = "-1.0".toList then -1
  else if s = "1.0".toList then 1
  else if s = "2.0".toList then 2
  else if s = "14".toList then 14
  else if s = "4.0".toList then 4
  else 0

/-- The text of a logical record as the specification words it: each physical line is
stripped at its first `#` and the stripped lines are appended. -/
def joinStripped (ls : List (List Char)) : List Char :=
  (ls.map stripComment).flatten

/-- A sample potential file: a record of `A` spread over four physical lines, one of them a
comment tail and one blank, followed by a record of `B` on one line. -/
def sampleFile : List (List Char) :=
  ["A exp6\n".toList, "12 # alpha\n".toList, "\n".toList, "1.0 2.0\n".toList,
   "B exp6 14 2.0 4.0\n".toList]

/-- The body of the loop over `j` of `setup` (lines 796-799) for the species `i`: `n` is the
record index found so far, or -1. -/
def setupStep {F : Type} (params : Nat → Param F) (i : Nat) (n : Int) (j : Nat) :
    Except String Int :=
  if (i : Int) = (params j).ispecies then
    (if 0 ≤ n then .error "Potential file has duplicate entry" else .ok (j : Int))
  else .ok n

/-- The loop `for (j = 0; j < nparams; j++)` of `setup` for the species `i`, from `n = -1`:
the value stored to `mol2param[i]`. -/
def setupSpecies {F : Type} (nparams : Nat) (params : Nat → Param F) (i : Nat) :
    Except String Int :=
  (List.range nparams).foldlM (setupStep params i) (-1)

/-- Function `PairExp6rx::setup`: the array `mol2param` (one entry per species), or the
fatal error of line 797. -/
def setup {F : Type} (nspecies nparams : Nat) (params : Nat → Param F) :
    Except String (List Int) :=
  (List.range nspecies).foldlM
    (fun mol i => (setupSpecies nparams params i).map (fun n => mol ++ [n])) []

/-- Two records of the table `params[0..nparams)` have the same species index. -/
def HasDuplicate {F : Type} (nparams : Nat) (params : Nat → Param F) : Prop :=
  ∃ j1 j2, j1 < j2 ∧ j2 < nparams ∧ (params j1).ispecies = (params j2).ispecies

/-- A table of two records, of the species 1 and 0. -/
def twoRecords : Nat → Param ℚ := fun j =>
  if j = 0 then ⟨1, 2, 12, 1, 1⟩ else ⟨2, 4, 14, 0, 1⟩

/-! ## Per-type arrays, settings, coeff and the restart file -/

/-- The per-type arrays of the pair style with the flag `allocated`. Arrays are total
functions of the two type indices. -/
structure PairArrays (F : Type) where
  allocated : Bool
  setflag : Nat → Nat → Int
  cutsq : Nat → Nat → F
  cut : Nat → Nat → F

/-- Members of the pair style written by `settings`, `coeff` and `read_restart`: the
per-type arrays, the global settings, and the site and species tables read by
`getParamsEXP6` (`cfg`, with `nparams` records). -/
structure PairStyle (F : Type) where
  arrays : PairArrays F
  cut_global : F
  offset_flag : Int
  mix_flag : Int
  tail_flag : Int
  nparams : Nat
  cfg : Exp6Config F

/-- Function `PairExp6rx::allocate` for `n = atom->ntypes`: three new arrays, of which only
`setflag[i][j]` with `1 <= i <= j <= n` is initialised. `fresh` holds the contents of the
memory that `memory->create` returns. -/
def allocate {F : Type} (n : Nat) (fresh : PairArrays F) : PairArrays F :=
  { allocated := true
    setflag := fun i j => if 1 ≤ i ∧ i ≤ j ∧ j ≤ n then 0 else fresh.setflag i j
    cutsq := fresh.cutsq
    cut := fresh.cut }

/-- Function `PairExp6rx::settings` with `n = atom->ntypes`; `cut_global` is the value of
`force->numeric(FLERR,arg[0])`. The loops of lines 535-537 run `j` from `i+1`. -/
def settings {F : Type} (n narg : Nat) (cut_global : F) (st : PairStyle F) :
    Except String (PairStyle F) :=
  if narg ≠ 1 then .error "Illegal pair_style command"
  else
    let cut : Nat → Nat → F :=
      if st.arrays.allocated then
        fun i j =>
          if 1 ≤ i ∧ i + 1 ≤ j ∧ j ≤ n ∧ st.arrays.setflag i j ≠ 0 then cut_global
          else st.arrays.cut i j
      else st.arrays.cut
    .ok { st with cut_global := cut_global
                  arrays := { st.arrays with cut := cut, allocated := false } }

/-- What `coeff` reads outside the pair style: the styles of the defined fixes
(`modify->fix[i]->style`), `atom->ntypes`, the declared species names (`atom->dname`, with
`atom->nspecies_dpd` entries), the libc `atof`, and the contents of the memory that
`allocate` obtains. The potential file is taken to hold no token that `atof` turns into a NaN,
so that `atof` gives a number for every token. -/
structure CoeffEnv (F : Type) where
  fixStyles : List (List Char)
  ntypes : Nat
  dname : List (List Char)
  atof : List Char → F
  fresh : PairArrays F

/-- The arguments of `coeff` after the calls that are outside the sources: `ilo..jhi` are
the results of `force->bounds` on `arg[0]` and `arg[1]`, `lines` the physical lines of the
file `arg[2]`, `site1` and `site2` the strings `arg[3]` and `arg[4]`, `fuchslinR`,
`fuchslinEpsilon` and `cut_one` the results of `force->numeric` on `arg[5]`, `arg[6]` and
(when `narg == 8`) `arg[7]`. -/
structure CoeffArgs (F : Type) where
  narg : Nat
  ilo : Nat
  ihi : Nat
  jlo : Nat
  jhi : Nat
  lines : List (List Char)
  site1 : List Char
  site2 : List Char
  fuchslinR : F
  fuchslinEpsilon : F
  cut_one : F

/-- The loop of lines 553-554: some fix style starts with `rx` (`strncmp(style,"rx",2)`). -/
def rxFlag (fixStyles : List (List Char)) : Bool :=
  fixStyles.any (fun style => decide (style.take 2 = "rx".toList))

/-- The block of lines 592-604 (and 606-618) for one site string: the sentinel for the
literal `1fluid`, and otherwise the index of the first declared species of that name, with
the fatal error `msg` when there is none. -/
def siteIndex (site : List Char) (dname : List (List Char)) (msg : String) :
    Except String Int :=
  if site = "1fluid".toList then .ok oneFluidApproxParameter
  else
    let isp := findSpecies site dname
    if isp = dname.length then .error msg else .ok (isp : Int)

/-- The array `params` after the loop of lines 621-629 for the records read by `read_file`:
every record of kind `exp6` gets `potentialType = exp6PotentialType`; any other kind is the
fatal error of line 626. -/
def setPotentialTypes {F : Type} (records : List (ParamRecord F)) :
    Except String (List (Param F)) :=
  records.mapM (fun p =>
    if p.potential = "exp6".toList then
      .ok { epsilon := p.epsilon, rm := p.rm, alpha := p.alpha, ispecies := (p.ispecies : Int),
            potentialType := exp6PotentialType }
    else .error "params[].potential type unknown")

/-- The array `params` as a function of the index; entries beyond `nparams` are outside the
allocation and are never read. -/
def paramArray {F : Type} [LinearOrderedField F] (ps : List (Param F)) : Nat → Param F :=
  fun j => ps.getD j { epsilon := 0, rm := 0, alpha := 0, ispecies := 0, potentialType := 0 }

/-- The iteration space of the loops `for (i = ilo; i <= ihi; i++) for (j = MAX(jlo,i);
j <= jhi; j++)` of lines 644-645, in execution order. -/
def coeffPairs (ilo ihi jlo jhi : Nat) : List (Nat × Nat) :=
  (List.range' ilo (ihi + 1 - ilo)).flatMap
    (fun i => (List.range' (max jlo i) (jhi + 1 - max jlo i)).map (fun j => (i, j)))

/-- The body of the loops of lines 644-650 on the arrays: `cut[i][j] = cut_one;
setflag[i][j] = 1;`. -/
def setPair {F : Type} (cut_one : F) (a : PairArrays F) (p : Nat × Nat) : PairArrays F :=
  { a with cut := fun i j => if i = p.1 ∧ j = p.2 then cut_one else a.cut i j
           setflag := fun i j => if i = p.1 ∧ j = p.2 then 1 else a.setflag i j }

/-- Function `PairExp6rx::coeff`. A fatal error is returned with the per-type arrays as they
are when `error->all` is called. The failures of `force->bounds`, `force->numeric` and
`force->open_potential` are outside the sources and are not modelled. -/
def coeff {F : Type} [LinearOrderedField F] (env : CoeffEnv F) (a : CoeffArgs F)
    (st : PairStyle F) : Except (String × PairArrays F) (PairStyle F) :=
  if a.narg < 7 ∨ a.narg > 8 then .error ("Incorrect args for pair coefficients", st.arrays)
  else if rxFlag env.fixStyles = false then
    .error ("PairExp6rx requires a fix rx command.", st.arrays)
  else
    let arrays := if st.arrays.allocated then st.arrays else allocate env.ntypes env.fresh
    let nspecies := env.dname.length
    if nspecies = 0 then .error ("There are no rx species specified.", arrays)
    else
      match read_file env.atof env.dname a.lines with
      | .error e => .error (e, arrays)
      | .ok records =>
        if findSpecies a.site1 env.dname = nspecies ∧ a.site1 ≠ "1fluid".toList then
          .error ("Site1 name not recognized in pair coefficients", arrays)
        else if findSpecies a.site2 env.dname = nspecies ∧ a.site2 ≠ "1fluid".toList then
          .error ("Site2 name not recognized in pair coefficients", arrays)
        else
          match siteIndex a.site1 env.dname "Site1 name not recognized in pair coefficients"
          with
          | .error e => .error (e, arrays)
          | .ok isite1 =>
            match siteIndex a.site2 env.dname
              "Site2 name not recognized in pair coefficients" with
            | .error e => .error (e, arrays)
            | .ok isite2 =>
              match setPotentialTypes records with
              | .error e => .error (e, arrays)
              | .ok ps =>
                match setup nspecies ps.length (paramArray ps) with
                | .error e => .error (e, arrays)
                | .ok mol =>
                  let cut_one := if a.narg = 8 then a.cut_one else st.cut_global
                  let pairs := coeffPairs a.ilo a.ihi a.jlo a.jhi
                  let arrays1 := pairs.foldl (setPair cut_one) arrays
                  if pairs.length = 0 then
                    .error ("Incorrect args for pair coefficients", arrays1)
                  else
                    .ok { st with
                      arrays := arrays1
                      nparams := ps.length
                      cfg := { nspecies := nspecies
                               params := paramArray ps
                               mol2param := fun s => mol.getD s 0
                               isite1 := isite1
                               isite2 := isite2
                               fuchslinR := a.fuchslinR
                               fuchslinEpsilon := a.fuchslinEpsilon } }

/-- Function `PairExp6rx::init_one`. -/
def init_one {F : Type} (st : PairStyle F) (i j : Nat) : Except String F :=
  if st.arrays.setflag i j = 0 then .error "All pair coeffs are not set"
  else .ok (st.arrays.cut i j)

/-- One object of the restart file: what one call `fwrite(&v,sizeof(int),1,fp)` or
`fwrite(&v,sizeof(double),1,fp)` writes and the matching `fread` reads back. The encoding of
the object in bytes is left to the machine. -/
inductive RestartItem (F : Type) where
  | int (v : Int)
  | double (v : F)

/-- The call `fread(&v,sizeof(int),1,fp)` on a file whose next object was written as an
`int`; `none` when the file is at its end or holds a `double` there (the code does not test
the result of `fread`, and such files are not modelled). -/
def freadInt {F : Type} : List (RestartItem F) → Option (Int × List (RestartItem F))
  | .int v :: rest => some (v, rest)
  | _ => none

/-- The call `fread(&v,sizeof(double),1,fp)`, as `freadInt`. -/
def freadDouble {F : Type} : List (RestartItem F) → Option (F × List (RestartItem F))
  | .double v :: rest => some (v, rest)
  | _ => none

/-- The iteration space of the loops `for (i = 1; i <= atom->ntypes; i++) for (j = i;
j <= atom->ntypes; j++)` of `write_restart` and `read_restart`, in execution order. -/
def typePairs (n : Nat) : List (Nat × Nat) :=
  (List.range' 1 n).flatMap (fun i => (List.range' i (n + 1 - i)).map (fun j => (i, j)))

/-- Function `PairExp6rx::write_restart_settings`: what it appends to the file. -/
def write_restart_settings {F : Type} (st : PairStyle F) : List (RestartItem F) :=
  [.double st.cut_global, .int st.offset_flag, .int st.mix_flag, .int st.tail_flag]

/-- The body of the loops of `write_restart` (lines 816-819) for the pair `p`. -/
def writePair {F : Type} (st : PairStyle F) (file : List (RestartItem F)) (p : Nat × Nat) :
    List (RestartItem F) :=
  let file1 := file ++ [.int (st.arrays.setflag p.1 p.2)]
  if st.arrays.setflag p.1 p.2 ≠ 0 then file1 ++ [.double (st.arrays.cut p.1 p.2)] else file1

/-- Function `PairExp6rx::write_restart` for `n = atom->ntypes`: what it appends to the
file. -/
def write_restart {F : Type} (n : Nat) (st : PairStyle F) : List (RestartItem F) :=
  (typePairs n).foldl (writePair st) (write_restart_settings st)

/-- Function `PairExp6rx::read_restart_settings` on the rest `file` of the restart file, with
the values that the broadcasts leave on every process; the result holds the unread rest. -/
def read_restart_settings {F : Type} (st : PairStyle F) (file : List (RestartItem F)) :
    Option (PairStyle F × List (RestartItem F)) :=
  (freadDouble file).bind fun (cut_global, f1) =>
  (freadInt f1).bind fun (offset_flag, f2) =>
  (freadInt f2).bind fun (mix_flag, f3) =>
  (freadInt f3).bind fun (tail_flag, f4) =>
  some ({ st with cut_global := cut_global, offset_flag := offset_flag, mix_flag := mix_flag,
                  tail_flag := tail_flag }, f4)

/-- The body of the loops of `read_restart` (lines 837-844) for the pair `p`. -/
def readPair {F : Type} (s : PairArrays F × List (RestartItem F)) (p : Nat × Nat) :
    Option (PairArrays F × List (RestartItem F)) :=
  (freadInt s.2).bind fun (flag, f1) =>
  let a1 : PairArrays F :=
    { s.1 with setflag := fun i j => if i = p.1 ∧ j = p.2 then flag else s.1.setflag i j }
  if flag ≠ 0 then
    (freadDouble f1).bind fun (c, f2) =>
    some ({ a1 with cut := fun i j => if i = p.1 ∧ j = p.2 then c else a1.cut i j }, f2)
  else some (a1, f1)

/-- Function `PairExp6rx::read_restart` for `n = atom->ntypes` on the rest `file` of the
restart file; the result holds the unread rest. -/
def read_restart {F : Type} (n : Nat) (fresh : PairArrays F) (st : PairStyle F)
    (file : List (RestartItem F)) : Option (PairStyle F × List (RestartItem F)) :=
  (read_restart_settings st file).bind fun (st1, f1) =>
  ((typePairs n).foldlM readPair (allocate n fresh, f1)).map
    fun (a, f2) => ({ st1 with arrays := a }, f2)

/-- The environment of the `coeff` examples: a fix `rx`, one atom type, the declared species
`A` and `B`, and zeroed memory. -/
def demoCoeffEnv : CoeffEnv ℚ :=
  { fixStyles := ["rx".toList]
    ntypes := 1
    dname := ["A".toList, "B".toList]
    atof := atofSample
    fresh := { allocated := false, setflag := fun _ _ => 0, cutsq := fun _ _ => 0,
               cut := fun _ _ => 0 } }

/-- The arguments `1 1 file site1 site2 0 0` of the `coeff` examples, the file being the
sample potential file. -/
def demoCoeffArgs (site1 site2 : List Char) : CoeffArgs ℚ :=
  { narg := 7, ilo := 1, ihi := 1, jlo := 1, jhi := 1, lines := sampleFile
    site1 := site1, site2 := site2, fuchslinR := 0, fuchslinEpsilon := 0, cut_one := 0 }

/-- A pair style on which `settings` has been called with the cutoff 10 and `coeff` not
yet. -/
def demoStyle : PairStyle ℚ :=
  { arrays := { allocated := false, setflag := fun _ _ => 0, cutsq := fun _ _ => 0,
                cut := fun _ _ => 0 }
    cut_global := 10, offset_flag := 0, mix_flag := 0, tail_flag := 0, nparams := 0
    cfg := { nspecies := 0
             params := fun _ => { epsilon := 0, rm := 0, alpha := 0, ispecies := 0,
                                  potentialType := 0 }
             mol2param := fun _ => 0, isite1 := 0, isite2 := 0, fuchslinR := 0,
             fuchslinEpsilon := 0 } }

/-- What `write_restart` writes for the type pair `p`: the set-flag, followed by the cutoff
when the flag is set. -/
def pairItems {F : Type} (st : PairStyle F) (p : Nat × Nat) : List (RestartItem F) :=
  .int (st.arrays.setflag p.1 p.2) ::
    (if st.arrays.setflag p.1 p.2 ≠ 0 then [.double (st.arrays.cut p.1 p.2)] else [])

/-- The arrays `a` hold the set-flag of `st` at the pair `q`, and its cutoff when the flag is
set. -/
def AgreesAt {F : Type} (st : PairStyle F) (a : PairArrays F) (q : Nat × Nat) : Prop :=
  a.setflag q.1 q.2 = st.arrays.setflag q.1 q.2 ∧
    (st.arrays.setflag q.1 q.2 ≠ 0 → a.cut q.1 q.2 = st.arrays.cut q.1 q.2)

/-! ## Multiple-respa neighbour lists (`USER-OMP/neigh_respa_omp.cpp`)

Coordinates and squared cutoffs are elements of a linearly ordered ring `F`, so that the
examples can be evaluated over the integers; every linearly ordered field is one. -/

/-- Members of `Neighbor`, `Atom` and `Group` read by the respa builders. Arrays are total
functions of the index; the C flags `molecular` and `exclude` are `true` when nonzero.
`exclusion` (arguments `i, j, itype, jtype`; `mask` and `molecule` are the arrays of the
environment), `find_special` (arguments `i` for `special[i], nspecial[i]`, and the tag),
`coord2bin` (of `x[i]`) and the macro `SBBITS` are declared outside the sources and are taken
as they are. -/
structure NeighEnv (F : Type) where
  nlocal : Nat
  nfirst : Nat
  nghost : Nat
  includegroup : Nat
  bitmask : Nat → Nat
  x : Nat → Nat → F
  type : Nat → Nat
  mask : Nat → Nat
  tag : Nat → Int
  molecular : Bool
  exclude : Bool
  exclusion : Nat → Nat → Nat → Nat → Bool
  find_special : Nat → Int → Int
  cutneighsq : Nat → Nat → F
  cut_inner_sq : F
  cut_middle_sq : F
  cut_middle_inside_sq : F
  SBBITS : Nat
  binhead : Int → Int
  bins : Nat → Int
  coord2bin : Nat → Int
  pgsize : Nat
  oneatom : Nat

/-- Members of the `NeighList` argument read by the respa builders: `respamiddle` (`true`
when nonzero) and the array `stencil` with its `nstencil` entries. -/
structure NeighList where
  respamiddle : Bool
  stencil : List Int

/-- What the macros `NEIGH_OMP_INIT` and `NEIGH_OMP_SETUP` (declared outside the sources)
give a worker thread: its number, the number of threads, and its range `ifrom <= i < ito` of
owned particles. -/
structure OmpThread where
  tid : Nat
  nthreads : Nat
  ifrom : Nat
  ito : Nat

/-- The three sequences `neighptr[0..n)`, `neighptr_inner[0..n_inner)` and
`neighptr_middle[0..n_middle)` being written for one particle. -/
structure RespaLists where
  full : List Nat
  inner : List Nat
  middle : List Nat

/-- Local `nlocal = (includegroup) ? atom->nfirst : atom->nlocal`. -/
def nlocalOf {F : Type} (env : NeighEnv F) : Nat :=
  if env.includegroup ≠ 0 then env.nfirst else env.nlocal

/-- Local `bitmask = (includegroup) ? group->bitmask[includegroup] : 0`. -/
def bitmaskOf {F : Type} (env : NeighEnv F) : Nat :=
  if env.includegroup ≠ 0 then env.bitmask env.includegroup else 0

/-- Local `nall = atom->nlocal + atom->nghost`. -/
def nallOf {F : Type} (env : NeighEnv F) : Nat := env.nlocal + env.nghost

/-- The squared separation `rsq = delx*delx + dely*dely + delz*delz` of `i` and `j`. -/
def respaRsq {F : Type} [LinearOrderedRing F] (env : NeighEnv F) (i j : Nat) : F :=
  let delx := env.x i 0 - env.x j 0
  let dely := env.x i 1 - env.x j 1
  let delz := env.x i 2 - env.x j 2
  delx * delx + dely * dely + delz * delz

/-- The block `if (rsq <= cutneighsq[itype][jtype]) { ... }` shared by the five builders
(lines 148-165): the entry of `j` is appended to the full list, to the inner list when
`rsq < cut_inner_sq`, and to the middle list when `respamiddle && rsq < cut_middle_sq &&
rsq > cut_middle_inside_sq`. -/
def respaStore {F : Type} [LinearOrderedRing F] (env : NeighEnv F) (respamiddle : Bool)
    (i j : Nat) (s : RespaLists) : RespaLists :=
  let rsq := respaRsq env i j
  if rsq ≤ env.cutneighsq (env.type i) (env.type j) then
    let which : Int := if env.molecular then env.find_special i (env.tag j) else 0
    let packed : Nat := j ^^^ (which.toNat <<< env.SBBITS)
    let full :=
      if env.molecular then (if 0 ≤ which then s.full ++ [packed] else s.full)
      else s.full ++ [j]
    let inner :=
      if rsq < env.cut_inner_sq then
        (if which = 0 then s.inner ++ [j]
         else if 0 < which then s.inner ++ [packed] else s.inner)
      else s.inner
    let middle :=
      if respamiddle = true ∧ rsq < env.cut_middle_sq ∧ rsq > env.cut_middle_inside_sq then
        (if which = 0 then s.middle ++ [j]
         else if 0 < which then s.middle ++ [packed] else s.middle)
      else s.middle
    { full := full, inner := inner, middle := middle }
  else s

/-- The statements shared by the five builders from `jtype = type[j]` on (lines 140-165):
the test `if (exclude && exclusion(i,j,itype,jtype,mask,molecule)) continue;` and the
storing block. -/
def respaPair {F : Type} [LinearOrderedRing F] (env : NeighEnv F) (respamiddle : Bool)
    (i j : Nat) (s : RespaLists) : RespaLists :=
  if env.exclude = true ∧ env.exclusion i j (env.type i) (env.type j) = true then s
  else respaStore env respamiddle i j s

/-- The test `includegroup && !(mask[j] & bitmask)` of the brute-force builders. -/
def maskSkip {F : Type} (env : NeighEnv F) (j : Nat) : Bool :=
  decide (env.includegroup ≠ 0) && decide (env.mask j &&& bitmaskOf env = 0)

/-- The coordinate test of lines 323-327 (and 698-702): `j` is below `i` in `z`, or at the
same `z` below in `y`, or at the same `z` and `y` below in `x`. -/
def coordBelow {F : Type} [LinearOrderedRing F] (env : NeighEnv F) (i j : Nat) : Bool :=
  if env.x j 2 < env.x i 2 then true
  else if env.x j 2 = env.x i 2 then
    (if env.x j 1 < env.x i 1 then true
     else if env.x j 1 = env.x i 1 ∧ env.x j 0 < env.x i 0 then true
     else false)
  else false

/-- The value that the sum of two `int`s has in the 32-bit two's complement representation:
a sum outside `-2^31 .. 2^31 - 1` wraps round (what the addition of the hardware gives; the C
standard leaves the overflow of a signed sum undefined). -/
def wrapInt32 (x : Int) : Int := (x + 2 ^ 31) % 2 ^ 32 - 2 ^ 31

/-- The tests of lines 318-328 for a partner `j >= nlocal` with `itag = tag[i]` and
`jtag = tag[j]`: `true` when the pair is skipped (`continue`). The tags are `int`s and so is
their sum `itag+jtag`; the C operator `%` is the remainder of the division that truncates. -/
def tagSkip {F : Type} [LinearOrderedRing F] (env : NeighEnv F) (i j : Nat) : Bool :=
  let itag := env.tag i
  let jtag := env.tag j
  if itag > jtag then decide ((wrapInt32 (itag + jtag)).tmod 2 = 0)
  else if itag < jtag then decide ((wrapInt32 (itag + jtag)).tmod 2 = 1)
  else coordBelow env i j

/-- The test of lines 924-931 of the triclinic builder: `j` is below `i` in `(z, y, x)`, or
at the same coordinates with `j <= i`. -/
def triBelow {F : Type} [LinearOrderedRing F] (env : NeighEnv F) (i j : Nat) : Bool :=
  if env.x j 2 < env.x i 2 then true
  else if env.x j 2 = env.x i 2 then
    (if env.x j 1 < env.x i 1 then true
     else if env.x j 1 = env.x i 1 then
       (if env.x j 0 < env.x i 0 then true
        else if env.x j 0 = env.x i 0 ∧ j ≤ i then true
        else false)
     else false)
  else false

/-- Body of the loop over `j` of `respa_nsq_no_newton_omp` (lines 139-165). -/
def nsqNoNewtonStep {F : Type} [LinearOrderedRing F] (env : NeighEnv F) (respamiddle : Bool)
    (i : Nat) (s : RespaLists) (j : Nat) : RespaLists :=
  if maskSkip env j then s else respaPair env respamiddle i j s

/-- The loop `for (j = i+1; j < nall; j++)` of `respa_nsq_no_newton_omp` for the particle
`i`, from empty sequences. -/
def nsqNoNewtonAtom {F : Type} [LinearOrderedRing F] (env : NeighEnv F) (respamiddle : Bool)
    (i : Nat) : RespaLists :=
  (List.range' (i + 1) (nallOf env - (i + 1))).foldl (nsqNoNewtonStep env respamiddle i)
    { full := [], inner := [], middle := [] }

/-- Body of the loop over `j` of `respa_nsq_newton_omp` (lines 314-357). -/
def nsqNewtonStep {F : Type} [LinearOrderedRing F] (env : NeighEnv F) (respamiddle : Bool)
    (i : Nat) (s : RespaLists) (j : Nat) : RespaLists :=
  if maskSkip env j then s
  else if decide (nlocalOf env ≤ j) && tagSkip env i j then s
  else respaPair env respamiddle i j s

/-- The loop `for (j = i+1; j < nall; j++)` of `respa_nsq_newton_omp` for the particle `i`,
from empty sequences. -/
def nsqNewtonAtom {F : Type} [LinearOrderedRing F] (env : NeighEnv F) (respamiddle : Bool)
    (i : Nat) : RespaLists :=
  (List.range' (i + 1) (nallOf env - (i + 1))).foldl (nsqNewtonStep env respamiddle i)
    { full := [], inner := [], middle := [] }

/-- The loop `for (j = start; j >= 0; j = bins[j]) body` along a bin chain. `fuel` bounds
the number of steps; the result is `none` when the chain has not ended by then. -/
def chainLoop {S : Type} (bins : Nat → Int) (body : S → Nat → S) : Nat → Int → S → Option S
  | 0, j, s => if j < 0 then some s else none
  | fuel + 1, j, s =>
    if j < 0 then some s else chainLoop bins body fuel (bins j.toNat) (body s j.toNat)

/-- The loops `for (k = 0; k < nstencil; k++) for (j = binhead[ibin+stencil[k]]; j >= 0;
j = bins[j]) body`. -/
def stencilLoop {F S : Type} (env : NeighEnv F) (stencil : List Int) (body : S → Nat → S)
    (fuel : Nat) (ibin : Int) (s : S) : Option S :=
  stencil.foldlM (fun s k => chainLoop env.bins body fuel (env.binhead (ibin + k)) s) s

/-- Body of the loops over `j` of `respa_bin_no_newton_omp` (lines 514-543). -/
def binNoNewtonStep {F : Type} [LinearOrderedRing F] (env : NeighEnv F) (respamiddle : Bool)
    (i : Nat) (s : RespaLists) (j : Nat) : RespaLists :=
  if j ≤ i then s else respaPair env respamiddle i j s

/-- The stencil loops of `respa_bin_no_newton_omp` for the particle `i`, from empty
sequences. -/
def binNoNewtonAtom {F : Type} [LinearOrderedRing F] (fuel : Nat) (env : NeighEnv F)
    (list : NeighList) (i : Nat) : Option RespaLists :=
  stencilLoop env list.stencil (binNoNewtonStep env list.respamiddle i) fuel (env.coord2bin i)
    { full := [], inner := [], middle := [] }

/-- Body of the loop over the rest of the bin of `i` in `respa_bin_newton_omp`
(lines 697-731). -/
def binNewtonOwnStep {F : Type} [LinearOrderedRing F] (env : NeighEnv F)
    (respamiddle : Bool) (i : Nat) (s : RespaLists) (j : Nat) : RespaLists :=
  if decide (nlocalOf env ≤ j) && coordBelow env i j then s
  else respaPair env respamiddle i j s

/-- The two loops of `respa_bin_newton_omp` for the particle `i`, from empty sequences: the
rest of the chain of `i` from `bins[i]`, then the bins of the stencil. -/
def binNewtonAtom {F : Type} [LinearOrderedRing F] (fuel : Nat) (env : NeighEnv F)
    (list : NeighList) (i : Nat) : Option RespaLists :=
  (chainLoop env.bins (binNewtonOwnStep env list.respamiddle i) fuel (env.bins i)
    { full := [], inner := [], middle := [] }).bind
    (fun s => stencilLoop env list.stencil (fun s j => respaPair env list.respamiddle i j s)
      fuel (env.coord2bin i) s)

/-- Body of the loops over `j` of `respa_bin_newton_tri_omp` (lines 924-960). -/
def binNewtonTriStep {F : Type} [LinearOrderedRing F] (env : NeighEnv F)
    (respamiddle : Bool) (i : Nat) (s : RespaLists) (j : Nat) : RespaLists :=
  if triBelow env i j then s else respaPair env respamiddle i j s

/-- The stencil loops of `respa_bin_newton_tri_omp` for the particle `i`, from empty
sequences. -/
def binNewtonTriAtom {F : Type} [LinearOrderedRing F] (fuel : Nat) (env : NeighEnv F)
    (list : NeighList) (i : Nat) : Option RespaLists :=
  stencilLoop env list.stencil (binNewtonTriStep env list.respamiddle i) fuel
    (env.coord2bin i) { full := [], inner := [], middle := [] }

/-- The variables `npage`, `npnt` of a thread for one of the three lists. -/
structure PageCursor where
  npage : Nat
  npnt : Nat

/-- The statement `if (pgsize - npnt < oneatom) { npnt = 0; npage += nthreads; ... }` that
precedes the scan of every particle (the call of `add_pages` allocates the page and is not
modelled). -/
def claimRoom {F : Type} (env : NeighEnv F) (nthreads : Nat) (c : PageCursor) : PageCursor :=
  if (env.pgsize : Int) - (c.npnt : Int) < (env.oneatom : Int) then
    { npage := c.npage + nthreads, npnt := 0 }
  else c

/-- What a list holds for one particle `i` once `ilist[i] = i`, `firstneigh[i]` and
`numneigh[i]` are set: the page and the offset at which the sequence starts, and the
sequence `firstneigh[i][0..numneigh[i])`. -/
structure AtomList where
  page : Nat
  offset : Nat
  neigh : List Nat

/-- The state of a worker thread: its three page cursors and what it has stored in the three
lists. -/
structure RespaBuild where
  cur : PageCursor
  cur_inner : PageCursor
  cur_middle : PageCursor
  full : Nat → Option AtomList
  inner : Nat → Option AtomList
  middle : Nat → Option AtomList

/-- The state of the thread `t` before its loop: `npage = tid`, `npnt = 0` for the three
lists. -/
def respaStart (t : OmpThread) : RespaBuild :=
  { cur := { npage := t.tid, npnt := 0 }
    cur_inner := { npage := t.tid, npnt := 0 }
    cur_middle := { npage := t.tid, npnt := 0 }
    full := fun _ => none
    inner := fun _ => none
    middle := fun _ => none }

/-- The body of the loop over `i` shared by the five builders, around the scan of the
partners, whose result is `l`: the three page claims before the scan, and after it the
stores to `ilist`, `firstneigh`, `numneigh`, the advance of `npnt` and the overflow tests
(lines 99-129 and 168-189). -/
def respaAtom {F : Type} (env : NeighEnv F) (respamiddle : Bool) (nthreads : Nat)
    (b : RespaBuild) (i : Nat) (l : RespaLists) : Except String RespaBuild :=
  let cur := claimRoom env nthreads b.cur
  let cur_inner := claimRoom env nthreads b.cur_inner
  let cur_middle := if respamiddle then claimRoom env nthreads b.cur_middle else b.cur_middle
  let full : Nat → Option AtomList := fun k =>
    if k = i then some { page := cur.npage, offset := cur.npnt, neigh := l.full }
    else b.full k
  let cur1 : PageCursor := { cur with npnt := cur.npnt + l.full.length }
  if l.full.length > env.oneatom then
    .error "Neighbor list overflow, boost neigh_modify one"
  else
    let inner : Nat → Option AtomList := fun k =>
      if k = i then
        some { page := cur_inner.npage, offset := cur_inner.npnt, neigh := l.inner }
      else b.inner k
    let cur_inner1 : PageCursor :=
      { cur_inner with npnt := cur_inner.npnt + l.inner.length }
    if cur_inner1.npnt ≥ env.pgsize then
      .error "Neighbor list overflow, boost neigh_modify one or page"
    else if respamiddle then
      let middle : Nat → Option AtomList := fun k =>
        if k = i then
          some { page := cur_middle.npage, offset := cur_middle.npnt, neigh := l.middle }
        else b.middle k
      let cur_middle1 : PageCursor :=
        { cur_middle with npnt := cur_middle.npnt + l.middle.length }
      if cur_middle1.npnt ≥ env.pgsize then
        .error "Neighbor list overflow, boost neigh_modify one or page"
      else
        .ok { cur := cur1, cur_inner := cur_inner1, cur_middle := cur_middle1
              full := full, inner := inner, middle := middle }
    else
      .ok { cur := cur1, cur_inner := cur_inner1, cur_middle := cur_middle
            full := full, inner := inner, middle := b.middle }

/-- The loop `for (i = ifrom; i < ito; i++)` shared by the five builders, over the particles
`is` with the scan `scan`. The result is `none` when a scan has not ended (a bin chain
longer than the fuel), and the fatal error of `error->one` when a list overflows. -/
def respaLoop {F : Type} (env : NeighEnv F) (respamiddle : Bool) (nthreads : Nat)
    (scan : Nat → Option RespaLists) : List Nat → RespaBuild → Option (Except String RespaBuild)
  | [], b => some (.ok b)
  | i :: is, b =>
    match scan i with
    | none => none
    | some l =>
      match respaAtom env respamiddle nthreads b i l with
      | .error e => some (.error e)
      | .ok b1 => respaLoop env respamiddle nthreads scan is b1

/-- Function `Neighbor::respa_nsq_no_newton_omp` as run by the worker thread `t`. -/
def respa_nsq_no_newton_omp {F : Type} [LinearOrderedRing F] (env : NeighEnv F)
    (list : NeighList) (t : OmpThread) : Option (Except String RespaBuild) :=
  respaLoop env list.respamiddle t.nthreads
    (fun i => some (nsqNoNewtonAtom env list.respamiddle i))
    (List.range' t.ifrom (t.ito - t.ifrom)) (respaStart t)

/-- Function `Neighbor::respa_nsq_newton_omp` as run by the worker thread `t`. -/
def respa_nsq_newton_omp {F : Type} [LinearOrderedRing F] (env : NeighEnv F)
    (list : NeighList) (t : OmpThread) : Option (Except String RespaBuild) :=
  respaLoop env list.respamiddle t.nthreads
    (fun i => some (nsqNewtonAtom env list.respamiddle i))
    (List.range' t.ifrom (t.ito - t.ifrom)) (respaStart t)

/-- Function `Neighbor::respa_bin_no_newton_omp` as run by the worker thread `t`, after
`bin_atoms()` has filled `binhead` and `bins`. -/
def respa_bin_no_newton_omp {F : Type} [LinearOrderedRing F] (fuel : Nat) (env : NeighEnv F)
    (list : NeighList) (t : OmpThread) : Option (Except String RespaBuild) :=
  respaLoop env list.respamiddle t.nthreads (binNoNewtonAtom fuel env list)
    (List.range' t.ifrom (t.ito - t.ifrom)) (respaStart t)

/-- Function `Neighbor::respa_bin_newton_omp` as run by the worker thread `t`, after
`bin_atoms()` has filled `binhead` and `bins`. -/
def respa_bin_newton_omp {F : Type} [LinearOrderedRing F] (fuel : Nat) (env : NeighEnv F)
    (list : NeighList) (t : OmpThread) : Option (Except String RespaBuild) :=
  respaLoop env list.respamiddle t.nthreads (binNewtonAtom fuel env list)
    (List.range' t.ifrom (t.ito - t.ifrom)) (respaStart t)

/-- Function `Neighbor::respa_bin_newton_tri_omp` as run by the worker thread `t`, after
`bin_atoms()` has filled `binhead` and `bins`. -/
def respa_bin_newton_tri_omp {F : Type} [LinearOrderedRing F] (fuel : Nat)
    (env : NeighEnv F) (list : NeighList) (t : OmpThread) :
    Option (Except String RespaBuild) :=
  respaLoop env list.respamiddle t.nthreads (binNewtonTriAtom fuel env list)
    (List.range' t.ifrom (t.ito - t.ifrom)) (respaStart t)

/-! ## Statement helpers for the neighbour lists -/

/-- The special code of the partner `j` of `i`: the value of `find_special` in a molecular
system, and 0 otherwise. -/
def whichOf {F : Type} (env : NeighEnv F) (i j : Nat) : Int :=
  if env.molecular then env.find_special i (env.tag j) else 0

/-- The entry stored for the partner `j` of `i`: `j ^ (which << SBBITS)` in a molecular
system, and the plain index `j` otherwise. -/
def entryOf {F : Type} (env : NeighEnv F) (i j : Nat) : Nat :=
  if env.molecular then j ^^^ ((whichOf env i j).toNat <<< env.SBBITS) else j

/-- The pair is skipped by `exclude && exclusion(i,j,itype,jtype,mask,molecule)`. -/
def excludedPair {F : Type} (env : NeighEnv F) (i j : Nat) : Bool :=
  env.exclude && env.exclusion i j (env.type i) (env.type j)

/-- The separation test `rsq <= cutneighsq[itype][jtype]`. -/
def withinCut {F : Type} [LinearOrderedRing F] (env : NeighEnv F) (i j : Nat) : Bool :=
  decide (respaRsq env i j ≤ env.cutneighsq (env.type i) (env.type j))

/-- The pair passes the exclusion test and the separation test and has a non-negative special
code: the storing block appends it to the full list. -/
def listed {F : Type} [LinearOrderedRing F] (env : NeighEnv F) (i j : Nat) : Bool :=
  !excludedPair env i j && withinCut env i j && decide (0 ≤ whichOf env i j)

/-- The separation test `rsq < cut_inner_sq` of the inner list. -/
def innerShell {F : Type} [LinearOrderedRing F] (env : NeighEnv F) (i j : Nat) : Bool :=
  decide (respaRsq env i j < env.cut_inner_sq)

/-- The test `respamiddle && rsq < cut_middle_sq && rsq > cut_middle_inside_sq` of the middle
list. -/
def middleShell {F : Type} [LinearOrderedRing F] (env : NeighEnv F) (respamiddle : Bool)
    (i j : Nat) : Bool :=
  respamiddle && decide (respaRsq env i j < env.cut_middle_sq) &&
    decide (respaRsq env i j > env.cut_middle_inside_sq)

/-- The three sequences that the storing block builds from the accepted partners `js`, in
the order of `js`. -/
def listsOf {F : Type} [LinearOrderedRing F] (env : NeighEnv F) (respamiddle : Bool)
    (i : Nat) (js : List Nat) : RespaLists :=
  { full := js.map (entryOf env i)
    inner := (js.filter (innerShell env i)).map (entryOf env i)
    middle := (js.filter (middleShell env respamiddle i)).map (entryOf env i) }

/-- The particles met by the walk `for (j = start; j >= 0; j = bins[j])`, in order; `none`
when the chain has not ended within `fuel` steps. -/
def binChain (bins : Nat → Int) : Nat → Int → Option (List Nat)
  | 0, j => if j < 0 then some [] else none
  | fuel + 1, j =>
    if j < 0 then some [] else (binChain bins fuel (bins j.toNat)).map (fun l => j.toNat :: l)

/-- The particles met by the stencil loops from the bin `ibin`, in order; `none` when one
of the chains has not ended within `fuel` steps. -/
def stencilChain {F : Type} (env : NeighEnv F) (fuel : Nat) (ibin : Int) :
    List Int → Option (List Nat)
  | [] => some []
  | k :: ks =>
    (binChain env.bins fuel (env.binhead (ibin + k))).bind
      (fun l => (stencilChain env fuel ibin ks).map (fun ls => l ++ ls))

/-- The sequences `l` have the shape that the storing block gives them: there are accepted
partners `js` of `i` of which the full list holds the entries, the inner list the entries
of those with `rsq < cut_inner_sq`, and the middle list the entries of those that pass the
middle test, in the same order. -/
def RespaShape {F : Type} [LinearOrderedRing F] (env : NeighEnv F) (respamiddle : Bool)
    (i : Nat) (l : RespaLists) : Prop :=
  ∃ js : List Nat, (∀ j ∈ js, listed env i j = true) ∧ l = listsOf env respamiddle i js

/-- The three sequences that a finished build holds for the particle `i`; the middle
sequence is empty when the build has no middle list. -/
def storedLists (out : RespaBuild) (i : Nat) : Option RespaLists :=
  match out.full i, out.inner i with
  | some f, some n =>
    some { full := f.neigh, inner := n.neigh
           middle := ((out.middle i).map AtomList.neigh).getD [] }
  | _, _ => none

/-- The accepted partners of `i` in `respa_nsq_no_newton_omp`, in the order of the scan. -/
def nsqNoNewtonPartners {F : Type} [LinearOrderedRing F] (env : NeighEnv F) (i : Nat) :
    List Nat :=
  (List.range' (i + 1) (nallOf env - (i + 1))).filter
    (fun j => !maskSkip env j && listed env i j)

/-- The accepted partners of `i` in `respa_nsq_newton_omp`, in the order of the scan. -/
def nsqNewtonPartners {F : Type} [LinearOrderedRing F] (env : NeighEnv F) (i : Nat) :
    List Nat :=
  (List.range' (i + 1) (nallOf env - (i + 1))).filter
    (fun j => !maskSkip env j && !(decide (nlocalOf env ≤ j) && tagSkip env i j) &&
      listed env i j)

/-- The sequences `l` are those that one of the five builders scans for the particle `i`. -/
def ScanOf {F : Type} [LinearOrderedRing F] (fuel : Nat) (env : NeighEnv F)
    (list : NeighList) (i : Nat) (l : RespaLists) : Prop :=
  l = nsqNoNewtonAtom env list.respamiddle i ∨
  l = nsqNewtonAtom env list.respamiddle i ∨
  binNoNewtonAtom fuel env list i = some l ∨
  binNewtonAtom fuel env list i = some l ∨
  binNewtonTriAtom fuel env list i = some l

/-- The build `out` is what one of the five builders returns for the thread `t` when it
ends without an overflow error. -/
def BuiltBy {F : Type} [LinearOrderedRing F] (fuel : Nat) (env : NeighEnv F)
    (list : NeighList) (t : OmpThread) (out : RespaBuild) : Prop :=
  respa_nsq_no_newton_omp env list t = some (.ok out) ∨
  respa_nsq_newton_omp env list t = some (.ok out) ∨
  respa_bin_no_newton_omp fuel env list t = some (.ok out) ∨
  respa_bin_newton_omp fuel env list t = some (.ok out) ∨
  respa_bin_newton_tri_omp fuel env list t = some (.ok out)

/-- Two particles on the x axis, at 0 and at `d`, both owned, of type 1, with
`cutneighsq = 16`, `cut_inner_sq = 4`, `cut_middle_sq = 9`, `cut_middle_inside_sq = 1`, no
include-group and no exclusion; `find_special` returns `which` for every pair. Both are in
the bin 0, whose chain is `0, 1`. Coordinates are integers. -/
def pairNeighEnv (molecular : Bool) (which : Int) (d : ℤ) : NeighEnv ℤ :=
  { nlocal := 2, nfirst := 0, nghost := 0, includegroup := 0, bitmask := fun _ => 0
    x := fun k c => if k = 1 ∧ c = 0 then d else 0
    type := fun _ => 1, mask := fun _ => 1, tag := fun k => (k : Int) + 1
    molecular := molecular, exclude := false, exclusion := fun _ _ _ _ => false
    find_special := fun _ _ => which
    cutneighsq := fun _ _ => 16, cut_inner_sq := 4, cut_middle_sq := 9
    cut_middle_inside_sq := 1, SBBITS := 30
    binhead := fun b => if b = 0 then 0 else -1
    bins := fun k => if k = 0 then 1 else -1
    coord2bin := fun _ => 0
    pgsize := 100, oneatom := 10 }

/-- A list with a middle list and the stencil of the bin itself. -/
def demoList : NeighList := { respamiddle := true, stencil := [0] }

/-- A single thread that owns the particles `0 <= i < n`. -/
def oneThread (n : Nat) : OmpThread := { tid := 0, nthreads := 1, ifrom := 0, ito := n }

/-- The key `(z, y, x, index)` of a particle in the lexicographic order. -/
def triKey {F : Type} (env : NeighEnv F) (k : Nat) : Lex (F × Lex (F × Lex (F × Nat))) :=
  toLex (env.x k 2, toLex (env.x k 1, toLex (env.x k 0, k)))

/-- Three owned particles on the x axis at 0, 1 and 5 in two bins: the bin 0 with the chain
`0, 1` and the bin 1 with the chain `2`; the stencil `[0, 1]` reaches both bins from the bin
of the particle 0. -/
def twoBinEnv : NeighEnv ℤ :=
  { pairNeighEnv false 0 0 with
    nlocal := 3
    x := fun k c => if c = 0 then (if k = 0 then 0 else if k = 1 then 1 else 5) else 0
    binhead := fun b => if b = 0 then 0 else if b = 1 then 2 else -1
    bins := fun k => if k = 0 then 1 else -1
    coord2bin := fun k => if k = 2 then 1 else 0 }

/-- The list of the binned example: a middle list and the stencil `[0, 1]`. -/
def twoBinList : NeighList := { respamiddle := true, stencil := [0, 1] }

/-! ## Statement helpers for the page, slope, divisor and half-stencil claims -/

/-- The sequence `a` lies wholly inside one page of `pgsize` entries. -/
def WithinPage (pgsize : Nat) (a : AtomList) : Prop :=
  a.offset + a.neigh.length ≤ pgsize

/-- The sequence `a` is what the build `b` holds for the particle `i` in one of its three
lists. -/
def StoredAt (b : RespaBuild) (i : Nat) (a : AtomList) : Prop :=
  b.full i = some a ∨ b.inner i = some a ∨ b.middle i = some a

/-- The page index `p` is `tid` plus a multiple of `nthreads`. -/
def PageOf (t : OmpThread) (p : Nat) : Prop :=
  ∃ k : Nat, p = t.tid + k * t.nthreads

/-- Two threads of a team of two: the thread `tid` owns the particle `tid`. -/
def teamThread (tid : Nat) : OmpThread :=
  { tid := tid, nthreads := 2, ifrom := tid, ito := tid + 1 }

/-- A potential file that holds a record of `A` only. -/
def onlyAFile : List (List Char) := ["A exp6 12 1.0 2.0\n".toList]

/-- The arguments `1 1 file B B 0 0`, the file holding a record of `A` only. -/
def unrecordedArgs : CoeffArgs ℚ :=
  { narg := 7, ilo := 1, ihi := 1, jlo := 1, jhi := 1, lines := onlyAFile
    site1 := "B".toList, site2 := "B".toList, fuchslinR := 0, fuchslinEpsilon := 0
    cut_one := 0 }

/-- Half of the smallest positive `double`, `2^-1075`: a product of `double`s whose exact
value is at most this in magnitude is rounded to `0.0` (IEEE 754 binary64, round to nearest,
ties to even). -/
def underflowBound {F : Type} [LinearOrderedField F] : F := 1 / 2 ^ 1075

/-- The product of two `double`s as far as its being zero goes: `0.0` when the exact product
underflows, the exact product otherwise. The rounding of a product that does not underflow
and overflow are not modelled. -/
def mulDouble {F : Type} [LinearOrderedField F] (x y : F) : F :=
  if |x * y| ≤ underflowBound then 0 else x * y

/-- Modelled from the spec: `MathSpecial::powint` on a `double` (math_special.h is not among
the sources): the integer power, `0.0` when it underflows. -/
def powintDouble {F : Type} [LinearOrderedField F] (x : F) (n : Nat) : F :=
  if |powint x n| ≤ underflowBound then 0 else powint x n

/-- The divisors of the divisions of one directed evaluation of the exp-6 form, in the order
of the code, as the `double`s that they are: `rm` (line 293), `alpha - 6` (294) and, in the
core branch `r < rin1`, `rin6` (307), `nRep` (315), `powint(rin1,nRep)` (317) and
`powint(r,nRep)` (319, 322); the same statements are repeated at 331-362, 387-414 and
419-446. `rin6` is the product `rin1*rin1*rin1*rin1*rin1*rin1` of line 306, each of whose
five multiplications gives `0.0` when it underflows, and so do the two powers. -/
def exp6Divisors {F : Type} [LinearOrderedField F] (m : MathLib F) (g : PairGeom F)
    (alpha epsilon rm : F) : List F :=
  let t := exp6Terms m g alpha epsilon rm
  [rm, alpha - 6] ++
    (if g.r < t.rin1 then
      [mulDouble (mulDouble (mulDouble (mulDouble (mulDouble t.rin1 t.rin1) t.rin1) t.rin1)
          t.rin1) t.rin1,
        (nRep : F), powintDouble t.rin1 nRep, powintDouble g.r nRep]
    else [])

/-- The divisors of all divisions performed for a pair within the cutoff: `rsq` (line 239),
`cutsq` (243) and `rCut` (246), those of the two directed evaluations of the previous
snapshot when its block is evaluated (guard of line 288), and those of the two directed
evaluations of the current snapshot when its block is evaluated (guard of line 382). -/
def pairDivisors {F : Type} [LinearOrderedField F] (m : MathLib F) (rsq cutsq : F)
    (pi pj : ParamData F) : List F :=
  let g := pairGeom m rsq cutsq
  let mx := mixPair m pi pj
  [rsq, cutsq, g.rCut] ++
    (if mx.rmOld12_ij ≠ 0 ∧ mx.rmOld21_ij ≠ 0 then
      exp6Divisors m g mx.alphaOld12_ij mx.epsilonOld12_ij mx.rmOld12_ij ++
        exp6Divisors m g mx.alphaOld21_ij mx.epsilonOld21_ij mx.rmOld21_ij
    else []) ++
    (if mx.rm12_ij ≠ 0 ∧ mx.rm21_ij ≠ 0 then
      exp6Divisors m g mx.alpha12_ij mx.epsilon12_ij mx.rm12_ij ++
        exp6Divisors m g mx.alpha21_ij mx.epsilon21_ij mx.rm21_ij
    else [])

/-- Two owned atoms on the x axis, at `x = 0` and at `x = 1e-30`; one atom type with cutoff
10; no special factor; Newton pair on; tally requested. -/
def closeEnv {F : Type} [LinearOrderedField F] : PairEnv F :=
  { (lineEnv 2 : PairEnv F) with x := fun k d => if d = 0 then 1e-30 * (k : F) else 0 }

/-- The site index `site` is assigned: it is the one-fluid sentinel, or a declared species
that has a record of kind exp6. -/
def SiteAssigned {F : Type} (cfg : Exp6Config F) (site : Int) : Prop :=
  isOneFluidApprox site = true ∨
    ∃ s, s < cfg.nspecies ∧ site = (s : Int) ∧ 0 ≤ cfg.mol2param s ∧
      (cfg.params (cfg.mol2param s).toNat).potentialType = exp6PotentialType

/-- The inputs that `getParamsEXP6` is given after a successful `coeff`, with a composition
that `fix rx` supplies: the invariant of `setup` (`params[mol2param[t]].ispecies = t`), every
record with `rm > 0` (test of lines 769-770 of `read_file`), both sites assigned, no negative
concentration; and a `pow` that is not negative on a base that is not negative, a division
that is the quotient on nonzero divisors. -/
structure ValidSetup {F : Type} [LinearOrderedField F] (m : MathLib F) (dv : F → F → F)
    (cfg : Exp6Config F) (dvector : Nat → Nat → F) : Prop where
  setup_inv : ∀ t, t < cfg.nspecies → 0 ≤ cfg.mol2param t →
    (cfg.params (cfg.mol2param t).toNat).ispecies = (t : Int)
  rm_pos : ∀ t, t < cfg.nspecies → 0 ≤ cfg.mol2param t →
    0 < (cfg.params (cfg.mol2param t).toNat).rm
  site1 : SiteAssigned cfg cfg.isite1
  site2 : SiteAssigned cfg cfg.isite2
  conc_nonneg : ∀ s id, 0 ≤ dvector s id
  pow_nonneg : ∀ a b : F, 0 ≤ a → 0 ≤ m.pow a b
  dv_div : ∀ a b : F, b ≠ 0 → dv a b = a / b

/-- Two species A and B (rows 0, 1: current A, B; rows 2, 3: previous A, B): every particle
holds one molecule of A in both snapshots; the particle 0 holds one molecule of B and every
other particle three, in both snapshots. -/
def dvTwo {F : Type} [LinearOrderedField F] : Nat → Nat → F :=
  fun row id =>
    if row = 0 ∨ row = 2 then 1
    else if row = 1 ∨ row = 3 then (if id = 0 then 1 else 3)
    else 0

/-- The accepted partners of `i` in `respa_bin_newton_omp`, in the order of the scan: those
of the rest of the chain of `i` from `bins[i]` that are not skipped by the coordinate test of
a ghost, then those of the bins of the stencil; `none` when a chain has not ended within
`fuel` steps. -/
def binNewtonPartners {F : Type} [LinearOrderedRing F] (fuel : Nat) (env : NeighEnv F)
    (list : NeighList) (i : Nat) : Option (List Nat) :=
  (binChain env.bins fuel (env.bins i)).bind (fun own =>
    (stencilChain env fuel (env.coord2bin i) list.stencil).map (fun c =>
      own.filter (fun j => !(decide (nlocalOf env ≤ j) && coordBelow env i j)
          && listed env i j)
        ++ c.filter (fun j => listed env i j)))

/-- A list with a middle list and the half stencil `[1]`. -/
def halfStencilList : NeighList := { respamiddle := true, stencil := [1] }

/-- A list with a middle list and the stencil `[2]`, which holds neither of the offsets `1`
and `-1` between the bins 0 and 1. -/
def sparseStencilList : NeighList := { respamiddle := true, stencil := [2] }

/-- The chains of the bins of `twoBinEnv`. -/
def twoBinChains : Int → List Nat :=
  fun k => if k = 0 then [0, 1] else if k = 1 then [2] else []

/-! ## Theorems -/

section Kernel

variable {F : Type} [LinearOrderedField F]

theorem expValue_underflow (m : MathLib F) (v : F) (hv : v < -1021) : expValue m v = 0 := by
  unfold expValue
  rw [if_pos (by simpa [DBL_MIN_EXP] using hv)]

theorem rin6inv_eq (R rsq : F) (hsq : R * R = rsq) :
    1 / (R * R * R * R * R * R) = 1 / rsq * (1 / rsq) * (1 / rsq) := by
  subst hsq
  simp only [one_div, mul_inv]
  ring

/-- At `r = rin1` the core force of line 319 is the negative of the outer force of
line 324. -/
theorem core_force_at_rin (m : MathLib F) (alpha epsilon rm rsq cutsq : F)
    (hrin0 : (exp6Terms m (pairGeom m rsq cutsq) alpha epsilon rm).rin1 ≠ 0)
    (hr : (pairGeom m rsq cutsq).r = (exp6Terms m (pairGeom m rsq cutsq) alpha epsilon rm).rin1)
    (hsq : m.sqrt rsq * m.sqrt rsq = rsq) :
    coreForceExp6 (pairGeom m rsq cutsq)
        (coreTerms m (pairGeom m rsq cutsq) alpha
          (exp6Terms m (pairGeom m rsq cutsq) alpha epsilon rm))
      = - outerForceExp6 (pairGeom m rsq cutsq)
          (exp6Terms m (pairGeom m rsq cutsq) alpha epsilon rm) := by
  simp only [pairGeom, exp6Terms] at hr hrin0
  simp only [coreForceExp6, outerForceExp6, coreTerms, exp6Terms, pairGeom, powint, nRep]
  rw [hr] at hsq
  rw [hr, rin6inv_eq _ _ hsq]
  have h12 : (shift * rm * func_rin m alpha) ^ 12 ≠ 0 := pow_ne_zero _ hrin0
  field_simp
  ring

end Kernel

section RealLib

theorem expValue_nonneg (m : MathLib ℝ) (hm : IsRealLib m) (v : ℝ) : 0 ≤ expValue m v := by
  unfold expValue
  split
  · exact le_refl 0
  · rw [hm.exp_eq]; exact (Real.exp_pos v).le

theorem expValue_le_one (m : MathLib ℝ) (hm : IsRealLib m) (v : ℝ) (hv : v ≤ 0) :
    expValue m v ≤ 1 := by
  unfold expValue
  split
  · exact zero_le_one
  · rw [hm.exp_eq]; exact Real.exp_le_one_iff.mpr hv

theorem expValue_zero (m : MathLib ℝ) (hm : IsRealLib m) : expValue m 0 = 1 := by
  unfold expValue
  rw [if_neg (by norm_num [DBL_MIN_EXP]), hm.exp_eq, Real.exp_zero]

theorem expValue_eq_exp (m : MathLib ℝ) (hm : IsRealLib m) (v : ℝ) (hv : -1021 ≤ v) :
    expValue m v = Real.exp v := by
  unfold expValue
  rw [if_neg (by simpa [DBL_MIN_EXP] using hv), hm.exp_eq]

theorem sqrt_sq_real (m : MathLib ℝ) (hm : IsRealLib m) (y : ℝ) (hy : 0 ≤ y) :
    m.sqrt (y * y) = y := by
  rw [hm.sqrt_eq]; exact Real.sqrt_mul_self hy

theorem func_rin_le_one (m : MathLib ℝ) (hm : IsRealLib m) (alpha : ℝ) (h : 9 ≤ alpha) :
    func_rin m alpha ≤ 1 := by
  unfold func_rin
  apply expValue_le_one m hm
  rw [hm.sqrt_eq]
  have h3 : (3:ℝ) ≤ Real.sqrt alpha := by
    rw [show (3:ℝ) = Real.sqrt (3 * 3) from (Real.sqrt_mul_self (by norm_num)).symm]
    exact Real.sqrt_le_sqrt (by norm_num; exact h)
  norm_num
  nlinarith

theorem func_rin_nonneg (m : MathLib ℝ) (hm : IsRealLib m) (alpha : ℝ) :
    0 ≤ func_rin m alpha := by
  unfold func_rin
  exact expValue_nonneg m hm _

theorem func_rin_alphaRinOne (m : MathLib ℝ) (hm : IsRealLib m) :
    func_rin m ((alphaRinOne : ℚ) : ℝ) = 1 := by
  have hq : ((alphaRinOne : ℚ) : ℝ) = (37682065 / 14308614) * (37682065 / 14308614) := by
    norm_num [alphaRinOne]
  simp only [func_rin]
  rw [hq, sqrt_sq_real m hm _ (by norm_num)]
  have h0 : (3.7682065 : ℝ) + -1.4308614 * (37682065 / 14308614) = 0 := by norm_num
  rw [h0, expValue_zero m hm]

end RealLib

/-! ### Claims on the regularised exp-6 form -/

section KernelClaims

variable {F : Type} [LinearOrderedField F]

/-- Claim C3. At `r = rCut` (that is `rsq = cutsq`), for `alpha ≠ 6`, `rm ≠ 0`, `rCut > 0` and
`rin1 ≤ rCut`, the directed evaluation takes the outer branch, and the outer-branch shifted
energy of line 327 and the outer-branch force term of line 324 are both exactly zero. -/
theorem outer_branch_vanishes_at_cutoff (m : MathLib F)
    (factor_lj alpha epsilon rm cutsq : F) (_halpha : alpha ≠ 6) (_hrm : rm ≠ 0)
    (hcut : 0 < (pairGeom m cutsq cutsq).rCut)
    (hrin : (exp6Terms m (pairGeom m cutsq cutsq) alpha epsilon rm).rin1
      ≤ (pairGeom m cutsq cutsq).rCut) :
    (pairGeom m cutsq cutsq).r = (pairGeom m cutsq cutsq).rCut ∧
    (exp6Directed m (pairGeom m cutsq cutsq) factor_lj alpha epsilon rm).evdwl
      = outerEvdwl (pairGeom m cutsq cutsq) alpha
          (exp6Terms m (pairGeom m cutsq cutsq) alpha epsilon rm) ∧
    (exp6Directed m (pairGeom m cutsq cutsq) factor_lj alpha epsilon rm).forceExp6
      = outerForceExp6 (pairGeom m cutsq cutsq)
          (exp6Terms m (pairGeom m cutsq cutsq) alpha epsilon rm) ∧
    outerEvdwl (pairGeom m cutsq cutsq) alpha
      (exp6Terms m (pairGeom m cutsq cutsq) alpha epsilon rm) = 0 ∧
    outerForceExp6 (pairGeom m cutsq cutsq)
      (exp6Terms m (pairGeom m cutsq cutsq) alpha epsilon rm) = 0 := by
  have hb : ¬ (pairGeom m cutsq cutsq).r
      < (exp6Terms m (pairGeom m cutsq cutsq) alpha epsilon rm).rin1 := not_lt.mpr hrin
  have hne : m.sqrt cutsq ≠ 0 := ne_of_gt hcut
  refine ⟨rfl, ?_, ?_, ?_, ?_⟩
  · simp only [exp6Directed, hb, if_false]
  · simp only [exp6Directed, hb, if_false]
  · simp only [outerEvdwl, exp6Terms, pairGeom]
    ring
  · simp only [outerForceExp6, exp6Terms, pairGeom]
    have h1 : m.sqrt cutsq * (1 / m.sqrt cutsq) = 1 := mul_one_div_cancel hne
    linear_combination (epsilon / (alpha - 6) * (6 * alpha) * (rm * rm * (rm * rm) * (rm * rm))
      * (1 / cutsq * (1 / cutsq) * (1 / cutsq))) * h1

/-- Claim C4. For `alpha ≠ 6`, `rm > 0` and `0 < rin1 < rCut`, the core-branch energy
`uin1 - uin1rep + aRep/r^12` evaluated at `r = rin1` equals the outer-branch energy evaluated
at `r = rin1`. The previous-snapshot and the current-snapshot evaluations (12 and 21) are
textual copies of the same statements, all embedded by `coreEvdwl` and `outerEvdwl`. The
hypothesis `hsq` holds for the real square root of every `rsq ≥ 0`. -/
theorem core_energy_matches_outer_at_rin (m : MathLib F) (alpha epsilon rm rsq cutsq : F)
    (_halpha : alpha ≠ 6) (_hrm : 0 < rm)
    (_hrin0 : 0 < (exp6Terms m (pairGeom m rsq cutsq) alpha epsilon rm).rin1)
    (_hrinCut : (exp6Terms m (pairGeom m rsq cutsq) alpha epsilon rm).rin1
      < (pairGeom m rsq cutsq).rCut)
    (hr : (pairGeom m rsq cutsq).r = (exp6Terms m (pairGeom m rsq cutsq) alpha epsilon rm).rin1)
    (hsq : m.sqrt rsq * m.sqrt rsq = rsq) :
    coreEvdwl (pairGeom m rsq cutsq)
        (coreTerms m (pairGeom m rsq cutsq) alpha
          (exp6Terms m (pairGeom m rsq cutsq) alpha epsilon rm))
      = outerEvdwl (pairGeom m rsq cutsq) alpha
          (exp6Terms m (pairGeom m rsq cutsq) alpha epsilon rm) := by
  simp only [pairGeom, exp6Terms] at hr
  simp only [coreEvdwl, outerEvdwl, coreTerms, exp6Terms, pairGeom]
  rw [hr] at hsq
  rw [hr, rin6inv_eq _ _ hsq]
  ring

end KernelClaims

/-- Witness of claim C3 over the reals: alpha 12, epsilon 1, rm 2, cutoff 10. -/
theorem outer_branch_vanishes_at_cutoff_witness :
    let m : MathLib ℝ := ⟨Real.sqrt, Real.exp,
      fun x => if x < 0 then -(-x) ^ (3:ℝ)⁻¹ else x ^ (3:ℝ)⁻¹, fun x y => x ^ y⟩
    ((12:ℝ) ≠ 6 ∧ (2:ℝ) ≠ 0 ∧ 0 < (pairGeom m 100 100).rCut ∧
      (exp6Terms m (pairGeom m 100 100) 12 1 2).rin1 ≤ (pairGeom m 100 100).rCut) ∧
    outerEvdwl (pairGeom m 100 100) 12 (exp6Terms m (pairGeom m 100 100) 12 1 2) = 0 ∧
    outerForceExp6 (pairGeom m 100 100) (exp6Terms m (pairGeom m 100 100) 12 1 2) = 0 := by
  intro m
  have hm : IsRealLib m := ⟨rfl, rfl, fun _ => rfl, fun _ _ => rfl⟩
  have h10 : m.sqrt 100 = 10 := by
    rw [show (100:ℝ) = 10 * 10 by norm_num]; exact sqrt_sq_real m hm 10 (by norm_num)
  have hc : 0 < (pairGeom m 100 100).rCut := by
    show 0 < m.sqrt 100
    rw [h10]; norm_num
  have hr : (exp6Terms m (pairGeom m 100 100) 12 1 2).rin1 ≤ (pairGeom m 100 100).rCut := by
    show shift * 2 * func_rin m 12 ≤ m.sqrt 100
    rw [h10]
    have := func_rin_le_one m hm 12 (by norm_num)
    simp only [shift]
    linarith
  have h := outer_branch_vanishes_at_cutoff m 1 12 1 2 100 (by norm_num) (by norm_num) hc hr
  exact ⟨⟨by norm_num, by norm_num, hc, hr⟩, h.2.2.2.1, h.2.2.2.2⟩

/-- Witness of claim C4 over the reals: rm 2 and an alpha for which `rin1 = 2.1`, cutoff 10. -/
theorem core_energy_matches_outer_at_rin_witness :
    let m : MathLib ℝ := ⟨Real.sqrt, Real.exp,
      fun x => if x < 0 then -(-x) ^ (3:ℝ)⁻¹ else x ^ (3:ℝ)⁻¹, fun x y => x ^ y⟩
    let alpha : ℝ := ((alphaRinOne : ℚ) : ℝ)
    (pairGeom m 4.41 100).r = (exp6Terms m (pairGeom m 4.41 100) alpha 1 2).rin1 ∧
    (exp6Terms m (pairGeom m 4.41 100) alpha 1 2).rin1 = 2.1 ∧
    (pairGeom m 4.41 100).rCut = 10 ∧
    coreEvdwl (pairGeom m 4.41 100)
        (coreTerms m (pairGeom m 4.41 100) alpha (exp6Terms m (pairGeom m 4.41 100) alpha 1 2))
      = outerEvdwl (pairGeom m 4.41 100) alpha (exp6Terms m (pairGeom m 4.41 100) alpha 1 2) := by
  intro m alpha
  have hm : IsRealLib m := ⟨rfl, rfl, fun _ => rfl, fun _ _ => rfl⟩
  have h10 : m.sqrt 100 = 10 := by
    rw [show (100:ℝ) = 10 * 10 by norm_num]; exact sqrt_sq_real m hm 10 (by norm_num)
  have h21 : m.sqrt 4.41 = 2.1 := by
    rw [show (4.41:ℝ) = 2.1 * 2.1 by norm_num]; exact sqrt_sq_real m hm 2.1 (by norm_num)
  have hrin : (exp6Terms m (pairGeom m 4.41 100) alpha 1 2).rin1 = 2.1 := by
    simp only [exp6Terms, shift, alpha, func_rin_alphaRinOne m hm]; norm_num
  have hr : (pairGeom m 4.41 100).r = (exp6Terms m (pairGeom m 4.41 100) alpha 1 2).rin1 := by
    rw [hrin]; exact h21
  have hcut : (pairGeom m 4.41 100).rCut = 10 := h10
  refine ⟨hr, hrin, hcut, core_energy_matches_outer_at_rin m alpha 1 2 4.41 100 ?_ (by norm_num)
    (by rw [hrin]; norm_num) (by rw [hrin, hcut]; norm_num) hr ?_⟩
  · simp only [alpha, alphaRinOne]; norm_num
  · show m.sqrt 4.41 * m.sqrt 4.41 = 4.41
    rw [h21]; norm_num

theorem exp_neg_le_of_ge (x : ℝ) (hx : 0.3465 ≤ x) : Real.exp (-x) ≤ 0.7076 := by
  have h1 : (1.4134:ℝ) ≤ Real.exp 0.3465 :=
    le_trans (by norm_num [Finset.sum_range_succ, Nat.factorial])
      (Real.sum_le_exp_of_nonneg (by norm_num) 4)
  have h2 : Real.exp 0.3465 ≤ Real.exp x := Real.exp_le_exp.mpr hx
  have h3 : (1.4134:ℝ) ≤ Real.exp x := le_trans h1 h2
  rw [Real.exp_neg]
  rw [inv_le_comm₀ (Real.exp_pos x) (by norm_num)]
  refine le_trans ?_ h3
  norm_num

/-- Claim C5 (evaluation at the failing input). Over the reals, with epsilon 1, rm 1, cutoff
200 and an alpha for which `rin1 = 1.05`, the outer-branch force term at `r = rin1` is
negative while the core-branch force term of line 319 at the same `r` is its negative, hence
positive: the force term is not continuous at `rin1`. -/
theorem core_force_sign_flip_example :
    let m : MathLib ℝ := ⟨Real.sqrt, Real.exp,
      fun x => if x < 0 then -(-x) ^ (3:ℝ)⁻¹ else x ^ (3:ℝ)⁻¹, fun x y => x ^ y⟩
    let alpha : ℝ := ((alphaRinOne : ℚ) : ℝ)
    let g := pairGeom m 1.1025 40000
    let t := exp6Terms m g alpha 1 1
    g.r = t.rin1 ∧ t.rin1 = 1.05 ∧ g.rCut = 200 ∧
    outerForceExp6 g t < 0 ∧ 0 < coreForceExp6 g (coreTerms m g alpha t) ∧
    coreForceExp6 g (coreTerms m g alpha t) ≠ outerForceExp6 g t := by
  intro m alpha g t
  have hm : IsRealLib m := ⟨rfl, rfl, fun _ => rfl, fun _ _ => rfl⟩
  have h200 : m.sqrt 40000 = 200 := by
    rw [show (40000:ℝ) = 200 * 200 by norm_num]; exact sqrt_sq_real m hm 200 (by norm_num)
  have h105 : m.sqrt 1.1025 = 1.05 := by
    rw [show (1.1025:ℝ) = 1.05 * 1.05 by norm_num]; exact sqrt_sq_real m hm 1.05 (by norm_num)
  have hA1 : (6.93:ℝ) < alpha := by simp only [alpha, alphaRinOne]; norm_num
  have hA2 : alpha < (6.94:ℝ) := by simp only [alpha, alphaRinOne]; norm_num
  have hrin : t.rin1 = 1.05 := by
    show shift * 1 * func_rin m alpha = 1.05
    rw [func_rin_alphaRinOne m hm]; simp only [shift]; norm_num
  have hr : g.r = t.rin1 := by rw [hrin]; exact h105
  have hcutexp : expValue m (alpha * (1 - m.sqrt 40000 * (1 / 1))) = 0 := by
    apply expValue_underflow
    rw [h200]; nlinarith
  have hrexp : expValue m (alpha * (1 - m.sqrt 1.1025 * (1 / 1))) = Real.exp (-(alpha / 20)) := by
    rw [h105, expValue_eq_exp m hm _ (by nlinarith)]
    congr 1; ring
  have hE := exp_neg_le_of_ge (alpha / 20) (by linarith)
  have hEpos := Real.exp_pos (-(alpha / 20))
  have houter : outerForceExp6 g t < 0 := by
    show 1 / (alpha - 6) * (6 * alpha) *
        (m.sqrt 1.1025 * expValue m (alpha * (1 - m.sqrt 1.1025 * (1 / 1))) * (1 / 1)
          - 1 * 1 * (1 * 1) * (1 * 1) * (1 / 1.1025 * (1 / 1.1025) * (1 / 1.1025)))
      + m.sqrt 1.1025 * (-(1 / (alpha - 6)) * (6 * alpha) *
          (expValue m (alpha * (1 - m.sqrt 40000 * (1 / 1))) * (1 / 1)
            - 1 / m.sqrt 40000 * (1 * 1 * (1 * 1) * (1 * 1))
              * (1 / 40000 * (1 / 40000) * (1 / 40000)))) < 0
    rw [hcutexp, hrexp, h105, h200]
    have hK : 0 < 1 / (alpha - 6) * (6 * alpha) := by
      apply mul_pos
      · apply one_div_pos.mpr; linarith
      · linarith
    have hb : 1.05 * Real.exp (-(alpha / 20)) - (1 / 1.1025 * (1 / 1.1025) * (1 / 1.1025))
        + 1.05 * (1 / 200 * (1 / 40000 * (1 / 40000) * (1 / 40000))) < 0 := by
      norm_num
      linarith
    have := mul_neg_of_pos_of_neg hK hb
    linarith
  have hcore := core_force_at_rin m alpha 1 1 1.1025 40000 (by
      show t.rin1 ≠ 0
      rw [hrin]; norm_num) hr (by
      show m.sqrt 1.1025 * m.sqrt 1.1025 = 1.1025
      rw [h105]; norm_num)
  have hcore2 : coreForceExp6 g (coreTerms m g alpha t) = - outerForceExp6 g t := hcore
  refine ⟨hr, hrin, h200, houter, ?_, ?_⟩
  · rw [hcore2]; linarith
  · rw [hcore2]; intro h; linarith

/-! ### Claims on getParamsEXP6 -/

section Resolver

variable {F : Type} [LinearOrderedField F]

theorem foldl_proj_add {β α : Type} (proj : β → F) (step : β → α → β) (h : α → F)
    (hstep : ∀ b a, proj (step b a) = proj b + h a) (l : List α) (b : β) :
    proj (l.foldl step b) = proj b + (l.map h).sum := by
  induction l generalizing b with
  | nil => simp
  | cons a l ih =>
    simp only [List.foldl_cons, List.map_cons, List.sum_cons]
    rw [ih, hstep]
    ring

theorem sum_map_ite_filter {α : Type} (p : α → Bool) (h : α → F) (l : List α) :
    (l.map (fun a => if p a then h a else 0)).sum = ((l.filter p).map h).sum := by
  induction l with
  | nil => simp
  | cons a l ih =>
    by_cases hp : p a <;> simp [List.filter_cons, hp, ih]

theorem getTotals_nTotal (cfg : Exp6Config F) (dvector : Nat → Nat → F) (id : Nat) :
    (getTotals cfg dvector id).nTotal = specTotal cfg dvector id := by
  unfold getTotals specTotal
  rw [foldl_proj_add (fun t : Totals F => t.nTotal) (totalsStep cfg dvector id)
    (fun s => dvector s id)]
  · simp
  · intro b a
    simp only [totalsStep]
    split_ifs <;> rfl

theorem getTotals_nTotal_old (cfg : Exp6Config F) (dvector : Nat → Nat → F) (id : Nat) :
    (getTotals cfg dvector id).nTotal_old = specTotalOld cfg dvector id := by
  unfold getTotals specTotalOld
  rw [foldl_proj_add (fun t : Totals F => t.nTotal_old) (totalsStep cfg dvector id)
    (fun s => dvector (s + cfg.nspecies) id)]
  · simp
  · intro b a
    simp only [totalsStep]
    split_ifs <;> rfl

theorem getTotals_nTotalOFA (cfg : Exp6Config F) (dvector : Nat → Nat → F) (id : Nat)
    (hofa : (isOneFluidApprox cfg.isite1 || isOneFluidApprox cfg.isite2) = true) :
    (getTotals cfg dvector id).nTotalOFA = specPopulation cfg dvector id := by
  unfold getTotals specPopulation ofaSpecies
  rw [← sum_map_ite_filter,
    foldl_proj_add (fun t : Totals F => t.nTotalOFA) (totalsStep cfg dvector id)
    (fun s => if ofaEligible cfg s then dvector s id else 0)]
  · simp
  · intro b a
    simp only [totalsStep, ofaEligible, hofa]
    by_cases h1 : skipSpecies cfg a <;> by_cases h2 : pinnedSpecies cfg a <;> simp [h1, h2]

theorem getTotals_nTotalOFA_old (cfg : Exp6Config F) (dvector : Nat → Nat → F) (id : Nat)
    (hofa : (isOneFluidApprox cfg.isite1 || isOneFluidApprox cfg.isite2) = true) :
    (getTotals cfg dvector id).nTotalOFA_old = specPopulationOld cfg dvector id := by
  unfold getTotals specPopulationOld ofaSpecies
  rw [← sum_map_ite_filter,
    foldl_proj_add (fun t : Totals F => t.nTotalOFA_old) (totalsStep cfg dvector id)
    (fun s => if ofaEligible cfg s then dvector (s + cfg.nspecies) id else 0)]
  · simp
  · intro b a
    simp only [totalsStep, ofaEligible, hofa]
    by_cases h1 : skipSpecies cfg a <;> by_cases h2 : pinnedSpecies cfg a <;> simp [h1, h2]

/-- Claim C7. `getParamsEXP6` raises its fatal error if and only if the sum of the current
composition entries over all `nspecies` species, or the sum of the previous ones, is below
`1e-8`; the sums range over every species, with or without a parameter record, and nothing
else makes the call fail. -/
theorem getParamsEXP6_error_iff (m : MathLib F) (dv : F → F → F) (cfg : Exp6Config F)
    (dvector : Nat → Nat → F) (id : Nat) (init : ParamData F) :
    ((∃ msg, getParamsEXP6 m dv cfg dvector id init = .error msg) ↔
      (specTotal cfg dvector id < 1e-8 ∨ specTotalOld cfg dvector id < 1e-8)) ∧
    ((specTotal cfg dvector id < 1e-8 ∨ specTotalOld cfg dvector id < 1e-8) →
      getParamsEXP6 m dv cfg dvector id init
        = .error "The number of molecules in CG particle is less than 1e-8.") ∧
    (¬ (specTotal cfg dvector id < 1e-8 ∨ specTotalOld cfg dvector id < 1e-8) →
      ∃ p, getParamsEXP6 m dv cfg dvector id init = .ok p) := by
  rw [← getTotals_nTotal, ← getTotals_nTotal_old]
  unfold getParamsEXP6
  by_cases h : (getTotals cfg dvector id).nTotal < 1e-8 ∨
      (getTotals cfg dvector id).nTotal_old < 1e-8
  · simp only [h, if_true, iff_true, true_implies, not_true_eq_false, false_implies, and_true]
    exact ⟨_, rfl⟩
  · simp only [h, if_false, iff_false, false_implies, not_false_eq_true, true_implies, true_and]
    refine ⟨?_, _, rfl⟩
    rintro ⟨msg, hmsg⟩
    cases hmsg

theorem foldl_preserve {β α : Type} (step : β → α → β) (P : β → Prop) (l : List α)
    (hpres : ∀ b a, a ∈ l → P b → P (step b a)) (b : β) (hb : P b) : P (l.foldl step b) := by
  induction l generalizing b with
  | nil => exact hb
  | cons a l ih =>
    simp only [List.foldl_cons]
    exact ih (fun b' a' ha' => hpres b' a' (List.mem_cons_of_mem _ ha')) _
      (hpres b a (List.mem_cons_self _ _) hb)

theorem foldl_establish {β α : Type} (step : β → α → β) (P : β → Prop) (s : α) (l : List α)
    (hmem : s ∈ l) (hest : ∀ b, P (step b s))
    (hpres : ∀ b a, a ∈ l → a ≠ s → P b → P (step b a)) (b : β) : P (l.foldl step b) := by
  induction l generalizing b with
  | nil => cases hmem
  | cons a l ih =>
    simp only [List.foldl_cons]
    by_cases hs : s ∈ l
    · exact ih hs (fun b' a' ha' => hpres b' a' (List.mem_cons_of_mem _ ha')) _
    · have ha : s = a := by
        rcases List.mem_cons.mp hmem with h | h
        · exact h
        · exact absurd h hs
      subst ha
      refine foldl_preserve step P l ?_ _ (hest b)
      intro b' a' ha' hb'
      exact hpres b' a' (List.mem_cons_of_mem _ ha') (fun h => hs (h ▸ ha')) hb'

theorem skipSpecies_false_of_record {F : Type} (cfg : Exp6Config F) (s : Nat)
    (hrec : 0 ≤ cfg.mol2param s)
    (htype : (cfg.params (cfg.mol2param s).toNat).potentialType = exp6PotentialType) :
    skipSpecies cfg s = false := by
  simp [skipSpecies, htype, not_lt.mpr hrec]

theorem mol2param_nonneg_of_not_skip {F : Type} (cfg : Exp6Config F) (t : Nat)
    (h : skipSpecies cfg t = false) : 0 ≤ cfg.mol2param t := by
  simp only [skipSpecies, Bool.or_eq_false_iff, decide_eq_false_iff_not, not_lt] at h
  exact h.1

theorem outerStep_site1 (m : MathLib F) (dv : F → F → F) (cfg : Exp6Config F)
    (dvector : Nat → Nat → F) (id : Nat) (tot : Totals F) (fo foOld : F) (s : Nat)
    (hs : s < cfg.nspecies) (hsite : cfg.isite1 = (s : Int))
    (hrec : 0 ≤ cfg.mol2param s)
    (htype : (cfg.params (cfg.mol2param s).toNat).potentialType = exp6PotentialType)
    (hinv : ∀ t, t < cfg.nspecies → 0 ≤ cfg.mol2param t →
      (cfg.params (cfg.mol2param t).toNat).ispecies = (t : Int))
    (init : ParamData F) :
    Site1Is (cfg.params (cfg.mol2param s).toNat)
      (dv (dvector s id) tot.nTotal) (dv (dvector (s + cfg.nspecies) id) tot.nTotal_old)
      (resolveLoop m dv cfg dvector id tot fo foOld init).out := by
  unfold resolveLoop
  refine foldl_establish (outerStep m dv cfg dvector id tot fo foOld)
    (fun b => Site1Is (cfg.params (cfg.mol2param s).toNat)
      (dv (dvector s id) tot.nTotal) (dv (dvector (s + cfg.nspecies) id) tot.nTotal_old) b.out)
    s _ (List.mem_range.mpr hs) ?_ ?_ _
  · intro b
    have hsk := skipSpecies_false_of_record cfg s hrec htype
    have hi := hinv s hs hrec
    simp only [outerStep, hsk, hsite, hi, Site1Is, Bool.false_eq_true, if_false, if_true]
    split_ifs <;> simp
  · intro b t ht hts hb
    have htn : t < cfg.nspecies := List.mem_range.mp ht
    by_cases hsk : skipSpecies cfg t
    · simpa [outerStep, hsk] using hb
    · have hsk' : skipSpecies cfg t = false := by simpa using hsk
      have hi := hinv t htn (mol2param_nonneg_of_not_skip cfg t hsk')
      have hne : ¬ (s : Int) = (t : Int) := by
        intro h; exact hts (Int.ofNat_inj.mp h).symm
      simp only [outerStep, hsk', hsite, hi, Site1Is, hne, Bool.false_eq_true, if_false] at hb ⊢
      split_ifs <;> simpa using hb


theorem outerStep_site2 (m : MathLib F) (dv : F → F → F) (cfg : Exp6Config F)
    (dvector : Nat → Nat → F) (id : Nat) (tot : Totals F) (fo foOld : F) (s : Nat)
    (hs : s < cfg.nspecies) (hsite : cfg.isite2 = (s : Int))
    (hrec : 0 ≤ cfg.mol2param s)
    (htype : (cfg.params (cfg.mol2param s).toNat).potentialType = exp6PotentialType)
    (hinv : ∀ t, t < cfg.nspecies → 0 ≤ cfg.mol2param t →
      (cfg.params (cfg.mol2param t).toNat).ispecies = (t : Int))
    (init : ParamData F) :
    Site2Is (cfg.params (cfg.mol2param s).toNat)
      (dv (dvector s id) tot.nTotal) (dv (dvector (s + cfg.nspecies) id) tot.nTotal_old)
      (resolveLoop m dv cfg dvector id tot fo foOld init).out := by
  unfold resolveLoop
  refine foldl_establish (outerStep m dv cfg dvector id tot fo foOld)
    (fun b => Site2Is (cfg.params (cfg.mol2param s).toNat)
      (dv (dvector s id) tot.nTotal) (dv (dvector (s + cfg.nspecies) id) tot.nTotal_old) b.out)
    s _ (List.mem_range.mpr hs) ?_ ?_ _
  · intro b
    have hsk := skipSpecies_false_of_record cfg s hrec htype
    have hi := hinv s hs hrec
    simp only [outerStep, hsk, hsite, hi, Site2Is, Bool.false_eq_true, if_false, if_true]
    split_ifs <;> simp
  · intro b t ht hts hb
    have htn : t < cfg.nspecies := List.mem_range.mp ht
    by_cases hsk : skipSpecies cfg t
    · simpa [outerStep, hsk] using hb
    · have hsk' : skipSpecies cfg t = false := by simpa using hsk
      have hi := hinv t htn (mol2param_nonneg_of_not_skip cfg t hsk')
      have hne : ¬ (s : Int) = (t : Int) := by
        intro h; exact hts (Int.ofNat_inj.mp h).symm
      simp only [outerStep, hsk', hsite, hi, Site2Is, hne, Bool.false_eq_true, if_false] at hb ⊢
      split_ifs <;> simpa using hb

theorem isOneFluidApprox_natCast (s : Nat) : isOneFluidApprox (s : Int) = false := by
  simp only [isOneFluidApprox, oneFluidApproxParameter, beq_eq_false_iff_ne, ne_eq]
  omega

theorem sum_range_single (f : Nat → F) (s : Nat) :
    ∀ n, (∀ t, t < n → t ≠ s → f t = 0) →
      ((List.range n).map f).sum = if s < n then f s else 0 := by
  intro n
  induction n with
  | zero => intro _; simp
  | succ n ih =>
    intro h
    rw [List.range_succ, List.map_append, List.sum_append, ih (fun t ht => h t (by omega))]
    by_cases hsn : s < n
    · have : f n = 0 := h n (by omega) (by omega)
      simp [hsn, this, Nat.lt_succ_of_lt hsn]
    · by_cases hsn' : s = n
      · subst hsn'; simp
      · have : f n = 0 := h n (by omega) (fun h' => hsn' h'.symm)
        have h3 : ¬ s < n + 1 := by omega
        simp [hsn, this, h3]

/-- With both totals at least 1e-8 the call returns the out-parameters computed by the
second loop and the one-fluid blocks. -/
theorem getParamsEXP6_ok (m : MathLib F) (dv : F → F → F) (cfg : Exp6Config F)
    (dvector : Nat → Nat → F) (id : Nat) (init : ParamData F)
    (htot : 1e-8 ≤ specTotal cfg dvector id)
    (htotOld : 1e-8 ≤ specTotalOld cfg dvector id) :
    getParamsEXP6 m dv cfg dvector id init = .ok
      (ofaSites m dv cfg (getTotals cfg dvector id)
        (dv (getTotals cfg dvector id).nTotalOFA (getTotals cfg dvector id).nTotal)
        (dv (getTotals cfg dvector id).nTotalOFA_old (getTotals cfg dvector id).nTotal_old)
        (resolveLoop m dv cfg dvector id (getTotals cfg dvector id)
          (dv (getTotals cfg dvector id).nTotalOFA (getTotals cfg dvector id).nTotal)
          (dv (getTotals cfg dvector id).nTotalOFA_old (getTotals cfg dvector id).nTotal_old)
          init)) := by
  have hne : ¬ ((getTotals cfg dvector id).nTotal < 1e-8 ∨
      (getTotals cfg dvector id).nTotal_old < 1e-8) := by
    rw [getTotals_nTotal, getTotals_nTotal_old]
    exact not_or.mpr ⟨not_lt.mpr htot, not_lt.mpr htotOld⟩
  simp only [getParamsEXP6, hne, if_false]

/-- Claim C8. For a site pinned to a species `s` that has an exp6 record (under the
invariant of `setup` that `params[mol2param[t]].ispecies = t`), `getParamsEXP6` returns for
both snapshots exactly the record values `epsilon`, `alpha`, `rm`, whatever the composition
and the Fuchslin exponents are, with current fraction `count_s / nTotal` and previous
fraction `previous count_s / nTotal_old`; a particle made of species `s` only gets
fraction 1. -/
theorem pinned_site_resolution (m : MathLib F) (dv : F → F → F) (cfg : Exp6Config F)
    (dvector : Nat → Nat → F) (id : Nat) (init : ParamData F) (s : Nat)
    (hs : s < cfg.nspecies)
    (hdv : ∀ a b, b ≠ 0 → dv a b = a / b)
    (hrec : 0 ≤ cfg.mol2param s)
    (htype : (cfg.params (cfg.mol2param s).toNat).potentialType = exp6PotentialType)
    (hinv : ∀ t, t < cfg.nspecies → 0 ≤ cfg.mol2param t →
      (cfg.params (cfg.mol2param t).toNat).ispecies = (t : Int))
    (htot : 1e-8 ≤ specTotal cfg dvector id)
    (htotOld : 1e-8 ≤ specTotalOld cfg dvector id) :
    ∃ p, getParamsEXP6 m dv cfg dvector id init = .ok p ∧
      (cfg.isite1 = (s : Int) →
        Site1Is (cfg.params (cfg.mol2param s).toNat)
          (dvector s id / specTotal cfg dvector id)
          (dvector (s + cfg.nspecies) id / specTotalOld cfg dvector id) p) ∧
      (cfg.isite2 = (s : Int) →
        Site2Is (cfg.params (cfg.mol2param s).toNat)
          (dvector s id / specTotal cfg dvector id)
          (dvector (s + cfg.nspecies) id / specTotalOld cfg dvector id) p) ∧
      ((∀ t, t < cfg.nspecies → t ≠ s → dvector t id = 0) →
        dvector s id / specTotal cfg dvector id = 1) ∧
      ((∀ t, t < cfg.nspecies → t ≠ s → dvector (t + cfg.nspecies) id = 0) →
        dvector (s + cfg.nspecies) id / specTotalOld cfg dvector id = 1) := by
  have hpos : (0:F) < 1e-8 := by norm_num
  have hT : (getTotals cfg dvector id).nTotal ≠ 0 := by
    rw [getTotals_nTotal]; exact ne_of_gt (lt_of_lt_of_le hpos htot)
  have hTo : (getTotals cfg dvector id).nTotal_old ≠ 0 := by
    rw [getTotals_nTotal_old]; exact ne_of_gt (lt_of_lt_of_le hpos htotOld)
  have e1 : dv (dvector s id) (getTotals cfg dvector id).nTotal
      = dvector s id / specTotal cfg dvector id := by
    rw [hdv _ _ hT, getTotals_nTotal]
  have e2 : dv (dvector (s + cfg.nspecies) id) (getTotals cfg dvector id).nTotal_old
      = dvector (s + cfg.nspecies) id / specTotalOld cfg dvector id := by
    rw [hdv _ _ hTo, getTotals_nTotal_old]
  refine ⟨_, getParamsEXP6_ok m dv cfg dvector id init htot htotOld, ?_, ?_, ?_, ?_⟩
  · intro hsite
    have h := outerStep_site1 m dv cfg dvector id (getTotals cfg dvector id)
      (dv (getTotals cfg dvector id).nTotalOFA (getTotals cfg dvector id).nTotal)
      (dv (getTotals cfg dvector id).nTotalOFA_old (getTotals cfg dvector id).nTotal_old)
      s hs hsite hrec htype hinv init
    rw [e1, e2] at h
    have hofa : isOneFluidApprox cfg.isite1 = false := by
      rw [hsite]; exact isOneFluidApprox_natCast s
    simp only [ofaSites, hofa, Bool.false_eq_true, if_false]
    unfold Site1Is at h ⊢
    split_ifs <;> exact h
  · intro hsite
    have h := outerStep_site2 m dv cfg dvector id (getTotals cfg dvector id)
      (dv (getTotals cfg dvector id).nTotalOFA (getTotals cfg dvector id).nTotal)
      (dv (getTotals cfg dvector id).nTotalOFA_old (getTotals cfg dvector id).nTotal_old)
      s hs hsite hrec htype hinv init
    rw [e1, e2] at h
    have hofa : isOneFluidApprox cfg.isite2 = false := by
      rw [hsite]; exact isOneFluidApprox_natCast s
    simp only [ofaSites, hofa, Bool.false_eq_true, if_false]
    unfold Site2Is at h ⊢
    split_ifs <;> exact h
  · intro hz
    have hsum : specTotal cfg dvector id = dvector s id := by
      unfold specTotal
      rw [sum_range_single (fun t => dvector t id) s cfg.nspecies hz, if_pos hs]
    rw [hsum]
    exact div_self (by rw [← hsum]; exact ne_of_gt (lt_of_lt_of_le hpos htot))
  · intro hz
    have hsum : specTotalOld cfg dvector id = dvector (s + cfg.nspecies) id := by
      unfold specTotalOld
      rw [sum_range_single (fun t => dvector (t + cfg.nspecies) id) s cfg.nspecies hz, if_pos hs]
    rw [hsum]
    exact div_self (by rw [← hsum]; exact ne_of_gt (lt_of_lt_of_le hpos htotOld))

theorem innerStep_proj (m : MathLib F) (dv : F → F → F) (cfg : Exp6Config F)
    (dvector : Nat → Nat → F) (id : Nat) (tot : Totals F) (fo foOld : F) (i : Nat)
    (s : OFASums F) (j : Nat) :
    let x := fun k => dv (dvector k id) tot.nTotalOFA
    let xo := fun k => dv (dvector (k + cfg.nspecies) id) tot.nTotalOFA_old
    let r := innerStep m dv cfg dvector id tot fo foOld i s j
    r.rm3 = s.rm3 + (if ofaEligible cfg j = true ∧ 0 < fo
      then codeTerm dv cfg x weightRm3 i j else 0) ∧
    r.epsilon = s.epsilon + (if ofaEligible cfg j = true ∧ 0 < fo
      then codeTerm dv cfg x (weightEpsilon m) i j else 0) ∧
    r.alpha = s.alpha + (if ofaEligible cfg j = true ∧ 0 < fo
      then codeTerm dv cfg x (weightAlpha m) i j else 0) ∧
    r.rm3_old = s.rm3_old + (if ofaEligible cfg j = true ∧ 0 < foOld
      then codeTerm dv cfg xo weightRm3 i j else 0) ∧
    r.epsilon_old = s.epsilon_old + (if ofaEligible cfg j = true ∧ 0 < foOld
      then codeTerm dv cfg xo (weightEpsilon m) i j else 0) ∧
    r.alpha_old = s.alpha_old + (if ofaEligible cfg j = true ∧ 0 < foOld
      then codeTerm dv cfg xo (weightAlpha m) i j else 0) := by
  intro x xo r
  simp only [r, x, xo, innerStep, ofaEligible, codeTerm, weightRm3, weightEpsilon, weightAlpha]
  by_cases h1 : skipSpecies cfg j <;> by_cases h2 : pinnedSpecies cfg j <;>
    by_cases h3 : 0 < fo <;> by_cases h4 : 0 < foOld <;>
    simp [h1, h2, h3, h4, mul_assoc]


theorem outerFold_proj (m : MathLib F) (dv : F → F → F) (cfg : Exp6Config F)
    (dvector : Nat → Nat → F) (id : Nat) (tot : Totals F) (fo foOld : F)
    (hofa : (isOneFluidApprox cfg.isite1 || isOneFluidApprox cfg.isite2) = true)
    (proj : OFASums F → F) (T : Nat → Nat → F)
    (hin : ∀ i s j, proj (innerStep m dv cfg dvector id tot fo foOld i s j) = proj s + T i j)
    (init : Resolve F) :
    proj ((List.range cfg.nspecies).foldl
        (outerStep m dv cfg dvector id tot fo foOld) init).sums
      = proj init.sums + ((List.range cfg.nspecies).map (fun i =>
          if ofaEligible cfg i then ((List.range cfg.nspecies).map (T i)).sum else 0)).sum := by
  refine foldl_proj_add (fun r : Resolve F => proj r.sums)
    (outerStep m dv cfg dvector id tot fo foOld) _ ?_ _ init
  intro b i
  simp only [outerStep, hofa, ofaEligible]
  by_cases h1 : skipSpecies cfg i
  · simp [h1]
  · by_cases h2 : pinnedSpecies cfg i
    · simp [h1, h2]
    · simp only [h1, h2, Bool.false_eq_true, if_false, Bool.not_false, Bool.and_self, if_true]
      exact foldl_proj_add proj _ (T i) (hin i) _ _

theorem sum_map_zero {α : Type} (l : List α) : (l.map (fun _ => (0:F))).sum = 0 := by
  induction l with
  | nil => rfl
  | cons a l ih => simp

theorem nested_sum_guard (cfg : Exp6Config F) (c : Prop) [Decidable c] (t : Nat → Nat → F) :
    ((List.range cfg.nspecies).map (fun i =>
      if ofaEligible cfg i then ((List.range cfg.nspecies).map
        (fun j => if ofaEligible cfg j = true ∧ c then t i j else 0)).sum else 0)).sum
    = if c then ((ofaSpecies cfg).map (fun i => ((ofaSpecies cfg).map (t i)).sum)).sum
      else 0 := by
  by_cases hc : c
  · simp only [hc, and_true, if_true]
    unfold ofaSpecies
    rw [← sum_map_ite_filter]
    congr 1
    apply List.map_congr_left
    intro i _
    by_cases hi : ofaEligible cfg i
    · simp only [hi, if_true]
      exact sum_map_ite_filter (ofaEligible cfg) (t i) _
    · simp [hi]
  · simp only [hc, and_false, if_false]
    simp

/-- The six moment accumulators after the second species loop. -/
theorem outerFold_sums (m : MathLib F) (dv : F → F → F) (cfg : Exp6Config F)
    (dvector : Nat → Nat → F) (id : Nat) (tot : Totals F) (fo foOld : F)
    (hofa : (isOneFluidApprox cfg.isite1 || isOneFluidApprox cfg.isite2) = true)
    (init : ParamData F) :
    let x := fun k => dv (dvector k id) tot.nTotalOFA
    let xo := fun k => dv (dvector (k + cfg.nspecies) id) tot.nTotalOFA_old
    let s := (resolveLoop m dv cfg dvector id tot fo foOld init).sums
    s.rm3 = (if 0 < fo then codeMoment dv cfg x weightRm3 else 0) ∧
    s.epsilon = (if 0 < fo then codeMoment dv cfg x (weightEpsilon m) else 0) ∧
    s.alpha = (if 0 < fo then codeMoment dv cfg x (weightAlpha m) else 0) ∧
    s.rm3_old = (if 0 < foOld then codeMoment dv cfg xo weightRm3 else 0) ∧
    s.epsilon_old = (if 0 < foOld then codeMoment dv cfg xo (weightEpsilon m) else 0) ∧
    s.alpha_old = (if 0 < foOld then codeMoment dv cfg xo (weightAlpha m) else 0) := by
  intro x xo s
  have hin := innerStep_proj m dv cfg dvector id tot fo foOld
  simp only [s, codeMoment, resolveLoop]
  refine ⟨?_, ?_, ?_, ?_, ?_, ?_⟩
  · rw [outerFold_proj m dv cfg dvector id tot fo foOld hofa (fun s => s.rm3) _
      (fun i s j => (hin i s j).1), nested_sum_guard]
    simp [x]
  · rw [outerFold_proj m dv cfg dvector id tot fo foOld hofa (fun s => s.epsilon) _
      (fun i s j => (hin i s j).2.1), nested_sum_guard]
    simp [x]
  · rw [outerFold_proj m dv cfg dvector id tot fo foOld hofa (fun s => s.alpha) _
      (fun i s j => (hin i s j).2.2.1), nested_sum_guard]
    simp [x]
  · rw [outerFold_proj m dv cfg dvector id tot fo foOld hofa (fun s => s.rm3_old) _
      (fun i s j => (hin i s j).2.2.2.1), nested_sum_guard]
    simp [xo]
  · rw [outerFold_proj m dv cfg dvector id tot fo foOld hofa (fun s => s.epsilon_old) _
      (fun i s j => (hin i s j).2.2.2.2.1), nested_sum_guard]
    simp [xo]
  · rw [outerFold_proj m dv cfg dvector id tot fo foOld hofa (fun s => s.alpha_old) _
      (fun i s j => (hin i s j).2.2.2.2.2), nested_sum_guard]
    simp [xo]

theorem ofaSites_site1 (m : MathLib F) (dv : F → F → F) (cfg : Exp6Config F) (tot : Totals F)
    (fo foOld : F) (res : Resolve F) (h1 : isOneFluidApprox cfg.isite1 = true) :
    (ofaSites m dv cfg tot fo foOld res).rm1 = fuchslin m dv cfg.fuchslinR tot.nTotalOFA
        (ofaResolve m dv res.sums.rm3 res.sums.epsilon res.sums.alpha).1 ∧
    (ofaSites m dv cfg tot fo foOld res).epsilon1 = fuchslin m dv cfg.fuchslinEpsilon
        tot.nTotalOFA (ofaResolve m dv res.sums.rm3 res.sums.epsilon res.sums.alpha).2.1 ∧
    (ofaSites m dv cfg tot fo foOld res).alpha1
      = (ofaResolve m dv res.sums.rm3 res.sums.epsilon res.sums.alpha).2.2 ∧
    (ofaSites m dv cfg tot fo foOld res).rmOld1 = fuchslin m dv cfg.fuchslinR tot.nTotalOFA_old
        (ofaResolve m dv res.sums.rm3_old res.sums.epsilon_old res.sums.alpha_old).1 ∧
    (ofaSites m dv cfg tot fo foOld res).epsilonOld1 = fuchslin m dv cfg.fuchslinEpsilon
        tot.nTotalOFA_old
        (ofaResolve m dv res.sums.rm3_old res.sums.epsilon_old res.sums.alpha_old).2.1 ∧
    (ofaSites m dv cfg tot fo foOld res).alphaOld1
      = (ofaResolve m dv res.sums.rm3_old res.sums.epsilon_old res.sums.alpha_old).2.2 := by
  simp only [ofaSites, h1, if_true]
  split_ifs <;> exact ⟨rfl, rfl, rfl, rfl, rfl, rfl⟩

theorem ofaSites_site2 (m : MathLib F) (dv : F → F → F) (cfg : Exp6Config F) (tot : Totals F)
    (fo foOld : F) (res : Resolve F) (h2 : isOneFluidApprox cfg.isite2 = true) :
    (ofaSites m dv cfg tot fo foOld res).rm2 = fuchslin m dv cfg.fuchslinR tot.nTotalOFA
        (ofaResolve m dv res.sums.rm3 res.sums.epsilon res.sums.alpha).1 ∧
    (ofaSites m dv cfg tot fo foOld res).epsilon2 = fuchslin m dv cfg.fuchslinEpsilon
        tot.nTotalOFA (ofaResolve m dv res.sums.rm3 res.sums.epsilon res.sums.alpha).2.1 ∧
    (ofaSites m dv cfg tot fo foOld res).alpha2
      = (ofaResolve m dv res.sums.rm3 res.sums.epsilon res.sums.alpha).2.2 ∧
    (ofaSites m dv cfg tot fo foOld res).rmOld2 = fuchslin m dv cfg.fuchslinR tot.nTotalOFA_old
        (ofaResolve m dv res.sums.rm3_old res.sums.epsilon_old res.sums.alpha_old).1 ∧
    (ofaSites m dv cfg tot fo foOld res).epsilonOld2 = fuchslin m dv cfg.fuchslinEpsilon
        tot.nTotalOFA_old
        (ofaResolve m dv res.sums.rm3_old res.sums.epsilon_old res.sums.alpha_old).2.1 ∧
    (ofaSites m dv cfg tot fo foOld res).alphaOld2
      = (ofaResolve m dv res.sums.rm3_old res.sums.epsilon_old res.sums.alpha_old).2.2 := by
  simp only [ofaSites, h2, if_true, and_self]

theorem ofaResolve_zero (m : MathLib F) (dv : F → F → F) (hcbrt : m.cbrt 0 = 0) :
    ofaResolve m dv 0 0 0 = (0, 0, 0) := by
  simp only [ofaResolve, hcbrt]
  rw [if_pos (by norm_num)]

theorem fuchslin_zero (m : MathLib F) (dv : F → F → F) (expo N : F) :
    fuchslin m dv expo N 0 = 0 := by
  simp only [fuchslin]
  split_ifs <;> simp

theorem fuchslin_expo_zero (m : MathLib F) (dv : F → F → F) (N v : F)
    (hpow : ∀ x, m.pow x 0 = 1) : fuchslin m dv 0 N v = v := by
  simp only [fuchslin, lt_irrefl, if_false, hpow, mul_one]

/-- Zero population: the three current moment accumulators stay at zero. -/
theorem sums_zero_of_population_zero (m : MathLib F) (dv : F → F → F) (cfg : Exp6Config F)
    (dvector : Nat → Nat → F) (id : Nat) (init : ParamData F)
    (hdv : ∀ a b, b ≠ 0 → dv a b = a / b)
    (hofa : (isOneFluidApprox cfg.isite1 || isOneFluidApprox cfg.isite2) = true)
    (htot : 1e-8 ≤ specTotal cfg dvector id)
    (htotOld : 1e-8 ≤ specTotalOld cfg dvector id) :
    let tot := getTotals cfg dvector id
    let s := (resolveLoop m dv cfg dvector id tot (dv tot.nTotalOFA tot.nTotal)
      (dv tot.nTotalOFA_old tot.nTotal_old) init).sums
    (specPopulation cfg dvector id = 0 → s.rm3 = 0 ∧ s.epsilon = 0 ∧ s.alpha = 0) ∧
    (specPopulationOld cfg dvector id = 0 →
      s.rm3_old = 0 ∧ s.epsilon_old = 0 ∧ s.alpha_old = 0) := by
  intro tot s
  have hpos : (0:F) < 1e-8 := by norm_num
  have hT : tot.nTotal ≠ 0 := by
    simp only [tot]; rw [getTotals_nTotal]; exact ne_of_gt (lt_of_lt_of_le hpos htot)
  have hTo : tot.nTotal_old ≠ 0 := by
    simp only [tot]; rw [getTotals_nTotal_old]; exact ne_of_gt (lt_of_lt_of_le hpos htotOld)
  have hs := outerFold_sums m dv cfg dvector id tot (dv tot.nTotalOFA tot.nTotal)
    (dv tot.nTotalOFA_old tot.nTotal_old) hofa init
  constructor
  · intro hp
    have h0 : ¬ (0 < dv tot.nTotalOFA tot.nTotal) := by
      simp only [tot]
      rw [getTotals_nTotalOFA cfg dvector id hofa, hp, hdv _ _ hT, zero_div]
      exact lt_irrefl 0
    exact ⟨by rw [hs.1, if_neg h0], by rw [hs.2.1, if_neg h0], by rw [hs.2.2.1, if_neg h0]⟩
  · intro hp
    have h0 : ¬ (0 < dv tot.nTotalOFA_old tot.nTotal_old) := by
      simp only [tot]
      rw [getTotals_nTotalOFA_old cfg dvector id hofa, hp, hdv _ _ hTo, zero_div]
      exact lt_irrefl 0
    exact ⟨by rw [hs.2.2.2.1, if_neg h0], by rw [hs.2.2.2.2.1, if_neg h0],
      by rw [hs.2.2.2.2.2, if_neg h0]⟩

/-- Claim C10. For a one-fluid site of a particle whose eligible population is exactly
zero in a snapshot (totals at least `1e-8`), `getParamsEXP6` returns exactly `rm = 0`,
`epsilon = 0` and `alpha = 0` for that site and snapshot, for every value of the two Fuchslin
exponents and every libm `pow`. The division `dv` is arbitrary on zero divisors, so no
division by zero contributes to the result. -/
theorem ofa_zero_population_resolves_to_zero (m : MathLib F) (dv : F → F → F)
    (cfg : Exp6Config F) (dvector : Nat → Nat → F) (id : Nat) (init : ParamData F)
    (hdv : ∀ a b, b ≠ 0 → dv a b = a / b) (hcbrt : m.cbrt 0 = 0)
    (htot : 1e-8 ≤ specTotal cfg dvector id)
    (htotOld : 1e-8 ≤ specTotalOld cfg dvector id) :
    ∃ p, getParamsEXP6 m dv cfg dvector id init = .ok p ∧
      (isOneFluidApprox cfg.isite1 = true → specPopulation cfg dvector id = 0 →
        p.rm1 = 0 ∧ p.epsilon1 = 0 ∧ p.alpha1 = 0) ∧
      (isOneFluidApprox cfg.isite1 = true → specPopulationOld cfg dvector id = 0 →
        p.rmOld1 = 0 ∧ p.epsilonOld1 = 0 ∧ p.alphaOld1 = 0) ∧
      (isOneFluidApprox cfg.isite2 = true → specPopulation cfg dvector id = 0 →
        p.rm2 = 0 ∧ p.epsilon2 = 0 ∧ p.alpha2 = 0) ∧
      (isOneFluidApprox cfg.isite2 = true → specPopulationOld cfg dvector id = 0 →
        p.rmOld2 = 0 ∧ p.epsilonOld2 = 0 ∧ p.alphaOld2 = 0) := by
  refine ⟨_, getParamsEXP6_ok m dv cfg dvector id init htot htotOld, ?_, ?_, ?_, ?_⟩
  · intro h1 hp
    have hofa : (isOneFluidApprox cfg.isite1 || isOneFluidApprox cfg.isite2) = true := by
      simp [h1]
    obtain ⟨hr, he, ha⟩ :=
      (sums_zero_of_population_zero m dv cfg dvector id init hdv hofa htot htotOld).1 hp
    have hs := ofaSites_site1 m dv cfg (getTotals cfg dvector id)
      (dv (getTotals cfg dvector id).nTotalOFA (getTotals cfg dvector id).nTotal)
      (dv (getTotals cfg dvector id).nTotalOFA_old (getTotals cfg dvector id).nTotal_old)
      (resolveLoop m dv cfg dvector id (getTotals cfg dvector id)
        (dv (getTotals cfg dvector id).nTotalOFA (getTotals cfg dvector id).nTotal)
        (dv (getTotals cfg dvector id).nTotalOFA_old (getTotals cfg dvector id).nTotal_old)
        init) h1
    rw [hs.1, hs.2.1, hs.2.2.1, hr, he, ha, ofaResolve_zero m dv hcbrt]
    exact ⟨fuchslin_zero m dv _ _, fuchslin_zero m dv _ _, rfl⟩
  · intro h1 hp
    have hofa : (isOneFluidApprox cfg.isite1 || isOneFluidApprox cfg.isite2) = true := by
      simp [h1]
    obtain ⟨hr, he, ha⟩ :=
      (sums_zero_of_population_zero m dv cfg dvector id init hdv hofa htot htotOld).2 hp
    have hs := ofaSites_site1 m dv cfg (getTotals cfg dvector id)
      (dv (getTotals cfg dvector id).nTotalOFA (getTotals cfg dvector id).nTotal)
      (dv (getTotals cfg dvector id).nTotalOFA_old (getTotals cfg dvector id).nTotal_old)
      (resolveLoop m dv cfg dvector id (getTotals cfg dvector id)
        (dv (getTotals cfg dvector id).nTotalOFA (getTotals cfg dvector id).nTotal)
        (dv (getTotals cfg dvector id).nTotalOFA_old (getTotals cfg dvector id).nTotal_old)
        init) h1
    rw [hs.2.2.2.1, hs.2.2.2.2.1, hs.2.2.2.2.2, hr, he, ha, ofaResolve_zero m dv hcbrt]
    exact ⟨fuchslin_zero m dv _ _, fuchslin_zero m dv _ _, rfl⟩
  · intro h2 hp
    have hofa : (isOneFluidApprox cfg.isite1 || isOneFluidApprox cfg.isite2) = true := by
      simp [h2]
    obtain ⟨hr, he, ha⟩ :=
      (sums_zero_of_population_zero m dv cfg dvector id init hdv hofa htot htotOld).1 hp
    have hs := ofaSites_site2 m dv cfg (getTotals cfg dvector id)
      (dv (getTotals cfg dvector id).nTotalOFA (getTotals cfg dvector id).nTotal)
      (dv (getTotals cfg dvector id).nTotalOFA_old (getTotals cfg dvector id).nTotal_old)
      (resolveLoop m dv cfg dvector id (getTotals cfg dvector id)
        (dv (getTotals cfg dvector id).nTotalOFA (getTotals cfg dvector id).nTotal)
        (dv (getTotals cfg dvector id).nTotalOFA_old (getTotals cfg dvector id).nTotal_old)
        init) h2
    rw [hs.1, hs.2.1, hs.2.2.1, hr, he, ha, ofaResolve_zero m dv hcbrt]
    exact ⟨fuchslin_zero m dv _ _, fuchslin_zero m dv _ _, rfl⟩
  · intro h2 hp
    have hofa : (isOneFluidApprox cfg.isite1 || isOneFluidApprox cfg.isite2) = true := by
      simp [h2]
    obtain ⟨hr, he, ha⟩ :=
      (sums_zero_of_population_zero m dv cfg dvector id init hdv hofa htot htotOld).2 hp
    have hs := ofaSites_site2 m dv cfg (getTotals cfg dvector id)
      (dv (getTotals cfg dvector id).nTotalOFA (getTotals cfg dvector id).nTotal)
      (dv (getTotals cfg dvector id).nTotalOFA_old (getTotals cfg dvector id).nTotal_old)
      (resolveLoop m dv cfg dvector id (getTotals cfg dvector id)
        (dv (getTotals cfg dvector id).nTotalOFA (getTotals cfg dvector id).nTotal)
        (dv (getTotals cfg dvector id).nTotalOFA_old (getTotals cfg dvector id).nTotal_old)
        init) h2
    rw [hs.2.2.2.1, hs.2.2.2.2.1, hs.2.2.2.2.2, hr, he, ha, ofaResolve_zero m dv hcbrt]
    exact ⟨fuchslin_zero m dv _ _, fuchslin_zero m dv _ _, rfl⟩


theorem codeMoment_eq_specMoment (cfg : Exp6Config F) (x : Nat → F)
    (w : Param F → Param F → F) :
    codeMoment (fun a b => a / b) cfg x w = specMoment cfg x w := by
  simp only [codeMoment, specMoment, codeTerm]
  congr 1
  apply List.map_congr_left
  intro i _
  congr 1
  apply List.map_congr_left
  intro j _
  ring

theorem ofaResolve_triple (m : MathLib F) (rm3 E A : F) :
    OfaTriple m rm3 E A (ofaResolve m (fun a b => a / b) rm3 E A).1
      (ofaResolve m (fun a b => a / b) rm3 E A).2.1
      (ofaResolve m (fun a b => a / b) rm3 E A).2.2 := by
  unfold OfaTriple ofaResolve
  constructor
  · intro h
    simp [h, div_div]
  · intro h
    simp [h]

/-- Positive population: the moment accumulators hold the moments of the specification. -/
theorem sums_of_population_pos (m : MathLib F) (cfg : Exp6Config F)
    (dvector : Nat → Nat → F) (id : Nat) (init : ParamData F)
    (hofa : (isOneFluidApprox cfg.isite1 || isOneFluidApprox cfg.isite2) = true)
    (htot : 1e-8 ≤ specTotal cfg dvector id)
    (htotOld : 1e-8 ≤ specTotalOld cfg dvector id) :
    let dv : F → F → F := fun a b => a / b
    let tot := getTotals cfg dvector id
    let s := (resolveLoop m dv cfg dvector id tot (dv tot.nTotalOFA tot.nTotal)
      (dv tot.nTotalOFA_old tot.nTotal_old) init).sums
    (0 < specPopulation cfg dvector id →
      s.rm3 = specMoment cfg (specMoleFraction cfg dvector id) weightRm3 ∧
      s.epsilon = specMoment cfg (specMoleFraction cfg dvector id) (weightEpsilon m) ∧
      s.alpha = specMoment cfg (specMoleFraction cfg dvector id) (weightAlpha m)) ∧
    (0 < specPopulationOld cfg dvector id →
      s.rm3_old = specMoment cfg (specMoleFractionOld cfg dvector id) weightRm3 ∧
      s.epsilon_old = specMoment cfg (specMoleFractionOld cfg dvector id) (weightEpsilon m) ∧
      s.alpha_old = specMoment cfg (specMoleFractionOld cfg dvector id) (weightAlpha m)) := by
  intro dv tot s
  have hpos : (0:F) < 1e-8 := by norm_num
  have hT : 0 < tot.nTotal := by
    simp only [tot]; rw [getTotals_nTotal]; exact lt_of_lt_of_le hpos htot
  have hTo : 0 < tot.nTotal_old := by
    simp only [tot]; rw [getTotals_nTotal_old]; exact lt_of_lt_of_le hpos htotOld
  have hs := outerFold_sums m dv cfg dvector id tot (dv tot.nTotalOFA tot.nTotal)
    (dv tot.nTotalOFA_old tot.nTotal_old) hofa init
  have hN : tot.nTotalOFA = specPopulation cfg dvector id :=
    getTotals_nTotalOFA cfg dvector id hofa
  have hNo : tot.nTotalOFA_old = specPopulationOld cfg dvector id :=
    getTotals_nTotalOFA_old cfg dvector id hofa
  constructor
  · intro hp
    have h0 : 0 < dv tot.nTotalOFA tot.nTotal := by
      show 0 < tot.nTotalOFA / tot.nTotal
      rw [hN]; exact div_pos hp hT
    have hx : (fun k => dv (dvector k id) tot.nTotalOFA) = specMoleFraction cfg dvector id := by
      funext k
      show dvector k id / tot.nTotalOFA = _
      rw [hN]; rfl
    rw [hs.1, hs.2.1, hs.2.2.1, hx]
    simp only [if_pos h0]
    exact ⟨codeMoment_eq_specMoment _ _ _, codeMoment_eq_specMoment _ _ _,
      codeMoment_eq_specMoment _ _ _⟩
  · intro hp
    have h0 : 0 < dv tot.nTotalOFA_old tot.nTotal_old := by
      show 0 < tot.nTotalOFA_old / tot.nTotal_old
      rw [hNo]; exact div_pos hp hTo
    have hx : (fun k => dv (dvector (k + cfg.nspecies) id) tot.nTotalOFA_old)
        = specMoleFractionOld cfg dvector id := by
      funext k
      show dvector (k + cfg.nspecies) id / tot.nTotalOFA_old = _
      rw [hNo]; rfl
    rw [hs.2.2.2.1, hs.2.2.2.2.1, hs.2.2.2.2.2, hx]
    simp only [if_pos h0]
    exact ⟨codeMoment_eq_specMoment _ _ _, codeMoment_eq_specMoment _ _ _,
      codeMoment_eq_specMoment _ _ _⟩

/-- Claim C9 (amended). For a one-fluid site of a particle whose eligible population is
positive, with both Fuchslin exponents zero, `getParamsEXP6` returns `rm = cbrt(rm3)`,
`epsilon = E/rm3` and `alpha = A/(epsilon*rm3)` for the moments `rm3`, `E`, `A` of the
specification provided `cbrt(rm3)` is at least `1e-16`, and returns `rm = epsilon = alpha = 0`
when `cbrt(rm3)` is below `1e-16`; likewise for the previous snapshot. -/
theorem ofa_moment_resolution (m : MathLib F) (cfg : Exp6Config F)
    (dvector : Nat → Nat → F) (id : Nat) (init : ParamData F)
    (hpow : ∀ x, m.pow x 0 = 1)
    (hR : cfg.fuchslinR = 0) (hE : cfg.fuchslinEpsilon = 0)
    (htot : 1e-8 ≤ specTotal cfg dvector id)
    (htotOld : 1e-8 ≤ specTotalOld cfg dvector id) :
    ∃ p, getParamsEXP6 m (fun a b => a / b) cfg dvector id init = .ok p ∧
      (isOneFluidApprox cfg.isite1 = true → 0 < specPopulation cfg dvector id →
        OfaTriple m (specMoment cfg (specMoleFraction cfg dvector id) weightRm3)
          (specMoment cfg (specMoleFraction cfg dvector id) (weightEpsilon m))
          (specMoment cfg (specMoleFraction cfg dvector id) (weightAlpha m))
          p.rm1 p.epsilon1 p.alpha1) ∧
      (isOneFluidApprox cfg.isite1 = true → 0 < specPopulationOld cfg dvector id →
        OfaTriple m (specMoment cfg (specMoleFractionOld cfg dvector id) weightRm3)
          (specMoment cfg (specMoleFractionOld cfg dvector id) (weightEpsilon m))
          (specMoment cfg (specMoleFractionOld cfg dvector id) (weightAlpha m))
          p.rmOld1 p.epsilonOld1 p.alphaOld1) ∧
      (isOneFluidApprox cfg.isite2 = true → 0 < specPopulation cfg dvector id →
        OfaTriple m (specMoment cfg (specMoleFraction cfg dvector id) weightRm3)
          (specMoment cfg (specMoleFraction cfg dvector id) (weightEpsilon m))
          (specMoment cfg (specMoleFraction cfg dvector id) (weightAlpha m))
          p.rm2 p.epsilon2 p.alpha2) ∧
      (isOneFluidApprox cfg.isite2 = true → 0 < specPopulationOld cfg dvector id →
        OfaTriple m (specMoment cfg (specMoleFractionOld cfg dvector id) weightRm3)
          (specMoment cfg (specMoleFractionOld cfg dvector id) (weightEpsilon m))
          (specMoment cfg (specMoleFractionOld cfg dvector id) (weightAlpha m))
          p.rmOld2 p.epsilonOld2 p.alphaOld2) := by
  refine ⟨_, getParamsEXP6_ok m _ cfg dvector id init htot htotOld, ?_, ?_, ?_, ?_⟩
  · intro h1 hp
    have hofa : (isOneFluidApprox cfg.isite1 || isOneFluidApprox cfg.isite2) = true := by
      simp [h1]
    obtain ⟨hr, he, ha⟩ := (sums_of_population_pos m cfg dvector id init hofa htot htotOld).1 hp
    have hs := ofaSites_site1 m (fun a b => a / b) cfg (getTotals cfg dvector id)
      ((getTotals cfg dvector id).nTotalOFA / (getTotals cfg dvector id).nTotal)
      ((getTotals cfg dvector id).nTotalOFA_old / (getTotals cfg dvector id).nTotal_old)
      (resolveLoop m (fun a b => a / b) cfg dvector id (getTotals cfg dvector id)
        ((getTotals cfg dvector id).nTotalOFA / (getTotals cfg dvector id).nTotal)
        ((getTotals cfg dvector id).nTotalOFA_old / (getTotals cfg dvector id).nTotal_old)
        init) h1
    rw [hs.1, hs.2.1, hs.2.2.1, hR, hE, fuchslin_expo_zero m _ _ _ hpow,
      fuchslin_expo_zero m _ _ _ hpow, hr, he, ha]
    exact ofaResolve_triple m _ _ _
  · intro h1 hp
    have hofa : (isOneFluidApprox cfg.isite1 || isOneFluidApprox cfg.isite2) = true := by
      simp [h1]
    obtain ⟨hr, he, ha⟩ := (sums_of_population_pos m cfg dvector id init hofa htot htotOld).2 hp
    have hs := ofaSites_site1 m (fun a b => a / b) cfg (getTotals cfg dvector id)
      ((getTotals cfg dvector id).nTotalOFA / (getTotals cfg dvector id).nTotal)
      ((getTotals cfg dvector id).nTotalOFA_old / (getTotals cfg dvector id).nTotal_old)
      (resolveLoop m (fun a b => a / b) cfg dvector id (getTotals cfg dvector id)
        ((getTotals cfg dvector id).nTotalOFA / (getTotals cfg dvector id).nTotal)
        ((getTotals cfg dvector id).nTotalOFA_old / (getTotals cfg dvector id).nTotal_old)
        init) h1
    rw [hs.2.2.2.1, hs.2.2.2.2.1, hs.2.2.2.2.2, hR, hE, fuchslin_expo_zero m _ _ _ hpow,
      fuchslin_expo_zero m _ _ _ hpow, hr, he, ha]
    exact ofaResolve_triple m _ _ _
  · intro h2 hp
    have hofa : (isOneFluidApprox cfg.isite1 || isOneFluidApprox cfg.isite2) = true := by
      simp [h2]
    obtain ⟨hr, he, ha⟩ := (sums_of_population_pos m cfg dvector id init hofa htot htotOld).1 hp
    have hs := ofaSites_site2 m (fun a b => a / b) cfg (getTotals cfg dvector id)
      ((getTotals cfg dvector id).nTotalOFA / (getTotals cfg dvector id).nTotal)
      ((getTotals cfg dvector id).nTotalOFA_old / (getTotals cfg dvector id).nTotal_old)
      (resolveLoop m (fun a b => a / b) cfg dvector id (getTotals cfg dvector id)
        ((getTotals cfg dvector id).nTotalOFA / (getTotals cfg dvector id).nTotal)
        ((getTotals cfg dvector id).nTotalOFA_old / (getTotals cfg dvector id).nTotal_old)
        init) h2
    rw [hs.1, hs.2.1, hs.2.2.1, hR, hE, fuchslin_expo_zero m _ _ _ hpow,
      fuchslin_expo_zero m _ _ _ hpow, hr, he, ha]
    exact ofaResolve_triple m _ _ _
  · intro h2 hp
    have hofa : (isOneFluidApprox cfg.isite1 || isOneFluidApprox cfg.isite2) = true := by
      simp [h2]
    obtain ⟨hr, he, ha⟩ := (sums_of_population_pos m cfg dvector id init hofa htot htotOld).2 hp
    have hs := ofaSites_site2 m (fun a b => a / b) cfg (getTotals cfg dvector id)
      ((getTotals cfg dvector id).nTotalOFA / (getTotals cfg dvector id).nTotal)
      ((getTotals cfg dvector id).nTotalOFA_old / (getTotals cfg dvector id).nTotal_old)
      (resolveLoop m (fun a b => a / b) cfg dvector id (getTotals cfg dvector id)
        ((getTotals cfg dvector id).nTotalOFA / (getTotals cfg dvector id).nTotal)
        ((getTotals cfg dvector id).nTotalOFA_old / (getTotals cfg dvector id).nTotal_old)
        init) h2
    rw [hs.2.2.2.1, hs.2.2.2.2.1, hs.2.2.2.2.2, hR, hE, fuchslin_expo_zero m _ _ _ hpow,
      fuchslin_expo_zero m _ _ _ hpow, hr, he, ha]
    exact ofaResolve_triple m _ _ _

end Resolver

/-! ### Claims on the pair loop of compute -/

section PairLoop

variable {F : Type} [LinearOrderedField F]

theorem computePairOld_closed (m : MathLib F) (cfg : Exp6Config F) (env : PairEnv F)
    (g : PairGeom F) (factor_lj : F) (pi pj : ParamData F) (i j : Nat) (st : ComputeState F)
    (hg : ¬ oldGate m pi pj) :
    computePairOld m cfg env g factor_lj pi pj i j st = .ok st := by
  unfold oldGate at hg
  simp only [computePairOld]
  rw [if_neg hg]

theorem computePairOld_error (m : MathLib F) (cfg : Exp6Config F) (env : PairEnv F)
    (g : PairGeom F) (factor_lj : F) (pi pj : ParamData F) (i j : Nat) (st : ComputeState F)
    (hg : oldGate m pi pj) (ha : oldAlphaSix m pi pj) :
    computePairOld m cfg env g factor_lj pi pj i j st
      = .error "alpha_ij is 6.0 in pair exp6" := by
  unfold oldGate at hg
  unfold oldAlphaSix at ha
  simp only [computePairOld]
  rw [if_pos hg, if_pos ha]

theorem computePairOld_open (m : MathLib F) (cfg : Exp6Config F) (env : PairEnv F)
    (g : PairGeom F) (factor_lj : F) (pi pj : ParamData F) (i j : Nat) (st : ComputeState F)
    (hg : oldGate m pi pj) (ha : ¬ oldAlphaSix m pi pj) :
    ∃ st1, computePairOld m cfg env g factor_lj pi pj i j st = .ok st1 ∧
      st1.f = st.f ∧ st1.uCGnew = st.uCGnew ∧ st1.tally = st.tally ∧
      st1.evdwlOld = pairEvdwlOld m cfg g factor_lj pi pj ∧
      mixSites m cfg.isite1 cfg.isite2 pi.fractionOld1 pj.fractionOld2 pi.fractionOld2
        pj.fractionOld1 st1.fpairOldEXP6_12 st1.fpairOldEXP6_21
        = pairFpairOld m cfg g factor_lj pi pj ∧
      st1.uCG = (if env.newton_pair ∨ j < env.nlocal then
          addAt (addAt st.uCG i (0.5 * pairEvdwlOld m cfg g factor_lj pi pj)) j
            (0.5 * pairEvdwlOld m cfg g factor_lj pi pj)
        else addAt st.uCG i (0.5 * pairEvdwlOld m cfg g factor_lj pi pj)) := by
  unfold oldGate at hg
  unfold oldAlphaSix at ha
  simp only [computePairOld]
  rw [if_pos hg, if_neg ha]
  exact ⟨_, rfl, rfl, rfl, rfl, rfl, rfl, rfl⟩

theorem computePairNew_closed (m : MathLib F) (cfg : Exp6Config F) (env : PairEnv F)
    (g : PairGeom F) (factor_lj : F) (pi pj : ParamData F) (i j : Nat) (delx dely delz : F)
    (st : ComputeState F) (hg : ¬ newGate m pi pj) :
    computePairNew m cfg env g factor_lj pi pj i j delx dely delz st = .ok st := by
  unfold newGate at hg
  simp only [computePairNew]
  rw [if_neg hg]

theorem computePairNew_error (m : MathLib F) (cfg : Exp6Config F) (env : PairEnv F)
    (g : PairGeom F) (factor_lj : F) (pi pj : ParamData F) (i j : Nat) (delx dely delz : F)
    (st : ComputeState F) (hg : newGate m pi pj) (ha : newAlphaSix m pi pj) :
    computePairNew m cfg env g factor_lj pi pj i j delx dely delz st
      = .error "alpha_ij is 6.0 in pair exp6" := by
  unfold newGate at hg
  unfold newAlphaSix at ha
  simp only [computePairNew]
  rw [if_pos hg, if_pos ha]

theorem computePairNew_open (m : MathLib F) (cfg : Exp6Config F) (env : PairEnv F)
    (g : PairGeom F) (factor_lj : F) (pi pj : ParamData F) (i j : Nat) (delx dely delz : F)
    (st : ComputeState F) (hg : newGate m pi pj) (ha : ¬ newAlphaSix m pi pj) :
    ∃ st2, computePairNew m cfg env g factor_lj pi pj i j delx dely delz st = .ok st2 ∧
      st2.f = applyForce env st.f i j delx dely delz
        (mixSites m cfg.isite1 cfg.isite2 pi.fractionOld1 pj.fractionOld2 pi.fractionOld2
          pj.fractionOld1 st.fpairOldEXP6_12 st.fpairOldEXP6_21) ∧
      st2.uCG = st.uCG ∧ st2.evdwlOld = st.evdwlOld ∧
      st2.fpairOldEXP6_12 = st.fpairOldEXP6_12 ∧ st2.fpairOldEXP6_21 = st.fpairOldEXP6_21 ∧
      st2.uCGnew = (if env.newton_pair ∨ j < env.nlocal then
          addAt (addAt st.uCGnew i (0.5 * pairEvdwlNew m cfg g factor_lj pi pj)) j
            (0.5 * pairEvdwlNew m cfg g factor_lj pi pj)
        else addAt st.uCGnew i (0.5 * pairEvdwlNew m cfg g factor_lj pi pj)) ∧
      st2.tally = (if env.evflag then
          st.tally ++ [{ i := i, j := j, nlocal := env.nlocal, newton_pair := env.newton_pair,
                         evdwl := st.evdwlOld, ecoul := 0,
                         fpair := mixSites m cfg.isite1 cfg.isite2 pi.fractionOld1
                           pj.fractionOld2 pi.fractionOld2 pj.fractionOld1
                           st.fpairOldEXP6_12 st.fpairOldEXP6_21,
                         delx := delx, dely := dely, delz := delz }]
        else st.tally) := by
  unfold newGate at hg
  unfold newAlphaSix at ha
  simp only [computePairNew]
  rw [if_pos hg, if_neg ha]
  exact ⟨_, rfl, rfl, rfl, rfl, rfl, rfl, rfl, rfl⟩

theorem computePair_within (m : MathLib F) (cfg : Exp6Config F) (env : PairEnv F)
    (pd : Nat → ParamData F) (i jraw : Nat) (st : ComputeState F)
    (hcut : pairRsq env i jraw < pairCutsq env i jraw) :
    computePair m cfg env pd i st jraw
      = (computePairOld m cfg env (pairGeomOf m env i jraw) (pairFactor env jraw) (pd i)
          (pd (env.neighmask jraw)) i (env.neighmask jraw) st).bind
        (computePairNew m cfg env (pairGeomOf m env i jraw) (pairFactor env jraw) (pd i)
          (pd (env.neighmask jraw)) i (env.neighmask jraw) (pairDel env i jraw 0)
          (pairDel env i jraw 1) (pairDel env i jraw 2)) := by
  simp only [computePair, hcut, if_true, pairGeomOf]

theorem computePair_beyond (m : MathLib F) (cfg : Exp6Config F) (env : PairEnv F)
    (pd : Nat → ParamData F) (i jraw : Nat) (st : ComputeState F)
    (hcut : ¬ pairRsq env i jraw < pairCutsq env i jraw) :
    computePair m cfg env pd i st jraw = .ok st := by
  simp only [computePair, hcut, if_false]


/-- Claim C6 (amended). For a pair within the cutoff, a directed mixed alpha equal to 6.0
raises the fatal error of lines 290 and 384 when it belongs to a snapshot whose
block is evaluated, that is whose two directed `rm` mixes are both nonzero (guards of lines
288 and 382); a snapshot whose block is skipped is not tested. Whenever the pair is processed
without error, every evaluated block has `alpha_ij - 6 ≠ 0` for both directions, so the
division by `alpha_ij - 6` is never evaluated with a zero divisor. -/
theorem alpha_six_raises_in_evaluated_block (m : MathLib F) (cfg : Exp6Config F)
    (env : PairEnv F) (pd : Nat → ParamData F) (i jraw : Nat) (st : ComputeState F)
    (hcut : pairRsq env i jraw < pairCutsq env i jraw) :
    (oldGate m (pd i) (pd (env.neighmask jraw)) →
      oldAlphaSix m (pd i) (pd (env.neighmask jraw)) →
      computePair m cfg env pd i st jraw = .error "alpha_ij is 6.0 in pair exp6") ∧
    (newGate m (pd i) (pd (env.neighmask jraw)) →
      newAlphaSix m (pd i) (pd (env.neighmask jraw)) →
      computePair m cfg env pd i st jraw = .error "alpha_ij is 6.0 in pair exp6") ∧
    (∀ st', computePair m cfg env pd i st jraw = .ok st' →
      (oldGate m (pd i) (pd (env.neighmask jraw)) →
        (mixPair m (pd i) (pd (env.neighmask jraw))).alphaOld12_ij - 6 ≠ 0 ∧
        (mixPair m (pd i) (pd (env.neighmask jraw))).alphaOld21_ij - 6 ≠ 0) ∧
      (newGate m (pd i) (pd (env.neighmask jraw)) →
        (mixPair m (pd i) (pd (env.neighmask jraw))).alpha12_ij - 6 ≠ 0 ∧
        (mixPair m (pd i) (pd (env.neighmask jraw))).alpha21_ij - 6 ≠ 0)) := by
  have hold : oldGate m (pd i) (pd (env.neighmask jraw)) →
      oldAlphaSix m (pd i) (pd (env.neighmask jraw)) →
      computePair m cfg env pd i st jraw = .error "alpha_ij is 6.0 in pair exp6" := by
    intro hg ha
    rw [computePair_within m cfg env pd i jraw st hcut,
      computePairOld_error m cfg env _ _ _ _ _ _ st hg ha]
    rfl
  have hnew : newGate m (pd i) (pd (env.neighmask jraw)) →
      newAlphaSix m (pd i) (pd (env.neighmask jraw)) →
      computePair m cfg env pd i st jraw = .error "alpha_ij is 6.0 in pair exp6" := by
    intro hg ha
    by_cases hog : oldGate m (pd i) (pd (env.neighmask jraw))
    · by_cases hoa : oldAlphaSix m (pd i) (pd (env.neighmask jraw))
      · exact hold hog hoa
      · obtain ⟨st1, h1, _⟩ := computePairOld_open m cfg env (pairGeomOf m env i jraw)
          (pairFactor env jraw) (pd i) (pd (env.neighmask jraw)) i (env.neighmask jraw) st
          hog hoa
        rw [computePair_within m cfg env pd i jraw st hcut, h1]
        exact computePairNew_error m cfg env _ _ _ _ _ _ _ _ _ st1 hg ha
    · rw [computePair_within m cfg env pd i jraw st hcut,
        computePairOld_closed m cfg env _ _ _ _ _ _ st hog]
      exact computePairNew_error m cfg env _ _ _ _ _ _ _ _ _ st hg ha
  refine ⟨hold, hnew, ?_⟩
  intro st' hok
  constructor
  · intro hg
    have hno : ¬ oldAlphaSix m (pd i) (pd (env.neighmask jraw)) := by
      intro ha
      rw [hold hg ha] at hok
      cases hok
    unfold oldAlphaSix at hno
    exact ⟨fun h => hno (Or.inr (sub_eq_zero.mp h)), fun h => hno (Or.inl (sub_eq_zero.mp h))⟩
  · intro hg
    have hno : ¬ newAlphaSix m (pd i) (pd (env.neighmask jraw)) := by
      intro ha
      rw [hnew hg ha] at hok
      cases hok
    unfold newAlphaSix at hno
    exact ⟨fun h => hno (Or.inr (sub_eq_zero.mp h)), fun h => hno (Or.inl (sub_eq_zero.mp h))⟩

theorem pairFpairOld_congr (m : MathLib F) (cfg : Exp6Config F) (g : PairGeom F)
    (factor_lj : F) (pi pj qi qj : ParamData F) (hi : SameOld qi pi) (hj : SameOld qj pj) :
    pairFpairOld m cfg g factor_lj qi qj = pairFpairOld m cfg g factor_lj pi pj := by
  obtain ⟨a1, a2, a3, a4, a5, a6, a7, a8⟩ := hi
  obtain ⟨b1, b2, b3, b4, b5, b6, b7, b8⟩ := hj
  simp only [pairFpairOld, mixPair, a1, a2, a3, a4, a5, a6, a7, a8, b1, b2, b3, b4, b5, b6,
    b7, b8]

/-- The state after a pair within the cutoff whose two blocks are both evaluated. -/
theorem computePair_both (m : MathLib F) (cfg : Exp6Config F)
    (env : PairEnv F) (pd : Nat → ParamData F) (i jraw : Nat) (st : ComputeState F)
    (hcut : pairRsq env i jraw < pairCutsq env i jraw)
    (hog : oldGate m (pd i) (pd (env.neighmask jraw)))
    (hoa : ¬ oldAlphaSix m (pd i) (pd (env.neighmask jraw)))
    (hng : newGate m (pd i) (pd (env.neighmask jraw)))
    (hna : ¬ newAlphaSix m (pd i) (pd (env.neighmask jraw))) :
    ∃ st', computePair m cfg env pd i st jraw = .ok st' ∧
      st'.f = applyForce env st.f i (env.neighmask jraw) (pairDel env i jraw 0)
        (pairDel env i jraw 1) (pairDel env i jraw 2)
        (pairFpairOld m cfg (pairGeomOf m env i jraw) (pairFactor env jraw) (pd i)
          (pd (env.neighmask jraw))) ∧
      st'.evdwlOld = pairEvdwlOld m cfg (pairGeomOf m env i jraw) (pairFactor env jraw)
        (pd i) (pd (env.neighmask jraw)) ∧
      st'.tally = (if env.evflag then
          st.tally ++ [{ i := i, j := env.neighmask jraw, nlocal := env.nlocal,
                         newton_pair := env.newton_pair,
                         evdwl := pairEvdwlOld m cfg (pairGeomOf m env i jraw)
                           (pairFactor env jraw) (pd i) (pd (env.neighmask jraw)),
                         ecoul := 0,
                         fpair := pairFpairOld m cfg (pairGeomOf m env i jraw)
                           (pairFactor env jraw) (pd i) (pd (env.neighmask jraw)),
                         delx := pairDel env i jraw 0, dely := pairDel env i jraw 1,
                         delz := pairDel env i jraw 2 }]
        else st.tally) := by
  obtain ⟨st1, h1, hf1, _, ht1, he1, hm1, _⟩ := computePairOld_open m cfg env
    (pairGeomOf m env i jraw) (pairFactor env jraw) (pd i) (pd (env.neighmask jraw)) i
    (env.neighmask jraw) st hog hoa
  obtain ⟨st2, h2, hf2, _, he2, _, _, _, ht2⟩ := computePairNew_open m cfg env
    (pairGeomOf m env i jraw) (pairFactor env jraw) (pd i) (pd (env.neighmask jraw)) i
    (env.neighmask jraw) (pairDel env i jraw 0) (pairDel env i jraw 1) (pairDel env i jraw 2)
    st1 hng hna
  refine ⟨st2, ?_, ?_, ?_, ?_⟩
  · rw [computePair_within m cfg env pd i jraw st hcut, h1]
    exact h2
  · rw [hf2, hm1, hf1]
  · rw [he2, he1]
  · rw [ht2, hm1, he1, ht1]

/-- Claim C1 (amended). For a pair within the cutoff to which a force is applied (current
block evaluated) and whose previous-snapshot block is evaluated, the applied force magnitude
`fpair` is the mix, by the previous site fractions, of the directed force magnitudes
evaluated from the previous-snapshot mixes: it is determined by the previous-snapshot fields
of the two particles, and the current-snapshot parameters only decide whether the force is
applied. -/
theorem force_from_previous_snapshot (m : MathLib F) (cfg : Exp6Config F)
    (env : PairEnv F) (pd : Nat → ParamData F) (i jraw : Nat) (st : ComputeState F)
    (hcut : pairRsq env i jraw < pairCutsq env i jraw)
    (hog : oldGate m (pd i) (pd (env.neighmask jraw)))
    (hoa : ¬ oldAlphaSix m (pd i) (pd (env.neighmask jraw)))
    (hng : newGate m (pd i) (pd (env.neighmask jraw)))
    (hna : ¬ newAlphaSix m (pd i) (pd (env.neighmask jraw))) :
    (∃ st', computePair m cfg env pd i st jraw = .ok st' ∧
      st'.f = applyForce env st.f i (env.neighmask jraw) (pairDel env i jraw 0)
        (pairDel env i jraw 1) (pairDel env i jraw 2)
        (pairFpairOld m cfg (pairGeomOf m env i jraw) (pairFactor env jraw) (pd i)
          (pd (env.neighmask jraw)))) ∧
    (∀ qi qj : ParamData F, SameOld qi (pd i) → SameOld qj (pd (env.neighmask jraw)) →
      pairFpairOld m cfg (pairGeomOf m env i jraw) (pairFactor env jraw) qi qj
        = pairFpairOld m cfg (pairGeomOf m env i jraw) (pairFactor env jraw) (pd i)
            (pd (env.neighmask jraw))) := by
  constructor
  · obtain ⟨st', hok, hf, _⟩ := computePair_both m cfg env pd i jraw st hcut hog hoa hng hna
    exact ⟨st', hok, hf⟩
  · intro qi qj hi hj
    exact pairFpairOld_congr m cfg _ _ _ _ qi qj hi hj

end PairLoop

/-! ### Concrete scenarios: witnesses, counterexamples and failing inputs -/

section Concrete

theorem exp_neg_six_le : Real.exp (-6) ≤ 0.04 := by
  have h1 : (25:ℝ) ≤ Real.exp 6 :=
    le_trans (by norm_num) (Real.quadratic_le_exp_of_nonneg (by norm_num : (0:ℝ) ≤ 6))
  rw [Real.exp_neg, inv_le_comm₀ (Real.exp_pos 6) (by norm_num)]
  exact le_trans (by norm_num) h1

/-- The directed evaluation for two A sites at separation 3 with cutoff 10: the outer branch
is taken and both the force term and the energy are negative. -/
theorem exp6Directed_AA (m : MathLib ℝ) (hm : IsRealLib m) (factor_lj : ℝ) :
    (exp6Directed m (pairGeom m 9 100) factor_lj 12 1 2).forceExp6 < 0 ∧
    (exp6Directed m (pairGeom m 9 100) factor_lj 12 1 2).evdwl < 0 ∧
    (exp6Directed m (pairGeom m 9 100) factor_lj 12 1 2).fpair
      = factor_lj * (exp6Directed m (pairGeom m 9 100) factor_lj 12 1 2).forceExp6 * (1 / 9) := by
  have h3 : m.sqrt 9 = 3 := by
    rw [show (9:ℝ) = 3 * 3 by norm_num]; exact sqrt_sq_real m hm 3 (by norm_num)
  have h10 : m.sqrt 100 = 10 := by
    rw [show (100:ℝ) = 10 * 10 by norm_num]; exact sqrt_sq_real m hm 10 (by norm_num)
  have hrin : ¬ (pairGeom m 9 100).r < (exp6Terms m (pairGeom m 9 100) 12 1 2).rin1 := by
    show ¬ m.sqrt 9 < shift * 2 * func_rin m 12
    rw [h3]
    have := func_rin_le_one m hm 12 (by norm_num)
    simp only [shift]
    linarith
  have hrexp : expValue m (12 * (1 - m.sqrt 9 * (1 / 2))) = Real.exp (-6) := by
    rw [h3, expValue_eq_exp m hm _ (by norm_num)]
    congr 1; norm_num
  have hE := exp_neg_six_le
  have hEpos := Real.exp_pos (-6)
  have hC0 := expValue_nonneg m hm (-48)
  have hforce : outerForceExp6 (pairGeom m 9 100) (exp6Terms m (pairGeom m 9 100) 12 1 2) < 0 := by
    show 1 / (12 - 6) * (6 * 12) *
        (m.sqrt 9 * expValue m (12 * (1 - m.sqrt 9 * (1 / 2))) * (1 / 2)
          - 2 * 2 * (2 * 2) * (2 * 2) * (1 / 9 * (1 / 9) * (1 / 9)))
      + m.sqrt 9 * (-(1 / (12 - 6)) * (6 * 12) *
          (expValue m (12 * (1 - m.sqrt 100 * (1 / 2))) * (1 / 2)
            - 1 / m.sqrt 100 * (2 * 2 * (2 * 2) * (2 * 2))
              * (1 / 100 * (1 / 100) * (1 / 100)))) < 0
    rw [hrexp, h3, h10]
    norm_num
    linarith
  have henergy : outerEvdwl (pairGeom m 9 100) 12 (exp6Terms m (pairGeom m 9 100) 12 1 2) < 0 := by
    show 1 / (12 - 6) * (6 * expValue m (12 * (1 - m.sqrt 9 * (1 / 2)))
          - 12 * (2 * 2 * (2 * 2) * (2 * 2)) * (1 / 9 * (1 / 9) * (1 / 9)))
        - 1 / (12 - 6) * (6 * expValue m (12 * (1 - m.sqrt 100 * (1 / 2)))
          - 12 * (2 * 2 * (2 * 2) * (2 * 2)) * (1 / 100 * (1 / 100) * (1 / 100)))
        - -(1 / (12 - 6)) * (6 * 12) *
          (expValue m (12 * (1 - m.sqrt 100 * (1 / 2))) * (1 / 2)
            - 1 / m.sqrt 100 * (2 * 2 * (2 * 2) * (2 * 2))
              * (1 / 100 * (1 / 100) * (1 / 100))) * (m.sqrt 9 - m.sqrt 100) < 0
    rw [hrexp, h3, h10]
    norm_num
    linarith
  simp only [exp6Directed, hrin, if_false]
  refine ⟨hforce, henergy, ?_⟩
  simp only [pairGeom]


/-- Geometry of the list entry `j = i + 1` of atom `i` on the line. -/
theorem lineEnv_pair {F : Type} [LinearOrderedField F] (n i : Nat) (hi : i + 1 < 2 ^ 30) :
    (lineEnv n : PairEnv F).neighmask (i + 1) = i + 1 ∧
    pairFactor (lineEnv n : PairEnv F) (i + 1) = 1 ∧
    pairDel (lineEnv n : PairEnv F) i (i + 1) 0 = -3 ∧
    pairDel (lineEnv n : PairEnv F) i (i + 1) 1 = 0 ∧
    pairDel (lineEnv n : PairEnv F) i (i + 1) 2 = 0 ∧
    pairRsq (lineEnv n : PairEnv F) i (i + 1) = 9 ∧
    pairCutsq (lineEnv n : PairEnv F) i (i + 1) = 100 := by
  have hmod : (i + 1) % 2 ^ 30 = i + 1 := Nat.mod_eq_of_lt hi
  have hd0 : pairDel (lineEnv n : PairEnv F) i (i + 1) 0 = -3 := by
    simp only [pairDel, lineEnv, hmod, if_true]
    push_cast
    ring
  have hd1 : pairDel (lineEnv n : PairEnv F) i (i + 1) 1 = 0 := by
    simp [pairDel, lineEnv]
  have hd2 : pairDel (lineEnv n : PairEnv F) i (i + 1) 2 = 0 := by
    simp [pairDel, lineEnv]
  refine ⟨hmod, rfl, hd0, hd1, hd2, ?_, rfl⟩
  simp only [pairRsq, hd0, hd1, hd2]
  norm_num

theorem mixPair_likeA (m : MathLib ℝ) (hm : IsRealLib m) (fr fo fr' fo' : ℝ) :
    mixPair m (likeA fr fo) (likeA fr' fo') =
      { alphaOld12_ij := 12, rmOld12_ij := 2, epsilonOld12_ij := 1,
        alphaOld21_ij := 12, rmOld21_ij := 2, epsilonOld21_ij := 1,
        alpha12_ij := 12, rm12_ij := 2, epsilon12_ij := 1,
        alpha21_ij := 12, rm21_ij := 2, epsilon21_ij := 1 } := by
  have h12 : m.sqrt (12 * 12) = 12 := sqrt_sq_real m hm 12 (by norm_num)
  have h1 : m.sqrt (1 * 1) = 1 := sqrt_sq_real m hm 1 (by norm_num)
  simp only [mixPair, likeA, h12, h1]
  norm_num

theorem gates_likeA (m : MathLib ℝ) (hm : IsRealLib m) (fr fo fr' fo' : ℝ) :
    oldGate m (likeA fr fo) (likeA fr' fo') ∧ ¬ oldAlphaSix m (likeA fr fo) (likeA fr' fo') ∧
    newGate m (likeA fr fo) (likeA fr' fo') ∧ ¬ newAlphaSix m (likeA fr fo) (likeA fr' fo') := by
  simp only [oldGate, oldAlphaSix, newGate, newAlphaSix, mixPair_likeA m hm]
  norm_num

/-- Witness of claim C1 (amended) over the reals: two particles of pure species A (both
sites pinned to A) at separation 3 with cutoff 10. -/
theorem force_from_previous_snapshot_witness :
    let m : MathLib ℝ := ⟨Real.sqrt, Real.exp,
      fun x => if x < 0 then -(-x) ^ (3:ℝ)⁻¹ else x ^ (3:ℝ)⁻¹, fun x y => x ^ y⟩
    ∃ st', computePair m (scenarioConfig 0 0) (lineEnv 2) (fun _ => pureA) 0 (startState 0) 1
        = .ok st' ∧
      st'.f = applyForce (lineEnv 2) (startState 0).f 0 ((lineEnv 2 : PairEnv ℝ).neighmask 1)
        (pairDel (lineEnv 2) 0 1 0) (pairDel (lineEnv 2) 0 1 1) (pairDel (lineEnv 2) 0 1 2)
        (pairFpairOld m (scenarioConfig 0 0) (pairGeomOf m (lineEnv 2) 0 1)
          (pairFactor (lineEnv 2 : PairEnv ℝ) 1) pureA pureA) := by
  intro m
  have hm : IsRealLib m := ⟨rfl, rfl, fun _ => rfl, fun _ _ => rfl⟩
  have hp := lineEnv_pair (F := ℝ) 2 0 (by norm_num)
  have hg := gates_likeA m hm 1 1 1 1
  exact (force_from_previous_snapshot m (scenarioConfig 0 0) (lineEnv 2) (fun _ => pureA) 0 1
    (startState 0) (by rw [hp.2.2.2.2.2.1, hp.2.2.2.2.2.2]; norm_num)
    hg.1 hg.2.1 hg.2.2.1 hg.2.2.2).1

/-- Witness of claim C6 (amended) over the reals: for the pair of pure A particles the pair
is processed and no evaluated block has `alpha_ij = 6`; for two particles with alpha 6 and
`rm = 2` on both sites the fatal error is raised. -/
theorem alpha_six_raises_in_evaluated_block_witness :
    let m : MathLib ℝ := ⟨Real.sqrt, Real.exp,
      fun x => if x < 0 then -(-x) ^ (3:ℝ)⁻¹ else x ^ (3:ℝ)⁻¹, fun x y => x ^ y⟩
    let six : ParamData ℝ :=
      { alphaSixRmZero with rm1 := 2, rm2 := 2, rmOld1 := 2, rmOld2 := 2 }
    pairRsq (lineEnv 2 : PairEnv ℝ) 0 1 < pairCutsq (lineEnv 2 : PairEnv ℝ) 0 1 ∧
    (∀ st', computePair m (scenarioConfig 0 0) (lineEnv 2) (fun _ => pureA) 0 (startState 0) 1
        = .ok st' →
      (oldGate m pureA pureA →
        (mixPair m pureA pureA).alphaOld12_ij - 6 ≠ 0 ∧
        (mixPair m pureA pureA).alphaOld21_ij - 6 ≠ 0) ∧
      (newGate m pureA pureA →
        (mixPair m pureA pureA).alpha12_ij - 6 ≠ 0 ∧
        (mixPair m pureA pureA).alpha21_ij - 6 ≠ 0)) ∧
    oldGate m six six ∧ oldAlphaSix m six six ∧
    computePair m (scenarioConfig 0 0) (lineEnv 2) (fun _ => six) 0 (startState 0) 1
      = .error "alpha_ij is 6.0 in pair exp6" := by
  intro m six
  have hm : IsRealLib m := ⟨rfl, rfl, fun _ => rfl, fun _ _ => rfl⟩
  have hp := lineEnv_pair (F := ℝ) 2 0 (by norm_num)
  have hcut : pairRsq (lineEnv 2 : PairEnv ℝ) 0 1 < pairCutsq (lineEnv 2 : PairEnv ℝ) 0 1 := by
    rw [hp.2.2.2.2.2.1, hp.2.2.2.2.2.2]; norm_num
  have h6 : m.sqrt (6 * 6) = 6 := sqrt_sq_real m hm 6 (by norm_num)
  have hg : oldGate m six six := by
    have h2 : (0.5 : ℝ) * (2 + 2) ≠ 0 := by norm_num
    exact ⟨h2, h2⟩
  have ha : oldAlphaSix m six six := Or.inl h6
  exact ⟨hcut, (alpha_six_raises_in_evaluated_block m (scenarioConfig 0 0) (lineEnv 2)
      (fun _ => pureA) 0 1 (startState 0) hcut).2.2, hg, ha,
    (alpha_six_raises_in_evaluated_block m (scenarioConfig 0 0) (lineEnv 2)
      (fun _ => six) 0 1 (startState 0) hcut).1 hg ha⟩

end Concrete

section EndToEnd

variable {F : Type} [LinearOrderedField F]

theorem paramTable_ok (m : MathLib F) (dv : F → F → F) (cfg : Exp6Config F)
    (dvector : Nat → Nat → F) (init q : Nat → ParamData F) :
    ∀ n, (∀ i, i < n → getParamsEXP6 m dv cfg dvector i (init i) = .ok (q i)) →
      paramTable m dv cfg dvector n init = .ok (fun k => if k < n then q k else init k) := by
  intro n
  induction n with
  | zero =>
    intro _
    simp [paramTable, pure, Except.pure]
  | succ n ih =>
    intro h
    have ih' := ih (fun i hi => h i (Nat.lt_succ_of_lt hi))
    unfold paramTable at ih' ⊢
    rw [List.range_succ, List.foldlM_append, ih']
    simp only [List.foldlM, bind, Except.bind, h n (Nat.lt_succ_self n), Except.map, pure,
      Except.pure]
    congr 1
    funext k
    by_cases hk : k = n
    · subst hk; simp
    · by_cases hk2 : k < n
      · simp [hk, hk2, Nat.lt_succ_of_lt hk2]
      · have : ¬ k < n + 1 := by omega
        simp [hk, hk2, this]

theorem compute_of_table (m : MathLib F) (dv : F → F → F) (cfg : Exp6Config F)
    (env : PairEnv F) (dvector : Nat → Nat → F) (init : Nat → ParamData F)
    (ilist : List Nat) (firstneigh : Nat → List Nat) (st0 : ComputeState F)
    (pd : Nat → ParamData F)
    (hpd : paramTable m dv cfg dvector (env.nlocal + env.nghost) init = .ok pd) :
    compute m dv cfg env dvector init ilist firstneigh st0
      = computeLoop m cfg env pd ilist firstneigh { st0 with evdwlOld := 0 } := by
  simp only [compute, hpd]
  rfl


theorem getParamsEXP6_resolved (m : MathLib F) (dv : F → F → F) (cfg : Exp6Config F)
    (dvector : Nat → Nat → F) (id : Nat) (init : ParamData F)
    (htot : 1e-8 ≤ specTotal cfg dvector id)
    (htotOld : 1e-8 ≤ specTotalOld cfg dvector id) :
    getParamsEXP6 m dv cfg dvector id init = .ok (resolved m dv cfg dvector id init) :=
  getParamsEXP6_ok m dv cfg dvector id init htot htotOld

theorem paramData_of_sites {F : Type} (a b : Param F) (fr1 fo1 fr2 fo2 : F) (p : ParamData F)
    (h1 : Site1Is a fr1 fo1 p) (h2 : Site2Is b fr2 fo2 p) :
    p = { epsilon1 := a.epsilon, alpha1 := a.alpha, rm1 := a.rm, fraction1 := fr1,
          epsilon2 := b.epsilon, alpha2 := b.alpha, rm2 := b.rm, fraction2 := fr2,
          epsilonOld1 := a.epsilon, alphaOld1 := a.alpha, rmOld1 := a.rm, fractionOld1 := fo1,
          epsilonOld2 := b.epsilon, alphaOld2 := b.alpha, rmOld2 := b.rm,
          fractionOld2 := fo2 } := by
  obtain ⟨a1, a2, a3, a4, a5, a6, a7, a8⟩ := h1
  obtain ⟨b1, b2, b3, b4, b5, b6, b7, b8⟩ := h2
  cases p
  simp only at a1 a2 a3 a4 a5 a6 a7 a8 b1 b2 b3 b4 b5 b6 b7 b8
  simp only [a1, a2, a3, a4, a5, a6, a7, a8, b1, b2, b3, b4, b5, b6, b7, b8]

/-- Both sites pinned to species A of the two-species scenario: the resolved entries. -/
theorem resolved_scenario_pinned (m : MathLib F) (dvector : Nat → Nat → F) (id : Nat)
    (init : ParamData F) :
    resolved m (fun a b => a / b) (scenarioConfig 0 0) dvector id init =
      { epsilon1 := 1, alpha1 := 12, rm1 := 2,
        fraction1 := dvector 0 id / (dvector 0 id + dvector 1 id),
        epsilon2 := 1, alpha2 := 12, rm2 := 2,
        fraction2 := dvector 0 id / (dvector 0 id + dvector 1 id),
        epsilonOld1 := 1, alphaOld1 := 12, rmOld1 := 2,
        fractionOld1 := dvector 2 id / (dvector 2 id + dvector 3 id),
        epsilonOld2 := 1, alphaOld2 := 12, rmOld2 := 2,
        fractionOld2 := dvector 2 id / (dvector 2 id + dvector 3 id) } := by
  have hinv : ∀ t, t < (scenarioConfig 0 0 : Exp6Config F).nspecies →
      0 ≤ (scenarioConfig 0 0 : Exp6Config F).mol2param t →
      ((scenarioConfig 0 0 : Exp6Config F).params
        ((scenarioConfig 0 0 : Exp6Config F).mol2param t).toNat).ispecies = (t : Int) := by
    intro t ht _
    have : t = 0 ∨ t = 1 := by
      simp only [scenarioConfig] at ht; omega
    rcases this with h | h <;> subst h <;> simp [scenarioConfig, paramA, paramB]
  have hn : (getTotals (scenarioConfig 0 0) dvector id).nTotal = dvector 0 id + dvector 1 id := by
    rw [getTotals_nTotal]
    simp [specTotal, scenarioConfig, List.range_succ]
  have hno : (getTotals (scenarioConfig 0 0) dvector id).nTotal_old
      = dvector 2 id + dvector 3 id := by
    rw [getTotals_nTotal_old]
    simp [specTotalOld, scenarioConfig, List.range_succ]
  have h1 := outerStep_site1 m (fun a b => a / b) (scenarioConfig 0 0) dvector id
    (getTotals (scenarioConfig 0 0) dvector id)
    ((getTotals (scenarioConfig 0 0) dvector id).nTotalOFA
      / (getTotals (scenarioConfig 0 0) dvector id).nTotal)
    ((getTotals (scenarioConfig 0 0) dvector id).nTotalOFA_old
      / (getTotals (scenarioConfig 0 0) dvector id).nTotal_old)
    0 (by simp [scenarioConfig]) rfl (by simp [scenarioConfig])
    (by simp [scenarioConfig, paramA]) hinv init
  have h2 := outerStep_site2 m (fun a b => a / b) (scenarioConfig 0 0) dvector id
    (getTotals (scenarioConfig 0 0) dvector id)
    ((getTotals (scenarioConfig 0 0) dvector id).nTotalOFA
      / (getTotals (scenarioConfig 0 0) dvector id).nTotal)
    ((getTotals (scenarioConfig 0 0) dvector id).nTotalOFA_old
      / (getTotals (scenarioConfig 0 0) dvector id).nTotal_old)
    0 (by simp [scenarioConfig]) rfl (by simp [scenarioConfig])
    (by simp [scenarioConfig, paramA]) hinv init
  have hres : resolved m (fun a b => a / b) (scenarioConfig 0 0) dvector id init
      = (resolveLoop m (fun a b => a / b) (scenarioConfig 0 0) dvector id
          (getTotals (scenarioConfig 0 0) dvector id)
          ((getTotals (scenarioConfig 0 0) dvector id).nTotalOFA
            / (getTotals (scenarioConfig 0 0) dvector id).nTotal)
          ((getTotals (scenarioConfig 0 0) dvector id).nTotalOFA_old
            / (getTotals (scenarioConfig 0 0) dvector id).nTotal_old) init).out := by
    simp [resolved, ofaSites, scenarioConfig, isOneFluidApprox, oneFluidApproxParameter]
  rw [hres, paramData_of_sites _ _ _ _ _ _ _ h1 h2, hn, hno]
  simp [scenarioConfig, paramA]


theorem applyForce_self (env : PairEnv F) (f : Nat → Nat → F) (i j : Nat)
    (delx dely delz fpair : F) (hij : i ≠ j) :
    applyForce env f i j delx dely delz fpair i 0 = f i 0 + delx * fpair := by
  unfold applyForce addForce
  split_ifs <;> simp_all

/-- A neighbour list with the single entry `jraw` for atom `i`. -/
theorem computeLoop_single (m : MathLib F) (cfg : Exp6Config F) (env : PairEnv F)
    (pd : Nat → ParamData F) (i jraw : Nat) (firstneigh : Nat → List Nat)
    (hfn : firstneigh i = [jraw]) (st : ComputeState F) :
    computeLoop m cfg env pd [i] firstneigh st = computePair m cfg env pd i st jraw := by
  simp only [computeLoop, computeNeighbors, hfn, List.foldlM, bind, Except.bind, pure,
    Except.pure]
  cases computePair m cfg env pd i st jraw <;> rfl

end EndToEnd

section EndToEndReal

theorem pairFpairOld_likeA (m : MathLib ℝ) (hm : IsRealLib m) (fr fo : ℝ) (hfo : 0 ≤ fo) :
    pairFpairOld m (scenarioConfig 0 0) (pairGeom m 9 100) 1 (likeA fr fo) (likeA fr fo)
      = fo * ((exp6Directed m (pairGeom m 9 100) 1 12 1 2).forceExp6 * (1 / 9)) := by
  have h := (exp6Directed_AA m hm 1).2.2
  simp only [pairFpairOld, mixPair_likeA m hm, mixSites, scenarioConfig, if_true, h]
  simp only [likeA, sqrt_sq_real m hm fo hfo]
  ring

/-- Claim C1 (counterexample). Two runs of `compute` over the reals on the end-to-end
scenario (both sites pinned to species A, two particles of pure A at separation 3, cutoff
10). The runs have the same current compositions, hence the same current-snapshot resolved
parameters, and differ only in the previous composition (pure A against one quarter A):
the force applied to atom 0 differs, so `fpair` is not computed from the current-snapshot
parameters. -/
theorem force_ignores_current_snapshot_example :
    let m : MathLib ℝ := ⟨Real.sqrt, Real.exp,
      fun x => if x < 0 then -(-x) ^ (3:ℝ)⁻¹ else x ^ (3:ℝ)⁻¹, fun x y => x ^ y⟩
    let dv : ℝ → ℝ → ℝ := fun a b => a / b
    let firstneigh : Nat → List Nat := fun i => if i = 0 then [1] else []
    ∃ pdA pdB sA sB,
      paramTable m dv (scenarioConfig 0 0) dvPureA 2 (fun _ => zeroParams) = .ok pdA ∧
      paramTable m dv (scenarioConfig 0 0) dvQuarterA 2 (fun _ => zeroParams) = .ok pdB ∧
      (∀ k, SameNew (pdA k) (pdB k)) ∧
      compute m dv (scenarioConfig 0 0) (lineEnv 2) dvPureA (fun _ => zeroParams) [0]
        firstneigh (startState 0) = .ok sA ∧
      compute m dv (scenarioConfig 0 0) (lineEnv 2) dvQuarterA (fun _ => zeroParams) [0]
        firstneigh (startState 0) = .ok sB ∧
      sA.f 0 0 ≠ sB.f 0 0 := by
  intro m dv firstneigh
  have hm : IsRealLib m := ⟨rfl, rfl, fun _ => rfl, fun _ _ => rfl⟩
  have hp := lineEnv_pair (F := ℝ) 2 0 (by norm_num)
  have hcut : pairRsq (lineEnv 2 : PairEnv ℝ) 0 1 < pairCutsq (lineEnv 2 : PairEnv ℝ) 0 1 := by
    rw [hp.2.2.2.2.2.1, hp.2.2.2.2.2.2]; norm_num
  have hgeom : pairGeomOf m (lineEnv 2 : PairEnv ℝ) 0 1 = pairGeom m 9 100 := by
    unfold pairGeomOf
    rw [hp.2.2.2.2.2.1, hp.2.2.2.2.2.2]
  -- parameter resolution of the two runs
  have hrA : ∀ id, resolved m dv (scenarioConfig 0 0) dvPureA id zeroParams = pureA := by
    intro id
    rw [resolved_scenario_pinned]
    simp [dvPureA, pureA, likeA]
  have hrB : ∀ id, resolved m dv (scenarioConfig 0 0) dvQuarterA id zeroParams = quarterA := by
    intro id
    rw [resolved_scenario_pinned]
    simp [dvQuarterA, quarterA, likeA]
    norm_num
  have htA : ∀ id, (1e-8:ℝ) ≤ specTotal (scenarioConfig 0 0) dvPureA id ∧
      (1e-8:ℝ) ≤ specTotalOld (scenarioConfig 0 0) dvPureA id := by
    intro id
    simp [specTotal, specTotalOld, scenarioConfig, dvPureA, List.range_succ]
    norm_num
  have htB : ∀ id, (1e-8:ℝ) ≤ specTotal (scenarioConfig 0 0) dvQuarterA id ∧
      (1e-8:ℝ) ≤ specTotalOld (scenarioConfig 0 0) dvQuarterA id := by
    intro id
    simp [specTotal, specTotalOld, scenarioConfig, dvQuarterA, List.range_succ]
    norm_num
  have hpA := paramTable_ok m dv (scenarioConfig 0 0) dvPureA (fun _ => zeroParams)
    (fun _ => pureA) 2 (fun i _ => by
      rw [getParamsEXP6_resolved m dv _ _ i _ (htA i).1 (htA i).2, hrA])
  have hpB := paramTable_ok m dv (scenarioConfig 0 0) dvQuarterA (fun _ => zeroParams)
    (fun _ => quarterA) 2 (fun i _ => by
      rw [getParamsEXP6_resolved m dv _ _ i _ (htB i).1 (htB i).2, hrB])
  -- the single pair (0, 1) in each run
  have hgA := gates_likeA m hm 1 1 1 1
  have hgB := gates_likeA m hm 1 0.25 1 0.25
  obtain ⟨sA, hsA, hfA, _⟩ := computePair_both m (scenarioConfig 0 0) (lineEnv 2)
    (fun k => if k < 2 then pureA else zeroParams) 0 1 { startState 0 with evdwlOld := 0 }
    hcut (by simpa [hp.1, pureA] using hgA.1) (by simpa [hp.1, pureA] using hgA.2.1)
    (by simpa [hp.1, pureA] using hgA.2.2.1) (by simpa [hp.1, pureA] using hgA.2.2.2)
  obtain ⟨sB, hsB, hfB, _⟩ := computePair_both m (scenarioConfig 0 0) (lineEnv 2)
    (fun k => if k < 2 then quarterA else zeroParams) 0 1 { startState 0 with evdwlOld := 0 }
    hcut (by simpa [hp.1, quarterA] using hgB.1) (by simpa [hp.1, quarterA] using hgB.2.1)
    (by simpa [hp.1, quarterA] using hgB.2.2.1) (by simpa [hp.1, quarterA] using hgB.2.2.2)
  refine ⟨_, _, sA, sB, hpA, hpB, ?_, ?_, ?_, ?_⟩
  · intro k
    by_cases hk : k < 2 <;> simp [hk, SameNew, pureA, quarterA, likeA]
  · rw [compute_of_table m dv _ _ _ _ _ _ _ _ hpA,
      computeLoop_single m _ _ _ 0 1 firstneigh rfl]
    exact hsA
  · rw [compute_of_table m dv _ _ _ _ _ _ _ _ hpB,
      computeLoop_single m _ _ _ 0 1 firstneigh rfl]
    exact hsB
  · have hF := (exp6Directed_AA m hm 1).1
    rw [hfA, hfB, hp.1, applyForce_self _ _ 0 1 _ _ _ _ (by norm_num),
      applyForce_self _ _ 0 1 _ _ _ _ (by norm_num), hgeom, hp.2.1, hp.2.2.1]
    simp only [show (1:ℕ) < 2 by norm_num, show (0:ℕ) < 2 by norm_num, if_true, pureA, quarterA]
    rw [pairFpairOld_likeA m hm 1 1 (by norm_num),
      pairFpairOld_likeA m hm 1 0.25 (by norm_num)]
    intro h
    simp only [startState] at h
    nlinarith

end EndToEndReal

section FluidGeneric

variable {F : Type} [LinearOrderedField F]

theorem paramData_ext {F : Type} (p q : ParamData F)
    (h1 : p.epsilon1 = q.epsilon1) (h2 : p.alpha1 = q.alpha1) (h3 : p.rm1 = q.rm1)
    (h4 : p.fraction1 = q.fraction1) (h5 : p.epsilon2 = q.epsilon2) (h6 : p.alpha2 = q.alpha2)
    (h7 : p.rm2 = q.rm2) (h8 : p.fraction2 = q.fraction2)
    (h9 : p.epsilonOld1 = q.epsilonOld1) (h10 : p.alphaOld1 = q.alphaOld1)
    (h11 : p.rmOld1 = q.rmOld1) (h12 : p.fractionOld1 = q.fractionOld1)
    (h13 : p.epsilonOld2 = q.epsilonOld2) (h14 : p.alphaOld2 = q.alphaOld2)
    (h15 : p.rmOld2 = q.rmOld2) (h16 : p.fractionOld2 = q.fractionOld2) : p = q := by
  cases p; cases q
  simp only at h1 h2 h3 h4 h5 h6 h7 h8 h9 h10 h11 h12 h13 h14 h15 h16
  simp only [h1, h2, h3, h4, h5, h6, h7, h8, h9, h10, h11, h12, h13, h14, h15, h16]

theorem ofaSites_fractions (m : MathLib F) (dv : F → F → F) (cfg : Exp6Config F)
    (tot : Totals F) (fo foOld : F) (res : Resolve F)
    (h1 : isOneFluidApprox cfg.isite1 = true) (h2 : isOneFluidApprox cfg.isite2 = true) :
    (ofaSites m dv cfg tot fo foOld res).fraction1 = fo ∧
    (ofaSites m dv cfg tot fo foOld res).fractionOld1 = foOld ∧
    (ofaSites m dv cfg tot fo foOld res).fraction2 = fo ∧
    (ofaSites m dv cfg tot fo foOld res).fractionOld2 = foOld := by
  simp only [ofaSites, h1, h2, if_true, and_self]

/-- Both sites one-fluid: the sixteen resolved entries in terms of the two resolved triples,
the two populations and the two fluid fractions. -/
theorem resolved_both_ofa (m : MathLib F) (dv : F → F → F) (cfg : Exp6Config F)
    (dvector : Nat → Nat → F) (id : Nat) (init : ParamData F)
    (h1 : isOneFluidApprox cfg.isite1 = true) (h2 : isOneFluidApprox cfg.isite2 = true) :
    let tot := getTotals cfg dvector id
    let fo := dv tot.nTotalOFA tot.nTotal
    let foOld := dv tot.nTotalOFA_old tot.nTotal_old
    let s := (resolveLoop m dv cfg dvector id tot fo foOld init).sums
    let cur := ofaResolve m dv s.rm3 s.epsilon s.alpha
    let old := ofaResolve m dv s.rm3_old s.epsilon_old s.alpha_old
    resolved m dv cfg dvector id init =
      { epsilon1 := fuchslin m dv cfg.fuchslinEpsilon tot.nTotalOFA cur.2.1
        alpha1 := cur.2.2
        rm1 := fuchslin m dv cfg.fuchslinR tot.nTotalOFA cur.1
        fraction1 := fo
        epsilon2 := fuchslin m dv cfg.fuchslinEpsilon tot.nTotalOFA cur.2.1
        alpha2 := cur.2.2
        rm2 := fuchslin m dv cfg.fuchslinR tot.nTotalOFA cur.1
        fraction2 := fo
        epsilonOld1 := fuchslin m dv cfg.fuchslinEpsilon tot.nTotalOFA_old old.2.1
        alphaOld1 := old.2.2
        rmOld1 := fuchslin m dv cfg.fuchslinR tot.nTotalOFA_old old.1
        fractionOld1 := foOld
        epsilonOld2 := fuchslin m dv cfg.fuchslinEpsilon tot.nTotalOFA_old old.2.1
        alphaOld2 := old.2.2
        rmOld2 := fuchslin m dv cfg.fuchslinR tot.nTotalOFA_old old.1
        fractionOld2 := foOld } := by
  intro tot fo foOld s cur old
  have a := ofaSites_site1 m dv cfg tot fo foOld (resolveLoop m dv cfg dvector id tot fo foOld init) h1
  have b := ofaSites_site2 m dv cfg tot fo foOld (resolveLoop m dv cfg dvector id tot fo foOld init) h2
  have c := ofaSites_fractions m dv cfg tot fo foOld
    (resolveLoop m dv cfg dvector id tot fo foOld init) h1 h2
  apply paramData_ext
  · exact a.2.1
  · exact a.2.2.1
  · exact a.1
  · exact c.1
  · exact b.2.1
  · exact b.2.2.1
  · exact b.1
  · exact c.2.2.1
  · exact a.2.2.2.2.1
  · exact a.2.2.2.2.2
  · exact a.2.2.2.1
  · exact c.2.1
  · exact b.2.2.2.2.1
  · exact b.2.2.2.2.2
  · exact b.2.2.2.1
  · exact c.2.2.2


theorem ofaSpecies_fluidConfig :
    ofaSpecies (fluidConfig : Exp6Config F) = [0] := by
  simp [ofaSpecies, ofaEligible, skipSpecies, pinnedSpecies, fluidConfig, paramA,
    exp6PotentialType, List.range_succ, List.filter]

theorem ofaSpecies_oneSpeciesConfig (e r a fR fE : F) :
    ofaSpecies (oneSpeciesConfig e r a fR fE) = [0] := by
  simp [ofaSpecies, ofaEligible, skipSpecies, pinnedSpecies, oneSpeciesConfig,
    exp6PotentialType, List.range_succ, List.filter]

/-- With species 0 as the only eligible species, the moments reduce to one term. -/
theorem specMoment_single (cfg : Exp6Config F) (hsp : ofaSpecies cfg = [0]) (x : Nat → F)
    (w : Param F → Param F → F) :
    specMoment cfg x w = x 0 * x 0 * (cfg.params (cfg.mol2param 0).toNat).rm ^ 3
      * w (cfg.params (cfg.mol2param 0).toNat) (cfg.params (cfg.mol2param 0).toNat) := by
  simp only [specMoment, hsp, List.map_cons, List.map_nil, List.sum_cons, List.sum_nil, add_zero]
  congr 2
  ring

theorem specPopulation_single (cfg : Exp6Config F) (hsp : ofaSpecies cfg = [0])
    (dvector : Nat → Nat → F) (id : Nat) :
    specPopulation cfg dvector id = dvector 0 id ∧
    specPopulationOld cfg dvector id = dvector (0 + cfg.nspecies) id := by
  simp [specPopulation, specPopulationOld, hsp]

end FluidGeneric

section FluidReal

theorem cbrt_cube_real (m : MathLib ℝ) (hm : IsRealLib m) (y : ℝ) (hy : 0 ≤ y) :
    m.cbrt (y ^ 3) = y := by
  rw [hm.cbrt_eq, if_neg (not_lt.mpr (pow_nonneg hy 3))]
  have h := Real.pow_rpow_inv_natCast hy (by norm_num : (3:ℕ) ≠ 0)
  simpa using h

theorem pow_zero_real (m : MathLib ℝ) (hm : IsRealLib m) (x : ℝ) : m.pow x 0 = 1 := by
  rw [hm.pow_eq]; exact Real.rpow_zero x

theorem cbrt_zero_real (m : MathLib ℝ) (hm : IsRealLib m) : m.cbrt 0 = 0 := by
  have h := cbrt_cube_real m hm 0 (le_refl 0)
  simpa using h

/-- The resolved triple of a one-fluid site holding the single species
`(epsilon, rm, alpha)` with mole fraction 1. -/
theorem ofaResolve_single (m : MathLib ℝ) (hm : IsRealLib m) (e r a : ℝ)
    (he : 0 < e) (hr : 0 < r) (ha : 0 ≤ a) :
    ofaResolve m (fun a b => a / b) (1 * 1 * r ^ 3 * 1) (1 * 1 * r ^ 3 * m.sqrt (e * e))
      (1 * 1 * r ^ 3 * (m.sqrt (e * e) * m.sqrt (a * a)))
      = if r < 1e-16 then (0, 0, 0) else (r, e, a) := by
  have h3 : r ^ 3 ≠ 0 := pow_ne_zero 3 (ne_of_gt hr)
  simp only [ofaResolve, one_mul, mul_one, cbrt_cube_real m hm r hr.le,
    sqrt_sq_real m hm e he.le, sqrt_sq_real m hm a ha]
  split_ifs
  · rfl
  · have e1 : r ^ 3 * e / r ^ 3 = e := by field_simp
    have e2 : r ^ 3 * (e * a) / e / r ^ 3 = a := by field_simp; ring
    rw [e1, e2]


/-- The resolved triple of a one-fluid site whose only eligible species is species 0:
the record of that species when it is present (and `rm` at least `1e-16`), zero otherwise. -/
theorem triple_single_species (m : MathLib ℝ) (hm : IsRealLib m) (cfg : Exp6Config ℝ)
    (hsp : ofaSpecies cfg = [0]) (x : Nat → ℝ) (d : ℝ) (hd : 0 ≤ d)
    (hx : 0 < d → x 0 = 1) (s1 s2 s3 : ℝ)
    (he : 0 < (cfg.params (cfg.mol2param 0).toNat).epsilon)
    (hr : 0 < (cfg.params (cfg.mol2param 0).toNat).rm)
    (ha : 0 ≤ (cfg.params (cfg.mol2param 0).toNat).alpha)
    (hpos : 0 < d → s1 = specMoment cfg x weightRm3 ∧ s2 = specMoment cfg x (weightEpsilon m)
      ∧ s3 = specMoment cfg x (weightAlpha m))
    (hzero : d = 0 → s1 = 0 ∧ s2 = 0 ∧ s3 = 0) :
    ofaResolve m (fun a b => a / b) s1 s2 s3 =
      if 0 < d ∧ ¬ (cfg.params (cfg.mol2param 0).toNat).rm < 1e-16 then
        ((cfg.params (cfg.mol2param 0).toNat).rm, (cfg.params (cfg.mol2param 0).toNat).epsilon,
          (cfg.params (cfg.mol2param 0).toNat).alpha)
      else (0, 0, 0) := by
  by_cases hp : 0 < d
  · obtain ⟨c1, c2, c3⟩ := hpos hp
    rw [specMoment_single cfg hsp, hx hp] at c1 c2 c3
    simp only [weightRm3, weightEpsilon, weightAlpha] at c1 c2 c3
    rw [c1, c2, c3, ofaResolve_single m hm _ _ _ he hr ha]
    by_cases hsmall : (cfg.params (cfg.mol2param 0).toNat).rm < 1e-16
    · simp [hsmall]
    · simp [hsmall, hp]
  · have hd0 : d = 0 := le_antisymm (not_lt.mp hp) hd
    obtain ⟨c1, c2, c3⟩ := hzero hd0
    rw [c1, c2, c3, ofaResolve_zero m _ (cbrt_zero_real m hm)]
    simp [hp]

/-- Resolution of a particle whose only eligible species is species 0, for a configuration
with both sites one-fluid and zero epsilon exponent. -/
theorem resolved_single_species (m : MathLib ℝ) (hm : IsRealLib m) (cfg : Exp6Config ℝ)
    (dvector : Nat → Nat → ℝ) (id : Nat) (init : ParamData ℝ)
    (hsp : ofaSpecies cfg = [0])
    (h1 : isOneFluidApprox cfg.isite1 = true) (h2 : isOneFluidApprox cfg.isite2 = true)
    (hE : cfg.fuchslinEpsilon = 0)
    (he : 0 < (cfg.params (cfg.mol2param 0).toNat).epsilon)
    (hr : 0 < (cfg.params (cfg.mol2param 0).toNat).rm)
    (ha : 0 ≤ (cfg.params (cfg.mol2param 0).toNat).alpha)
    (htot : 1e-8 ≤ specTotal cfg dvector id) (htotOld : 1e-8 ≤ specTotalOld cfg dvector id)
    (hpop : 0 ≤ dvector 0 id) (hpopOld : 0 ≤ dvector (0 + cfg.nspecies) id) :
    let p0 := cfg.params (cfg.mol2param 0).toNat
    let t : ℝ × ℝ × ℝ :=
      if 0 < dvector 0 id ∧ ¬ p0.rm < 1e-16 then (p0.rm, p0.epsilon, p0.alpha) else (0, 0, 0)
    let tOld : ℝ × ℝ × ℝ :=
      if 0 < dvector (0 + cfg.nspecies) id ∧ ¬ p0.rm < 1e-16 then
        (p0.rm, p0.epsilon, p0.alpha) else (0, 0, 0)
    resolved m (fun a b => a / b) cfg dvector id init =
      { epsilon1 := t.2.1
        alpha1 := t.2.2
        rm1 := fuchslin m (fun a b => a / b) cfg.fuchslinR (dvector 0 id) t.1
        fraction1 := dvector 0 id / specTotal cfg dvector id
        epsilon2 := t.2.1
        alpha2 := t.2.2
        rm2 := fuchslin m (fun a b => a / b) cfg.fuchslinR (dvector 0 id) t.1
        fraction2 := dvector 0 id / specTotal cfg dvector id
        epsilonOld1 := tOld.2.1
        alphaOld1 := tOld.2.2
        rmOld1 := fuchslin m (fun a b => a / b) cfg.fuchslinR (dvector (0 + cfg.nspecies) id)
          tOld.1
        fractionOld1 := dvector (0 + cfg.nspecies) id / specTotalOld cfg dvector id
        epsilonOld2 := tOld.2.1
        alphaOld2 := tOld.2.2
        rmOld2 := fuchslin m (fun a b => a / b) cfg.fuchslinR (dvector (0 + cfg.nspecies) id)
          tOld.1
        fractionOld2 := dvector (0 + cfg.nspecies) id / specTotalOld cfg dvector id } := by
  intro p0 t tOld
  have hofa : (isOneFluidApprox cfg.isite1 || isOneFluidApprox cfg.isite2) = true := by
    simp [h1]
  have hP := specPopulation_single cfg hsp dvector id
  have hN : (getTotals cfg dvector id).nTotalOFA = dvector 0 id := by
    rw [getTotals_nTotalOFA cfg dvector id hofa, hP.1]
  have hNo : (getTotals cfg dvector id).nTotalOFA_old = dvector (0 + cfg.nspecies) id := by
    rw [getTotals_nTotalOFA_old cfg dvector id hofa, hP.2]
  have hs := sums_of_population_pos m cfg dvector id init hofa htot htotOld
  have hz := sums_zero_of_population_zero m (fun a b => a / b) cfg dvector id init
    (fun _ _ _ => rfl) hofa htot htotOld
  simp only at hs hz
  rw [hP.1, hP.2] at hs hz
  have hcur := triple_single_species m hm cfg hsp (specMoleFraction cfg dvector id)
    (dvector 0 id) hpop
    (fun hp => by simp only [specMoleFraction, hP.1]; exact div_self (ne_of_gt hp))
    _ _ _ he hr ha hs.1 hz.1
  have hold := triple_single_species m hm cfg hsp (specMoleFractionOld cfg dvector id)
    (dvector (0 + cfg.nspecies) id) hpopOld
    (fun hp => by
      simp only [specMoleFractionOld, hP.2]
      have := div_self (ne_of_gt hp)
      simpa using this)
    _ _ _ he hr ha hs.2 hz.2
  have hres := resolved_both_ofa m (fun a b => a / b) cfg dvector id init h1 h2
  simp only at hres
  rw [hres, hcur, hold, hN, hNo, hE, getTotals_nTotal, getTotals_nTotal_old]
  simp only [fuchslin_expo_zero m _ _ _ (pow_zero_real m hm)]

end FluidReal

section StaleTally

variable {F : Type} [LinearOrderedField F]

/-- A pair within the cutoff whose previous-snapshot block is skipped and whose
current-snapshot block is evaluated: the tally receives the value that `evdwlOld` held
before the pair. -/
theorem computePair_new_only (m : MathLib F) (cfg : Exp6Config F)
    (env : PairEnv F) (pd : Nat → ParamData F) (i jraw : Nat) (st : ComputeState F)
    (hcut : pairRsq env i jraw < pairCutsq env i jraw)
    (hog : ¬ oldGate m (pd i) (pd (env.neighmask jraw)))
    (hng : newGate m (pd i) (pd (env.neighmask jraw)))
    (hna : ¬ newAlphaSix m (pd i) (pd (env.neighmask jraw))) :
    ∃ st', computePair m cfg env pd i st jraw = .ok st' ∧
      st'.tally = (if env.evflag then
          st.tally ++ [{ i := i, j := env.neighmask jraw, nlocal := env.nlocal,
                         newton_pair := env.newton_pair,
                         evdwl := st.evdwlOld,
                         ecoul := 0,
                         fpair := mixSites m cfg.isite1 cfg.isite2 (pd i).fractionOld1
                           (pd (env.neighmask jraw)).fractionOld2 (pd i).fractionOld2
                           (pd (env.neighmask jraw)).fractionOld1
                           st.fpairOldEXP6_12 st.fpairOldEXP6_21,
                         delx := pairDel env i jraw 0, dely := pairDel env i jraw 1,
                         delz := pairDel env i jraw 2 }]
        else st.tally) := by
  obtain ⟨st2, h2, _, _, _, _, _, _, ht2⟩ := computePairNew_open m cfg env
    (pairGeomOf m env i jraw) (pairFactor env jraw) (pd i) (pd (env.neighmask jraw)) i
    (env.neighmask jraw) (pairDel env i jraw 0) (pairDel env i jraw 1) (pairDel env i jraw 2)
    st hng hna
  refine ⟨st2, ?_, ht2⟩
  rw [computePair_within m cfg env pd i jraw st hcut,
    computePairOld_closed m cfg env _ _ _ _ _ _ st hog]
  exact h2

/-- A neighbour list with one entry for each of two atoms. -/
theorem computeLoop_two (m : MathLib F) (cfg : Exp6Config F) (env : PairEnv F)
    (pd : Nat → ParamData F) (i1 j1 i2 j2 : Nat) (firstneigh : Nat → List Nat)
    (h1 : firstneigh i1 = [j1]) (h2 : firstneigh i2 = [j2]) (st : ComputeState F) :
    computeLoop m cfg env pd [i1, i2] firstneigh st
      = (computePair m cfg env pd i1 st j1).bind
          (fun s => computePair m cfg env pd i2 s j2) := by
  simp only [computeLoop, computeNeighbors, h1, h2, List.foldlM, bind, Except.bind, pure,
    Except.pure]
  cases computePair m cfg env pd i1 st j1 with
  | error e => rfl
  | ok s =>
    simp only
    cases computePair m cfg env pd i2 s j2 <;> rfl

end StaleTally

section StaleTallyReal

theorem resolved_fluid_fresh (m : MathLib ℝ) (hm : IsRealLib m) (id : Nat) :
    resolved m (fun a b => a / b) fluidConfig dvFresh id zeroParams
      = if id < 2 then pureA else freshA := by
  have h := resolved_single_species m hm fluidConfig dvFresh id zeroParams
    ofaSpecies_fluidConfig rfl rfl rfl (by simp [fluidConfig, paramA])
    (by simp [fluidConfig, paramA]) (by simp [fluidConfig, paramA])
    (by
      by_cases hid : id < 2 <;>
        simp [specTotal, fluidConfig, dvFresh, List.range_succ] <;> norm_num)
    (by
      by_cases hid : id < 2 <;>
        simp [specTotalOld, fluidConfig, dvFresh, List.range_succ, hid] <;> norm_num)
    (by simp [dvFresh])
    (by by_cases hid : id < 2 <;> simp [fluidConfig, dvFresh, hid])
  simp only at h
  rw [h]
  have hsmall : ¬ ((2:ℝ) < 1e-16) := by norm_num
  by_cases hid : id < 2
  · simp [fluidConfig, paramA, dvFresh, hid, hsmall, specTotal, specTotalOld, List.range_succ,
      pureA, likeA, fuchslin_expo_zero m _ _ _ (pow_zero_real m hm)]
  · simp [fluidConfig, paramA, dvFresh, hid, hsmall, specTotal, specTotalOld, List.range_succ,
      freshA, fuchslin_expo_zero m _ _ _ (pow_zero_real m hm)]


theorem gates_freshA (m : MathLib ℝ) (hm : IsRealLib m) :
    ¬ oldGate m freshA freshA ∧ newGate m freshA freshA ∧ ¬ newAlphaSix m freshA freshA := by
  have h12 : m.sqrt (12 * 12) = 12 := sqrt_sq_real m hm 12 (by norm_num)
  simp only [oldGate, newGate, newAlphaSix, mixPair, freshA, h12]
  norm_num

theorem pairEvdwlOld_pureA (m : MathLib ℝ) (hm : IsRealLib m) :
    pairEvdwlOld m fluidConfig (pairGeom m 9 100) 1 pureA pureA
      = (exp6Directed m (pairGeom m 9 100) 1 12 1 2).evdwl := by
  have h1 : m.sqrt (1 * 1) = 1 := sqrt_sq_real m hm 1 (by norm_num)
  simp only [pairEvdwlOld, pureA, mixPair_likeA m hm, mixSites, fluidConfig, if_true]
  simp only [likeA, h1]
  ring

theorem pairEvdwlOld_freshA (m : MathLib ℝ) (hm : IsRealLib m) (g : PairGeom ℝ) :
    pairEvdwlOld m fluidConfig g 1 freshA freshA = 0 := by
  have h0 : m.sqrt (0 * 0) = 0 := sqrt_sq_real m hm 0 (le_refl 0)
  simp only [pairEvdwlOld, mixSites, fluidConfig, if_true, freshA, h0]
  ring

/-- Claim C2 (evaluation at the failing input). Over the reals, both sites one-fluid, species
A with a record and a second species without one. Atoms 0 and 1 are pure A in both
snapshots; atoms 2 and 3 are pure A now and held only the second species before, so the
previous-snapshot block of the pair (2,3) is skipped. With the neighbour list 0:[1], 2:[3]
`compute` calls `ev_tally` twice, and the energy passed for the pair (2,3) is the negative
previous-snapshot energy of the pair (0,1) left in `evdwlOld`, while the previous-snapshot
mixed energy of the pair (2,3) itself is zero. -/
theorem tally_receives_stale_energy_example :
    let m : MathLib ℝ := ⟨Real.sqrt, Real.exp,
      fun x => if x < 0 then -(-x) ^ (3:ℝ)⁻¹ else x ^ (3:ℝ)⁻¹, fun x y => x ^ y⟩
    let dv : ℝ → ℝ → ℝ := fun a b => a / b
    let firstneigh : Nat → List Nat := fun i => if i = 0 then [1] else if i = 2 then [3] else []
    ∃ pd st c1 c2,
      paramTable m dv fluidConfig dvFresh 4 (fun _ => zeroParams) = .ok pd ∧
      compute m dv fluidConfig (lineEnv 4) dvFresh (fun _ => zeroParams) [0, 2] firstneigh
        (startState 0) = .ok st ∧
      st.tally = [c1, c2] ∧ c1.i = 0 ∧ c1.j = 1 ∧ c2.i = 2 ∧ c2.j = 3 ∧
      c1.evdwl = pairEvdwlOld m fluidConfig (pairGeomOf m (lineEnv 4) 0 1)
        (pairFactor (lineEnv 4 : PairEnv ℝ) 1) (pd 0) (pd 1) ∧
      c1.evdwl < 0 ∧
      c2.evdwl = c1.evdwl ∧
      pairEvdwlOld m fluidConfig (pairGeomOf m (lineEnv 4) 2 3)
        (pairFactor (lineEnv 4 : PairEnv ℝ) 3) (pd 2) (pd 3) = 0 := by
  intro m dv firstneigh
  have hm : IsRealLib m := ⟨rfl, rfl, fun _ => rfl, fun _ _ => rfl⟩
  have hp01 := lineEnv_pair (F := ℝ) 4 0 (by norm_num)
  have hp23 := lineEnv_pair (F := ℝ) 4 2 (by norm_num)
  have hcut01 : pairRsq (lineEnv 4 : PairEnv ℝ) 0 1 < pairCutsq (lineEnv 4 : PairEnv ℝ) 0 1 := by
    rw [hp01.2.2.2.2.2.1, hp01.2.2.2.2.2.2]; norm_num
  have hcut23 : pairRsq (lineEnv 4 : PairEnv ℝ) 2 3 < pairCutsq (lineEnv 4 : PairEnv ℝ) 2 3 := by
    rw [hp23.2.2.2.2.2.1, hp23.2.2.2.2.2.2]; norm_num
  have hgeom01 : pairGeomOf m (lineEnv 4 : PairEnv ℝ) 0 1 = pairGeom m 9 100 := by
    unfold pairGeomOf
    rw [hp01.2.2.2.2.2.1, hp01.2.2.2.2.2.2]
  have htot : ∀ id, (1e-8:ℝ) ≤ specTotal fluidConfig dvFresh id ∧
      (1e-8:ℝ) ≤ specTotalOld fluidConfig dvFresh id := by
    intro id
    by_cases hid : id < 2 <;>
      simp [specTotal, specTotalOld, fluidConfig, dvFresh, List.range_succ, hid] <;> norm_num
  have hpd := paramTable_ok m dv fluidConfig dvFresh (fun _ => zeroParams)
    (fun id => if id < 2 then pureA else freshA) 4 (fun i _ => by
      rw [getParamsEXP6_resolved m dv _ _ i _ (htot i).1 (htot i).2,
        resolved_fluid_fresh m hm i])
  have hgA := gates_likeA m hm 1 1 1 1
  have hgF := gates_freshA m hm
  obtain ⟨s1, hs1, _, he1, ht1⟩ := computePair_both m fluidConfig (lineEnv 4)
    (fun k => if k < 4 then (if k < 2 then pureA else freshA) else zeroParams) 0 1
    { startState 0 with evdwlOld := 0 }
    hcut01 (by simpa [hp01.1, pureA] using hgA.1) (by simpa [hp01.1, pureA] using hgA.2.1)
    (by simpa [hp01.1, pureA] using hgA.2.2.1) (by simpa [hp01.1, pureA] using hgA.2.2.2)
  obtain ⟨s2, hs2, ht2⟩ := computePair_new_only m fluidConfig (lineEnv 4)
    (fun k => if k < 4 then (if k < 2 then pureA else freshA) else zeroParams) 2 3 s1
    hcut23 (by simpa [hp23.1] using hgF.1) (by simpa [hp23.1] using hgF.2.1)
    (by simpa [hp23.1] using hgF.2.2)
  have hev : (lineEnv 4 : PairEnv ℝ).evflag = true := rfl
  rw [hev, if_pos rfl] at ht1 ht2
  rw [ht1] at ht2
  simp only [startState, List.nil_append, List.cons_append] at ht2
  refine ⟨_, s2, _, _, hpd, ?_, ht2, rfl, hp01.1, rfl, hp23.1, ?_, ?_, ?_, ?_⟩
  · rw [compute_of_table m dv _ _ _ _ _ _ _ _ hpd,
      computeLoop_two m _ _ _ 0 1 2 3 firstneigh rfl rfl, hs1]
    exact hs2
  · simp only [hp01.1, show (0:ℕ) < 4 by norm_num, show (1:ℕ) < 4 by norm_num,
      show (0:ℕ) < 2 by norm_num, show (1:ℕ) < 2 by norm_num, if_true]
  · simp only [hp01.1, show (0:ℕ) < 4 by norm_num, show (1:ℕ) < 4 by norm_num,
      show (0:ℕ) < 2 by norm_num, show (1:ℕ) < 2 by norm_num, if_true]
    rw [hgeom01, hp01.2.1, pairEvdwlOld_pureA m hm]
    exact (exp6Directed_AA m hm 1).2.1
  · simp only [hp01.1, show (0:ℕ) < 4 by norm_num, show (1:ℕ) < 4 by norm_num,
      show (0:ℕ) < 2 by norm_num, show (1:ℕ) < 2 by norm_num, if_true]
    exact he1
  · simp only [show (2:ℕ) < 4 by norm_num, show (3:ℕ) < 4 by norm_num,
      show ¬ (2:ℕ) < 2 by norm_num, show ¬ (3:ℕ) < 2 by norm_num, if_true, if_false]
    rw [hp23.2.1]
    exact pairEvdwlOld_freshA m hm _

end StaleTallyReal

section MoreExamples

theorem resolved_alpha_six (m : MathLib ℝ) (hm : IsRealLib m) (id : Nat) :
    resolved m (fun a b => a / b) (oneSpeciesConfig 1 2 6 (-4) 0) (dvConst 1e-4) id zeroParams
      = alphaSixRmZero := by
  have h := resolved_single_species m hm (oneSpeciesConfig 1 2 6 (-4) 0) (dvConst 1e-4) id
    zeroParams (ofaSpecies_oneSpeciesConfig _ _ _ _ _) rfl rfl rfl
    (by simp [oneSpeciesConfig]) (by simp [oneSpeciesConfig]) (by simp [oneSpeciesConfig])
    (by simp [specTotal, oneSpeciesConfig, dvConst, List.range_succ]; norm_num)
    (by simp [specTotalOld, oneSpeciesConfig, dvConst, List.range_succ]; norm_num)
    (by simp only [dvConst]; norm_num) (by simp only [dvConst]; norm_num)
  simp only at h
  rw [h]
  have hsmall : ¬ ((2:ℝ) < 1e-16) := by norm_num
  have hpos : (0:ℝ) < 1e-4 := by norm_num
  have hpow : m.pow 1e-4 4 < 1e-15 := by
    rw [hm.pow_eq, show (4:ℝ) = ((4:ℕ):ℝ) by norm_num, Real.rpow_natCast]
    norm_num
  have hf : fuchslin m (fun a b => a / b) (-4) 1e-4 2 = 0 := by
    simp only [fuchslin, neg_neg]
    rw [if_pos (by norm_num), if_pos hpow]
  simp only [oneSpeciesConfig, dvConst, hsmall, hpos, not_false_eq_true, and_self, if_true, hf,
    specTotal, specTotalOld, List.range_succ, List.range_zero, List.nil_append, List.map_cons,
    List.map_nil, List.sum_cons, List.sum_nil, add_zero, alphaSixRmZero]
  norm_num

/-- Claim C6 (counterexample). Over the reals, one species with epsilon 1, rm 2, alpha 6 on
both one-fluid sites, `fuchslinR = -4`, particles holding `1e-4` molecules: the resolved
`rm` is scaled to zero (`pow(1e-4, 4) < 1e-15`) while alpha stays 6. For the pair (0,1),
within the cutoff, all four directed mixed alphas equal 6.0, both blocks are skipped and
`compute` returns without raising the fatal error. -/
theorem alpha_six_without_error_example :
    let m : MathLib ℝ := ⟨Real.sqrt, Real.exp,
      fun x => if x < 0 then -(-x) ^ (3:ℝ)⁻¹ else x ^ (3:ℝ)⁻¹, fun x y => x ^ y⟩
    let dv : ℝ → ℝ → ℝ := fun a b => a / b
    let firstneigh : Nat → List Nat := fun i => if i = 0 then [1] else []
    ∃ pd st,
      paramTable m dv (oneSpeciesConfig 1 2 6 (-4) 0) (dvConst 1e-4) 2 (fun _ => zeroParams)
        = .ok pd ∧
      pairRsq (lineEnv 2 : PairEnv ℝ) 0 1 < pairCutsq (lineEnv 2 : PairEnv ℝ) 0 1 ∧
      (mixPair m (pd 0) (pd 1)).alphaOld12_ij = 6 ∧
      (mixPair m (pd 0) (pd 1)).alphaOld21_ij = 6 ∧
      (mixPair m (pd 0) (pd 1)).alpha12_ij = 6 ∧
      (mixPair m (pd 0) (pd 1)).alpha21_ij = 6 ∧
      compute m dv (oneSpeciesConfig 1 2 6 (-4) 0) (lineEnv 2) (dvConst 1e-4)
        (fun _ => zeroParams) [0] firstneigh (startState 0) = .ok st := by
  intro m dv firstneigh
  have hm : IsRealLib m := ⟨rfl, rfl, fun _ => rfl, fun _ _ => rfl⟩
  have hp := lineEnv_pair (F := ℝ) 2 0 (by norm_num)
  have hcut : pairRsq (lineEnv 2 : PairEnv ℝ) 0 1 < pairCutsq (lineEnv 2 : PairEnv ℝ) 0 1 := by
    rw [hp.2.2.2.2.2.1, hp.2.2.2.2.2.2]; norm_num
  have htot : ∀ id, (1e-8:ℝ) ≤ specTotal (oneSpeciesConfig 1 2 6 (-4) 0) (dvConst 1e-4) id ∧
      (1e-8:ℝ) ≤ specTotalOld (oneSpeciesConfig 1 2 6 (-4) 0) (dvConst 1e-4) id := by
    intro id
    simp [specTotal, specTotalOld, oneSpeciesConfig, dvConst, List.range_succ]
    norm_num
  have hpd := paramTable_ok m dv (oneSpeciesConfig 1 2 6 (-4) 0) (dvConst 1e-4)
    (fun _ => zeroParams) (fun _ => alphaSixRmZero) 2 (fun i _ => by
      rw [getParamsEXP6_resolved m dv _ _ i _ (htot i).1 (htot i).2, resolved_alpha_six m hm i])
  have h6 : m.sqrt (6 * 6) = 6 := sqrt_sq_real m hm 6 (by norm_num)
  have hog : ¬ oldGate m alphaSixRmZero alphaSixRmZero := by
    simp [oldGate, mixPair, alphaSixRmZero]
  have hng : ¬ newGate m alphaSixRmZero alphaSixRmZero := by
    simp [newGate, mixPair, alphaSixRmZero]
  refine ⟨_, startState 0, hpd, hcut, ?_, ?_, ?_, ?_, ?_⟩
  · simp [mixPair, alphaSixRmZero, h6]
  · simp [mixPair, alphaSixRmZero, h6]
  · simp [mixPair, alphaSixRmZero, h6]
  · simp [mixPair, alphaSixRmZero, h6]
  · rw [compute_of_table m dv _ _ _ _ _ _ _ _ hpd,
      computeLoop_single m _ _ _ 0 1 firstneigh rfl,
      computePair_within m _ _ _ 0 1 _ hcut,
      computePairOld_closed m _ _ _ _ _ _ _ _ _ (by simpa [hp.1] using hog)]
    exact computePairNew_closed m _ _ _ _ _ _ _ _ _ _ _ _ (by simpa [hp.1] using hng)


/-- Witness of claim C8 over the reals: the end-to-end scenario of the specification, both
sites pinned to species A, a particle of pure A. -/
theorem pinned_site_resolution_witness :
    let m : MathLib ℝ := ⟨Real.sqrt, Real.exp,
      fun x => if x < 0 then -(-x) ^ (3:ℝ)⁻¹ else x ^ (3:ℝ)⁻¹, fun x y => x ^ y⟩
    ∃ p, getParamsEXP6 m (fun a b => a / b) (scenarioConfig 0 0) dvPureA 0 zeroParams = .ok p ∧
      Site1Is paramA 1 1 p ∧ Site2Is paramA 1 1 p := by
  intro m
  have hT : specTotal (scenarioConfig 0 0) (dvPureA : Nat → Nat → ℝ) 0 = 1 := by
    simp [specTotal, scenarioConfig, dvPureA, List.range_succ]
  have hTo : specTotalOld (scenarioConfig 0 0) (dvPureA : Nat → Nat → ℝ) 0 = 1 := by
    simp [specTotalOld, scenarioConfig, dvPureA, List.range_succ]
  obtain ⟨p, hp, h1, h2, _⟩ := pinned_site_resolution m (fun a b => a / b)
    (scenarioConfig 0 0) dvPureA 0 zeroParams 0 (by simp [scenarioConfig])
    (fun _ _ _ => rfl) (by simp [scenarioConfig])
    (by simp [scenarioConfig, paramA])
    (by
      intro t ht _
      have : t = 0 ∨ t = 1 := by
        simp only [scenarioConfig] at ht; omega
      rcases this with h | h <;> subst h <;> simp [scenarioConfig, paramA, paramB])
    (by rw [hT]; norm_num) (by rw [hTo]; norm_num)
  refine ⟨p, hp, ?_, ?_⟩
  · have := h1 rfl
    rw [hT, hTo] at this
    simpa [scenarioConfig, dvPureA] using this
  · have := h2 rfl
    rw [hT, hTo] at this
    simpa [scenarioConfig, dvPureA] using this

/-- Witness of claim C10 over the reals: a particle that held only the species without a
record in the previous snapshot; both sites are one-fluid sites. -/
theorem ofa_zero_population_resolves_to_zero_witness :
    let m : MathLib ℝ := ⟨Real.sqrt, Real.exp,
      fun x => if x < 0 then -(-x) ^ (3:ℝ)⁻¹ else x ^ (3:ℝ)⁻¹, fun x y => x ^ y⟩
    specPopulationOld fluidConfig (dvFresh : Nat → Nat → ℝ) 2 = 0 ∧
    ∃ p, getParamsEXP6 m (fun a b => a / b) fluidConfig dvFresh 2 zeroParams = .ok p ∧
      (p.rmOld1 = 0 ∧ p.epsilonOld1 = 0 ∧ p.alphaOld1 = 0) ∧
      (p.rmOld2 = 0 ∧ p.epsilonOld2 = 0 ∧ p.alphaOld2 = 0) := by
  intro m
  have hm : IsRealLib m := ⟨rfl, rfl, fun _ => rfl, fun _ _ => rfl⟩
  have hpop : specPopulationOld fluidConfig (dvFresh : Nat → Nat → ℝ) 2 = 0 := by
    rw [(specPopulation_single fluidConfig ofaSpecies_fluidConfig dvFresh 2).2]
    simp [fluidConfig, dvFresh]
  obtain ⟨p, hp, _, h1, _, h2⟩ := ofa_zero_population_resolves_to_zero m (fun a b => a / b)
    fluidConfig dvFresh 2 zeroParams (fun _ _ _ => rfl) (cbrt_zero_real m hm)
    (by simp [specTotal, fluidConfig, dvFresh, List.range_succ]; norm_num)
    (by simp [specTotalOld, fluidConfig, dvFresh, List.range_succ]; norm_num)
  exact ⟨hpop, p, hp, h1 rfl hpop, h2 rfl hpop⟩

theorem specMoment_one_species (m : MathLib ℝ) (hm : IsRealLib m) (e r a : ℝ) (hr : 0 ≤ r) :
    specPopulation (oneSpeciesConfig e r a 0 0) (dvConst 1) 0 = 1 ∧
    specMoment (oneSpeciesConfig e r a 0 0)
      (specMoleFraction (oneSpeciesConfig e r a 0 0) (dvConst 1) 0) weightRm3 = r ^ 3 ∧
    m.cbrt (specMoment (oneSpeciesConfig e r a 0 0)
      (specMoleFraction (oneSpeciesConfig e r a 0 0) (dvConst 1) 0) weightRm3) = r := by
  have hP := (specPopulation_single (oneSpeciesConfig e r a 0 0)
    (ofaSpecies_oneSpeciesConfig _ _ _ _ _) (dvConst 1) 0).1
  have hpop : specPopulation (oneSpeciesConfig e r a 0 0) (dvConst 1) 0 = 1 := by
    rw [hP]; rfl
  have hmom : specMoment (oneSpeciesConfig e r a 0 0)
      (specMoleFraction (oneSpeciesConfig e r a 0 0) (dvConst 1) 0) weightRm3 = r ^ 3 := by
    rw [specMoment_single _ (ofaSpecies_oneSpeciesConfig _ _ _ _ _)]
    simp only [specMoleFraction, hpop, dvConst, weightRm3]
    simp only [oneSpeciesConfig]
    norm_num
  exact ⟨hpop, hmom, by rw [hmom]; exact cbrt_cube_real m hm r hr⟩

/-- Witness of claim C9 (amended) over the reals: one species with epsilon 1, rm 2,
alpha 12 on both one-fluid sites, Fuchslin exponents zero, a particle holding one molecule. -/
theorem ofa_moment_resolution_witness :
    let m : MathLib ℝ := ⟨Real.sqrt, Real.exp,
      fun x => if x < 0 then -(-x) ^ (3:ℝ)⁻¹ else x ^ (3:ℝ)⁻¹, fun x y => x ^ y⟩
    let cfg : Exp6Config ℝ := oneSpeciesConfig 1 2 12 0 0
    let x := specMoleFraction cfg (dvConst 1) 0
    m.cbrt (specMoment cfg x weightRm3) = 2 ∧
    ∃ p, getParamsEXP6 m (fun a b => a / b) cfg (dvConst 1) 0 zeroParams = .ok p ∧
      p.rm1 = m.cbrt (specMoment cfg x weightRm3) ∧
      p.epsilon1 = specMoment cfg x (weightEpsilon m) / specMoment cfg x weightRm3 ∧
      p.alpha1 = specMoment cfg x (weightAlpha m) / (p.epsilon1 * specMoment cfg x weightRm3) := by
  intro m cfg x
  have hm : IsRealLib m := ⟨rfl, rfl, fun _ => rfl, fun _ _ => rfl⟩
  obtain ⟨hpop, _, hcb⟩ := specMoment_one_species m hm 1 2 12 (by norm_num)
  obtain ⟨p, hp, h1, _⟩ := ofa_moment_resolution m cfg (dvConst 1) 0 zeroParams
    (pow_zero_real m hm) rfl rfl
    (by simp [cfg, specTotal, oneSpeciesConfig, dvConst, List.range_succ]; norm_num)
    (by simp [cfg, specTotalOld, oneSpeciesConfig, dvConst, List.range_succ]; norm_num)
  have h := (h1 rfl (by rw [hpop]; norm_num)).1 (by rw [hcb]; norm_num)
  exact ⟨hcb, p, hp, h⟩

/-- Claim C9 (counterexample). Over the reals, one species with epsilon 1, `rm = 1e-17`,
alpha 12 on both one-fluid sites, Fuchslin exponents zero, a particle holding one molecule:
the eligible population is positive and `cbrt(rm3) = 1e-17`, but `getParamsEXP6` returns
`rm = 0` because `cbrt(rm3) < 1e-16`. -/
theorem ofa_tiny_rm_example :
    let m : MathLib ℝ := ⟨Real.sqrt, Real.exp,
      fun x => if x < 0 then -(-x) ^ (3:ℝ)⁻¹ else x ^ (3:ℝ)⁻¹, fun x y => x ^ y⟩
    let cfg : Exp6Config ℝ := oneSpeciesConfig 1 1e-17 12 0 0
    let x := specMoleFraction cfg (dvConst 1) 0
    isOneFluidApprox cfg.isite1 = true ∧ 0 < specPopulation cfg (dvConst 1) 0 ∧
    cfg.fuchslinR = 0 ∧ cfg.fuchslinEpsilon = 0 ∧
    m.cbrt (specMoment cfg x weightRm3) = 1e-17 ∧
    ∃ p, getParamsEXP6 m (fun a b => a / b) cfg (dvConst 1) 0 zeroParams = .ok p ∧
      p.rm1 = 0 ∧ p.rm1 ≠ m.cbrt (specMoment cfg x weightRm3) := by
  intro m cfg x
  have hm : IsRealLib m := ⟨rfl, rfl, fun _ => rfl, fun _ _ => rfl⟩
  obtain ⟨hpop, _, hcb⟩ := specMoment_one_species m hm 1 1e-17 12 (by norm_num)
  have htot : (1e-8:ℝ) ≤ specTotal cfg (dvConst 1) 0 ∧
      (1e-8:ℝ) ≤ specTotalOld cfg (dvConst 1) 0 := by
    simp [cfg, specTotal, specTotalOld, oneSpeciesConfig, dvConst, List.range_succ]
    norm_num
  have h := resolved_single_species m hm cfg (dvConst 1) 0 zeroParams
    (ofaSpecies_oneSpeciesConfig _ _ _ _ _) rfl rfl rfl
    (by simp [cfg, oneSpeciesConfig]) (by simp only [cfg, oneSpeciesConfig]; norm_num)
    (by simp [cfg, oneSpeciesConfig]) htot.1 htot.2
    (by simp only [dvConst]; norm_num) (by simp only [dvConst]; norm_num)
  simp only at h
  have hsmall : ((cfg.params (cfg.mol2param 0).toNat).rm < 1e-16) := by
    simp only [cfg, oneSpeciesConfig]; norm_num
  have hrm : (resolved m (fun a b => a / b) cfg (dvConst 1) 0 zeroParams).rm1 = 0 := by
    rw [h]
    simp only [hsmall, not_true_eq_false, and_false, if_false]
    exact fuchslin_zero m _ _ _
  refine ⟨rfl, by rw [hpop]; norm_num, rfl, rfl, hcb, _,
    getParamsEXP6_resolved m _ cfg (dvConst 1) 0 zeroParams htot.1 htot.2, hrm, ?_⟩
  rw [hrm, hcb]
  norm_num

end MoreExamples

/-! ### Fuchslin scaling, equal sites, mixing rule, ledgers and forces -/

section Scaling

variable {F : Type} [LinearOrderedField F]

theorem fuchslin_eq_scale (m : MathLib F) (dv : F → F → F)
    (hdv : ∀ a b, b ≠ 0 → dv a b = a / b) (e N v : F) :
    fuchslin m dv e N v = v * fuchslinScale m N e := by
  unfold fuchslin fuchslinScale
  by_cases he : e < 0
  · rw [if_pos he, if_neg (not_le.mpr he)]
    by_cases hp : m.pow N (-e) < 1e-15
    · simp only [hp, if_true, mul_zero]
    · have hne : m.pow N (-e) ≠ 0 := by
        intro h0
        apply hp
        rw [h0]
        norm_num
      simp only [hp, if_false]
      rw [hdv _ _ hne]
  · rw [if_neg he, if_pos (not_lt.mp he)]

theorem resolveLoop_withExponents (m : MathLib F) (dv : F → F → F) (cfg : Exp6Config F)
    (a b : F) (dvector : Nat → Nat → F) (id : Nat) (tot : Totals F) (fo foOld : F)
    (init : ParamData F) :
    resolveLoop m dv (withExponents cfg a b) dvector id tot fo foOld init
      = resolveLoop m dv cfg dvector id tot fo foOld init := rfl

theorem getTotals_withExponents (cfg : Exp6Config F) (a b : F) (dvector : Nat → Nat → F)
    (id : Nat) : getTotals (withExponents cfg a b) dvector id = getTotals cfg dvector id := rfl

theorem ofaSites_pinned1 (m : MathLib F) (dv : F → F → F) (cfg : Exp6Config F) (tot : Totals F)
    (fo foOld : F) (res : Resolve F) (h1 : isOneFluidApprox cfg.isite1 = false) :
    SameSite1 (ofaSites m dv cfg tot fo foOld res) res.out := by
  simp only [ofaSites, h1, SameSite1, Bool.false_eq_true, if_false]
  split_ifs <;> exact ⟨rfl, rfl, rfl, rfl, rfl, rfl, rfl, rfl⟩

theorem ofaSites_pinned2 (m : MathLib F) (dv : F → F → F) (cfg : Exp6Config F) (tot : Totals F)
    (fo foOld : F) (res : Resolve F) (h2 : isOneFluidApprox cfg.isite2 = false) :
    SameSite2 (ofaSites m dv cfg tot fo foOld res) res.out := by
  simp only [ofaSites, h2, SameSite2, Bool.false_eq_true, if_false]
  split_ifs <;> exact ⟨rfl, rfl, rfl, rfl, rfl, rfl, rfl, rfl⟩

theorem ofaSites_site1_indep (m : MathLib F) (dv : F → F → F) (cfg : Exp6Config F) (a b : F)
    (tot : Totals F) (fo foOld : F) (res : Resolve F)
    (h1 : isOneFluidApprox cfg.isite1 = false) :
    SameSite1 (ofaSites m dv (withExponents cfg a b) tot fo foOld res)
      (ofaSites m dv cfg tot fo foOld res) := by
  obtain ⟨a1, a2, a3, a4, a5, a6, a7, a8⟩ :=
    ofaSites_pinned1 m dv (withExponents cfg a b) tot fo foOld res h1
  obtain ⟨b1, b2, b3, b4, b5, b6, b7, b8⟩ := ofaSites_pinned1 m dv cfg tot fo foOld res h1
  exact ⟨a1.trans b1.symm, a2.trans b2.symm, a3.trans b3.symm, a4.trans b4.symm,
    a5.trans b5.symm, a6.trans b6.symm, a7.trans b7.symm, a8.trans b8.symm⟩

theorem ofaSites_site2_indep (m : MathLib F) (dv : F → F → F) (cfg : Exp6Config F) (a b : F)
    (tot : Totals F) (fo foOld : F) (res : Resolve F)
    (h2 : isOneFluidApprox cfg.isite2 = false) :
    SameSite2 (ofaSites m dv (withExponents cfg a b) tot fo foOld res)
      (ofaSites m dv cfg tot fo foOld res) := by
  obtain ⟨a1, a2, a3, a4, a5, a6, a7, a8⟩ :=
    ofaSites_pinned2 m dv (withExponents cfg a b) tot fo foOld res h2
  obtain ⟨b1, b2, b3, b4, b5, b6, b7, b8⟩ := ofaSites_pinned2 m dv cfg tot fo foOld res h2
  exact ⟨a1.trans b1.symm, a2.trans b2.symm, a3.trans b3.symm, a4.trans b4.symm,
    a5.trans b5.symm, a6.trans b6.symm, a7.trans b7.symm, a8.trans b8.symm⟩

/-- Claim C11. For a one-fluid site `getParamsEXP6` returns the unscaled `epsilon` times
`s(N, fuchslinEpsilon)` and the unscaled `rm` times `s(N, fuchslinR)`, where `N` is the
eligible population of the same snapshot and `s` is the factor of the specification; `alpha`
is returned unscaled; the unscaled triple does not depend on the exponents; and the entries
of a site that is not a one-fluid site do not depend on the exponents at all. -/
theorem fuchslin_scaling_of_ofa_sites (m : MathLib F) (dv : F → F → F) (cfg : Exp6Config F)
    (dvector : Nat → Nat → F) (id : Nat) (init : ParamData F)
    (hdv : ∀ a b, b ≠ 0 → dv a b = a / b)
    (htot : 1e-8 ≤ specTotal cfg dvector id)
    (htotOld : 1e-8 ≤ specTotalOld cfg dvector id) :
    ∃ p, getParamsEXP6 m dv cfg dvector id init = .ok p ∧
      (isOneFluidApprox cfg.isite1 = true →
        p.epsilon1 = (unscaledTriple m dv cfg dvector id init).2.1
          * fuchslinScale m (specPopulation cfg dvector id) cfg.fuchslinEpsilon ∧
        p.rm1 = (unscaledTriple m dv cfg dvector id init).1
          * fuchslinScale m (specPopulation cfg dvector id) cfg.fuchslinR ∧
        p.alpha1 = (unscaledTriple m dv cfg dvector id init).2.2 ∧
        p.epsilonOld1 = (unscaledTripleOld m dv cfg dvector id init).2.1
          * fuchslinScale m (specPopulationOld cfg dvector id) cfg.fuchslinEpsilon ∧
        p.rmOld1 = (unscaledTripleOld m dv cfg dvector id init).1
          * fuchslinScale m (specPopulationOld cfg dvector id) cfg.fuchslinR ∧
        p.alphaOld1 = (unscaledTripleOld m dv cfg dvector id init).2.2) ∧
      (isOneFluidApprox cfg.isite2 = true →
        p.epsilon2 = (unscaledTriple m dv cfg dvector id init).2.1
          * fuchslinScale m (specPopulation cfg dvector id) cfg.fuchslinEpsilon ∧
        p.rm2 = (unscaledTriple m dv cfg dvector id init).1
          * fuchslinScale m (specPopulation cfg dvector id) cfg.fuchslinR ∧
        p.alpha2 = (unscaledTriple m dv cfg dvector id init).2.2 ∧
        p.epsilonOld2 = (unscaledTripleOld m dv cfg dvector id init).2.1
          * fuchslinScale m (specPopulationOld cfg dvector id) cfg.fuchslinEpsilon ∧
        p.rmOld2 = (unscaledTripleOld m dv cfg dvector id init).1
          * fuchslinScale m (specPopulationOld cfg dvector id) cfg.fuchslinR ∧
        p.alphaOld2 = (unscaledTripleOld m dv cfg dvector id init).2.2) ∧
      (∀ a b, unscaledTriple m dv (withExponents cfg a b) dvector id init
          = unscaledTriple m dv cfg dvector id init ∧
        unscaledTripleOld m dv (withExponents cfg a b) dvector id init
          = unscaledTripleOld m dv cfg dvector id init) ∧
      (isOneFluidApprox cfg.isite1 = false →
        ∀ a b, SameSite1 (resolved m dv (withExponents cfg a b) dvector id init) p) ∧
      (isOneFluidApprox cfg.isite2 = false →
        ∀ a b, SameSite2 (resolved m dv (withExponents cfg a b) dvector id init) p) := by
  refine ⟨_, getParamsEXP6_ok m dv cfg dvector id init htot htotOld, ?_, ?_, ?_, ?_, ?_⟩
  · intro h1
    have hofa : (isOneFluidApprox cfg.isite1 || isOneFluidApprox cfg.isite2) = true := by
      simp [h1]
    have hs := ofaSites_site1 m dv cfg (getTotals cfg dvector id)
      (dv (getTotals cfg dvector id).nTotalOFA (getTotals cfg dvector id).nTotal)
      (dv (getTotals cfg dvector id).nTotalOFA_old (getTotals cfg dvector id).nTotal_old)
      (resolveLoop m dv cfg dvector id (getTotals cfg dvector id)
        (dv (getTotals cfg dvector id).nTotalOFA (getTotals cfg dvector id).nTotal)
        (dv (getTotals cfg dvector id).nTotalOFA_old (getTotals cfg dvector id).nTotal_old)
        init) h1
    rw [← getTotals_nTotalOFA cfg dvector id hofa, ← getTotals_nTotalOFA_old cfg dvector id hofa,
      hs.1, hs.2.1, hs.2.2.1, hs.2.2.2.1, hs.2.2.2.2.1, hs.2.2.2.2.2]
    simp only [fuchslin_eq_scale m dv hdv]
    exact ⟨rfl, rfl, rfl, rfl, rfl, rfl⟩
  · intro h2
    have hofa : (isOneFluidApprox cfg.isite1 || isOneFluidApprox cfg.isite2) = true := by
      simp [h2]
    have hs := ofaSites_site2 m dv cfg (getTotals cfg dvector id)
      (dv (getTotals cfg dvector id).nTotalOFA (getTotals cfg dvector id).nTotal)
      (dv (getTotals cfg dvector id).nTotalOFA_old (getTotals cfg dvector id).nTotal_old)
      (resolveLoop m dv cfg dvector id (getTotals cfg dvector id)
        (dv (getTotals cfg dvector id).nTotalOFA (getTotals cfg dvector id).nTotal)
        (dv (getTotals cfg dvector id).nTotalOFA_old (getTotals cfg dvector id).nTotal_old)
        init) h2
    rw [← getTotals_nTotalOFA cfg dvector id hofa, ← getTotals_nTotalOFA_old cfg dvector id hofa,
      hs.1, hs.2.1, hs.2.2.1, hs.2.2.2.1, hs.2.2.2.2.1, hs.2.2.2.2.2]
    simp only [fuchslin_eq_scale m dv hdv]
    exact ⟨rfl, rfl, rfl, rfl, rfl, rfl⟩
  · intro a b
    exact ⟨rfl, rfl⟩
  · intro h1 a b
    exact ofaSites_site1_indep m dv cfg a b _ _ _ _ h1
  · intro h2 a b
    exact ofaSites_site2_indep m dv cfg a b _ _ _ _ h2

end Scaling

section EqualSitesSection

variable {F : Type} [LinearOrderedField F]

theorem getParamsEXP6_ok_eq (m : MathLib F) (dv : F → F → F) (cfg : Exp6Config F)
    (dvector : Nat → Nat → F) (id : Nat) (init p : ParamData F)
    (h : getParamsEXP6 m dv cfg dvector id init = .ok p) :
    p = resolved m dv cfg dvector id init := by
  simp only [getParamsEXP6] at h
  split_ifs at h
  cases h
  rfl

theorem paramTable_entries (m : MathLib F) (dv : F → F → F) (cfg : Exp6Config F)
    (dvector : Nat → Nat → F) (init : Nat → ParamData F) :
    ∀ n pd, paramTable m dv cfg dvector n init = .ok pd →
      ∀ i, i < n → getParamsEXP6 m dv cfg dvector i (init i) = .ok (pd i) := by
  intro n
  induction n with
  | zero => intro pd _ i hi; omega
  | succ n ih =>
    intro pd h i hi
    unfold paramTable at h ih
    rw [List.range_succ, List.foldlM_append] at h
    cases hprev : List.foldlM (fun tbl i => (getParamsEXP6 m dv cfg dvector i (init i)).map
        (fun p k => if k = i then p else tbl k)) init (List.range n) with
    | error e =>
      rw [hprev] at h
      cases h
    | ok tbl =>
      rw [hprev] at h
      simp only [List.foldlM, bind, Except.bind, pure, Except.pure] at h
      cases hn : getParamsEXP6 m dv cfg dvector n (init n) with
      | error e =>
        rw [hn] at h
        cases h
      | ok p =>
        rw [hn] at h
        simp only [Except.map] at h
        cases h
        by_cases hin : i = n
        · subst hin
          simp [hn]
        · have hlt : i < n := by omega
          simp only [hin, if_false]
          exact ih tbl hprev i hlt

theorem sitesAgree_of_sites {F : Type} (p : Param F) (fr fo : F) (o : ParamData F)
    (h1 : Site1Is p fr fo o) (h2 : Site2Is p fr fo o) : SitesAgree o := by
  obtain ⟨a1, a2, a3, a4, a5, a6, a7, a8⟩ := h1
  obtain ⟨b1, b2, b3, b4, b5, b6, b7, b8⟩ := h2
  exact ⟨a1.trans b1.symm, a2.trans b2.symm, a3.trans b3.symm, a4.trans b4.symm,
    a5.trans b5.symm, a6.trans b6.symm, a7.trans b7.symm, a8.trans b8.symm⟩

theorem resolved_sitesAgree (m : MathLib F) (dv : F → F → F) (cfg : Exp6Config F)
    (dvector : Nat → Nat → F) (id : Nat) (init : ParamData F)
    (heq : EqualSites cfg)
    (hinv : ∀ t, t < cfg.nspecies → 0 ≤ cfg.mol2param t →
      (cfg.params (cfg.mol2param t).toNat).ispecies = (t : Int)) :
    SitesAgree (resolved m dv cfg dvector id init) := by
  obtain ⟨hsame, hcase⟩ := heq
  rcases hcase with h1 | ⟨s, hs, hsite, hrec, htype⟩
  · have h2 : isOneFluidApprox cfg.isite2 = true := by rw [← hsame]; exact h1
    have h := resolved_both_ofa m dv cfg dvector id init h1 h2
    simp only at h
    rw [h]
    exact ⟨rfl, rfl, rfl, rfl, rfl, rfl, rfl, rfl⟩
  · have hsite2 : cfg.isite2 = (s : Int) := by rw [← hsame]; exact hsite
    have e1 := outerStep_site1 m dv cfg dvector id (getTotals cfg dvector id)
      (dv (getTotals cfg dvector id).nTotalOFA (getTotals cfg dvector id).nTotal)
      (dv (getTotals cfg dvector id).nTotalOFA_old (getTotals cfg dvector id).nTotal_old)
      s hs hsite hrec htype hinv init
    have e2 := outerStep_site2 m dv cfg dvector id (getTotals cfg dvector id)
      (dv (getTotals cfg dvector id).nTotalOFA (getTotals cfg dvector id).nTotal)
      (dv (getTotals cfg dvector id).nTotalOFA_old (getTotals cfg dvector id).nTotal_old)
      s hs hsite2 hrec htype hinv init
    have hofa1 : isOneFluidApprox cfg.isite1 = false := by
      rw [hsite]; exact isOneFluidApprox_natCast s
    have hofa2 : isOneFluidApprox cfg.isite2 = false := by
      rw [hsite2]; exact isOneFluidApprox_natCast s
    have hres : resolved m dv cfg dvector id init
        = (resolveLoop m dv cfg dvector id (getTotals cfg dvector id)
            (dv (getTotals cfg dvector id).nTotalOFA (getTotals cfg dvector id).nTotal)
            (dv (getTotals cfg dvector id).nTotalOFA_old (getTotals cfg dvector id).nTotal_old)
            init).out := by
      simp only [resolved, ofaSites, hofa1, hofa2, Bool.false_eq_true, if_false]
    rw [hres]
    exact sitesAgree_of_sites _ _ _ _ e1 e2

theorem mixesAgree_of_sitesAgree (m : MathLib F) (pi pj : ParamData F)
    (hi : SitesAgree pi) (hj : SitesAgree pj) : MixesAgree (mixPair m pi pj) := by
  obtain ⟨a1, a2, a3, _, a5, a6, a7, _⟩ := hi
  obtain ⟨b1, b2, b3, _, b5, b6, b7, _⟩ := hj
  simp only [MixesAgree, mixPair, a1, a2, a3, a5, a6, a7, b1, b2, b3, b5, b6, b7, and_self]

/-- Claim C16. When the two sites are configured alike (both one-fluid, or both pinned to the
same species that has a record, under the invariant of `setup`), `getParamsEXP6` returns
identical site-1 and site-2 tuples `(epsilon, alpha, rm, fraction)` for every particle and
both snapshots; hence for every pair of particles of the table built by `compute` the
directed 12 and 21 mixes `(rm, epsilon, alpha)` are equal. -/
theorem equal_sites_equal_mixes (m : MathLib F) (dv : F → F → F) (cfg : Exp6Config F)
    (dvector : Nat → Nat → F)
    (heq : EqualSites cfg)
    (hinv : ∀ t, t < cfg.nspecies → 0 ≤ cfg.mol2param t →
      (cfg.params (cfg.mol2param t).toNat).ispecies = (t : Int)) :
    (∀ id init, 1e-8 ≤ specTotal cfg dvector id → 1e-8 ≤ specTotalOld cfg dvector id →
      ∃ p, getParamsEXP6 m dv cfg dvector id init = .ok p ∧ SitesAgree p) ∧
    (∀ id init p, getParamsEXP6 m dv cfg dvector id init = .ok p → SitesAgree p) ∧
    (∀ n init pd, paramTable m dv cfg dvector n init = .ok pd →
      ∀ i j, i < n → j < n → MixesAgree (mixPair m (pd i) (pd j))) := by
  have hall : ∀ id init p, getParamsEXP6 m dv cfg dvector id init = .ok p → SitesAgree p := by
    intro id init p hp
    rw [getParamsEXP6_ok_eq m dv cfg dvector id init p hp]
    exact resolved_sitesAgree m dv cfg dvector id init heq hinv
  refine ⟨?_, hall, ?_⟩
  · intro id init htot htotOld
    exact ⟨_, getParamsEXP6_ok m dv cfg dvector id init htot htotOld,
      hall id init _ (getParamsEXP6_ok m dv cfg dvector id init htot htotOld)⟩
  · intro n init pd hpd i j hi hj
    have hgi := paramTable_entries m dv cfg dvector init n pd hpd i hi
    have hgj := paramTable_entries m dv cfg dvector init n pd hpd j hj
    exact mixesAgree_of_sitesAgree m _ _ (hall i _ _ hgi) (hall j _ _ hgj)

end EqualSitesSection

section PairState

variable {F : Type} [LinearOrderedField F]

/-- The arrays after a pair within the cutoff that raises no error, block by block. -/
theorem computePair_state (m : MathLib F) (cfg : Exp6Config F)
    (env : PairEnv F) (pd : Nat → ParamData F) (i jraw : Nat) (st : ComputeState F)
    (hcut : pairRsq env i jraw < pairCutsq env i jraw)
    (hoa : oldGate m (pd i) (pd (env.neighmask jraw)) →
      ¬ oldAlphaSix m (pd i) (pd (env.neighmask jraw)))
    (hna : newGate m (pd i) (pd (env.neighmask jraw)) →
      ¬ newAlphaSix m (pd i) (pd (env.neighmask jraw))) :
    ∃ st' fpair, computePair m cfg env pd i st jraw = .ok st' ∧
      (oldGate m (pd i) (pd (env.neighmask jraw)) →
        st'.uCG = creditHalves env st.uCG i (env.neighmask jraw)
          (pairEvdwlOld m cfg (pairGeomOf m env i jraw) (pairFactor env jraw) (pd i)
            (pd (env.neighmask jraw))) ∧
        fpair = pairFpairOld m cfg (pairGeomOf m env i jraw) (pairFactor env jraw) (pd i)
          (pd (env.neighmask jraw))) ∧
      (¬ oldGate m (pd i) (pd (env.neighmask jraw)) →
        st'.uCG = st.uCG ∧
        fpair = mixSites m cfg.isite1 cfg.isite2 (pd i).fractionOld1
          (pd (env.neighmask jraw)).fractionOld2 (pd i).fractionOld2
          (pd (env.neighmask jraw)).fractionOld1 st.fpairOldEXP6_12 st.fpairOldEXP6_21) ∧
      (newGate m (pd i) (pd (env.neighmask jraw)) →
        st'.uCGnew = creditHalves env st.uCGnew i (env.neighmask jraw)
          (pairEvdwlNew m cfg (pairGeomOf m env i jraw) (pairFactor env jraw) (pd i)
            (pd (env.neighmask jraw))) ∧
        st'.f = applyForce env st.f i (env.neighmask jraw) (pairDel env i jraw 0)
          (pairDel env i jraw 1) (pairDel env i jraw 2) fpair) ∧
      (¬ newGate m (pd i) (pd (env.neighmask jraw)) →
        st'.uCGnew = st.uCGnew ∧ st'.f = st.f) := by
  by_cases hog : oldGate m (pd i) (pd (env.neighmask jraw))
  · obtain ⟨st1, h1, hf1, hn1, _, _, hm1, hu1⟩ := computePairOld_open m cfg env
      (pairGeomOf m env i jraw) (pairFactor env jraw) (pd i) (pd (env.neighmask jraw)) i
      (env.neighmask jraw) st hog (hoa hog)
    by_cases hng : newGate m (pd i) (pd (env.neighmask jraw))
    · obtain ⟨st2, h2, hf2, hu2, _, _, _, hn2, _⟩ := computePairNew_open m cfg env
        (pairGeomOf m env i jraw) (pairFactor env jraw) (pd i) (pd (env.neighmask jraw)) i
        (env.neighmask jraw) (pairDel env i jraw 0) (pairDel env i jraw 1)
        (pairDel env i jraw 2) st1 hng (hna hng)
      refine ⟨st2, _, ?_, fun _ => ⟨?_, rfl⟩, fun h => absurd hog h, fun _ => ⟨?_, ?_⟩,
        fun h => absurd hng h⟩
      · rw [computePair_within m cfg env pd i jraw st hcut, h1]; exact h2
      · rw [hu2, hu1]; rfl
      · rw [hn2, hn1]; rfl
      · rw [hf2, hm1, hf1]
    · refine ⟨st1, _, ?_, fun _ => ⟨?_, rfl⟩, fun h => absurd hog h, fun h => absurd h hng,
        fun _ => ⟨hn1, hf1⟩⟩
      · rw [computePair_within m cfg env pd i jraw st hcut, h1]
        exact computePairNew_closed m cfg env _ _ _ _ _ _ _ _ _ st1 hng
      · rw [hu1]; rfl
  · by_cases hng : newGate m (pd i) (pd (env.neighmask jraw))
    · obtain ⟨st2, h2, hf2, hu2, _, _, _, hn2, _⟩ := computePairNew_open m cfg env
        (pairGeomOf m env i jraw) (pairFactor env jraw) (pd i) (pd (env.neighmask jraw)) i
        (env.neighmask jraw) (pairDel env i jraw 0) (pairDel env i jraw 1)
        (pairDel env i jraw 2) st hng (hna hng)
      refine ⟨st2, _, ?_, fun h => absurd h hog, fun _ => ⟨hu2, rfl⟩, fun _ => ⟨?_, hf2⟩,
        fun h => absurd hng h⟩
      · rw [computePair_within m cfg env pd i jraw st hcut,
          computePairOld_closed m cfg env _ _ _ _ _ _ st hog]
        exact h2
      · rw [hn2]; rfl
    · refine ⟨st, _, ?_, fun h => absurd h hog, fun _ => ⟨rfl, rfl⟩, fun h => absurd h hng,
        fun _ => ⟨rfl, rfl⟩⟩
      · rw [computePair_within m cfg env pd i jraw st hcut,
          computePairOld_closed m cfg env _ _ _ _ _ _ st hog]
        exact computePairNew_closed m cfg env _ _ _ _ _ _ _ _ _ st hng

end PairState

section RmSign

variable {F : Type} [LinearOrderedField F]

theorem ofaResolve_fst_nonneg (m : MathLib F) (dv : F → F → F) (rm3 e a : F) :
    0 ≤ (ofaResolve m dv rm3 e a).1 := by
  unfold ofaResolve
  simp only
  split_ifs with h
  · exact le_refl 0
  · have h1 : (1e-16 : F) ≤ m.cbrt rm3 := not_lt.mp h
    have h2 : (0 : F) < 1e-16 := by norm_num
    exact le_trans h2.le h1

theorem fuchslin_nonneg (m : MathLib F) (dv : F → F → F) (expo N v : F)
    (hpow : ∀ a b : F, 0 ≤ a → 0 ≤ m.pow a b)
    (hdv : ∀ a b : F, b ≠ 0 → dv a b = a / b)
    (hN : 0 ≤ N) (hv : 0 ≤ v) : 0 ≤ fuchslin m dv expo N v := by
  unfold fuchslin
  simp only
  split_ifs with h1 h2
  · exact le_refl 0
  · have hp : (1e-15 : F) ≤ m.pow N (-expo) := not_lt.mp h2
    have hpos : (0 : F) < m.pow N (-expo) := lt_of_lt_of_le (by norm_num) hp
    rw [hdv _ _ hpos.ne']
    exact mul_nonneg hv (by positivity)
  · exact mul_nonneg hv (hpow _ _ hN)

theorem specPopulation_nonneg (cfg : Exp6Config F) (dvector : Nat → Nat → F) (id : Nat)
    (hconc : ∀ s id, 0 ≤ dvector s id) :
    0 ≤ specPopulation cfg dvector id ∧ 0 ≤ specPopulationOld cfg dvector id := by
  constructor
  · unfold specPopulation
    apply List.sum_nonneg
    intro x hx
    obtain ⟨s, _, rfl⟩ := List.mem_map.mp hx
    exact hconc s id
  · unfold specPopulationOld
    apply List.sum_nonneg
    intro x hx
    obtain ⟨s, _, rfl⟩ := List.mem_map.mp hx
    exact hconc _ id

/-- The `rm` entries of a one-fluid site 1 are not negative. -/
theorem resolved_ofa_rm1 (m : MathLib F) (dv : F → F → F) (cfg : Exp6Config F)
    (dvector : Nat → Nat → F) (id : Nat) (init : ParamData F)
    (hv : ValidSetup m dv cfg dvector) (h1 : isOneFluidApprox cfg.isite1 = true) :
    0 ≤ (resolved m dv cfg dvector id init).rm1 ∧
    0 ≤ (resolved m dv cfg dvector id init).rmOld1 := by
  have hofa : (isOneFluidApprox cfg.isite1 || isOneFluidApprox cfg.isite2) = true := by
    simp [h1]
  have hp := specPopulation_nonneg cfg dvector id hv.conc_nonneg
  have a := ofaSites_site1 m dv cfg (getTotals cfg dvector id)
    (dv (getTotals cfg dvector id).nTotalOFA (getTotals cfg dvector id).nTotal)
    (dv (getTotals cfg dvector id).nTotalOFA_old (getTotals cfg dvector id).nTotal_old)
    (resolveLoop m dv cfg dvector id (getTotals cfg dvector id)
      (dv (getTotals cfg dvector id).nTotalOFA (getTotals cfg dvector id).nTotal)
      (dv (getTotals cfg dvector id).nTotalOFA_old (getTotals cfg dvector id).nTotal_old)
      init) h1
  constructor
  · show 0 ≤ (ofaSites m dv cfg _ _ _ _).rm1
    rw [a.1]
    exact fuchslin_nonneg m dv _ _ _ hv.pow_nonneg hv.dv_div
      (by rw [getTotals_nTotalOFA cfg dvector id hofa]; exact hp.1)
      (ofaResolve_fst_nonneg m dv _ _ _)
  · show 0 ≤ (ofaSites m dv cfg _ _ _ _).rmOld1
    rw [a.2.2.2.1]
    exact fuchslin_nonneg m dv _ _ _ hv.pow_nonneg hv.dv_div
      (by rw [getTotals_nTotalOFA_old cfg dvector id hofa]; exact hp.2)
      (ofaResolve_fst_nonneg m dv _ _ _)

/-- The `rm` entries of a one-fluid site 2 are not negative. -/
theorem resolved_ofa_rm2 (m : MathLib F) (dv : F → F → F) (cfg : Exp6Config F)
    (dvector : Nat → Nat → F) (id : Nat) (init : ParamData F)
    (hv : ValidSetup m dv cfg dvector) (h2 : isOneFluidApprox cfg.isite2 = true) :
    0 ≤ (resolved m dv cfg dvector id init).rm2 ∧
    0 ≤ (resolved m dv cfg dvector id init).rmOld2 := by
  have hofa : (isOneFluidApprox cfg.isite1 || isOneFluidApprox cfg.isite2) = true := by
    simp [h2]
  have hp := specPopulation_nonneg cfg dvector id hv.conc_nonneg
  have a := ofaSites_site2 m dv cfg (getTotals cfg dvector id)
    (dv (getTotals cfg dvector id).nTotalOFA (getTotals cfg dvector id).nTotal)
    (dv (getTotals cfg dvector id).nTotalOFA_old (getTotals cfg dvector id).nTotal_old)
    (resolveLoop m dv cfg dvector id (getTotals cfg dvector id)
      (dv (getTotals cfg dvector id).nTotalOFA (getTotals cfg dvector id).nTotal)
      (dv (getTotals cfg dvector id).nTotalOFA_old (getTotals cfg dvector id).nTotal_old)
      init) h2
  constructor
  · show 0 ≤ (ofaSites m dv cfg _ _ _ _).rm2
    rw [a.1]
    exact fuchslin_nonneg m dv _ _ _ hv.pow_nonneg hv.dv_div
      (by rw [getTotals_nTotalOFA cfg dvector id hofa]; exact hp.1)
      (ofaResolve_fst_nonneg m dv _ _ _)
  · show 0 ≤ (ofaSites m dv cfg _ _ _ _).rmOld2
    rw [a.2.2.2.1]
    exact fuchslin_nonneg m dv _ _ _ hv.pow_nonneg hv.dv_div
      (by rw [getTotals_nTotalOFA_old cfg dvector id hofa]; exact hp.2)
      (ofaResolve_fst_nonneg m dv _ _ _)

/-- The `rm` entries of a site 1 pinned to a species with a record are those of the record,
which are positive. -/
theorem resolved_pinned_rm1 (m : MathLib F) (dv : F → F → F) (cfg : Exp6Config F)
    (dvector : Nat → Nat → F) (id : Nat) (init : ParamData F)
    (hv : ValidSetup m dv cfg dvector) (h1 : isOneFluidApprox cfg.isite1 = false) :
    0 < (resolved m dv cfg dvector id init).rm1 ∧
    0 < (resolved m dv cfg dvector id init).rmOld1 := by
  rcases hv.site1 with h | ⟨s, hs, hsite, hrec, htype⟩
  · rw [h] at h1; cases h1
  · have e1 := outerStep_site1 m dv cfg dvector id (getTotals cfg dvector id)
      (dv (getTotals cfg dvector id).nTotalOFA (getTotals cfg dvector id).nTotal)
      (dv (getTotals cfg dvector id).nTotalOFA_old (getTotals cfg dvector id).nTotal_old)
      s hs hsite hrec htype hv.setup_inv init
    have e2 := ofaSites_pinned1 m dv cfg (getTotals cfg dvector id)
      (dv (getTotals cfg dvector id).nTotalOFA (getTotals cfg dvector id).nTotal)
      (dv (getTotals cfg dvector id).nTotalOFA_old (getTotals cfg dvector id).nTotal_old)
      (resolveLoop m dv cfg dvector id (getTotals cfg dvector id)
        (dv (getTotals cfg dvector id).nTotalOFA (getTotals cfg dvector id).nTotal)
        (dv (getTotals cfg dvector id).nTotalOFA_old (getTotals cfg dvector id).nTotal_old)
        init) h1
    have hpos := hv.rm_pos s hs hrec
    constructor
    · show 0 < (ofaSites m dv cfg _ _ _ _).rm1
      rw [e2.2.2.1, e1.2.2.1]
      exact hpos
    · show 0 < (ofaSites m dv cfg _ _ _ _).rmOld1
      rw [e2.2.2.2.2.2.2.1, e1.2.2.2.2.2.2.1]
      exact hpos

/-- The `rm` entries of a site 2 pinned to a species with a record are those of the record,
which are positive. -/
theorem resolved_pinned_rm2 (m : MathLib F) (dv : F → F → F) (cfg : Exp6Config F)
    (dvector : Nat → Nat → F) (id : Nat) (init : ParamData F)
    (hv : ValidSetup m dv cfg dvector) (h2 : isOneFluidApprox cfg.isite2 = false) :
    0 < (resolved m dv cfg dvector id init).rm2 ∧
    0 < (resolved m dv cfg dvector id init).rmOld2 := by
  rcases hv.site2 with h | ⟨s, hs, hsite, hrec, htype⟩
  · rw [h] at h2; cases h2
  · have e1 := outerStep_site2 m dv cfg dvector id (getTotals cfg dvector id)
      (dv (getTotals cfg dvector id).nTotalOFA (getTotals cfg dvector id).nTotal)
      (dv (getTotals cfg dvector id).nTotalOFA_old (getTotals cfg dvector id).nTotal_old)
      s hs hsite hrec htype hv.setup_inv init
    have e2 := ofaSites_pinned2 m dv cfg (getTotals cfg dvector id)
      (dv (getTotals cfg dvector id).nTotalOFA (getTotals cfg dvector id).nTotal)
      (dv (getTotals cfg dvector id).nTotalOFA_old (getTotals cfg dvector id).nTotal_old)
      (resolveLoop m dv cfg dvector id (getTotals cfg dvector id)
        (dv (getTotals cfg dvector id).nTotalOFA (getTotals cfg dvector id).nTotal)
        (dv (getTotals cfg dvector id).nTotalOFA_old (getTotals cfg dvector id).nTotal_old)
        init) h2
    have hpos := hv.rm_pos s hs hrec
    constructor
    · show 0 < (ofaSites m dv cfg _ _ _ _).rm2
      rw [e2.2.2.1, e1.2.2.1]
      exact hpos
    · show 0 < (ofaSites m dv cfg _ _ _ _).rmOld2
      rw [e2.2.2.2.2.2.2.1, e1.2.2.2.2.2.2.1]
      exact hpos

/-- The four `rm` entries that `getParamsEXP6` resolves are not negative. -/
theorem resolved_rm_nonneg (m : MathLib F) (dv : F → F → F) (cfg : Exp6Config F)
    (dvector : Nat → Nat → F) (id : Nat) (init : ParamData F)
    (hv : ValidSetup m dv cfg dvector) :
    0 ≤ (resolved m dv cfg dvector id init).rm1 ∧
    0 ≤ (resolved m dv cfg dvector id init).rmOld1 ∧
    0 ≤ (resolved m dv cfg dvector id init).rm2 ∧
    0 ≤ (resolved m dv cfg dvector id init).rmOld2 := by
  have s1 : 0 ≤ (resolved m dv cfg dvector id init).rm1 ∧
      0 ≤ (resolved m dv cfg dvector id init).rmOld1 := by
    cases h1 : isOneFluidApprox cfg.isite1
    · have := resolved_pinned_rm1 m dv cfg dvector id init hv h1
      exact ⟨this.1.le, this.2.le⟩
    · exact resolved_ofa_rm1 m dv cfg dvector id init hv h1
  have s2 : 0 ≤ (resolved m dv cfg dvector id init).rm2 ∧
      0 ≤ (resolved m dv cfg dvector id init).rmOld2 := by
    cases h2 : isOneFluidApprox cfg.isite2
    · have := resolved_pinned_rm2 m dv cfg dvector id init hv h2
      exact ⟨this.1.le, this.2.le⟩
    · exact resolved_ofa_rm2 m dv cfg dvector id init hv h2
  exact ⟨s1.1, s1.2, s2.1, s2.2⟩

/-- With two different sites, both blocks of every pair of resolved particles are evaluated:
one of the sites is pinned to a species with a record, whose `rm` is positive, and no `rm` is
negative, so that the four directed `rm` mixes are positive. -/
theorem gates_open_of_sites_differ (m : MathLib F) (dv : F → F → F) (cfg : Exp6Config F)
    (dvector : Nat → Nat → F) (a b : Nat) (inita initb : ParamData F)
    (hv : ValidSetup m dv cfg dvector) (hne : cfg.isite1 ≠ cfg.isite2) :
    oldGate m (resolved m dv cfg dvector a inita) (resolved m dv cfg dvector b initb) ∧
    newGate m (resolved m dv cfg dvector a inita) (resolved m dv cfg dvector b initb) := by
  have na := resolved_rm_nonneg m dv cfg dvector a inita hv
  have nb := resolved_rm_nonneg m dv cfg dvector b initb hv
  have hpin : isOneFluidApprox cfg.isite1 = false ∨ isOneFluidApprox cfg.isite2 = false := by
    cases h1 : isOneFluidApprox cfg.isite1
    · exact Or.inl rfl
    · cases h2 : isOneFluidApprox cfg.isite2
      · exact Or.inr rfl
      · exfalso
        apply hne
        simp only [isOneFluidApprox, beq_iff_eq] at h1 h2
        rw [h1, h2]
  have hhalf : (0 : F) < 0.5 := by norm_num
  simp only [oldGate, newGate, mixPair]
  rcases hpin with h | h
  · have pa := resolved_pinned_rm1 m dv cfg dvector a inita hv h
    have pb := resolved_pinned_rm1 m dv cfg dvector b initb hv h
    refine ⟨⟨?_, ?_⟩, ⟨?_, ?_⟩⟩
    · exact (mul_pos hhalf (add_pos_of_pos_of_nonneg pa.2 nb.2.2.2)).ne'
    · exact (mul_pos hhalf (add_pos_of_nonneg_of_pos na.2.2.2 pb.2)).ne'
    · exact (mul_pos hhalf (add_pos_of_pos_of_nonneg pa.1 nb.2.2.1)).ne'
    · exact (mul_pos hhalf (add_pos_of_nonneg_of_pos na.2.2.1 pb.1)).ne'
  · have pa := resolved_pinned_rm2 m dv cfg dvector a inita hv h
    have pb := resolved_pinned_rm2 m dv cfg dvector b initb hv h
    refine ⟨⟨?_, ?_⟩, ⟨?_, ?_⟩⟩
    · exact (mul_pos hhalf (add_pos_of_nonneg_of_pos na.2.1 pb.2)).ne'
    · exact (mul_pos hhalf (add_pos_of_pos_of_nonneg pa.2 nb.2.1)).ne'
    · exact (mul_pos hhalf (add_pos_of_nonneg_of_pos na.1 pb.1)).ne'
    · exact (mul_pos hhalf (add_pos_of_pos_of_nonneg pa.1 nb.1)).ne'

/-- The directed energy of the model for a mix with `rm = 0` (which `compute` never
evaluates, by the guards of lines 288 and 382) is zero at every separation `r >= 0`. -/
theorem exp6Directed_rm_zero (m : MathLib F) (g : PairGeom F) (factor_lj alpha epsilon : F)
    (hr : 0 ≤ g.r) :
    (exp6Directed m g factor_lj alpha epsilon 0).evdwl = 0 := by
  have hrin : (exp6Terms m g alpha epsilon 0).rin1 = 0 := by
    simp [exp6Terms]
  unfold exp6Directed
  simp only [hrin, not_lt.mpr hr, if_false]
  simp only [outerEvdwl, exp6Terms, div_zero, mul_zero, zero_mul, sub_zero, neg_mul]
  ring

end RmSign

section RmLimit

theorem tendsto_pow_six_mul (C : ℝ) :
    Filter.Tendsto (fun rm : ℝ => rm ^ 6 * C) (nhdsWithin 0 (Set.Ioi 0)) (nhds 0) := by
  apply tendsto_nhdsWithin_of_tendsto_nhds
  have h : Filter.Tendsto (fun rm : ℝ => rm ^ 6 * C) (nhds 0) (nhds ((0:ℝ) ^ 6 * C)) :=
    ((continuous_pow 6).mul continuous_const).tendsto 0
  have e : (0:ℝ) ^ 6 * C = 0 := by norm_num
  rw [e] at h
  exact h

/-- For a mix with `alpha >= 0`, the directed energy and the directed force magnitude tend to
zero as `rm` tends to zero from above: for `rm` small enough the outer branch is taken, both
exponentials are cut to zero by `expValue` (or, for `alpha = 0`, cancel), and what is left is
a multiple of `rm^6`. The value zero that the model gives to a mix with `rm = 0`, which
`compute` never evaluates, is this limit. -/
theorem exp6Directed_tendsto_zero (m : MathLib ℝ) (hm : IsRealLib m) (g : PairGeom ℝ)
    (factor_lj alpha epsilon : ℝ) (hr : 0 < g.r) (hrc : 0 < g.rCut) (ha : 0 ≤ alpha) :
    Filter.Tendsto (fun rm => (exp6Directed m g factor_lj alpha epsilon rm).evdwl)
      (nhdsWithin 0 (Set.Ioi 0)) (nhds 0) ∧
    Filter.Tendsto (fun rm => (exp6Directed m g factor_lj alpha epsilon rm).fpair)
      (nhdsWithin 0 (Set.Ioi 0)) (nhds 0) := by
  have hK := func_rin_nonneg m hm alpha
  have hKpos : 0 < shift * (func_rin m alpha + 1) := by
    unfold shift; positivity
  -- the outer branch for small rm
  have houter : ∀ rm : ℝ, 0 < rm → rm < g.r / (shift * (func_rin m alpha + 1)) →
      ¬ g.r < (exp6Terms m g alpha epsilon rm).rin1 := by
    intro rm h0 h1
    rw [lt_div_iff₀ hKpos] at h1
    show ¬ g.r < shift * rm * func_rin m alpha
    have hs : (0:ℝ) < shift := by unfold shift; norm_num
    have : shift * rm * func_rin m alpha ≤ rm * (shift * (func_rin m alpha + 1)) := by
      have : 0 ≤ shift * rm := (mul_pos hs h0).le
      nlinarith
    linarith
  rcases ha.lt_or_eq with hpos | hzero
  · -- alpha > 0: both exponentials are cut to zero
    have hA : 0 < alpha + 1021 := by linarith
    have hcutoff : ∀ (R rm : ℝ), 0 < rm → rm < R * alpha / (alpha + 1021) →
        expValue m (alpha * (1 - R * (1 / rm))) = 0 := by
      intro R rm h0 h1
      apply expValue_underflow
      rw [lt_div_iff₀ hA] at h1
      have e : alpha * (1 - R * (1 / rm)) = (alpha * rm - alpha * R) / rm := by
        field_simp
        ring
      rw [e, div_lt_iff₀ h0]
      nlinarith
    set δ := min (g.r / (shift * (func_rin m alpha + 1)))
      (min (g.r * alpha / (alpha + 1021)) (g.rCut * alpha / (alpha + 1021))) with hδ
    have hδpos : 0 < δ := by
      rw [hδ]
      refine lt_min (div_pos hr hKpos) (lt_min ?_ ?_)
      · exact div_pos (mul_pos hr hpos) hA
      · exact div_pos (mul_pos hrc hpos) hA
    have hmem : Set.Ioo 0 δ ∈ nhdsWithin (0:ℝ) (Set.Ioi 0) :=
      Ioo_mem_nhdsWithin_Ioi (Set.left_mem_Ico.mpr hδpos)
    have hsmall : ∀ rm ∈ Set.Ioo 0 δ,
        ¬ g.r < (exp6Terms m g alpha epsilon rm).rin1 ∧
        expValue m (alpha * (1 - g.r * (1 / rm))) = 0 ∧
        expValue m (alpha * (1 - g.rCut * (1 / rm))) = 0 := by
      intro rm hrm
      obtain ⟨h0, h1⟩ := hrm
      exact ⟨houter rm h0 (lt_of_lt_of_le h1 (min_le_left _ _)),
        hcutoff g.r rm h0 (lt_of_lt_of_le h1 (le_trans (min_le_right _ _) (min_le_left _ _))),
        hcutoff g.rCut rm h0
          (lt_of_lt_of_le h1 (le_trans (min_le_right _ _) (min_le_right _ _)))⟩
    have hevE : ∀ᶠ rm in nhdsWithin (0:ℝ) (Set.Ioi 0),
        (exp6Directed m g factor_lj alpha epsilon rm).evdwl
          = rm ^ 6 * (epsilon / (alpha - 6) * (-(alpha * g.r6inv) + alpha * g.rCut6inv
              - 6 * alpha * (g.rCutInv * g.rCut6inv) * (g.r - g.rCut))) := by
      refine Filter.eventually_of_mem hmem ?_
      intro rm hrm
      obtain ⟨hb, e1, e2⟩ := hsmall rm hrm
      unfold exp6Directed
      simp only [if_neg hb]
      simp only [outerEvdwl, exp6Terms, e1, e2]
      ring
    have hevF : ∀ᶠ rm in nhdsWithin (0:ℝ) (Set.Ioi 0),
        (exp6Directed m g factor_lj alpha epsilon rm).fpair
          = rm ^ 6 * (factor_lj * (epsilon / (alpha - 6) * (6 * alpha)
              * (-g.r6inv + g.r * (g.rCutInv * g.rCut6inv))) * g.r2inv) := by
      refine Filter.eventually_of_mem hmem ?_
      intro rm hrm
      obtain ⟨hb, e1, e2⟩ := hsmall rm hrm
      unfold exp6Directed
      simp only [if_neg hb]
      simp only [outerForceExp6, exp6Terms, e1, e2]
      ring
    exact ⟨Filter.Tendsto.congr' (Filter.EventuallyEq.symm hevE) (tendsto_pow_six_mul _),
      Filter.Tendsto.congr' (Filter.EventuallyEq.symm hevF) (tendsto_pow_six_mul _)⟩
  · -- alpha = 0: the two exponentials are 1 and cancel
    subst hzero
    have hmem : Set.Ioo 0 (g.r / (shift * (func_rin m 0 + 1)))
        ∈ nhdsWithin (0:ℝ) (Set.Ioi 0) :=
      Ioo_mem_nhdsWithin_Ioi (Set.left_mem_Ico.mpr (div_pos hr hKpos))
    have hevE : ∀ᶠ rm in nhdsWithin (0:ℝ) (Set.Ioi 0),
        (exp6Directed m g factor_lj 0 epsilon rm).evdwl = 0 := by
      refine Filter.eventually_of_mem hmem ?_
      intro rm hrm
      obtain ⟨h0, h1⟩ := hrm
      unfold exp6Directed
      simp only [if_neg (houter rm h0 h1)]
      simp only [outerEvdwl, exp6Terms, zero_mul, expValue_zero m hm]
      ring
    have hevF : ∀ᶠ rm in nhdsWithin (0:ℝ) (Set.Ioi 0),
        (exp6Directed m g factor_lj 0 epsilon rm).fpair = 0 := by
      refine Filter.eventually_of_mem hmem ?_
      intro rm hrm
      obtain ⟨h0, h1⟩ := hrm
      unfold exp6Directed
      simp only [if_neg (houter rm h0 h1)]
      simp only [outerForceExp6, exp6Terms, zero_mul, expValue_zero m hm]
      ring
    exact ⟨Filter.Tendsto.congr' (Filter.EventuallyEq.symm hevE) tendsto_const_nhds,
      Filter.Tendsto.congr' (Filter.EventuallyEq.symm hevF) tendsto_const_nhds⟩

end RmLimit

section ClosedGates

variable {F : Type} [LinearOrderedField F]

theorem creditHalves_zero (env : PairEnv F) (a : Nat → F) (i j : Nat) :
    creditHalves env a i j 0 = a := by
  funext k
  unfold creditHalves addAt
  split_ifs <;> simp

theorem applyForce_zero (env : PairEnv F) (f : Nat → Nat → F) (i j : Nat) (delx dely delz : F) :
    applyForce env f i j delx dely delz 0 = f := by
  funext k d
  unfold applyForce addForce
  split_ifs <;> simp

/-- For two particles with resolved parameters, a snapshot whose block is skipped has the
mixed energy zero: the two sites are then configured alike, the two directed `rm` mixes are
equal and both zero, and the directed energy of a mix with `rm = 0` is zero. -/
theorem pairEvdwl_closed (m : MathLib F) (dv : F → F → F) (cfg : Exp6Config F)
    (dvector : Nat → Nat → F) (a b : Nat) (inita initb : ParamData F)
    (hv : ValidSetup m dv cfg dvector) (g : PairGeom F) (factor_lj : F) (hr : 0 ≤ g.r) :
    (¬ oldGate m (resolved m dv cfg dvector a inita) (resolved m dv cfg dvector b initb) →
      pairEvdwlOld m cfg g factor_lj (resolved m dv cfg dvector a inita)
        (resolved m dv cfg dvector b initb) = 0) ∧
    (¬ newGate m (resolved m dv cfg dvector a inita) (resolved m dv cfg dvector b initb) →
      pairEvdwlNew m cfg g factor_lj (resolved m dv cfg dvector a inita)
        (resolved m dv cfg dvector b initb) = 0) := by
  by_cases hs : cfg.isite1 = cfg.isite2
  · have heq : EqualSites cfg := ⟨hs, hv.site1⟩
    have ha := resolved_sitesAgree m dv cfg dvector a inita heq hv.setup_inv
    have hb := resolved_sitesAgree m dv cfg dvector b initb heq hv.setup_inv
    obtain ⟨m1, _, _, m4, _, _⟩ := mixesAgree_of_sitesAgree m _ _ ha hb
    constructor
    · intro hg
      have h0 : (mixPair m (resolved m dv cfg dvector a inita)
          (resolved m dv cfg dvector b initb)).rmOld12_ij = 0 := by
        by_contra hne
        exact hg ⟨hne, by rw [← m4]; exact hne⟩
      unfold pairEvdwlOld mixSites
      simp only [if_pos hs, h0, exp6Directed_rm_zero m g factor_lj _ _ hr, mul_zero, zero_mul]
    · intro hg
      have h0 : (mixPair m (resolved m dv cfg dvector a inita)
          (resolved m dv cfg dvector b initb)).rm12_ij = 0 := by
        by_contra hne
        exact hg ⟨hne, by rw [← m1]; exact hne⟩
      unfold pairEvdwlNew mixSites
      simp only [if_pos hs, h0, exp6Directed_rm_zero m g factor_lj _ _ hr, mul_zero, zero_mul]
  · have hg := gates_open_of_sites_differ m dv cfg dvector a b inita initb hv hs
    exact ⟨fun h => absurd hg.1 h, fun h => absurd hg.2 h⟩

/-- For two particles with resolved parameters, a block is skipped only when both directed
`rm` mixes of its snapshot are zero: with `isite1 == isite2` the two mixes are equal, and
with `isite1 != isite2` no block is skipped. -/
theorem closed_gate_rm_zero (m : MathLib F) (dv : F → F → F) (cfg : Exp6Config F)
    (dvector : Nat → Nat → F) (a b : Nat) (inita initb : ParamData F)
    (hv : ValidSetup m dv cfg dvector) :
    (¬ oldGate m (resolved m dv cfg dvector a inita) (resolved m dv cfg dvector b initb) →
      (mixPair m (resolved m dv cfg dvector a inita)
        (resolved m dv cfg dvector b initb)).rmOld12_ij = 0 ∧
      (mixPair m (resolved m dv cfg dvector a inita)
        (resolved m dv cfg dvector b initb)).rmOld21_ij = 0) ∧
    (¬ newGate m (resolved m dv cfg dvector a inita) (resolved m dv cfg dvector b initb) →
      (mixPair m (resolved m dv cfg dvector a inita)
        (resolved m dv cfg dvector b initb)).rm12_ij = 0 ∧
      (mixPair m (resolved m dv cfg dvector a inita)
        (resolved m dv cfg dvector b initb)).rm21_ij = 0) := by
  by_cases hs : cfg.isite1 = cfg.isite2
  · have heq : EqualSites cfg := ⟨hs, hv.site1⟩
    have ha := resolved_sitesAgree m dv cfg dvector a inita heq hv.setup_inv
    have hb := resolved_sitesAgree m dv cfg dvector b initb heq hv.setup_inv
    obtain ⟨m1, _, _, m4, _, _⟩ := mixesAgree_of_sitesAgree m _ _ ha hb
    constructor
    · intro hg
      have h0 : (mixPair m (resolved m dv cfg dvector a inita)
          (resolved m dv cfg dvector b initb)).rmOld12_ij = 0 := by
        by_contra hne
        exact hg ⟨hne, by rw [← m4]; exact hne⟩
      exact ⟨h0, by rw [← m4]; exact h0⟩
    · intro hg
      have h0 : (mixPair m (resolved m dv cfg dvector a inita)
          (resolved m dv cfg dvector b initb)).rm12_ij = 0 := by
        by_contra hne
        exact hg ⟨hne, by rw [← m1]; exact hne⟩
      exact ⟨h0, by rw [← m1]; exact h0⟩
  · have hg := gates_open_of_sites_differ m dv cfg dvector a b inita initb hv hs
    exact ⟨fun h => absurd hg.1 h, fun h => absurd hg.2 h⟩

end ClosedGates

section MixRule

variable {F : Type} [LinearOrderedField F]

end MixRule

section PairClaims

variable {F : Type} [LinearOrderedField F]

theorem creditHalves_apply (env : PairEnv F) (a : Nat → F) (i j : Nat) (e : F) (hij : i ≠ j) :
    creditHalves env a i j e i = a i + 0.5 * e ∧
    (env.newton_pair ∨ j < env.nlocal → creditHalves env a i j e j = a j + 0.5 * e) ∧
    (¬ (env.newton_pair ∨ j < env.nlocal) → creditHalves env a i j e j = a j) ∧
    (∀ k, k ≠ i → k ≠ j → creditHalves env a i j e k = a k) := by
  have hji : j ≠ i := fun h => hij h.symm
  refine ⟨?_, ?_, ?_, ?_⟩
  · unfold creditHalves addAt
    split_ifs <;> simp_all
  · intro h
    unfold creditHalves addAt
    simp [h, hji]
  · intro h
    unfold creditHalves addAt
    simp [h, hji]
  · intro k hki hkj
    unfold creditHalves addAt
    split_ifs <;> simp_all

theorem applyForce_apply (env : PairEnv F) (f : Nat → Nat → F) (i j : Nat)
    (del : Nat → F) (fpair : F) (hij : i ≠ j) :
    (∀ d, d < 3 → applyForce env f i j (del 0) (del 1) (del 2) fpair i d
      = f i d + del d * fpair) ∧
    (env.newton_pair ∨ j < env.nlocal → ∀ d, d < 3 →
      applyForce env f i j (del 0) (del 1) (del 2) fpair j d = f j d - del d * fpair) ∧
    (¬ (env.newton_pair ∨ j < env.nlocal) → ∀ d,
      applyForce env f i j (del 0) (del 1) (del 2) fpair j d = f j d) ∧
    (∀ k d, k ≠ i → k ≠ j → applyForce env f i j (del 0) (del 1) (del 2) fpair k d = f k d) ∧
    (∀ k d, 3 ≤ d → applyForce env f i j (del 0) (del 1) (del 2) fpair k d = f k d) := by
  have hji : j ≠ i := fun h => hij h.symm
  refine ⟨?_, ?_, ?_, ?_, ?_⟩
  · intro d hd
    by_cases h : env.newton_pair ∨ j < env.nlocal
    · interval_cases d <;> simp [applyForce, addForce, h, hij]
    · interval_cases d <;> simp [applyForce, addForce, h]
  · intro h d hd
    interval_cases d <;> simp [applyForce, addForce, h, hji, sub_eq_add_neg]
  · intro h d
    simp [applyForce, addForce, h, hji]
  · intro k d hki hkj
    by_cases h : env.newton_pair ∨ j < env.nlocal
    · simp [applyForce, addForce, h, hki, hkj]
    · simp [applyForce, addForce, h, hki]
  · intro k d hd
    have h0 : d ≠ 0 := by omega
    have h1 : d ≠ 1 := by omega
    have h2 : d ≠ 2 := by omega
    by_cases h : env.newton_pair ∨ j < env.nlocal
    · simp [applyForce, addForce, h, h0, h1, h2]
    · simp [applyForce, addForce, h, h0, h1, h2]

/-- Claim C13. In `compute`, with the inputs that a successful `coeff` and `fix rx` supply
(`ValidSetup`), a square root that is not negative, and the table of the parameters that
`getParamsEXP6` has resolved for all particles: for every pair within the cutoff that raises
no error, `uCG[i]` grows by half of the pair's previous-snapshot mixed energy and `uCGnew[i]`
by half of its current-snapshot mixed energy; particle `j` receives the same two halves
exactly when `newton_pair` is on or `j < nlocal`, and otherwise `uCG[j]` and `uCGnew[j]` are
left unchanged; no other entry changes. A block is skipped (guards of lines 288 and 382)
only when both directed `rm` mixes of its snapshot are zero; the mixed energy of that
snapshot is then zero (the directed energy at `rm = 0` is the limit of the directed energy
for `rm` tending to zero, `exp6Directed_tendsto_zero`), and the ledger is not touched. -/
theorem ledgers_grow_by_half_energy (m : MathLib F) (dv : F → F → F) (cfg : Exp6Config F)
    (dvector : Nat → Nat → F) (env : PairEnv F) (init pd : Nat → ParamData F) (i jraw : Nat)
    (st : ComputeState F)
    (hv : ValidSetup m dv cfg dvector)
    (hsqrt : ∀ x : F, 0 ≤ m.sqrt x)
    (hpd : paramTable m dv cfg dvector (env.nlocal + env.nghost) init = .ok pd)
    (hi : i < env.nlocal + env.nghost)
    (hj : env.neighmask jraw < env.nlocal + env.nghost)
    (hij : i ≠ env.neighmask jraw)
    (hcut : pairRsq env i jraw < pairCutsq env i jraw)
    (hoa : oldGate m (pd i) (pd (env.neighmask jraw)) →
      ¬ oldAlphaSix m (pd i) (pd (env.neighmask jraw)))
    (hna : newGate m (pd i) (pd (env.neighmask jraw)) →
      ¬ newAlphaSix m (pd i) (pd (env.neighmask jraw))) :
    let j := env.neighmask jraw
    let eOld := pairEvdwlOld m cfg (pairGeomOf m env i jraw) (pairFactor env jraw) (pd i) (pd j)
    let eNew := pairEvdwlNew m cfg (pairGeomOf m env i jraw) (pairFactor env jraw) (pd i) (pd j)
    ∃ st', computePair m cfg env pd i st jraw = .ok st' ∧
      (st'.uCG i = st.uCG i + 0.5 * eOld ∧
        (env.newton_pair ∨ j < env.nlocal → st'.uCG j = st.uCG j + 0.5 * eOld) ∧
        (¬ (env.newton_pair ∨ j < env.nlocal) → st'.uCG j = st.uCG j) ∧
        (∀ k, k ≠ i → k ≠ j → st'.uCG k = st.uCG k)) ∧
      (st'.uCGnew i = st.uCGnew i + 0.5 * eNew ∧
        (env.newton_pair ∨ j < env.nlocal → st'.uCGnew j = st.uCGnew j + 0.5 * eNew) ∧
        (¬ (env.newton_pair ∨ j < env.nlocal) → st'.uCGnew j = st.uCGnew j) ∧
        (∀ k, k ≠ i → k ≠ j → st'.uCGnew k = st.uCGnew k)) ∧
      (¬ oldGate m (pd i) (pd j) →
        ((mixPair m (pd i) (pd j)).rmOld12_ij = 0 ∧ (mixPair m (pd i) (pd j)).rmOld21_ij = 0) ∧
        eOld = 0 ∧ st'.uCG = st.uCG) ∧
      (¬ newGate m (pd i) (pd j) →
        ((mixPair m (pd i) (pd j)).rm12_ij = 0 ∧ (mixPair m (pd i) (pd j)).rm21_ij = 0) ∧
        eNew = 0 ∧ st'.uCGnew = st.uCGnew) := by
  intro j eOld eNew
  have hpi : pd i = resolved m dv cfg dvector i (init i) :=
    getParamsEXP6_ok_eq m dv cfg dvector i (init i) (pd i)
      (paramTable_entries m dv cfg dvector init _ pd hpd i hi)
  have hpj : pd j = resolved m dv cfg dvector j (init j) :=
    getParamsEXP6_ok_eq m dv cfg dvector j (init j) (pd j)
      (paramTable_entries m dv cfg dvector init _ pd hpd j hj)
  have hclosed := pairEvdwl_closed m dv cfg dvector i j (init i) (init j) hv
    (pairGeomOf m env i jraw) (pairFactor env jraw) (hsqrt _)
  have hzero := closed_gate_rm_zero m dv cfg dvector i j (init i) (init j) hv
  rw [← hpi, ← hpj] at hclosed hzero
  obtain ⟨st', fpair, hok, ho, hon, hn, hnn⟩ :=
    computePair_state m cfg env pd i jraw st hcut hoa hna
  have hu : st'.uCG = creditHalves env st.uCG i j eOld := by
    by_cases hg : oldGate m (pd i) (pd j)
    · exact (ho hg).1
    · rw [(hon hg).1]
      show st.uCG = creditHalves env st.uCG i j
        (pairEvdwlOld m cfg (pairGeomOf m env i jraw) (pairFactor env jraw) (pd i) (pd j))
      rw [hclosed.1 hg, creditHalves_zero]
  have hun : st'.uCGnew = creditHalves env st.uCGnew i j eNew := by
    by_cases hg : newGate m (pd i) (pd j)
    · exact (hn hg).1
    · rw [(hnn hg).1]
      show st.uCGnew = creditHalves env st.uCGnew i j
        (pairEvdwlNew m cfg (pairGeomOf m env i jraw) (pairFactor env jraw) (pd i) (pd j))
      rw [hclosed.2 hg, creditHalves_zero]
  refine ⟨st', hok, ?_, ?_, fun hg => ⟨hzero.1 hg, hclosed.1 hg, (hon hg).1⟩,
    fun hg => ⟨hzero.2 hg, hclosed.2 hg, (hnn hg).1⟩⟩
  · rw [hu]
    exact creditHalves_apply env st.uCG i j eOld hij
  · rw [hun]
    exact creditHalves_apply env st.uCGnew i j eNew hij

/-- Claim C14. For a list entry that raises no error, the force added to particle `i` is
`fpair * (x_i - x_j)` for a scalar `fpair` (component by component, so a multiple of the
separation vector); when `newton_pair` is on or `j < nlocal` the force added to `j` is the
exact negative, so the two increments sum to zero, and otherwise `f[j]` is unchanged; no
other entry of `f` changes. The scalar is zero for an entry beyond the cutoff or whose
current-snapshot block is skipped, and otherwise the `fpair` of lines 454-455. -/
theorem force_increment_along_separation (m : MathLib F) (cfg : Exp6Config F)
    (env : PairEnv F) (pd : Nat → ParamData F) (i jraw : Nat) (st : ComputeState F)
    (hij : i ≠ env.neighmask jraw)
    (hoa : pairRsq env i jraw < pairCutsq env i jraw →
      oldGate m (pd i) (pd (env.neighmask jraw)) →
      ¬ oldAlphaSix m (pd i) (pd (env.neighmask jraw)))
    (hna : pairRsq env i jraw < pairCutsq env i jraw →
      newGate m (pd i) (pd (env.neighmask jraw)) →
      ¬ newAlphaSix m (pd i) (pd (env.neighmask jraw))) :
    let j := env.neighmask jraw
    ∃ st' fpair, computePair m cfg env pd i st jraw = .ok st' ∧
      (∀ d, d < 3 → st'.f i d = st.f i d + fpair * (env.x i d - env.x j d)) ∧
      (env.newton_pair ∨ j < env.nlocal → ∀ d, d < 3 →
        st'.f j d = st.f j d - fpair * (env.x i d - env.x j d) ∧
        (st'.f i d - st.f i d) + (st'.f j d - st.f j d) = 0) ∧
      (¬ (env.newton_pair ∨ j < env.nlocal) → ∀ d, st'.f j d = st.f j d) ∧
      (∀ k d, k ≠ i → k ≠ j → st'.f k d = st.f k d) ∧
      (∀ k d, 3 ≤ d → st'.f k d = st.f k d) ∧
      (pairRsq env i jraw < pairCutsq env i jraw → newGate m (pd i) (pd j) →
        oldGate m (pd i) (pd j) →
        fpair = pairFpairOld m cfg (pairGeomOf m env i jraw) (pairFactor env jraw) (pd i)
          (pd j)) ∧
      (¬ (pairRsq env i jraw < pairCutsq env i jraw ∧ newGate m (pd i) (pd j)) →
        fpair = 0 ∧ st'.f = st.f) := by
  intro j
  have key : ∀ (st' : ComputeState F) (fpair : F),
      st'.f = applyForce env st.f i j (pairDel env i jraw 0) (pairDel env i jraw 1)
        (pairDel env i jraw 2) fpair →
      (∀ d, d < 3 → st'.f i d = st.f i d + fpair * (env.x i d - env.x j d)) ∧
      (env.newton_pair ∨ j < env.nlocal → ∀ d, d < 3 →
        st'.f j d = st.f j d - fpair * (env.x i d - env.x j d) ∧
        (st'.f i d - st.f i d) + (st'.f j d - st.f j d) = 0) ∧
      (¬ (env.newton_pair ∨ j < env.nlocal) → ∀ d, st'.f j d = st.f j d) ∧
      (∀ k d, k ≠ i → k ≠ j → st'.f k d = st.f k d) ∧
      (∀ k d, 3 ≤ d → st'.f k d = st.f k d) := by
    intro st' fpair hf
    obtain ⟨a1, a2, a3, a4, a5⟩ := applyForce_apply env st.f i j (pairDel env i jraw) fpair hij
    have hi : ∀ d, d < 3 → st'.f i d = st.f i d + fpair * (env.x i d - env.x j d) := by
      intro d hd
      rw [hf, a1 d hd]
      simp only [pairDel, j]
      ring
    refine ⟨hi, ?_, ?_, ?_, ?_⟩
    · intro h d hd
      have hj : st'.f j d = st.f j d - fpair * (env.x i d - env.x j d) := by
        rw [hf, a2 h d hd]
        simp only [pairDel, j]
        ring
      refine ⟨hj, ?_⟩
      rw [hi d hd, hj]
      ring
    · intro h d
      rw [hf, a3 h d]
    · intro k d hki hkj
      rw [hf, a4 k d hki hkj]
    · intro k d hd
      rw [hf, a5 k d hd]
  have hzero : st.f = applyForce env st.f i j (pairDel env i jraw 0) (pairDel env i jraw 1)
      (pairDel env i jraw 2) 0 := by
    funext k d
    unfold applyForce addForce
    split_ifs <;> simp
  by_cases hcut : pairRsq env i jraw < pairCutsq env i jraw
  · obtain ⟨st', fpair, hok, ho, _, hn, hnn⟩ :=
      computePair_state m cfg env pd i jraw st hcut (hoa hcut) (hna hcut)
    by_cases hng : newGate m (pd i) (pd j)
    · obtain ⟨b1, b2, b3, b4, b5⟩ := key st' fpair (hn hng).2
      exact ⟨st', fpair, hok, b1, b2, b3, b4, b5, fun _ _ hg => (ho hg).2,
        fun h => absurd ⟨hcut, hng⟩ h⟩
    · have hf : st'.f = st.f := (hnn hng).2
      obtain ⟨b1, b2, b3, b4, b5⟩ := key st' 0 (by rw [hf]; exact hzero)
      exact ⟨st', 0, hok, b1, b2, b3, b4, b5, fun _ h => absurd h hng, fun _ => ⟨rfl, hf⟩⟩
  · obtain ⟨b1, b2, b3, b4, b5⟩ := key st 0 hzero
    exact ⟨st, 0, computePair_beyond m cfg env pd i jraw st hcut, b1, b2, b3, b4, b5,
      fun h => absurd h hcut, fun _ => ⟨rfl, rfl⟩⟩

end PairClaims

section Factor

variable {F : Type} [LinearOrderedField F]

theorem exp6Directed_factor (m : MathLib F) (g : PairGeom F) (c alpha epsilon rm : F) :
    (exp6Directed m g c alpha epsilon rm).evdwl = (exp6Directed m g 1 alpha epsilon rm).evdwl ∧
    (exp6Directed m g c alpha epsilon rm).fpair
      = c * (exp6Directed m g 1 alpha epsilon rm).fpair := by
  simp only [exp6Directed]
  split_ifs
  · exact ⟨rfl, by ring⟩
  · exact ⟨rfl, by ring⟩

/-- The three pair terms evaluated from a pair's own parameters are homogeneous in the
special factor. -/
theorem pair_terms_scale (m : MathLib F) (cfg : Exp6Config F) (g : PairGeom F) (c : F)
    (pi pj : ParamData F) :
    pairFpairOld m cfg g c pi pj = c * pairFpairOld m cfg g 1 pi pj ∧
    pairEvdwlOld m cfg g c pi pj = c * pairEvdwlOld m cfg g 1 pi pj ∧
    pairEvdwlNew m cfg g c pi pj = c * pairEvdwlNew m cfg g 1 pi pj := by
  refine ⟨?_, ?_, ?_⟩
  · simp only [pairFpairOld, mixSites]
    rw [(exp6Directed_factor m g c _ _ _).2, (exp6Directed_factor m g c _ _ _).2]
    split_ifs <;> ring
  · simp only [pairEvdwlOld, mixSites]
    rw [(exp6Directed_factor m g c _ _ _).1, (exp6Directed_factor m g c _ _ _).1]
    split_ifs <;> ring
  · simp only [pairEvdwlNew, mixSites]
    rw [(exp6Directed_factor m g c _ _ _).1, (exp6Directed_factor m g c _ _ _).1]
    split_ifs <;> ring

/-- After a pair whose two blocks are evaluated, the directed force magnitudes kept in
`fpairOldEXP6_12` and `fpairOldEXP6_21` are those of that pair. -/
theorem computePair_both_held (m : MathLib F) (cfg : Exp6Config F)
    (env : PairEnv F) (pd : Nat → ParamData F) (i jraw : Nat) (st : ComputeState F)
    (hcut : pairRsq env i jraw < pairCutsq env i jraw)
    (hog : oldGate m (pd i) (pd (env.neighmask jraw)))
    (hoa : ¬ oldAlphaSix m (pd i) (pd (env.neighmask jraw)))
    (hng : newGate m (pd i) (pd (env.neighmask jraw)))
    (hna : ¬ newAlphaSix m (pd i) (pd (env.neighmask jraw))) :
    ∃ st', computePair m cfg env pd i st jraw = .ok st' ∧
      st'.f = applyForce env st.f i (env.neighmask jraw) (pairDel env i jraw 0)
        (pairDel env i jraw 1) (pairDel env i jraw 2)
        (pairFpairOld m cfg (pairGeomOf m env i jraw) (pairFactor env jraw) (pd i)
          (pd (env.neighmask jraw))) ∧
      mixSites m cfg.isite1 cfg.isite2 (pd i).fractionOld1
        (pd (env.neighmask jraw)).fractionOld2 (pd i).fractionOld2
        (pd (env.neighmask jraw)).fractionOld1 st'.fpairOldEXP6_12 st'.fpairOldEXP6_21
        = pairFpairOld m cfg (pairGeomOf m env i jraw) (pairFactor env jraw) (pd i)
          (pd (env.neighmask jraw)) := by
  obtain ⟨st1, h1, hf1, _, _, _, hm1, _⟩ := computePairOld_open m cfg env
    (pairGeomOf m env i jraw) (pairFactor env jraw) (pd i) (pd (env.neighmask jraw)) i
    (env.neighmask jraw) st hog hoa
  obtain ⟨st2, h2, hf2, _, _, hk1, hk2, _, _⟩ := computePairNew_open m cfg env
    (pairGeomOf m env i jraw) (pairFactor env jraw) (pd i) (pd (env.neighmask jraw)) i
    (env.neighmask jraw) (pairDel env i jraw 0) (pairDel env i jraw 1) (pairDel env i jraw 2)
    st1 hng hna
  refine ⟨st2, ?_, ?_, ?_⟩
  · rw [computePair_within m cfg env pd i jraw st hcut, h1]
    exact h2
  · rw [hf2, hm1, hf1]
  · rw [hk1, hk2, hm1]

/-- A pair within the cutoff whose previous-snapshot block is skipped and whose
current-snapshot block is evaluated: the force is built from the directed force magnitudes
held before the pair. -/
theorem computePair_new_only_force (m : MathLib F) (cfg : Exp6Config F)
    (env : PairEnv F) (pd : Nat → ParamData F) (i jraw : Nat) (st : ComputeState F)
    (hcut : pairRsq env i jraw < pairCutsq env i jraw)
    (hog : ¬ oldGate m (pd i) (pd (env.neighmask jraw)))
    (hng : newGate m (pd i) (pd (env.neighmask jraw)))
    (hna : ¬ newAlphaSix m (pd i) (pd (env.neighmask jraw))) :
    ∃ st', computePair m cfg env pd i st jraw = .ok st' ∧
      st'.f = applyForce env st.f i (env.neighmask jraw) (pairDel env i jraw 0)
        (pairDel env i jraw 1) (pairDel env i jraw 2)
        (mixSites m cfg.isite1 cfg.isite2 (pd i).fractionOld1
          (pd (env.neighmask jraw)).fractionOld2 (pd i).fractionOld2
          (pd (env.neighmask jraw)).fractionOld1 st.fpairOldEXP6_12 st.fpairOldEXP6_21) := by
  obtain ⟨st2, h2, hf2, _⟩ := computePairNew_open m cfg env
    (pairGeomOf m env i jraw) (pairFactor env jraw) (pd i) (pd (env.neighmask jraw)) i
    (env.neighmask jraw) (pairDel env i jraw 0) (pairDel env i jraw 1) (pairDel env i jraw 2)
    st hng hna
  refine ⟨st2, ?_, hf2⟩
  rw [computePair_within m cfg env pd i jraw st hcut,
    computePairOld_closed m cfg env _ _ _ _ _ _ st hog]
  exact h2

end Factor

section StaleForce

theorem bondedEnv_pair01 {F : Type} [LinearOrderedField F] :
    (bondedEnv : PairEnv F).neighmask 1 = 1 ∧
    pairFactor (bondedEnv : PairEnv F) 1 = 1 ∧
    pairDel (bondedEnv : PairEnv F) 0 1 0 = -3 ∧
    pairDel (bondedEnv : PairEnv F) 0 1 1 = 0 ∧
    pairDel (bondedEnv : PairEnv F) 0 1 2 = 0 ∧
    pairRsq (bondedEnv : PairEnv F) 0 1 = 9 ∧
    pairCutsq (bondedEnv : PairEnv F) 0 1 = 100 := by
  have hmod : 1 % 2 ^ 30 = 1 := by norm_num
  have hd0 : pairDel (bondedEnv : PairEnv F) 0 1 0 = -3 := by
    simp [pairDel, bondedEnv, lineEnv]
  have hd1 : pairDel (bondedEnv : PairEnv F) 0 1 1 = 0 := by
    simp [pairDel, bondedEnv, lineEnv]
  have hd2 : pairDel (bondedEnv : PairEnv F) 0 1 2 = 0 := by
    simp [pairDel, bondedEnv, lineEnv]
  refine ⟨rfl, ?_, hd0, hd1, hd2, ?_, rfl⟩
  · simp [pairFactor, bondedEnv, lineEnv]
  · simp only [pairRsq, hd0, hd1, hd2]
    norm_num

/-- The list entry of atom 2 for partner 3 carrying the special code 1. -/
theorem bondedEnv_pair23 {F : Type} [LinearOrderedField F] :
    (bondedEnv : PairEnv F).neighmask (3 + 2 ^ 30) = 3 ∧
    (bondedEnv : PairEnv F).sbmask (3 + 2 ^ 30) = 1 ∧
    pairFactor (bondedEnv : PairEnv F) (3 + 2 ^ 30) = 0 ∧
    pairDel (bondedEnv : PairEnv F) 2 (3 + 2 ^ 30) 0 = -3 ∧
    pairDel (bondedEnv : PairEnv F) 2 (3 + 2 ^ 30) 1 = 0 ∧
    pairDel (bondedEnv : PairEnv F) 2 (3 + 2 ^ 30) 2 = 0 ∧
    pairRsq (bondedEnv : PairEnv F) 2 (3 + 2 ^ 30) = 9 ∧
    pairCutsq (bondedEnv : PairEnv F) 2 (3 + 2 ^ 30) = 100 := by
  have hmod : (3 + 2 ^ 30) % 2 ^ 30 = 3 := by norm_num
  have hsb : (3 + 2 ^ 30) / 2 ^ 30 % 4 = 1 := by norm_num
  have hn : (bondedEnv : PairEnv F).neighmask (3 + 2 ^ 30) = 3 := hmod
  have hd0 : pairDel (bondedEnv : PairEnv F) 2 (3 + 2 ^ 30) 0 = -3 := by
    simp only [pairDel, hn]
    simp only [bondedEnv, lineEnv, if_true]
    push_cast
    norm_num
  have hd1 : pairDel (bondedEnv : PairEnv F) 2 (3 + 2 ^ 30) 1 = 0 := by
    simp only [pairDel, hn]
    simp [bondedEnv, lineEnv]
  have hd2 : pairDel (bondedEnv : PairEnv F) 2 (3 + 2 ^ 30) 2 = 0 := by
    simp only [pairDel, hn]
    simp [bondedEnv, lineEnv]
  refine ⟨hn, hsb, ?_, hd0, hd1, hd2, ?_, rfl⟩
  · have : (bondedEnv : PairEnv F).sbmask (3 + 2 ^ 30) = 1 := hsb
    simp only [pairFactor, this]
    simp [bondedEnv]
  · simp only [pairRsq, hd0, hd1, hd2]
    norm_num

theorem resolved_dilute (m : MathLib ℝ) (hm : IsRealLib m) (id : Nat) :
    resolved m (fun a b => a / b) (oneSpeciesConfig 1 2 12 (-4) 0) dvDilute id zeroParams
      = if id < 2 then pureA else diluteA := by
  have h := resolved_single_species m hm (oneSpeciesConfig 1 2 12 (-4) 0) dvDilute id
    zeroParams (ofaSpecies_oneSpeciesConfig _ _ _ _ _) rfl rfl rfl
    (by simp [oneSpeciesConfig]) (by simp [oneSpeciesConfig]) (by simp [oneSpeciesConfig])
    (by simp [specTotal, oneSpeciesConfig, dvDilute, List.range_succ]; norm_num)
    (by
      by_cases hid : id < 2 <;>
        simp [specTotalOld, oneSpeciesConfig, dvDilute, List.range_succ, hid] <;> norm_num)
    (by simp [dvDilute])
    (by
      by_cases hid : id < 2
      · simp [oneSpeciesConfig, dvDilute, hid]
      · simp only [oneSpeciesConfig, dvDilute, hid, zero_add, one_ne_zero, if_false, if_true]
        norm_num)
  simp only at h
  rw [h]
  have hsmall : ¬ ((2:ℝ) < 1e-16) := by norm_num
  have hpos : (0:ℝ) < 1e-4 := by norm_num
  have hpow : m.pow 1e-4 4 < 1e-15 := by
    rw [hm.pow_eq, show (4:ℝ) = ((4:ℕ):ℝ) by norm_num, Real.rpow_natCast]
    norm_num
  have hpow1 : m.pow 1 4 = 1 := by
    rw [hm.pow_eq]; exact Real.one_rpow 4
  have hf0 : fuchslin m (fun a b => a / b) (-4) 1e-4 2 = 0 := by
    simp only [fuchslin, neg_neg]
    rw [if_pos (by norm_num), if_pos hpow]
  have hf1 : fuchslin m (fun a b => a / b) (-4) 1 2 = 2 := by
    simp only [fuchslin, neg_neg, hpow1]
    rw [if_pos (by norm_num), if_neg (by norm_num)]
    norm_num
  by_cases hid : id < 2
  · simp only [oneSpeciesConfig, dvDilute, hid, hsmall, not_false_eq_true, and_self, if_true,
      specTotal, specTotalOld, List.range_succ, List.range_zero, List.nil_append, List.map_cons,
      List.map_nil, List.sum_cons, List.sum_nil, add_zero, pureA, likeA, zero_add,
      one_ne_zero, if_false, zero_lt_one, and_true, hf1]
    norm_num
  · simp only [oneSpeciesConfig, dvDilute, hid, hsmall, hpos, not_false_eq_true, and_self,
      if_true, specTotal, specTotalOld, List.range_succ, List.range_zero, List.nil_append,
      List.map_cons, List.map_nil, List.sum_cons, List.sum_nil, add_zero, diluteA, likeA,
      zero_add, one_ne_zero, if_false, zero_lt_one, and_true, hf1, hf0]
    norm_num

theorem mixPair_diluteA (m : MathLib ℝ) (hm : IsRealLib m) :
    mixPair m diluteA diluteA =
      { alphaOld12_ij := 12, rmOld12_ij := 0, epsilonOld12_ij := 1,
        alphaOld21_ij := 12, rmOld21_ij := 0, epsilonOld21_ij := 1,
        alpha12_ij := 12, rm12_ij := 2, epsilon12_ij := 1,
        alpha21_ij := 12, rm21_ij := 2, epsilon21_ij := 1 } := by
  have h12 : m.sqrt (12 * 12) = 12 := sqrt_sq_real m hm 12 (by norm_num)
  have h1 : m.sqrt (1 * 1) = 1 := sqrt_sq_real m hm 1 (by norm_num)
  simp only [mixPair, diluteA, likeA, h12, h1]
  norm_num

theorem gates_diluteA (m : MathLib ℝ) (hm : IsRealLib m) :
    ¬ oldGate m diluteA diluteA ∧ newGate m diluteA diluteA ∧
      ¬ newAlphaSix m diluteA diluteA := by
  simp only [oldGate, newGate, newAlphaSix, mixPair_diluteA m hm]
  norm_num

/-- The previous-snapshot force magnitude of two pure A particles on one-fluid sites. -/
theorem pairFpairOld_pureA_fluid (m : MathLib ℝ) (hm : IsRealLib m) (fR fE : ℝ) :
    pairFpairOld m (oneSpeciesConfig 1 2 12 fR fE) (pairGeom m 9 100) 1 pureA pureA
      = (exp6Directed m (pairGeom m 9 100) 1 12 1 2).forceExp6 * (1 / 9) := by
  have h := (exp6Directed_AA m hm 1).2.2
  have h1 : m.sqrt (1 * 1) = 1 := sqrt_sq_real m hm 1 (by norm_num)
  simp only [pairFpairOld, pureA, mixPair_likeA m hm, mixSites, oneSpeciesConfig, if_true, h]
  simp only [likeA, h1]
  ring

/-- Claim C15 (evaluation at the failing input). Over the reals, one species A on both
one-fluid sites with `fuchslinR = -4`; four atoms on a line, spacing 3, cutoff 10. Atoms 2 and
3 held `1e-4` molecules in the previous snapshot, so their previous `rm` is scaled to zero
while their previous fractions are 1. The neighbour list holds the pair (0,1) with special
code 0 and the pair (2,3) with special code 1, whose factor `special_lj[1]` is 0. The
previous-snapshot block of (2,3) is skipped, and the force applied to atoms 2 and 3 is built
from the directed force magnitudes left by the pair (0,1): it is not zero, although the
pair's factor is 0 and its own force magnitude times that factor is 0. -/
theorem stale_force_ignores_special_factor_example :
    let m : MathLib ℝ := ⟨Real.sqrt, Real.exp,
      fun x => if x < 0 then -(-x) ^ (3:ℝ)⁻¹ else x ^ (3:ℝ)⁻¹, fun x y => x ^ y⟩
    let dv : ℝ → ℝ → ℝ := fun a b => a / b
    let cfg : Exp6Config ℝ := oneSpeciesConfig 1 2 12 (-4) 0
    let firstneigh : Nat → List Nat :=
      fun i => if i = 0 then [1] else if i = 2 then [3 + 2 ^ 30] else []
    ∃ pd st,
      paramTable m dv cfg dvDilute 4 (fun _ => zeroParams) = .ok pd ∧
      compute m dv cfg bondedEnv dvDilute (fun _ => zeroParams) [0, 2] firstneigh
        (startState 0) = .ok st ∧
      (bondedEnv : PairEnv ℝ).neighmask (3 + 2 ^ 30) = 3 ∧
      pairRsq (bondedEnv : PairEnv ℝ) 2 (3 + 2 ^ 30)
        < pairCutsq (bondedEnv : PairEnv ℝ) 2 (3 + 2 ^ 30) ∧
      pairFactor (bondedEnv : PairEnv ℝ) (3 + 2 ^ 30) = 0 ∧
      pairFpairOld m cfg (pairGeomOf m bondedEnv 2 (3 + 2 ^ 30))
        (pairFactor (bondedEnv : PairEnv ℝ) (3 + 2 ^ 30)) (pd 2) (pd 3) = 0 ∧
      st.f 2 0 = -3 * pairFpairOld m cfg (pairGeomOf m bondedEnv 0 1)
        (pairFactor (bondedEnv : PairEnv ℝ) 1) (pd 0) (pd 1) ∧
      0 < st.f 2 0 ∧ st.f 3 0 = -st.f 2 0 := by
  intro m dv cfg firstneigh
  have hm : IsRealLib m := ⟨rfl, rfl, fun _ => rfl, fun _ _ => rfl⟩
  have hp01 := bondedEnv_pair01 (F := ℝ)
  have hp23 := bondedEnv_pair23 (F := ℝ)
  have hcut01 : pairRsq (bondedEnv : PairEnv ℝ) 0 1 < pairCutsq (bondedEnv : PairEnv ℝ) 0 1 := by
    rw [hp01.2.2.2.2.2.1, hp01.2.2.2.2.2.2]; norm_num
  have hcut23 : pairRsq (bondedEnv : PairEnv ℝ) 2 (3 + 2 ^ 30)
      < pairCutsq (bondedEnv : PairEnv ℝ) 2 (3 + 2 ^ 30) := by
    rw [hp23.2.2.2.2.2.2.1, hp23.2.2.2.2.2.2.2]; norm_num
  have hgeom01 : pairGeomOf m (bondedEnv : PairEnv ℝ) 0 1 = pairGeom m 9 100 := by
    unfold pairGeomOf
    rw [hp01.2.2.2.2.2.1, hp01.2.2.2.2.2.2]
  have htot : ∀ id, (1e-8:ℝ) ≤ specTotal cfg dvDilute id ∧
      (1e-8:ℝ) ≤ specTotalOld cfg dvDilute id := by
    intro id
    by_cases hid : id < 2 <;>
      simp [cfg, specTotal, specTotalOld, oneSpeciesConfig, dvDilute, List.range_succ, hid] <;>
      norm_num
  have hpd := paramTable_ok m dv cfg dvDilute (fun _ => zeroParams)
    (fun id => if id < 2 then pureA else diluteA) 4 (fun i _ => by
      rw [getParamsEXP6_resolved m dv _ _ i _ (htot i).1 (htot i).2, resolved_dilute m hm i])
  have hgA := gates_likeA m hm 1 1 1 1
  have hgD := gates_diluteA m hm
  obtain ⟨s1, hs1, hf1, hheld⟩ := computePair_both_held m cfg bondedEnv
    (fun k => if k < 4 then (if k < 2 then pureA else diluteA) else zeroParams) 0 1
    { startState 0 with evdwlOld := 0 }
    hcut01 (by simpa [hp01.1, pureA] using hgA.1) (by simpa [hp01.1, pureA] using hgA.2.1)
    (by simpa [hp01.1, pureA] using hgA.2.2.1) (by simpa [hp01.1, pureA] using hgA.2.2.2)
  obtain ⟨s2, hs2, hf2⟩ := computePair_new_only_force m cfg bondedEnv
    (fun k => if k < 4 then (if k < 2 then pureA else diluteA) else zeroParams) 2
    (3 + 2 ^ 30) s1
    hcut23 (by simpa [hp23.1] using hgD.1) (by simpa [hp23.1] using hgD.2.1)
    (by simpa [hp23.1] using hgD.2.2)
  -- the force magnitude applied to the pair (2,3) is the one of the pair (0,1)
  have hheld' : mixSites m cfg.isite1 cfg.isite2 1 1 1 1 s1.fpairOldEXP6_12 s1.fpairOldEXP6_21
      = (exp6Directed m (pairGeom m 9 100) 1 12 1 2).forceExp6 * (1 / 9) := by
    have h := hheld
    simp only [hp01.1, show (0:ℕ) < 4 by norm_num, show (1:ℕ) < 4 by norm_num,
      show (0:ℕ) < 2 by norm_num, show (1:ℕ) < 2 by norm_num, if_true] at h
    rw [hgeom01, hp01.2.1, pairFpairOld_pureA_fluid m hm (-4) 0] at h
    exact h
  have hfp : mixSites m cfg.isite1 cfg.isite2
      (if 2 < 4 then (if 2 < 2 then (pureA : ParamData ℝ) else diluteA) else zeroParams).fractionOld1
      (if (bondedEnv : PairEnv ℝ).neighmask (3 + 2 ^ 30) < 4 then
        (if (bondedEnv : PairEnv ℝ).neighmask (3 + 2 ^ 30) < 2 then (pureA : ParamData ℝ)
          else diluteA) else zeroParams).fractionOld2
      (if 2 < 4 then (if 2 < 2 then (pureA : ParamData ℝ) else diluteA) else zeroParams).fractionOld2
      (if (bondedEnv : PairEnv ℝ).neighmask (3 + 2 ^ 30) < 4 then
        (if (bondedEnv : PairEnv ℝ).neighmask (3 + 2 ^ 30) < 2 then (pureA : ParamData ℝ)
          else diluteA) else zeroParams).fractionOld1
      s1.fpairOldEXP6_12 s1.fpairOldEXP6_21
      = (exp6Directed m (pairGeom m 9 100) 1 12 1 2).forceExp6 * (1 / 9) := by
    simp only [hp23.1, show (2:ℕ) < 4 by norm_num, show (3:ℕ) < 4 by norm_num,
      show ¬ (2:ℕ) < 2 by norm_num, show ¬ (3:ℕ) < 2 by norm_num, if_true, if_false]
    exact hheld'
  have hF := (exp6Directed_AA m hm 1).1
  have hs1f2 : s1.f 2 0 = 0 ∧ s1.f 3 0 = 0 := by
    rw [hf1, hp01.1]
    obtain ⟨_, _, _, a4, _⟩ := applyForce_apply bondedEnv
      ({ startState (0:ℝ) with evdwlOld := 0 } : ComputeState ℝ).f 0 1
      (pairDel (bondedEnv : PairEnv ℝ) 0 1)
      (pairFpairOld m cfg (pairGeomOf m bondedEnv 0 1) (pairFactor (bondedEnv : PairEnv ℝ) 1)
        (if 0 < 4 then (if 0 < 2 then pureA else diluteA) else zeroParams)
        (if 1 < 4 then (if 1 < 2 then pureA else diluteA) else zeroParams)) (by norm_num)
    exact ⟨a4 2 0 (by norm_num) (by norm_num), a4 3 0 (by norm_num) (by norm_num)⟩
  obtain ⟨b1, b2, _⟩ := applyForce_apply bondedEnv s1.f 2 3
    (pairDel (bondedEnv : PairEnv ℝ) 2 (3 + 2 ^ 30))
    ((exp6Directed m (pairGeom m 9 100) 1 12 1 2).forceExp6 * (1 / 9)) (by norm_num)
  have hnewton : (bondedEnv : PairEnv ℝ).newton_pair = true ∨ 3 < (bondedEnv : PairEnv ℝ).nlocal :=
    Or.inl rfl
  have hv2 : s2.f 2 0 = -3 * ((exp6Directed m (pairGeom m 9 100) 1 12 1 2).forceExp6 * (1 / 9)) := by
    rw [hf2, hfp, hp23.1, b1 0 (by norm_num), hs1f2.1, hp23.2.2.2.1]
    ring
  have hv3 : s2.f 3 0 = 3 * ((exp6Directed m (pairGeom m 9 100) 1 12 1 2).forceExp6 * (1 / 9)) := by
    rw [hf2, hfp, hp23.1, b2 hnewton 0 (by norm_num), hs1f2.2, hp23.2.2.2.1]
    ring
  refine ⟨_, s2, hpd, ?_, hp23.1, hcut23, hp23.2.2.1, ?_, ?_, ?_, ?_⟩
  · rw [compute_of_table m dv _ _ _ _ _ _ _ _ hpd,
      computeLoop_two m _ _ _ 0 1 2 (3 + 2 ^ 30) firstneigh rfl rfl, hs1]
    exact hs2
  · rw [hp23.2.2.1, (pair_terms_scale m cfg _ 0 _ _).1, zero_mul]
  · rw [hv2, hgeom01, hp01.2.1]
    simp only [show (0:ℕ) < 4 by norm_num, show (1:ℕ) < 4 by norm_num,
      show (0:ℕ) < 2 by norm_num, show (1:ℕ) < 2 by norm_num, if_true]
    rw [pairFpairOld_pureA_fluid m hm (-4) 0]
  · rw [hv2]
    nlinarith
  · rw [hv2, hv3]
    ring

end StaleForce

section Witnesses

/-- Witness of claim C11 over the reals: one species with epsilon 1, rm 2, alpha 12 on both
one-fluid sites, `fuchslinR = -4`, a particle holding `1e-4` molecules: the factor of `rm` is 0
by the underflow guard (`pow(1e-4, 4) < 1e-15`), so the returned `rm` is 0. -/
theorem fuchslin_scaling_of_ofa_sites_witness :
    let m : MathLib ℝ := ⟨Real.sqrt, Real.exp,
      fun x => if x < 0 then -(-x) ^ (3:ℝ)⁻¹ else x ^ (3:ℝ)⁻¹, fun x y => x ^ y⟩
    let cfg : Exp6Config ℝ := oneSpeciesConfig 1 2 12 (-4) 0
    specPopulation cfg (dvConst 1e-4) 0 = 1e-4 ∧
    fuchslinScale m (specPopulation cfg (dvConst 1e-4) 0) cfg.fuchslinR = 0 ∧
    ∃ p, getParamsEXP6 m (fun a b => a / b) cfg (dvConst 1e-4) 0 zeroParams = .ok p ∧
      p.rm1 = (unscaledTriple m (fun a b => a / b) cfg (dvConst 1e-4) 0 zeroParams).1
        * fuchslinScale m (specPopulation cfg (dvConst 1e-4) 0) cfg.fuchslinR ∧
      p.alpha1 = (unscaledTriple m (fun a b => a / b) cfg (dvConst 1e-4) 0 zeroParams).2.2 ∧
      p.rm1 = 0 := by
  intro m cfg
  have hm : IsRealLib m := ⟨rfl, rfl, fun _ => rfl, fun _ _ => rfl⟩
  have hpop : specPopulation cfg (dvConst 1e-4) 0 = 1e-4 := by
    rw [(specPopulation_single cfg (ofaSpecies_oneSpeciesConfig _ _ _ _ _) (dvConst 1e-4) 0).1]
    rfl
  have hpow : m.pow 1e-4 4 < 1e-15 := by
    rw [hm.pow_eq, show (4:ℝ) = ((4:ℕ):ℝ) by norm_num, Real.rpow_natCast]
    norm_num
  have hscale : fuchslinScale m (specPopulation cfg (dvConst 1e-4) 0) cfg.fuchslinR = 0 := by
    rw [hpop]
    show fuchslinScale m 1e-4 (-4) = 0
    simp only [fuchslinScale, neg_neg]
    rw [if_neg (by norm_num), if_pos hpow]
  obtain ⟨p, hp, h1, _⟩ := fuchslin_scaling_of_ofa_sites m (fun a b => a / b) cfg
    (dvConst 1e-4) 0 zeroParams (fun _ _ _ => rfl)
    (by simp [cfg, specTotal, oneSpeciesConfig, dvConst, List.range_succ]; norm_num)
    (by simp [cfg, specTotalOld, oneSpeciesConfig, dvConst, List.range_succ]; norm_num)
  obtain ⟨_, hr, ha, _⟩ := h1 rfl
  refine ⟨hpop, hscale, p, hp, hr, ha, ?_⟩
  rw [hr, hscale, mul_zero]

/-- Witness of claim C16 over the reals: the end-to-end scenario of the specification, both
sites pinned to species A, which has a record. -/
theorem equal_sites_equal_mixes_witness :
    let m : MathLib ℝ := ⟨Real.sqrt, Real.exp,
      fun x => if x < 0 then -(-x) ^ (3:ℝ)⁻¹ else x ^ (3:ℝ)⁻¹, fun x y => x ^ y⟩
    EqualSites (scenarioConfig 0 0 : Exp6Config ℝ) ∧
    ∃ p, getParamsEXP6 m (fun a b => a / b) (scenarioConfig 0 0) dvPureA 0 zeroParams = .ok p ∧
      SitesAgree p := by
  intro m
  have heq : EqualSites (scenarioConfig 0 0 : Exp6Config ℝ) :=
    ⟨rfl, Or.inr ⟨0, by simp [scenarioConfig], rfl, by simp [scenarioConfig],
      by simp [scenarioConfig, paramA]⟩⟩
  refine ⟨heq, ?_⟩
  exact (equal_sites_equal_mixes m (fun a b => a / b) (scenarioConfig 0 0) dvPureA heq
    (by
      intro t ht _
      have : t = 0 ∨ t = 1 := by
        simp only [scenarioConfig] at ht; omega
      rcases this with h | h <;> subst h <;> simp [scenarioConfig, paramA, paramB])).1 0
    zeroParams
    (by simp [specTotal, scenarioConfig, dvPureA, List.range_succ]; norm_num)
    (by simp [specTotalOld, scenarioConfig, dvPureA, List.range_succ]; norm_num)

theorem validSetup_dilute (m : MathLib ℝ) (hm : IsRealLib m) :
    ValidSetup m (fun a b => a / b) (oneSpeciesConfig 1 2 12 (-4) 0) dvDilute where
  setup_inv := by
    intro t ht _
    have : t = 0 := by simp only [oneSpeciesConfig] at ht; omega
    subst this
    simp [oneSpeciesConfig]
  rm_pos := by
    intro t _ _
    simp [oneSpeciesConfig]
  site1 := Or.inl rfl
  site2 := Or.inl rfl
  conc_nonneg := by
    intro s id
    unfold dvDilute
    split_ifs <;> norm_num
  pow_nonneg := by
    intro a b ha
    rw [hm.pow_eq]
    exact Real.rpow_nonneg ha b
  dv_div := fun _ _ _ => rfl

/-- Witness of claim C13 over the reals: one species A on both one-fluid sites with
`fuchslinR = -4`, four atoms on a line at spacing 3 with cutoff 10; the atoms 2 and 3 held
`1e-4` molecules in the previous snapshot, so that their previous `rm` is scaled to zero. For
the pair (2,3) the previous-snapshot block is skipped and the current one is evaluated: the
previous-snapshot mixed energy is zero and `uCG[2]` grows by half of it, `uCGnew[2]` by half
of the current-snapshot mixed energy. -/
theorem ledgers_grow_by_half_energy_witness :
    let m : MathLib ℝ := ⟨Real.sqrt, Real.exp,
      fun x => if x < 0 then -(-x) ^ (3:ℝ)⁻¹ else x ^ (3:ℝ)⁻¹, fun x y => x ^ y⟩
    let dv : ℝ → ℝ → ℝ := fun a b => a / b
    let cfg : Exp6Config ℝ := oneSpeciesConfig 1 2 12 (-4) 0
    ∃ pd st',
      paramTable m dv cfg dvDilute 4 (fun _ => zeroParams) = .ok pd ∧
      ¬ oldGate m (pd 2) (pd 3) ∧ newGate m (pd 2) (pd 3) ∧
      computePair m cfg (lineEnv 4) pd 2 (startState 0) 3 = .ok st' ∧
      pairEvdwlOld m cfg (pairGeomOf m (lineEnv 4) 2 3) (pairFactor (lineEnv 4 : PairEnv ℝ) 3)
        (pd 2) (pd 3) = 0 ∧
      st'.uCG 2 = (startState (0:ℝ)).uCG 2 + 0.5 * pairEvdwlOld m cfg
        (pairGeomOf m (lineEnv 4) 2 3) (pairFactor (lineEnv 4 : PairEnv ℝ) 3) (pd 2) (pd 3) ∧
      st'.uCGnew 2 = (startState (0:ℝ)).uCGnew 2 + 0.5 * pairEvdwlNew m cfg
        (pairGeomOf m (lineEnv 4) 2 3) (pairFactor (lineEnv 4 : PairEnv ℝ) 3) (pd 2) (pd 3) := by
  intro m dv cfg
  have hm : IsRealLib m := ⟨rfl, rfl, fun _ => rfl, fun _ _ => rfl⟩
  have hp23 := lineEnv_pair (F := ℝ) 4 2 (by norm_num)
  have hcut23 : pairRsq (lineEnv 4 : PairEnv ℝ) 2 3 < pairCutsq (lineEnv 4 : PairEnv ℝ) 2 3 := by
    rw [hp23.2.2.2.2.2.1, hp23.2.2.2.2.2.2]; norm_num
  have htot : ∀ id, (1e-8:ℝ) ≤ specTotal cfg dvDilute id ∧
      (1e-8:ℝ) ≤ specTotalOld cfg dvDilute id := by
    intro id
    by_cases hid : id < 2 <;>
      simp [cfg, specTotal, specTotalOld, oneSpeciesConfig, dvDilute, List.range_succ, hid] <;>
      norm_num
  have hpd := paramTable_ok m dv cfg dvDilute (fun _ => zeroParams)
    (fun id => if id < 2 then pureA else diluteA) 4 (fun i _ => by
      rw [getParamsEXP6_resolved m dv _ _ i _ (htot i).1 (htot i).2, resolved_dilute m hm i])
  have hgD := gates_diluteA m hm
  have hn3 : (lineEnv 4 : PairEnv ℝ).neighmask 3 = 3 := hp23.1
  obtain ⟨st', hok, ho, hn, hzo, _⟩ := ledgers_grow_by_half_energy m dv cfg dvDilute (lineEnv 4)
    (fun _ => zeroParams) _ 2 3 (startState 0) (validSetup_dilute m hm)
    (fun x => Real.sqrt_nonneg x) hpd (by decide) (by rw [hn3]; decide) (by rw [hn3]; decide)
    hcut23 (fun h => absurd h (by rw [hn3]; exact hgD.1)) (fun _ => by rw [hn3]; exact hgD.2.2)
  rw [hn3] at ho hn hzo
  exact ⟨_, st', hpd, hgD.1, hgD.2.1, hok, (hzo hgD.1).2.1, ho.1, hn.1⟩

/-- Witness of claim C14 over the reals: the pair of pure A particles. -/
theorem force_increment_along_separation_witness :
    let m : MathLib ℝ := ⟨Real.sqrt, Real.exp,
      fun x => if x < 0 then -(-x) ^ (3:ℝ)⁻¹ else x ^ (3:ℝ)⁻¹, fun x y => x ^ y⟩
    ∃ st' fpair,
      computePair m (scenarioConfig 0 0) (lineEnv 2) (fun _ => pureA) 0 (startState 0) 1
        = .ok st' ∧
      (∀ d, d < 3 → st'.f 0 d = (startState (0:ℝ)).f 0 d
        + fpair * ((lineEnv 2 : PairEnv ℝ).x 0 d
          - (lineEnv 2 : PairEnv ℝ).x ((lineEnv 2 : PairEnv ℝ).neighmask 1) d)) ∧
      fpair = pairFpairOld m (scenarioConfig 0 0) (pairGeomOf m (lineEnv 2) 0 1)
        (pairFactor (lineEnv 2 : PairEnv ℝ) 1) pureA pureA := by
  intro m
  have hm : IsRealLib m := ⟨rfl, rfl, fun _ => rfl, fun _ _ => rfl⟩
  have hp := lineEnv_pair (F := ℝ) 2 0 (by norm_num)
  have hg := gates_likeA m hm 1 1 1 1
  have hcut : pairRsq (lineEnv 2 : PairEnv ℝ) 0 1 < pairCutsq (lineEnv 2 : PairEnv ℝ) 0 1 := by
    rw [hp.2.2.2.2.2.1, hp.2.2.2.2.2.2]; norm_num
  obtain ⟨st', fpair, hok, hi, _, _, _, _, hfp, _⟩ :=
    force_increment_along_separation m (scenarioConfig 0 0) (lineEnv 2) (fun _ => pureA) 0 1
      (startState 0) (by rw [hp.1]; norm_num)
      (fun _ _ => hg.2.1) (fun _ _ => hg.2.2.2)
  exact ⟨st', fpair, hok, hi, hfp hcut hg.2.2.1 hg.1⟩

end Witnesses

/-! ### Potential file and setup -/

section ReadFile

variable {V : Type} [DoubleTests V]

theorem findSpecies_le (w : List Char) (dname : List (List Char)) :
    findSpecies w dname ≤ dname.length := by
  induction dname with
  | nil => simp [findSpecies]
  | cons d ds ih =>
    simp only [findSpecies, List.length_cons]
    split_ifs
    · omega
    · omega

theorem findSpecies_eq_length (w : List Char) (dname : List (List Char)) :
    findSpecies w dname = dname.length ↔ w ∉ dname := by
  induction dname with
  | nil => simp [findSpecies]
  | cons d ds ih =>
    simp only [findSpecies, List.length_cons, List.mem_cons, not_or]
    by_cases h : w = d
    · simp [h]
    · simp [h, ih]

theorem findSpecies_lt_length (w : List Char) (dname : List (List Char)) :
    findSpecies w dname < dname.length ↔ w ∈ dname := by
  have h1 := findSpecies_le w dname
  have h2 := findSpecies_eq_length w dname
  constructor
  · intro h
    by_contra hn
    have := h2.mpr hn
    omega
  · intro h
    have : findSpecies w dname ≠ dname.length := fun he => (h2.mp he) h
    omega

theorem findSpecies_name (w : List Char) (dname : List (List Char)) (h : w ∈ dname) :
    dname.getD (findSpecies w dname) [] = w := by
  induction dname with
  | nil => cases h
  | cons d ds ih =>
    simp only [findSpecies]
    by_cases hw : w = d
    · simp [hw]
    · have hmem : w ∈ ds := by
        rcases List.mem_cons.mp h with h' | h'
        · exact absurd h' hw
        · exact h'
      have := ih hmem
      simp only [List.getD_eq_getElem?_getD] at this
      simp [hw, this]

theorem readFrom_nil (atof : List Char → V) (dname : List (List Char)) (st : ReadState V) :
    readFrom atof dname st [] = readEof st := rfl

theorem readFrom_cons (atof : List Char → V) (dname : List (List Char)) (st : ReadState V)
    (l : List Char) (ls : List (List Char)) :
    readFrom atof dname st (l :: ls)
      = (readLine atof dname st l).bind (fun st' => readFrom atof dname st' ls) := by
  simp only [readFrom, List.foldlM_cons, bind, Except.bind]
  cases readLine atof dname st l <;> rfl

theorem readFrom_append (atof : List Char → V) (dname : List (List Char)) (st : ReadState V)
    (pre post : List (List Char)) :
    readFrom atof dname st (pre ++ post)
      = (pre.foldlM (readLine atof dname) st).bind (fun st' => readFrom atof dname st' post) := by
  simp only [readFrom, List.foldlM_append, bind, Except.bind]
  cases List.foldlM (readLine atof dname) st pre <;> rfl

theorem storeRecord_other_kind (atof : List Char → V) (dname : List (List Char))
    (params : List (ParamRecord V)) (line : List Char)
    (h5 : count_words line = params_per_line)
    (hdecl : (strtokWords line).getD 0 [] ∈ dname)
    (hkind : (strtokWords line).getD 1 [] ≠ "exp6".toList) :
    storeRecord atof dname params line
      = .error "Illegal exp6/rx parameters.  Interaction potential does not exist." := by
  have hidx : findSpecies ((strtokWords line).getD 0 []) dname ≠ dname.length :=
    ne_of_lt ((findSpecies_lt_length _ _).mpr hdecl)
  simp only [storeRecord, h5, ne_eq, not_true_eq_false, if_false, hidx, hkind]

theorem storeRecord_undeclared (atof : List Char → V) (dname : List (List Char))
    (params : List (ParamRecord V)) (line : List Char)
    (h5 : count_words line = params_per_line)
    (hdecl : (strtokWords line).getD 0 [] ∉ dname) :
    storeRecord atof dname params line = .ok params := by
  have hidx : findSpecies ((strtokWords line).getD 0 []) dname = dname.length :=
    (findSpecies_eq_length _ _).mpr hdecl
  simp only [storeRecord, h5, ne_eq, not_true_eq_false, if_false, hidx, if_true]

theorem storeRecord_format (atof : List Char → V) (dname : List (List Char))
    (params : List (ParamRecord V)) (line : List Char)
    (h5 : count_words line ≠ params_per_line) :
    storeRecord atof dname params line
      = .error "Incorrect format in exp6/rx potential file" := by
  simp only [storeRecord, h5, ne_eq, not_false_eq_true, if_true]

end ReadFile

section ReadFileClaims

variable {V : Type} [DoubleTests V]

/-- A line that holds a whole record, read at the head of the outer loop, leads to lines
735-775 for its stripped text. -/
theorem readLine_whole_record (atof : List Char → V) (dname : List (List Char))
    (st : ReadState V) (l : List Char) (hst : st.pending = none)
    (h5 : count_words (stripComment l) = params_per_line) :
    readLine atof dname st l = (storeRecord atof dname st.params (stripComment l)).map
      (fun ps => { pending := none, params := ps }) := by
  have h0 : count_words (stripComment l) ≠ 0 := by rw [h5]; decide
  have hlt : ¬ count_words (stripComment l) < params_per_line := by rw [h5]; decide
  simp only [readLine, hst, h0, if_false, afterRead, hlt]

/-- An error of lines 735-775 on a record line aborts the loading of the whole file. -/
theorem read_file_aborts (atof : List Char → V) (dname : List (List Char))
    (pre post : List (List Char)) (l : List Char) (st : ReadState V) (msg : String)
    (hpre : pre.foldlM (readLine atof dname) { pending := none, params := [] } = .ok st)
    (hst : st.pending = none)
    (h5 : count_words (stripComment l) = params_per_line)
    (herr : storeRecord atof dname st.params (stripComment l) = .error msg) :
    read_file atof dname (pre ++ l :: post) = .error msg := by
  unfold read_file
  rw [readFrom_append, hpre]
  simp only [Except.bind]
  rw [readFrom_cons, readLine_whole_record atof dname st l hst h5, herr]
  rfl

end ReadFileClaims

section ReadFileDoubles

variable {F : Type} [LinearOrderedField F]

end ReadFileDoubles

section ReadFileKinds

variable {V : Type} [DoubleTests V]

/-- Claim C18 (amended). A 5-token record whose first token is a declared species and whose
potential-kind token is not `exp6` raises the fatal error of line 773, which aborts the
loading of the whole file; a 5-token record of an undeclared species is skipped at line 746
before its potential kind is looked at. -/
theorem unknown_kind_aborts_for_declared_species (atof : List Char → V)
    (dname : List (List Char)) :
    (∀ (params : List (ParamRecord V)) (line : List Char),
      count_words line = params_per_line →
      (strtokWords line).getD 0 [] ∈ dname →
      (strtokWords line).getD 1 [] ≠ "exp6".toList →
      storeRecord atof dname params line
        = .error "Illegal exp6/rx parameters.  Interaction potential does not exist.") ∧
    (∀ (pre post : List (List Char)) (l : List Char) (st : ReadState V),
      pre.foldlM (readLine atof dname) { pending := none, params := [] } = .ok st →
      st.pending = none →
      count_words (stripComment l) = params_per_line →
      (strtokWords (stripComment l)).getD 0 [] ∈ dname →
      (strtokWords (stripComment l)).getD 1 [] ≠ "exp6".toList →
      read_file atof dname (pre ++ l :: post)
        = .error "Illegal exp6/rx parameters.  Interaction potential does not exist.") ∧
    (∀ (params : List (ParamRecord V)) (line : List Char),
      count_words line = params_per_line →
      (strtokWords line).getD 0 [] ∉ dname →
      storeRecord atof dname params line = .ok params) := by
  refine ⟨?_, ?_, ?_⟩
  · intro params line h5 hdecl hkind
    exact storeRecord_other_kind atof dname params line h5 hdecl hkind
  · intro pre post l st hpre hst h5 hdecl hkind
    exact read_file_aborts atof dname pre post l st _ hpre hst h5
      (storeRecord_other_kind atof dname st.params (stripComment l) h5 hdecl hkind)
  · intro params line h5 hdecl
    exact storeRecord_undeclared atof dname params line h5 hdecl

end ReadFileKinds

/-- Claim C18 (counterexample). With the declared species `A` and `B`, the file made of the
single 5-token record `Zz lj 12 1.0 2.0`, whose potential-kind token is `lj`, is loaded
without error and stores nothing. -/
theorem unknown_kind_of_undeclared_species_example :
    count_words (stripComment "Zz lj 12 1.0 2.0\n".toList) = 5 ∧
    (strtokWords (stripComment "Zz lj 12 1.0 2.0\n".toList)).getD 1 [] = "lj".toList ∧
    "lj".toList ≠ "exp6".toList ∧
    read_file atofSample ["A".toList, "B".toList] ["Zz lj 12 1.0 2.0\n".toList] = .ok [] := by
  refine ⟨by decide, by decide, by decide, rfl⟩

/-- Witness of claim C18 (amended): the record `A lj 12 1.0 2.0` of the declared species `A`
aborts the loading. -/
theorem unknown_kind_aborts_for_declared_species_witness :
    read_file atofSample ["A".toList, "B".toList] ["A lj 12 1.0 2.0\n".toList]
      = .error "Illegal exp6/rx parameters.  Interaction potential does not exist." :=
  (unknown_kind_aborts_for_declared_species atofSample ["A".toList, "B".toList]).2.1
    [] [] "A lj 12 1.0 2.0\n".toList { pending := none, params := [] }
    rfl rfl (by decide) (by decide) (by decide)

section RecordFormation

variable {V : Type} [DoubleTests V]

theorem joinStripped_nil : joinStripped [] = [] := rfl

theorem joinStripped_cons (l : List Char) (ls : List (List Char)) :
    joinStripped (l :: ls) = stripComment l ++ joinStripped ls := rfl

theorem stripComment_no_hash (l : List Char) : ∀ c ∈ stripComment l, c ≠ '#' := by
  intro c hc
  have := List.mem_takeWhile_imp hc
  simpa using this

theorem stripComment_append (acc l : List Char) (hacc : ∀ c ∈ acc, c ≠ '#') :
    stripComment (acc ++ l) = acc ++ stripComment l := by
  unfold stripComment
  exact List.takeWhile_append_of_pos (fun c hc => by simpa using hacc c hc)

theorem stripComment_at_hash (a b : List Char) (ha : ∀ c ∈ a, c ≠ '#') :
    stripComment (a ++ '#' :: b) = a := by
  rw [stripComment_append a _ ha]
  simp [stripComment]

theorem stripComment_of_no_hash (a : List Char) (ha : ∀ c ∈ a, c ≠ '#') :
    stripComment a = a := by
  have := stripComment_append a [] ha
  simpa [stripComment] using this

theorem map_bind_except {ε α β γ : Type} (x : Except ε α) (f : α → β) (g : β → Except ε γ) :
    (x.map f).bind g = x.bind (fun a => g (f a)) := by
  cases x <;> rfl

/-- Inside the inner loop with the text `acc` accumulated, the lines are appended up to the
first one that brings the token count to `params_per_line` or more. -/
theorem readFrom_pending (atof : List Char → V) (dname : List (List Char))
    (ps : List (ParamRecord V)) :
    ∀ (rest : List (List Char)) (acc : List Char) (k : Nat),
      (∀ c ∈ acc, c ≠ '#') → 1 ≤ k → k ≤ rest.length →
      (∀ k', k' < k → count_words (acc ++ joinStripped (rest.take k')) < params_per_line) →
      params_per_line ≤ count_words (acc ++ joinStripped (rest.take k)) →
      readFrom atof dname { pending := some acc, params := ps } rest
        = (storeRecord atof dname ps (acc ++ joinStripped (rest.take k))).bind
            (fun ps' => readFrom atof dname { pending := none, params := ps' } (rest.drop k)) := by
  intro rest
  induction rest with
  | nil =>
    intro acc k _ h1 hk
    simp only [List.length_nil] at hk
    omega
  | cons l rest ih =>
    intro acc k hacc h1 hk hlt hge
    rw [readFrom_cons]
    have hread : readLine atof dname { pending := some acc, params := ps } l
        = afterRead atof dname ps (acc ++ stripComment l) := by
      simp only [readLine, stripComment_append acc l hacc]
    rw [hread]
    rcases Nat.lt_or_ge 1 k with hk1 | hk1
    · -- the line does not complete the record
      have h1' := hlt 1 hk1
      simp only [List.take_succ_cons, List.take_zero, joinStripped_cons, joinStripped_nil,
        List.append_nil] at h1'
      have hafter : afterRead atof dname ps (acc ++ stripComment l)
          = .ok { pending := some (acc ++ stripComment l), params := ps } := by
        simp only [afterRead, h1', if_true]
      rw [hafter]
      show readFrom atof dname { pending := some (acc ++ stripComment l), params := ps } rest
        = _
      obtain ⟨k0, rfl⟩ : ∃ k0, k = k0 + 1 := ⟨k - 1, by omega⟩
      have hacc' : ∀ c ∈ acc ++ stripComment l, c ≠ '#' := by
        intro c hc
        rcases List.mem_append.mp hc with hc | hc
        · exact hacc c hc
        · exact stripComment_no_hash l c hc
      have := ih (acc ++ stripComment l) k0 hacc' (by omega)
        (by simp only [List.length_cons] at hk; omega)
        (by
          intro k' hk'
          have := hlt (k' + 1) (by omega)
          simpa only [List.take_succ_cons, joinStripped_cons, List.append_assoc] using this)
        (by simpa only [List.take_succ_cons, joinStripped_cons, List.append_assoc] using hge)
      rw [this]
      simp only [List.take_succ_cons, joinStripped_cons, List.append_assoc, List.drop_succ_cons]
    · -- the line completes the record
      have hk' : k = 1 := by omega
      subst hk'
      simp only [List.take_succ_cons, List.take_zero, joinStripped_cons, joinStripped_nil,
        List.append_nil] at hge ⊢
      have hafter : afterRead atof dname ps (acc ++ stripComment l)
          = (storeRecord atof dname ps (acc ++ stripComment l)).map
              (fun ps' => { pending := none, params := ps' }) := by
        have : ¬ count_words (acc ++ stripComment l) < params_per_line := by omega
        simp only [afterRead, this, if_false]
      rw [hafter, map_bind_except]
      simp only [List.drop_succ_cons, List.drop_zero]

/-- Inside the inner loop, a file that ends before `params_per_line` tokens are collected
raises the format error. -/
theorem readFrom_pending_eof (atof : List Char → V) (dname : List (List Char))
    (ps : List (ParamRecord V)) :
    ∀ (rest : List (List Char)) (acc : List Char),
      (∀ c ∈ acc, c ≠ '#') →
      (∀ k', k' ≤ rest.length →
        count_words (acc ++ joinStripped (rest.take k')) < params_per_line) →
      readFrom atof dname { pending := some acc, params := ps } rest
        = .error "Incorrect format in exp6/rx potential file" := by
  intro rest
  induction rest with
  | nil =>
    intro acc _ _
    rfl
  | cons l rest ih =>
    intro acc hacc hlt
    rw [readFrom_cons]
    have hread : readLine atof dname { pending := some acc, params := ps } l
        = afterRead atof dname ps (acc ++ stripComment l) := by
      simp only [readLine, stripComment_append acc l hacc]
    have h1' := hlt 1 (by simp only [List.length_cons]; omega)
    simp only [List.take_succ_cons, List.take_zero, joinStripped_cons, joinStripped_nil,
      List.append_nil] at h1'
    have hafter : afterRead atof dname ps (acc ++ stripComment l)
        = .ok { pending := some (acc ++ stripComment l), params := ps } := by
      simp only [afterRead, h1', if_true]
    rw [hread, hafter]
    show readFrom atof dname { pending := some (acc ++ stripComment l), params := ps } rest
      = _
    have hacc' : ∀ c ∈ acc ++ stripComment l, c ≠ '#' := by
      intro c hc
      rcases List.mem_append.mp hc with hc | hc
      · exact hacc c hc
      · exact stripComment_no_hash l c hc
    exact ih (acc ++ stripComment l) hacc' (by
      intro k' hk'
      have := hlt (k' + 1) (by simp only [List.length_cons]; omega)
      simpa only [List.take_succ_cons, joinStripped_cons, List.append_assoc] using this)

/-- At the head of the outer loop a line with words is handled as the inner loop handles it
with an empty buffer. -/
theorem readFrom_head (atof : List Char → V) (dname : List (List Char))
    (ps : List (ParamRecord V)) (body : List (List Char))
    (hfirst : 0 < count_words (joinStripped (body.take 1))) :
    readFrom atof dname { pending := none, params := ps } body
      = readFrom atof dname { pending := some [], params := ps } body := by
  cases body with
  | nil =>
    simp only [List.take_nil, joinStripped_nil] at hfirst
    exact absurd hfirst (by decide)
  | cons l rest =>
    simp only [List.take_succ_cons, List.take_zero, joinStripped_cons, joinStripped_nil,
      List.append_nil] at hfirst
    have h0 : count_words (stripComment l) ≠ 0 := by omega
    rw [readFrom_cons, readFrom_cons]
    have : readLine atof dname { pending := none, params := ps } l
        = readLine atof dname { pending := some [], params := ps } l := by
      simp only [readLine, h0, if_false, List.nil_append]
    rw [this]

/-- Claim C19. Reading from the head of the outer loop of `read_file`: each physical line is
cut at its first `#`; a line without tokens is skipped; otherwise the following physical
lines are appended (each cut at its first `#`) up to the first one with which the text has
at least `params_per_line = 5` tokens, and lines 735-775 then run on that text, the reading
going on with the next line; the record is processed only with exactly 5 tokens, more than 5
tokens raise "Incorrect format", and so does the end of the file with fewer than 5. -/
theorem read_file_forms_logical_records (atof : List Char → V) (dname : List (List Char))
    (ps : List (ParamRecord V)) :
    (∀ (a b : List Char), (∀ c ∈ a, c ≠ '#') →
      stripComment (a ++ '#' :: b) = a ∧ stripComment a = a) ∧
    (∀ (l : List Char) (rest : List (List Char)), count_words (stripComment l) = 0 →
      readFrom atof dname { pending := none, params := ps } (l :: rest)
        = readFrom atof dname { pending := none, params := ps } rest) ∧
    (∀ (body : List (List Char)) (k : Nat), 1 ≤ k → k ≤ body.length →
      0 < count_words (joinStripped (body.take 1)) →
      (∀ k', 1 ≤ k' → k' < k → count_words (joinStripped (body.take k')) < params_per_line) →
      params_per_line ≤ count_words (joinStripped (body.take k)) →
      readFrom atof dname { pending := none, params := ps } body
        = (storeRecord atof dname ps (joinStripped (body.take k))).bind
            (fun ps' => readFrom atof dname { pending := none, params := ps' } (body.drop k)) ∧
      (params_per_line < count_words (joinStripped (body.take k)) →
        readFrom atof dname { pending := none, params := ps } body
          = .error "Incorrect format in exp6/rx potential file")) ∧
    (∀ (body : List (List Char)), 0 < count_words (joinStripped (body.take 1)) →
      (∀ k', 1 ≤ k' → k' ≤ body.length →
        count_words (joinStripped (body.take k')) < params_per_line) →
      readFrom atof dname { pending := none, params := ps } body
        = .error "Incorrect format in exp6/rx potential file") ∧
    (∀ (line : List Char), count_words line ≠ params_per_line →
      storeRecord atof dname ps line = .error "Incorrect format in exp6/rx potential file") := by
  refine ⟨?_, ?_, ?_, ?_, ?_⟩
  · intro a b ha
    exact ⟨stripComment_at_hash a b ha, stripComment_of_no_hash a ha⟩
  · intro l rest h0
    rw [readFrom_cons]
    simp only [readLine, h0, if_true]
    rfl
  · intro body k h1 hk hfirst hlt hge
    have hmain : readFrom atof dname { pending := none, params := ps } body
        = (storeRecord atof dname ps (joinStripped (body.take k))).bind
            (fun ps' => readFrom atof dname { pending := none, params := ps' }
              (body.drop k)) := by
      rw [readFrom_head atof dname ps body hfirst]
      have := readFrom_pending atof dname ps body [] k (by intro c hc; cases hc) h1 hk
        (by
          intro k' hk'
          rcases Nat.eq_zero_or_pos k' with h0 | h0
          · subst h0
            simp only [List.take_zero, joinStripped_nil, List.append_nil]
            decide
          · simpa only [List.nil_append] using hlt k' h0 hk')
        (by simpa only [List.nil_append] using hge)
      simpa only [List.nil_append] using this
    refine ⟨hmain, ?_⟩
    intro hgt
    rw [hmain, storeRecord_format atof dname ps _ (by omega)]
    rfl
  · intro body hfirst hlt
    rw [readFrom_head atof dname ps body hfirst]
    exact readFrom_pending_eof atof dname ps body [] (by intro c hc; cases hc) (by
      intro k' hk'
      rcases Nat.eq_zero_or_pos k' with h0 | h0
      · subst h0
        simp only [List.take_zero, joinStripped_nil, List.append_nil]
        decide
      · simpa only [List.nil_append] using hlt k' h0 hk')
  · intro line h
    exact storeRecord_format atof dname ps line h

end RecordFormation

/-- Witness of claim C19: the first four lines of the sample file form the record
`A exp6 12 1.0 2.0`, and the reading goes on with the fifth line. -/
theorem read_file_forms_logical_records_witness :
    readFrom atofSample ["A".toList, "B".toList] { pending := none, params := [] } sampleFile
      = (storeRecord atofSample ["A".toList, "B".toList] []
          (joinStripped (sampleFile.take 4))).bind
          (fun ps' => readFrom atofSample ["A".toList, "B".toList]
            { pending := none, params := ps' } (sampleFile.drop 4)) :=
  ((read_file_forms_logical_records atofSample ["A".toList, "B".toList] []).2.2.1
    sampleFile 4 (by decide) (by decide) (by decide)
    (by
      intro k' h1 h4
      interval_cases k' <;> decide)
    (by decide)).1

section Setup

variable {F : Type}

theorem setupSpecies_succ (n : Nat) (params : Nat → Param F) (i : Nat) :
    setupSpecies (n + 1) params i
      = (setupSpecies n params i).bind (fun acc => setupStep params i acc n) := by
  unfold setupSpecies
  rw [List.range_succ, List.foldlM_append]
  cases h : List.foldlM (setupStep params i) (-1) (List.range n) with
  | error e => rfl
  | ok v =>
    show (List.foldlM (setupStep params i) v [n]) = setupStep params i v n
    simp only [List.foldlM_cons, List.foldlM_nil, bind_pure]

/-- What the inner loop of `setup` returns for the species `i`. -/
theorem setupSpecies_spec (params : Nat → Param F) (i : Nat) :
    ∀ n : Nat,
      (setupSpecies n params i = .error "Potential file has duplicate entry" ∧
        ∃ j1 j2, j1 < j2 ∧ j2 < n ∧ (params j1).ispecies = (i : Int) ∧
          (params j2).ispecies = (i : Int)) ∨
      (setupSpecies n params i = .ok (-1) ∧ ∀ j, j < n → (params j).ispecies ≠ (i : Int)) ∨
      (∃ j, j < n ∧ setupSpecies n params i = .ok (j : Int) ∧ (params j).ispecies = (i : Int) ∧
        ∀ j', j' < n → (params j').ispecies = (i : Int) → j' = j) := by
  intro n
  induction n with
  | zero =>
    right; left
    refine ⟨rfl, ?_⟩
    intro j hj
    omega
  | succ n ih =>
    rw [setupSpecies_succ]
    rcases ih with ⟨he, j1, j2, h12, h2n, hj1, hj2⟩ | ⟨hok, hnone⟩ | ⟨j, hjn, hok, hj, huniq⟩
    · left
      rw [he]
      exact ⟨rfl, j1, j2, h12, by omega, hj1, hj2⟩
    · rw [hok]
      by_cases hn : (i : Int) = (params n).ispecies
      · right; right
        refine ⟨n, by omega, ?_, hn.symm, ?_⟩
        · show setupStep params i (-1) n = _
          simp only [setupStep, hn, if_true]
          rfl
        · intro j' hj' hj'i
          rcases Nat.lt_or_ge j' n with h | h
          · exact absurd hj'i (hnone j' h)
          · omega
      · right; left
        refine ⟨?_, ?_⟩
        · show setupStep params i (-1) n = _
          simp only [setupStep, hn, if_false]
        · intro j' hj'
          rcases Nat.lt_or_ge j' n with h | h
          · exact hnone j' h
          · have : j' = n := by omega
            subst this
            exact fun h => hn h.symm
    · rw [hok]
      by_cases hn : (i : Int) = (params n).ispecies
      · left
        refine ⟨?_, j, n, hjn, by omega, hj, hn.symm⟩
        show setupStep params i (j : Int) n = _
        have : (0 : Int) ≤ (j : Int) := Int.ofNat_nonneg j
        simp only [setupStep, hn, if_true, this]
      · right; right
        refine ⟨j, by omega, ?_, hj, ?_⟩
        · show setupStep params i (j : Int) n = _
          simp only [setupStep, hn, if_false]
        · intro j' hj' hj'i
          rcases Nat.lt_or_ge j' n with h | h
          · exact huniq j' h hj'i
          · have : j' = n := by omega
            subst this
            exact absurd hj'i.symm hn

theorem setup_succ (ns nparams : Nat) (params : Nat → Param F) :
    setup (ns + 1) nparams params
      = (setup ns nparams params).bind
          (fun mol => (setupSpecies nparams params ns).map (fun n => mol ++ [n])) := by
  unfold setup
  rw [List.range_succ, List.foldlM_append]
  cases h : List.foldlM (fun mol i => (setupSpecies nparams params i).map (fun n => mol ++ [n]))
      [] (List.range ns) with
  | error e => rfl
  | ok v =>
    show (List.foldlM (fun mol i => (setupSpecies nparams params i).map (fun n => mol ++ [n]))
      v [ns]) = (setupSpecies nparams params ns).map (fun n => v ++ [n])
    simp only [List.foldlM_cons, List.foldlM_nil, bind_pure]

/-- What the outer loop of `setup` returns: an error as soon as one species has two records,
and otherwise the results of the inner loop, one per species. -/
theorem setup_spec (nparams : Nat) (params : Nat → Param F) :
    ∀ ns : Nat,
      (setup ns nparams params = .error "Potential file has duplicate entry" ∧
        ∃ s, s < ns ∧
          setupSpecies nparams params s = .error "Potential file has duplicate entry") ∨
      (∃ mol, setup ns nparams params = .ok mol ∧ mol.length = ns ∧
        ∀ s, s < ns → ∃ v, mol[s]? = some v ∧ setupSpecies nparams params s = .ok v) := by
  intro ns
  induction ns with
  | zero =>
    right
    refine ⟨[], rfl, rfl, ?_⟩
    intro s hs
    omega
  | succ ns ih =>
    rw [setup_succ]
    rcases ih with ⟨he, s, hs, hse⟩ | ⟨mol, hok, hlen, hall⟩
    · left
      rw [he]
      exact ⟨rfl, s, by omega, hse⟩
    · rw [hok]
      rcases setupSpecies_spec params ns nparams with ⟨he, _⟩ | ⟨hv, _⟩ | ⟨j, _, hv, _⟩
      · left
        refine ⟨?_, ns, by omega, he⟩
        show (setupSpecies nparams params ns).map _ = _
        rw [he]
        rfl
      · right
        refine ⟨mol ++ [-1], ?_, by simp [hlen], ?_⟩
        · show (setupSpecies nparams params ns).map _ = _
          rw [hv]
          rfl
        · intro s hs
          rcases Nat.lt_or_ge s ns with h | h
          · obtain ⟨v, hv1, hv2⟩ := hall s h
            refine ⟨v, ?_, hv2⟩
            rw [List.getElem?_append_left (by omega)]
            exact hv1
          · have : s = ns := by omega
            subst this
            refine ⟨-1, ?_, hv⟩
            rw [List.getElem?_append_right (by omega)]
            simp [hlen]
      · right
        refine ⟨mol ++ [(j : Int)], ?_, by simp [hlen], ?_⟩
        · show (setupSpecies nparams params ns).map _ = _
          rw [hv]
          rfl
        · intro s hs
          rcases Nat.lt_or_ge s ns with h | h
          · obtain ⟨v, hv1, hv2⟩ := hall s h
            refine ⟨v, ?_, hv2⟩
            rw [List.getElem?_append_left (by omega)]
            exact hv1
          · have : s = ns := by omega
            subst this
            refine ⟨(j : Int), ?_, hv⟩
            rw [List.getElem?_append_right (by omega)]
            simp [hlen]

/-- Claim C20. For a table of loaded records (their species indices lie in `[0, nspecies)`,
as `read_file` stores records of declared species only), `setup` raises "Potential file has
duplicate entry" if and only if two records have the same species index; otherwise it
returns `mol2param` with `nspecies` entries, where `mol2param[s]` is the index of the unique
record whose species index is `s`, or -1 when there is no such record. -/
theorem setup_duplicate_iff (nspecies nparams : Nat) (params : Nat → Param F)
    (hrange : ∀ j, j < nparams →
      0 ≤ (params j).ispecies ∧ (params j).ispecies < (nspecies : Int)) :
    (setup nspecies nparams params = .error "Potential file has duplicate entry"
      ↔ HasDuplicate nparams params) ∧
    (¬ HasDuplicate nparams params →
      ∃ mol, setup nspecies nparams params = .ok mol ∧ mol.length = nspecies ∧
        ∀ s, s < nspecies →
          (mol[s]? = some (-1) ∧ ∀ j, j < nparams → (params j).ispecies ≠ (s : Int)) ∨
          (∃ j, j < nparams ∧ mol[s]? = some (j : Int) ∧ (params j).ispecies = (s : Int) ∧
            ∀ j', j' < nparams → (params j').ispecies = (s : Int) → j' = j)) := by
  have hdup_of : ∀ s, setupSpecies nparams params s
      = .error "Potential file has duplicate entry" → HasDuplicate nparams params := by
    intro s hs
    rcases setupSpecies_spec params s nparams with ⟨_, j1, j2, h12, h2, e1, e2⟩ | ⟨hv, _⟩
      | ⟨j, _, hv, _⟩
    · exact ⟨j1, j2, h12, h2, e1.trans e2.symm⟩
    · rw [hv] at hs
      cases hs
    · rw [hv] at hs
      cases hs
  have hok_of : ¬ HasDuplicate nparams params →
      ∃ mol, setup nspecies nparams params = .ok mol ∧ mol.length = nspecies ∧
        ∀ s, s < nspecies →
          (mol[s]? = some (-1) ∧ ∀ j, j < nparams → (params j).ispecies ≠ (s : Int)) ∨
          (∃ j, j < nparams ∧ mol[s]? = some (j : Int) ∧ (params j).ispecies = (s : Int) ∧
            ∀ j', j' < nparams → (params j').ispecies = (s : Int) → j' = j) := by
    intro hnd
    rcases setup_spec nparams params nspecies with ⟨_, s, _, hse⟩ | ⟨mol, hok, hlen, hall⟩
    · exact absurd (hdup_of s hse) hnd
    · refine ⟨mol, hok, hlen, ?_⟩
      intro s hs
      obtain ⟨v, hv1, hv2⟩ := hall s hs
      rcases setupSpecies_spec params s nparams with ⟨he, _⟩ | ⟨hv, hnone⟩
        | ⟨j, hj, hv, hjs, huniq⟩
      · exact absurd (hdup_of s he) hnd
      · left
        rw [hv] at hv2
        cases hv2
        exact ⟨hv1, hnone⟩
      · right
        rw [hv] at hv2
        cases hv2
        exact ⟨j, hj, hv1, hjs, huniq⟩
  refine ⟨⟨?_, ?_⟩, hok_of⟩
  · intro he
    rcases setup_spec nparams params nspecies with ⟨_, s, _, hse⟩ | ⟨mol, hok, _, _⟩
    · exact hdup_of s hse
    · rw [hok] at he
      cases he
  · rintro ⟨j1, j2, h12, h2, heq⟩
    obtain ⟨h0, hlt⟩ := hrange j1 (by omega)
    obtain ⟨s, hs⟩ := Int.eq_ofNat_of_zero_le h0
    have hsn : s < nspecies := by
      rw [hs] at hlt
      exact_mod_cast hlt
    rcases setup_spec nparams params nspecies with ⟨he, _⟩ | ⟨mol, _, _, hall⟩
    · exact he
    · exfalso
      obtain ⟨v, _, hv2⟩ := hall s hsn
      rcases setupSpecies_spec params s nparams with ⟨he, _⟩ | ⟨_, hnone⟩
        | ⟨j, _, _, _, huniq⟩
      · rw [he] at hv2
        cases hv2
      · exact hnone j1 (by omega) hs
      · have e1 := huniq j1 (by omega) hs
        have e2 := huniq j2 h2 (heq ▸ hs)
        omega

end Setup

/-- Witness of claim C20: with two species and the records of species 1 and 0 in this
order, `setup` returns `mol2param = [1, 0]`. -/
theorem setup_duplicate_iff_witness :
    (setup 2 2 twoRecords = .error "Potential file has duplicate entry"
      ↔ HasDuplicate 2 twoRecords) ∧
    setup 2 2 twoRecords = .ok [1, 0] :=
  ⟨(setup_duplicate_iff 2 2 twoRecords (by
      intro j hj
      interval_cases j <;> decide)).1, rfl⟩

/-! ### Site names, restart file and neighbour lists -/

section Coeff

variable {F : Type} [LinearOrderedField F]

theorem findSpecies_first (w : List Char) (dname : List (List Char)) :
    ∀ k, k < findSpecies w dname → dname[k]? ≠ some w := by
  induction dname with
  | nil =>
    intro k hk
    simp [findSpecies] at hk
  | cons d ds ih =>
    intro k hk
    simp only [findSpecies] at hk
    split_ifs at hk with hwd
    · omega
    · cases k with
      | zero =>
        simp only [List.getElem?_cons_zero, ne_eq, Option.some.injEq]
        exact fun h => hwd h.symm
      | succ k =>
        simp only [List.getElem?_cons_succ]
        exact ih k (by omega)

theorem findSpecies_getElem (w : List Char) (dname : List (List Char)) (h : w ∈ dname) :
    dname[findSpecies w dname]? = some w := by
  induction dname with
  | nil => cases h
  | cons d ds ih =>
    simp only [findSpecies]
    split_ifs with hwd
    · simp [hwd]
    · simp only [List.getElem?_cons_succ]
      rcases List.mem_cons.mp h with h | h
      · exact absurd h hwd
      · exact ih h

/-- What the block of lines 592-604 returns for a site string. -/
theorem siteIndex_spec (site : List Char) (dname : List (List Char)) (msg : String) :
    (site = "1fluid".toList → siteIndex site dname msg = .ok oneFluidApproxParameter) ∧
    (site ≠ "1fluid".toList → site ∈ dname →
      siteIndex site dname msg = .ok ((findSpecies site dname : Nat) : Int) ∧
      findSpecies site dname < dname.length ∧
      dname[findSpecies site dname]? = some site ∧
      ∀ k, k < findSpecies site dname → dname[k]? ≠ some site) ∧
    (site ≠ "1fluid".toList → site ∉ dname → siteIndex site dname msg = .error msg) := by
  refine ⟨?_, ?_, ?_⟩
  · intro h
    simp only [siteIndex, h, if_true]
  · intro h hmem
    have hlt := (findSpecies_lt_length site dname).mpr hmem
    refine ⟨?_, hlt, findSpecies_getElem site dname hmem, findSpecies_first site dname⟩
    simp only [siteIndex, h, if_false, ne_of_lt hlt]
  · intro h hmem
    have heq := (findSpecies_eq_length site dname).mpr hmem
    simp only [siteIndex, h, if_false, heq, if_true]

/-- A successful `coeff` stores the two site indices of lines 592-618. -/
theorem coeff_ok_sites (env : CoeffEnv F) (a : CoeffArgs F) (st st' : PairStyle F)
    (h : coeff env a st = .ok st') :
    siteIndex a.site1 env.dname "Site1 name not recognized in pair coefficients"
      = .ok st'.cfg.isite1 ∧
    siteIndex a.site2 env.dname "Site2 name not recognized in pair coefficients"
      = .ok st'.cfg.isite2 := by
  simp only [coeff] at h
  by_cases h1 : a.narg < 7 ∨ a.narg > 8
  · rw [if_pos h1] at h
    cases h
  rw [if_neg h1] at h
  by_cases h2 : rxFlag env.fixStyles = false
  · rw [if_pos h2] at h
    cases h
  rw [if_neg h2] at h
  by_cases h3 : env.dname.length = 0
  · rw [if_pos h3] at h
    cases h
  rw [if_neg h3] at h
  cases hr : read_file env.atof env.dname a.lines with
  | error e =>
    rw [hr] at h
    cases h
  | ok records =>
    rw [hr] at h
    simp only at h
    by_cases h4 : findSpecies a.site1 env.dname = env.dname.length ∧ a.site1 ≠ "1fluid".toList
    · rw [if_pos h4] at h
      cases h
    rw [if_neg h4] at h
    by_cases h5 : findSpecies a.site2 env.dname = env.dname.length ∧ a.site2 ≠ "1fluid".toList
    · rw [if_pos h5] at h
      cases h
    rw [if_neg h5] at h
    cases hs1 : siteIndex a.site1 env.dname "Site1 name not recognized in pair coefficients"
      with
    | error e =>
      rw [hs1] at h
      cases h
    | ok isite1 =>
      rw [hs1] at h
      simp only at h
      cases hs2 : siteIndex a.site2 env.dname
        "Site2 name not recognized in pair coefficients" with
      | error e =>
        rw [hs2] at h
        cases h
      | ok isite2 =>
        rw [hs2] at h
        simp only at h
        cases hp : setPotentialTypes records with
        | error e =>
          rw [hp] at h
          cases h
        | ok ps =>
          rw [hp] at h
          simp only at h
          cases hm : setup env.dname.length ps.length (paramArray ps) with
          | error e =>
            rw [hm] at h
            cases h
          | ok mol =>
            rw [hm] at h
            simp only at h
            by_cases h6 : (coeffPairs a.ilo a.ihi a.jlo a.jhi).length = 0
            · rw [if_pos h6] at h
              cases h
            · rw [if_neg h6] at h
              cases h
              exact ⟨rfl, rfl⟩

/-- A `coeff` call with an unrecognised site name fails, with the arrays it entered with or
the ones that `allocate` has just returned. -/
theorem coeff_bad_site (env : CoeffEnv F) (a : CoeffArgs F) (st : PairStyle F)
    (hbad : (a.site1 ≠ "1fluid".toList ∧ a.site1 ∉ env.dname) ∨
      (a.site2 ≠ "1fluid".toList ∧ a.site2 ∉ env.dname)) :
    ∃ msg arrays, coeff env a st = .error (msg, arrays) ∧
      (arrays = st.arrays ∨
        (st.arrays.allocated = false ∧ arrays = allocate env.ntypes env.fresh)) := by
  have harr : (if st.arrays.allocated then st.arrays else allocate env.ntypes env.fresh)
      = st.arrays ∨ (st.arrays.allocated = false ∧
        (if st.arrays.allocated then st.arrays else allocate env.ntypes env.fresh)
          = allocate env.ntypes env.fresh) := by
    cases hal : st.arrays.allocated
    · right
      simp
    · left
      simp
  simp only [coeff]
  by_cases h1 : a.narg < 7 ∨ a.narg > 8
  · rw [if_pos h1]
    exact ⟨_, _, rfl, Or.inl rfl⟩
  rw [if_neg h1]
  by_cases h2 : rxFlag env.fixStyles = false
  · rw [if_pos h2]
    exact ⟨_, _, rfl, Or.inl rfl⟩
  rw [if_neg h2]
  by_cases h3 : env.dname.length = 0
  · rw [if_pos h3]
    exact ⟨_, _, rfl, harr⟩
  rw [if_neg h3]
  cases hr : read_file env.atof env.dname a.lines with
  | error e => exact ⟨_, _, rfl, harr⟩
  | ok records =>
    simp only
    by_cases h4 : findSpecies a.site1 env.dname = env.dname.length ∧ a.site1 ≠ "1fluid".toList
    · rw [if_pos h4]
      exact ⟨_, _, rfl, harr⟩
    rw [if_neg h4]
    by_cases h5 : findSpecies a.site2 env.dname = env.dname.length ∧ a.site2 ≠ "1fluid".toList
    · rw [if_pos h5]
      exact ⟨_, _, rfl, harr⟩
    exfalso
    rcases hbad with ⟨hb1, hb2⟩ | ⟨hb1, hb2⟩
    · exact h4 ⟨(findSpecies_eq_length _ _).mpr hb2, hb1⟩
    · exact h5 ⟨(findSpecies_eq_length _ _).mpr hb2, hb1⟩

/-- Claim C21 (amended). `coeff` resolves a site name to the sentinel -1 for the literal
`1fluid` and otherwise to the index of the first declared species of exactly that name; a
successful call stores these two values in `isite1` and `isite2`; when a site name is
neither `1fluid` nor a declared species the call fails fatally, and then no cutoff or
set-flag is modified provided the per-type arrays were allocated on entry (otherwise the
arrays are those that `allocate` has just returned, or the ones on entry). -/
theorem coeff_site_resolution (env : CoeffEnv F) (a : CoeffArgs F) (st : PairStyle F) :
    (∀ (site : List Char) (msg : String),
      (site = "1fluid".toList → siteIndex site env.dname msg = .ok (-1)) ∧
      (site ≠ "1fluid".toList → site ∈ env.dname →
        siteIndex site env.dname msg = .ok ((findSpecies site env.dname : Nat) : Int) ∧
        findSpecies site env.dname < env.dname.length ∧
        env.dname[findSpecies site env.dname]? = some site ∧
        ∀ k, k < findSpecies site env.dname → env.dname[k]? ≠ some site) ∧
      (site ≠ "1fluid".toList → site ∉ env.dname →
        siteIndex site env.dname msg = .error msg)) ∧
    (∀ st', coeff env a st = .ok st' →
      siteIndex a.site1 env.dname "Site1 name not recognized in pair coefficients"
        = .ok st'.cfg.isite1 ∧
      siteIndex a.site2 env.dname "Site2 name not recognized in pair coefficients"
        = .ok st'.cfg.isite2) ∧
    ((a.site1 ≠ "1fluid".toList ∧ a.site1 ∉ env.dname) ∨
        (a.site2 ≠ "1fluid".toList ∧ a.site2 ∉ env.dname) →
      ∃ msg arrays, coeff env a st = .error (msg, arrays) ∧
        (arrays = st.arrays ∨
          (st.arrays.allocated = false ∧ arrays = allocate env.ntypes env.fresh)) ∧
        (st.arrays.allocated = true → arrays.cut = st.arrays.cut ∧
          arrays.setflag = st.arrays.setflag)) := by
  refine ⟨fun site msg => siteIndex_spec site env.dname msg,
    fun st' h => coeff_ok_sites env a st st' h, ?_⟩
  intro hbad
  obtain ⟨msg, arrays, herr, harr⟩ := coeff_bad_site env a st hbad
  refine ⟨msg, arrays, herr, harr, ?_⟩
  intro hal
  rcases harr with h | ⟨h, _⟩
  · rw [h]
    exact ⟨rfl, rfl⟩
  · rw [hal] at h
    cases h

end Coeff

/-- Claim C21 (counterexample). On a pair style with the cutoff 10, `coeff 1 1 file A A 0 0`
succeeds and sets `setflag[1][1] = 1`; `settings` with the cutoff 12 then clears `allocated`
and leaves the flag set; the next call `coeff 1 1 file Zz A 0 0`, whose first site name is
neither `1fluid` nor a declared species, fails fatally with `setflag[1][1] = 0`: `allocate`
has run before the site names are looked at. -/
theorem coeff_bad_site_resets_flags_example :
    ∃ st1 st2 arrays,
      coeff demoCoeffEnv (demoCoeffArgs "A".toList "A".toList) demoStyle = .ok st1 ∧
      settings 1 1 12 st1 = .ok st2 ∧
      st2.arrays.setflag 1 1 = 1 ∧
      "Zz".toList ≠ "1fluid".toList ∧ "Zz".toList ∉ demoCoeffEnv.dname ∧
      coeff demoCoeffEnv (demoCoeffArgs "Zz".toList "A".toList) st2
        = .error ("Site1 name not recognized in pair coefficients", arrays) ∧
      arrays.setflag 1 1 = 0 := by
  refine ⟨_, _, _, rfl, rfl, by decide, by decide, by decide, rfl, by decide⟩

/-- Witness of claim C21 (amended): on the pair style left by `coeff 1 1 file A 1fluid 0 0`
(arrays allocated, `setflag[1][1] = 1`, `isite1 = 0`, `isite2 = -1`), the call
`coeff 1 1 file Zz A 0 0` fails and leaves the cutoffs and set-flags as they were. -/
theorem coeff_site_resolution_witness :
    ∃ st1 msg arrays,
      coeff demoCoeffEnv (demoCoeffArgs "A".toList "1fluid".toList) demoStyle = .ok st1 ∧
      st1.cfg.isite1 = 0 ∧ st1.cfg.isite2 = -1 ∧ st1.arrays.setflag 1 1 = 1 ∧
      coeff demoCoeffEnv (demoCoeffArgs "Zz".toList "A".toList) st1 = .error (msg, arrays) ∧
      arrays.cut = st1.arrays.cut ∧ arrays.setflag = st1.arrays.setflag := by
  have hok : ∃ st1, coeff demoCoeffEnv (demoCoeffArgs "A".toList "1fluid".toList) demoStyle
      = .ok st1 ∧ st1.cfg.isite1 = 0 ∧ st1.cfg.isite2 = -1 ∧ st1.arrays.setflag 1 1 = 1 ∧
      st1.arrays.allocated = true :=
    ⟨_, rfl, by decide, by decide, by decide, rfl⟩
  obtain ⟨st1, h1, hs1, hs2, hf, hal⟩ := hok
  obtain ⟨msg, arrays, herr, _, hsame⟩ :=
    (coeff_site_resolution demoCoeffEnv (demoCoeffArgs "Zz".toList "A".toList) st1).2.2
      (Or.inl ⟨by decide, by decide⟩)
  exact ⟨st1, msg, arrays, h1, hs1, hs2, hf, herr, (hsame hal).1, (hsame hal).2⟩

section Restart

variable {F : Type}

theorem mem_typePairs (n i j : Nat) : (i, j) ∈ typePairs n ↔ 1 ≤ i ∧ i ≤ j ∧ j ≤ n := by
  simp only [typePairs, List.mem_flatMap, List.mem_range', List.mem_map, Prod.mk.injEq]
  constructor
  · rintro ⟨a, ⟨k, hk, rfl⟩, b, ⟨l, hl, rfl⟩, h1, h2⟩
    subst h1 h2
    omega
  · rintro ⟨h1, h2, h3⟩
    exact ⟨i, ⟨i - 1, by omega, by omega⟩, j, ⟨j - i, by omega, by omega⟩, rfl, rfl⟩

theorem typePairs_rowMajor (n : Nat) :
    (typePairs n).Pairwise (fun p q => p.1 < q.1 ∨ (p.1 = q.1 ∧ p.2 < q.2)) := by
  unfold typePairs
  rw [List.pairwise_flatMap]
  refine ⟨?_, ?_⟩
  · intro i _
    rw [List.pairwise_map]
    refine List.Pairwise.imp ?_ (List.pairwise_lt_range' i (n + 1 - i))
    intro a b hab
    exact Or.inr ⟨rfl, hab⟩
  · refine List.Pairwise.imp ?_ (List.pairwise_lt_range' 1 n)
    intro a b hab p hp q hq
    simp only [List.mem_map] at hp hq
    obtain ⟨_, _, rfl⟩ := hp
    obtain ⟨_, _, rfl⟩ := hq
    exact Or.inl hab

theorem foldl_writePair (st : PairStyle F) (ps : List (Nat × Nat))
    (file : List (RestartItem F)) :
    ps.foldl (writePair st) file = file ++ ps.flatMap (pairItems st) := by
  induction ps generalizing file with
  | nil => simp
  | cons p ps ih =>
    rw [List.foldl_cons, ih, List.flatMap_cons]
    simp only [writePair, pairItems]
    split_ifs <;> simp

theorem write_restart_eq (n : Nat) (st : PairStyle F) :
    write_restart n st
      = [.double st.cut_global, .int st.offset_flag, .int st.mix_flag, .int st.tail_flag]
        ++ (typePairs n).flatMap (pairItems st) := by
  unfold write_restart
  rw [foldl_writePair]
  rfl

theorem readPair_pairItems (st : PairStyle F) (a : PairArrays F) (p : Nat × Nat)
    (rest : List (RestartItem F)) :
    ∃ a1, readPair (a, pairItems st p ++ rest) p = some (a1, rest) ∧
      a1.allocated = a.allocated ∧ AgreesAt st a1 p ∧
      ∀ q, AgreesAt st a q → AgreesAt st a1 q := by
  by_cases hf : st.arrays.setflag p.1 p.2 ≠ 0
  · refine ⟨{ a with
        setflag := fun i j =>
          if i = p.1 ∧ j = p.2 then st.arrays.setflag p.1 p.2 else a.setflag i j
        cut := fun i j => if i = p.1 ∧ j = p.2 then st.arrays.cut p.1 p.2 else a.cut i j },
      ?_, rfl, ?_, ?_⟩
    · simp only [readPair, pairItems, hf, if_true, List.cons_append, List.nil_append,
        freadInt, freadDouble, Option.bind, ne_eq, not_false_eq_true]
    · simp [AgreesAt]
    · intro q hq
      by_cases hqp : q.1 = p.1 ∧ q.2 = p.2
      · obtain ⟨e1, e2⟩ := hqp
        simp [AgreesAt, e1, e2]
      · simp only [AgreesAt, hqp, if_false]
        exact hq
  · have hf0 : st.arrays.setflag p.1 p.2 = 0 := by
      by_contra h
      exact hf h
    refine ⟨{ a with
        setflag := fun i j =>
          if i = p.1 ∧ j = p.2 then st.arrays.setflag p.1 p.2 else a.setflag i j },
      ?_, rfl, ?_, ?_⟩
    · simp only [readPair, pairItems, hf0, ne_eq, not_true_eq_false, if_false,
        List.cons_append, List.nil_append, freadInt, Option.bind]
    · simp [AgreesAt, hf0]
    · intro q hq
      by_cases hqp : q.1 = p.1 ∧ q.2 = p.2
      · obtain ⟨e1, e2⟩ := hqp
        simp [AgreesAt, e1, e2, hf0]
      · simp only [AgreesAt, hqp, if_false]
        exact hq

theorem foldlM_readPair (st : PairStyle F) (rest : List (RestartItem F)) :
    ∀ (ps : List (Nat × Nat)) (a : PairArrays F),
      ∃ a', ps.foldlM readPair (a, ps.flatMap (pairItems st) ++ rest) = some (a', rest) ∧
        a'.allocated = a.allocated ∧ (∀ q ∈ ps, AgreesAt st a' q) ∧
        ∀ q, AgreesAt st a q → AgreesAt st a' q := by
  intro ps
  induction ps with
  | nil =>
    intro a
    exact ⟨a, rfl, rfl, fun q hq => absurd hq (List.not_mem_nil q), fun q hq => hq⟩
  | cons p ps ih =>
    intro a
    obtain ⟨a1, h1, hal1, hp1, hkeep1⟩ :=
      readPair_pairItems st a p (ps.flatMap (pairItems st) ++ rest)
    obtain ⟨a', h2, hal2, hps, hkeep2⟩ := ih a1
    refine ⟨a', ?_, hal2.trans hal1, ?_, fun q hq => hkeep2 q (hkeep1 q hq)⟩
    · rw [List.foldlM_cons, List.flatMap_cons, List.append_assoc, h1]
      exact h2
    · intro q hq
      rcases List.mem_cons.mp hq with rfl | hq
      · exact hkeep2 q hp1
      · exact hps q hq

/-- Claim C22. `write_restart` writes `cut_global` (double), `offset_flag`, `mix_flag`,
`tail_flag` (ints) and then, for the type pairs `1 <= i <= j <= ntypes` in row-major order,
`setflag[i][j]` (int) followed by `cut[i][j]` (double) when the flag is set; `read_restart`
on that output followed by any `rest` returns leaving exactly `rest` unread, with the same
`cut_global` and flags, the same `setflag[i][j]` for every `i <= j`, and the same `cut[i][j]`
for every pair whose flag is set. -/
theorem restart_round_trip (n : Nat) (fresh : PairArrays F) (st st0 : PairStyle F)
    (rest : List (RestartItem F)) :
    write_restart n st
      = [.double st.cut_global, .int st.offset_flag, .int st.mix_flag, .int st.tail_flag]
        ++ (typePairs n).flatMap (fun p =>
            .int (st.arrays.setflag p.1 p.2) ::
              (if st.arrays.setflag p.1 p.2 ≠ 0 then [.double (st.arrays.cut p.1 p.2)]
               else [])) ∧
    (∀ i j, (i, j) ∈ typePairs n ↔ 1 ≤ i ∧ i ≤ j ∧ j ≤ n) ∧
    (typePairs n).Pairwise (fun p q => p.1 < q.1 ∨ (p.1 = q.1 ∧ p.2 < q.2)) ∧
    ∃ st', read_restart n fresh st0 (write_restart n st ++ rest) = some (st', rest) ∧
      st'.cut_global = st.cut_global ∧ st'.offset_flag = st.offset_flag ∧
      st'.mix_flag = st.mix_flag ∧ st'.tail_flag = st.tail_flag ∧
      ∀ i j, 1 ≤ i → i ≤ j → j ≤ n →
        st'.arrays.setflag i j = st.arrays.setflag i j ∧
        (st.arrays.setflag i j ≠ 0 → st'.arrays.cut i j = st.arrays.cut i j) := by
  refine ⟨write_restart_eq n st, mem_typePairs n, typePairs_rowMajor n, ?_⟩
  obtain ⟨a', hread, _, hps, _⟩ := foldlM_readPair st rest (typePairs n) (allocate n fresh)
  refine ⟨{ st0 with cut_global := st.cut_global, offset_flag := st.offset_flag,
                      mix_flag := st.mix_flag, tail_flag := st.tail_flag, arrays := a' },
    ?_, rfl, rfl, rfl, rfl, ?_⟩
  · rw [write_restart_eq]
    simp only [read_restart, read_restart_settings, List.cons_append, List.nil_append,
      freadDouble, freadInt, Option.bind, hread, Option.map]
  · intro i j h1 h2 h3
    exact hps (i, j) ((mem_typePairs n i j).mpr ⟨h1, h2, h3⟩)

end Restart

section RespaShape

variable {F : Type} [LinearOrderedRing F]

theorem respaPair_eq (env : NeighEnv F) (rm : Bool) (i j : Nat) (s : RespaLists) :
    respaPair env rm i j s =
      if listed env i j then
        { full := s.full ++ [entryOf env i j]
          inner := if innerShell env i j then s.inner ++ [entryOf env i j] else s.inner
          middle := if middleShell env rm i j then s.middle ++ [entryOf env i j]
                    else s.middle }
      else s := by
  have hmidb : ∀ (l : List Nat),
      (if rm = true ∧ respaRsq env i j < env.cut_middle_sq ∧
          respaRsq env i j > env.cut_middle_inside_sq then l else s.middle)
        = (if (rm && decide (respaRsq env i j < env.cut_middle_sq) &&
            decide (respaRsq env i j > env.cut_middle_inside_sq)) = true then l
           else s.middle) := by
    intro l
    simp only [Bool.and_eq_true, decide_eq_true_eq, and_assoc]
  by_cases hex : env.exclude = true ∧ env.exclusion i j (env.type i) (env.type j) = true
  · have : excludedPair env i j = true := by
      simp [excludedPair, hex.1, hex.2]
    simp [respaPair, hex, listed, this]
  · have hex' : excludedPair env i j = false := by
      simp only [excludedPair, Bool.and_eq_false_iff]
      by_contra hcon
      simp only [not_or, Bool.not_eq_false] at hcon
      exact hex hcon
    by_cases hcut : respaRsq env i j ≤ env.cutneighsq (env.type i) (env.type j)
    · cases hmol : env.molecular
      · -- non-molecular
        simp only [respaPair, hex, if_false, respaStore, hcut, if_true, hmol, listed, hex',
          withinCut, whichOf, entryOf, innerShell, middleShell, hmidb]
        simp
      · -- molecular
        rcases lt_trichotomy (env.find_special i (env.tag j)) 0 with hw | hw | hw
        · have h1 : ¬ (0 ≤ env.find_special i (env.tag j)) := not_le.mpr hw
          have h2 : env.find_special i (env.tag j) ≠ 0 := ne_of_lt hw
          have h3 : ¬ (0 < env.find_special i (env.tag j)) := not_lt.mpr (le_of_lt hw)
          simp [respaPair, hex, respaStore, hcut, hmol, listed, hex', withinCut, whichOf,
            h1, h2, h3]
        · simp only [respaPair, hex, if_false, respaStore, hcut, if_true, hmol, listed, hex',
            withinCut, whichOf, entryOf, innerShell, middleShell, hw, le_refl, Int.toNat_zero,
            Nat.zero_shiftLeft, Nat.xor_zero, hmidb]
          simp
        · have h1 : 0 ≤ env.find_special i (env.tag j) := le_of_lt hw
          have h2 : env.find_special i (env.tag j) ≠ 0 := ne_of_gt hw
          simp only [respaPair, hex, if_false, respaStore, hcut, if_true, hmol, listed, hex',
            withinCut, whichOf, entryOf, innerShell, middleShell, h1, h2, hw, hmidb]
          simp
    · simp [respaPair, hex, respaStore, hcut, listed, withinCut]

/-- A loop whose body skips the partners selected by `skip` and runs the shared block on
the others appends, to the three sequences, the sequences built from the partners that are
not skipped and are accepted. -/
theorem foldl_respaPair (env : NeighEnv F) (rm : Bool) (i : Nat) (skip : Nat → Bool) :
    ∀ (cands : List Nat) (s0 : RespaLists),
      cands.foldl (fun s j => if skip j = true then s else respaPair env rm i j s) s0
        = { full := s0.full ++
              (listsOf env rm i (cands.filter (fun j => !skip j && listed env i j))).full
            inner := s0.inner ++
              (listsOf env rm i (cands.filter (fun j => !skip j && listed env i j))).inner
            middle := s0.middle ++
              (listsOf env rm i (cands.filter (fun j => !skip j && listed env i j))).middle }
    := by
  intro cands
  induction cands with
  | nil =>
    intro s0
    simp [listsOf]
  | cons j cands ih =>
    intro s0
    rw [List.foldl_cons, ih]
    by_cases hs : skip j = true
    · simp [hs, List.filter_cons]
    · have hs' : skip j = false := by simpa using hs
      rw [if_neg hs, respaPair_eq]
      by_cases hl : listed env i j = true
      · simp only [hl, if_true, List.filter_cons, hs', Bool.not_false, Bool.and_self, listsOf,
          List.map_cons, List.append_assoc, List.singleton_append]
        congr 1
        · by_cases hin : innerShell env i j = true
          · simp [hin, List.filter_cons]
          · simp [hin, List.filter_cons]
        · by_cases hmid : middleShell env rm i j = true
          · simp [hmid, List.filter_cons]
          · simp [hmid, List.filter_cons]
      · have hl' : listed env i j = false := by simpa using hl
        simp [hl', List.filter_cons, hs']

theorem foldl_respaPair_nil (env : NeighEnv F) (rm : Bool) (i : Nat) (skip : Nat → Bool)
    (cands : List Nat) :
    cands.foldl (fun s j => if skip j = true then s else respaPair env rm i j s)
        { full := [], inner := [], middle := [] }
      = listsOf env rm i (cands.filter (fun j => !skip j && listed env i j)) := by
  rw [foldl_respaPair]
  simp [listsOf]

end RespaShape

section ChainWalk

variable {F : Type}

theorem chainLoop_eq {S : Type} (bins : Nat → Int) (body : S → Nat → S) :
    ∀ (fuel : Nat) (j : Int) (s : S),
      chainLoop bins body fuel j s = (binChain bins fuel j).map (fun l => l.foldl body s) := by
  intro fuel
  induction fuel with
  | zero =>
    intro j s
    simp only [chainLoop, binChain]
    split_ifs <;> rfl
  | succ fuel ih =>
    intro j s
    simp only [chainLoop, binChain]
    split_ifs
    · rfl
    · rw [ih]
      cases binChain bins fuel (bins j.toNat) <;> rfl

theorem stencilLoop_eq {S : Type} (env : NeighEnv F) (body : S → Nat → S) (fuel : Nat)
    (ibin : Int) :
    ∀ (stencil : List Int) (s : S),
      stencilLoop env stencil body fuel ibin s
        = (stencilChain env fuel ibin stencil).map (fun l => l.foldl body s) := by
  intro stencil
  induction stencil with
  | nil =>
    intro s
    rfl
  | cons k ks ih =>
    intro s
    unfold stencilLoop at ih ⊢
    rw [List.foldlM_cons, chainLoop_eq]
    simp only [stencilChain]
    cases hk : binChain env.bins fuel (env.binhead (ibin + k)) with
    | none => rfl
    | some l =>
      simp only [Option.map_some', Option.some_bind, Option.bind_eq_bind]
      rw [ih]
      cases stencilChain env fuel ibin ks with
      | none => rfl
      | some ls => simp [List.foldl_append]

end ChainWalk

section RespaScans

variable {F : Type} [LinearOrderedRing F]

theorem listsOf_nil (env : NeighEnv F) (rm : Bool) (i : Nat) :
    listsOf env rm i [] = { full := [], inner := [], middle := [] } := rfl

theorem listsOf_middle_off (env : NeighEnv F) (i : Nat) (js : List Nat) :
    (listsOf env false i js).middle = [] := by
  simp [listsOf, middleShell]

theorem nsqNoNewtonAtom_eq (env : NeighEnv F) (rm : Bool) (i : Nat) :
    nsqNoNewtonAtom env rm i = listsOf env rm i (nsqNoNewtonPartners env i) := by
  unfold nsqNoNewtonAtom nsqNoNewtonPartners
  exact foldl_respaPair_nil env rm i (maskSkip env) _

theorem nsqNewtonAtom_eq (env : NeighEnv F) (rm : Bool) (i : Nat) :
    nsqNewtonAtom env rm i = listsOf env rm i (nsqNewtonPartners env i) := by
  unfold nsqNewtonAtom nsqNewtonPartners
  have hstep : nsqNewtonStep env rm i
      = fun s j => if (maskSkip env j || (decide (nlocalOf env ≤ j) && tagSkip env i j)) = true
          then s else respaPair env rm i j s := by
    funext s j
    unfold nsqNewtonStep
    by_cases h1 : maskSkip env j = true
    · simp [h1]
    · by_cases h2 : (decide (nlocalOf env ≤ j) && tagSkip env i j) = true
      · simp [h1, h2]
      · simp [h1, h2]
  rw [hstep, foldl_respaPair_nil]
  congr 1
  apply List.filter_congr
  intro j _
  simp only [Bool.not_or]

theorem binNoNewtonAtom_eq (fuel : Nat) (env : NeighEnv F) (list : NeighList) (i : Nat) :
    binNoNewtonAtom fuel env list i
      = (stencilChain env fuel (env.coord2bin i) list.stencil).map
          (fun c => listsOf env list.respamiddle i
            (c.filter (fun j => !decide (j ≤ i) && listed env i j))) := by
  unfold binNoNewtonAtom
  rw [stencilLoop_eq]
  have hstep : binNoNewtonStep env list.respamiddle i
      = fun s j => if decide (j ≤ i) = true then s
          else respaPair env list.respamiddle i j s := by
    funext s j
    unfold binNoNewtonStep
    by_cases h : j ≤ i <;> simp [h]
  rw [hstep]
  cases stencilChain env fuel (env.coord2bin i) list.stencil with
  | none => rfl
  | some c =>
    simp only [Option.map_some']
    rw [foldl_respaPair_nil]

theorem binNewtonTriAtom_eq (fuel : Nat) (env : NeighEnv F) (list : NeighList) (i : Nat) :
    binNewtonTriAtom fuel env list i
      = (stencilChain env fuel (env.coord2bin i) list.stencil).map
          (fun c => listsOf env list.respamiddle i
            (c.filter (fun j => !triBelow env i j && listed env i j))) := by
  unfold binNewtonTriAtom
  rw [stencilLoop_eq]
  have hstep : binNewtonTriStep env list.respamiddle i
      = fun s j => if triBelow env i j = true then s
          else respaPair env list.respamiddle i j s := by
    funext s j
    rfl
  rw [hstep]
  cases stencilChain env fuel (env.coord2bin i) list.stencil with
  | none => rfl
  | some c =>
    simp only [Option.map_some']
    rw [foldl_respaPair_nil]

theorem listsOf_append (env : NeighEnv F) (rm : Bool) (i : Nat) (js ks : List Nat) :
    listsOf env rm i (js ++ ks)
      = { full := (listsOf env rm i js).full ++ (listsOf env rm i ks).full
          inner := (listsOf env rm i js).inner ++ (listsOf env rm i ks).inner
          middle := (listsOf env rm i js).middle ++ (listsOf env rm i ks).middle } := by
  simp [listsOf, List.filter_append]

theorem binNewtonAtom_eq (fuel : Nat) (env : NeighEnv F) (list : NeighList) (i : Nat) :
    binNewtonAtom fuel env list i
      = (binChain env.bins fuel (env.bins i)).bind (fun own =>
          (stencilChain env fuel (env.coord2bin i) list.stencil).map (fun c =>
            listsOf env list.respamiddle i
              (own.filter (fun j => !(decide (nlocalOf env ≤ j) && coordBelow env i j)
                  && listed env i j)
                ++ c.filter (fun j => listed env i j)))) := by
  unfold binNewtonAtom
  rw [chainLoop_eq]
  have hstep : binNewtonOwnStep env list.respamiddle i
      = fun s j => if (decide (nlocalOf env ≤ j) && coordBelow env i j) = true then s
          else respaPair env list.respamiddle i j s := by
    funext s j
    rfl
  have hstep2 : (fun (s : RespaLists) (j : Nat) => respaPair env list.respamiddle i j s)
      = fun s j => if (fun _ : Nat => false) j = true then s
          else respaPair env list.respamiddle i j s := by
    funext s j
    simp
  rw [hstep]
  cases binChain env.bins fuel (env.bins i) with
  | none => rfl
  | some own =>
    simp only [Option.map_some', Option.some_bind, Option.bind_eq_bind]
    rw [stencilLoop_eq, foldl_respaPair_nil]
    cases stencilChain env fuel (env.coord2bin i) list.stencil with
    | none => rfl
    | some c =>
      simp only [Option.map_some']
      rw [hstep2, foldl_respaPair, listsOf_append]
      simp

/-- Every scan of the five builders gives sequences of the shape of the storing block. -/
theorem respaShape_of_scans (fuel : Nat) (env : NeighEnv F) (list : NeighList) (i : Nat)
    (l : RespaLists)
    (h : l = nsqNoNewtonAtom env list.respamiddle i ∨
      l = nsqNewtonAtom env list.respamiddle i ∨
      binNoNewtonAtom fuel env list i = some l ∨
      binNewtonAtom fuel env list i = some l ∨
      binNewtonTriAtom fuel env list i = some l) :
    RespaShape env list.respamiddle i l := by
  rcases h with h | h | h | h | h
  · rw [h, nsqNoNewtonAtom_eq]
    refine ⟨_, ?_, rfl⟩
    intro j hj
    have := (List.mem_filter.mp hj).2
    simp only [Bool.and_eq_true] at this
    exact this.2
  · rw [h, nsqNewtonAtom_eq]
    refine ⟨_, ?_, rfl⟩
    intro j hj
    have := (List.mem_filter.mp hj).2
    simp only [Bool.and_eq_true] at this
    exact this.2
  · rw [binNoNewtonAtom_eq] at h
    cases hc : stencilChain env fuel (env.coord2bin i) list.stencil with
    | none =>
      rw [hc] at h
      cases h
    | some c =>
      rw [hc] at h
      simp only [Option.map_some', Option.some.injEq] at h
      refine ⟨_, ?_, h.symm⟩
      intro j hj
      have := (List.mem_filter.mp hj).2
      simp only [Bool.and_eq_true] at this
      exact this.2
  · rw [binNewtonAtom_eq] at h
    cases ho : binChain env.bins fuel (env.bins i) with
    | none =>
      rw [ho] at h
      cases h
    | some own =>
      rw [ho] at h
      simp only [Option.some_bind, Option.bind_eq_bind] at h
      cases hc : stencilChain env fuel (env.coord2bin i) list.stencil with
      | none =>
        rw [hc] at h
        cases h
      | some c =>
        rw [hc] at h
        simp only [Option.map_some', Option.some.injEq] at h
        refine ⟨_, ?_, h.symm⟩
        intro j hj
        rcases List.mem_append.mp hj with hj | hj
        · have := (List.mem_filter.mp hj).2
          simp only [Bool.and_eq_true] at this
          exact this.2
        · exact (List.mem_filter.mp hj).2
  · rw [binNewtonTriAtom_eq] at h
    cases hc : stencilChain env fuel (env.coord2bin i) list.stencil with
    | none =>
      rw [hc] at h
      cases h
    | some c =>
      rw [hc] at h
      simp only [Option.map_some', Option.some.injEq] at h
      refine ⟨_, ?_, h.symm⟩
      intro j hj
      have := (List.mem_filter.mp hj).2
      simp only [Bool.and_eq_true] at this
      exact this.2

end RespaScans

section RespaLoop

variable {F : Type}

theorem respaAtom_ok (env : NeighEnv F) (rm : Bool) (nthreads : Nat) (b b1 : RespaBuild)
    (i : Nat) (l : RespaLists) (h : respaAtom env rm nthreads b i l = .ok b1) :
    storedLists b1 i = some { full := l.full, inner := l.inner,
                              middle := if rm then l.middle else
                                ((b.middle i).map AtomList.neigh).getD [] } ∧
    (∀ k, k ≠ i → b1.full k = b.full k ∧ b1.inner k = b.inner k ∧ b1.middle k = b.middle k)
    := by
  unfold respaAtom at h
  simp only at h
  split_ifs at h with h1 h2 h3 h4
  · cases h
    refine ⟨?_, ?_⟩
    · simp [storedLists, h3]
    · intro k hk
      simp [hk]
  · cases h
    refine ⟨?_, ?_⟩
    · simp [storedLists, h3]
    · intro k hk
      simp [hk]

theorem storedLists_congr (b b1 : RespaBuild) (k : Nat)
    (h : b1.full k = b.full k ∧ b1.inner k = b.inner k ∧ b1.middle k = b.middle k) :
    storedLists b1 k = storedLists b k := by
  simp only [storedLists, h.1, h.2.1, h.2.2]

/-- A finished loop holds, for every particle of its range, the sequences that the scan of
that particle returned. -/
theorem respaLoop_stored (env : NeighEnv F) (rm : Bool) (nthreads : Nat)
    (scan : Nat → Option RespaLists) (hmid : rm = false → ∀ i l, scan i = some l →
      l.middle = []) :
    ∀ (is : List Nat) (b out : RespaBuild), is.Nodup →
      (rm = false → ∀ k, b.middle k = none) →
      respaLoop env rm nthreads scan is b = some (.ok out) →
      (∀ k, k ∉ is → storedLists out k = storedLists b k) ∧
      (rm = false → ∀ k, out.middle k = none) ∧
      ∀ i ∈ is, ∃ l, scan i = some l ∧ storedLists out i = some l := by
  intro is
  induction is with
  | nil =>
    intro b out _ hb h
    simp only [respaLoop, Option.some.injEq, Except.ok.injEq] at h
    subst h
    exact ⟨fun k _ => rfl, hb, fun i hi => absurd hi (List.not_mem_nil i)⟩
  | cons i is ih =>
    intro b out hnd hb h
    have hnd' := List.nodup_cons.mp hnd
    simp only [respaLoop] at h
    cases hs : scan i with
    | none =>
      rw [hs] at h
      cases h
    | some l =>
      rw [hs] at h
      simp only at h
      cases ha : respaAtom env rm nthreads b i l with
      | error e =>
        rw [ha] at h
        cases h
      | ok b1 =>
        rw [ha] at h
        simp only at h
        obtain ⟨hst, hother⟩ := respaAtom_ok env rm nthreads b b1 i l ha
        have hb1 : rm = false → ∀ k, b1.middle k = none := by
          intro hrm k
          by_cases hk : k = i
          · subst hk
            unfold respaAtom at ha
            simp only at ha
            split_ifs at ha with h1 h2 h3 h4
            · exact absurd hrm (by simp [h3])
            · cases ha
              exact hb hrm k
          · rw [(hother k hk).2.2]
            exact hb hrm k
        obtain ⟨hout, hmidout, hall⟩ := ih b1 out hnd'.2 hb1 h
        refine ⟨?_, hmidout, ?_⟩
        · intro k hk
          have hki : k ≠ i := fun e => hk (e ▸ List.mem_cons_self _ _)
          have hkis : k ∉ is := fun e => hk (List.mem_cons_of_mem _ e)
          rw [hout k hkis]
          exact storedLists_congr b b1 k (hother k hki)
        · intro k hk
          rcases List.mem_cons.mp hk with rfl | hk
          · refine ⟨l, hs, ?_⟩
            rw [hout k hnd'.1, hst]
            cases hrm : rm
            · simp only [Bool.false_eq_true, if_false]
              rw [hb hrm k]
              have hm := hmid hrm k l hs
              cases l with
              | mk lf li lm =>
                simp only at hm
                subst hm
                rfl
            · simp
          · exact hall k hk

end RespaLoop

section PlainEntries

variable {F : Type}

theorem entryOf_plain (env : NeighEnv F) (i : Nat) (h : env.molecular = false)
    (js : List Nat) : js.map (entryOf env i) = js := by
  have : entryOf env i = id := by
    funext j
    simp [entryOf, h]
  rw [this, List.map_id]

theorem whichOf_plain (env : NeighEnv F) (i j : Nat) (h : env.molecular = false) :
    whichOf env i j = 0 := by
  simp [whichOf, h]

end PlainEntries

section RespaClaims

variable {F : Type} [LinearOrderedRing F]

theorem scan_middle_off (fuel : Nat) (env : NeighEnv F) (list : NeighList) (i : Nat)
    (l : RespaLists) (h : ScanOf fuel env list i l) (hrm : list.respamiddle = false) :
    l.middle = [] := by
  obtain ⟨js, _, hl⟩ := respaShape_of_scans fuel env list i l h
  rw [hl, hrm]
  exact listsOf_middle_off env i js

/-- A finished build of any of the five builders holds, for every particle of the range of
the thread, the sequences of the scan of that particle. -/
theorem built_stored (fuel : Nat) (env : NeighEnv F) (list : NeighList) (t : OmpThread)
    (out : RespaBuild) (h : BuiltBy fuel env list t out) (i : Nat) (h1 : t.ifrom ≤ i)
    (h2 : i < t.ito) :
    ∃ l, ScanOf fuel env list i l ∧ storedLists out i = some l := by
  have hi : i ∈ List.range' t.ifrom (t.ito - t.ifrom) := by
    simp only [List.mem_range'_1]
    omega
  have hnd : (List.range' t.ifrom (t.ito - t.ifrom)).Nodup := List.nodup_range' _ _
  have hstart : list.respamiddle = false → ∀ k, (respaStart t).middle k = none :=
    fun _ _ => rfl
  rcases h with h | h | h | h | h
  · obtain ⟨l, hl, hst⟩ := (respaLoop_stored env list.respamiddle t.nthreads _
      (fun hrm k l hk => scan_middle_off fuel env list k l
        (Or.inl (Option.some.inj hk).symm) hrm) _ _ out hnd hstart h).2.2 i hi
    exact ⟨l, Or.inl (Option.some.inj hl).symm, hst⟩
  · obtain ⟨l, hl, hst⟩ := (respaLoop_stored env list.respamiddle t.nthreads _
      (fun hrm k l hk => scan_middle_off fuel env list k l
        (Or.inr (Or.inl (Option.some.inj hk).symm)) hrm) _ _ out hnd hstart h).2.2 i hi
    exact ⟨l, Or.inr (Or.inl (Option.some.inj hl).symm), hst⟩
  · obtain ⟨l, hl, hst⟩ := (respaLoop_stored env list.respamiddle t.nthreads _
      (fun hrm k l hk => scan_middle_off fuel env list k l
        (Or.inr (Or.inr (Or.inl hk))) hrm) _ _ out hnd hstart h).2.2 i hi
    exact ⟨l, Or.inr (Or.inr (Or.inl hl)), hst⟩
  · obtain ⟨l, hl, hst⟩ := (respaLoop_stored env list.respamiddle t.nthreads _
      (fun hrm k l hk => scan_middle_off fuel env list k l
        (Or.inr (Or.inr (Or.inr (Or.inl hk)))) hrm) _ _ out hnd hstart h).2.2 i hi
    exact ⟨l, Or.inr (Or.inr (Or.inr (Or.inl hl))), hst⟩
  · obtain ⟨l, hl, hst⟩ := (respaLoop_stored env list.respamiddle t.nthreads _
      (fun hrm k l hk => scan_middle_off fuel env list k l
        (Or.inr (Or.inr (Or.inr (Or.inr hk)))) hrm) _ _ out hnd hstart h).2.2 i hi
    exact ⟨l, Or.inr (Or.inr (Or.inr (Or.inr hl))), hst⟩

theorem mem_nsqNoNewtonPartners (env : NeighEnv F) (i j : Nat) :
    j ∈ nsqNoNewtonPartners env i ↔
      i < j ∧ j < nallOf env ∧ maskSkip env j = false ∧ excludedPair env i j = false ∧
      respaRsq env i j ≤ env.cutneighsq (env.type i) (env.type j) ∧ 0 ≤ whichOf env i j := by
  simp only [nsqNoNewtonPartners, List.mem_filter, List.mem_range'_1, listed, withinCut,
    Bool.and_eq_true, Bool.not_eq_true', decide_eq_true_eq]
  constructor
  · rintro ⟨⟨h1, h2⟩, h3, ⟨h4, h5⟩, h6⟩
    exact ⟨by omega, by omega, h3, h4, h5, h6⟩
  · rintro ⟨h1, h2, h3, h4, h5, h6⟩
    exact ⟨⟨by omega, by omega⟩, h3, ⟨h4, h5⟩, h6⟩

theorem nsqNoNewtonPartners_sorted (env : NeighEnv F) (i : Nat) :
    (nsqNoNewtonPartners env i).Pairwise (fun a b => a < b) :=
  List.Pairwise.filter _ (List.pairwise_lt_range' _ _)

/-- Claim C23 (amended). In `respa_nsq_no_newton_omp` the full list of the particle `i` holds
the entries of the partners `nsqNoNewtonPartners`, which are in ascending order and are
exactly the indices `j` with `i < j < nlocal + nghost` that pass the include-group mask and
the exclusion test, satisfy `rsq <= cutneighsq[type i][type j]` and have a non-negative
special code (`find_special(...) >= 0` in a molecular system, stored as
`j ^ (which << SBBITS)`). In a non-molecular system the full list is the ascending sequence
of all `j` that pass the mask, the exclusion test and the separation test, each stored as the
plain index `j`. A finished build stores this list for every particle of the thread. -/
theorem nsq_no_newton_full_list (env : NeighEnv F) (list : NeighList) (i : Nat) :
    (nsqNoNewtonAtom env list.respamiddle i).full
      = (nsqNoNewtonPartners env i).map (entryOf env i) ∧
    (nsqNoNewtonPartners env i).Pairwise (fun a b => a < b) ∧
    (∀ j, j ∈ nsqNoNewtonPartners env i ↔
      i < j ∧ j < nallOf env ∧ maskSkip env j = false ∧ excludedPair env i j = false ∧
      respaRsq env i j ≤ env.cutneighsq (env.type i) (env.type j) ∧ 0 ≤ whichOf env i j) ∧
    (env.molecular = false →
      (nsqNoNewtonAtom env list.respamiddle i).full.Pairwise (fun a b => a < b) ∧
      ∀ j, j ∈ (nsqNoNewtonAtom env list.respamiddle i).full ↔
        i < j ∧ j < nallOf env ∧ maskSkip env j = false ∧ excludedPair env i j = false ∧
        respaRsq env i j ≤ env.cutneighsq (env.type i) (env.type j)) ∧
    (∀ (t : OmpThread) (out : RespaBuild),
      respa_nsq_no_newton_omp env list t = some (.ok out) → t.ifrom ≤ i → i < t.ito →
      (storedLists out i).map RespaLists.full
        = some ((nsqNoNewtonPartners env i).map (entryOf env i))) := by
  have hfull : (nsqNoNewtonAtom env list.respamiddle i).full
      = (nsqNoNewtonPartners env i).map (entryOf env i) := by
    rw [nsqNoNewtonAtom_eq]
    rfl
  refine ⟨hfull, nsqNoNewtonPartners_sorted env i, mem_nsqNoNewtonPartners env i, ?_, ?_⟩
  · intro hmol
    rw [hfull, entryOf_plain env i hmol]
    refine ⟨nsqNoNewtonPartners_sorted env i, ?_⟩
    intro j
    rw [mem_nsqNoNewtonPartners, whichOf_plain env i j hmol]
    simp
  · intro t out hb h1 h2
    have hnd : (List.range' t.ifrom (t.ito - t.ifrom)).Nodup := List.nodup_range' _ _
    have hi : i ∈ List.range' t.ifrom (t.ito - t.ifrom) := by
      simp only [List.mem_range'_1]
      omega
    obtain ⟨l, hl, hst⟩ := (respaLoop_stored env list.respamiddle t.nthreads _
      (fun hrm k l hk => scan_middle_off 0 env list k l
        (Or.inl (Option.some.inj hk).symm) hrm) _ _ out hnd (fun _ _ => rfl) hb).2.2 i hi
    rw [hst, ← Option.some.inj hl]
    simp only [Option.map_some']
    rw [hfull]

/-- Claim C24 (amended). In every respa variant with the middle list enabled, the middle
list of the particle `i` holds, in the order of the full list, the entries of exactly those
accepted partners whose squared separation lies in the open interval
`cut_middle_inside_sq < rsq < cut_middle_sq`; a partner at exactly `rsq = cut_middle_sq` is
not in the middle list. This holds for the scan of each of the five builders and for what a
finished build stores. -/
theorem middle_list_open_shell (fuel : Nat) (env : NeighEnv F) (list : NeighList)
    (hmid : list.respamiddle = true) (i : Nat) :
    (∀ l, ScanOf fuel env list i l →
      ∃ js : List Nat, l.full = js.map (entryOf env i) ∧
        l.middle = (js.filter (fun j =>
            decide (env.cut_middle_inside_sq < respaRsq env i j) &&
            decide (respaRsq env i j < env.cut_middle_sq))).map (entryOf env i) ∧
        ∀ j ∈ js, respaRsq env i j = env.cut_middle_sq →
          j ∉ js.filter (fun j =>
            decide (env.cut_middle_inside_sq < respaRsq env i j) &&
            decide (respaRsq env i j < env.cut_middle_sq))) ∧
    (∀ (t : OmpThread) (out : RespaBuild), BuiltBy fuel env list t out →
      t.ifrom ≤ i → i < t.ito →
      ∃ (l : RespaLists) (js : List Nat), storedLists out i = some l ∧
        l.full = js.map (entryOf env i) ∧
        l.middle = (js.filter (fun j =>
            decide (env.cut_middle_inside_sq < respaRsq env i j) &&
            decide (respaRsq env i j < env.cut_middle_sq))).map (entryOf env i)) := by
  have hscan : ∀ l, ScanOf fuel env list i l →
      ∃ js : List Nat, l.full = js.map (entryOf env i) ∧
        l.middle = (js.filter (fun j =>
            decide (env.cut_middle_inside_sq < respaRsq env i j) &&
            decide (respaRsq env i j < env.cut_middle_sq))).map (entryOf env i) := by
    intro l hl
    obtain ⟨js, _, hjs⟩ := respaShape_of_scans fuel env list i l hl
    refine ⟨js, by rw [hjs]; rfl, ?_⟩
    rw [hjs, hmid]
    simp only [listsOf]
    congr 1
    apply List.filter_congr
    intro j _
    simp only [middleShell, Bool.true_and, gt_iff_lt, Bool.and_comm]
  refine ⟨?_, ?_⟩
  · intro l hl
    obtain ⟨js, h1, h2⟩ := hscan l hl
    refine ⟨js, h1, h2, ?_⟩
    intro j _ heq hmem
    have := (List.mem_filter.mp hmem).2
    simp only [Bool.and_eq_true, decide_eq_true_eq] at this
    rw [heq] at this
    exact lt_irrefl _ this.2
  · intro t out hb h1 h2
    obtain ⟨l, hl, hst⟩ := built_stored fuel env list t out hb i h1 h2
    obtain ⟨js, h3, h4⟩ := hscan l hl
    exact ⟨l, js, hst, h3, h4⟩

/-- Claim C25. In every respa variant, for the particle `i` there are accepted partners `js`
such that the full list holds their entries, the inner list the entries of exactly those
with `rsq < cut_inner_sq`, and the middle list the entries of a part of them, each list in
the order of `js` and with the same packed entry for the same partner; hence the inner and
the middle list are subsequences of the full list, and every entry of the inner or the
middle list is an entry of the full list. This holds for the scan of each of the five
builders and for what a finished build stores. -/
theorem inner_middle_within_full (fuel : Nat) (env : NeighEnv F) (list : NeighList)
    (i : Nat) :
    (∀ l, ScanOf fuel env list i l →
      (∃ js : List Nat, l.full = js.map (entryOf env i) ∧
        l.inner = (js.filter (fun j => decide (respaRsq env i j < env.cut_inner_sq))).map
          (entryOf env i) ∧
        ∃ ms : List Nat, ms.Sublist js ∧ l.middle = ms.map (entryOf env i)) ∧
      l.inner.Sublist l.full ∧ l.middle.Sublist l.full ∧
      (∀ e, e ∈ l.inner ∨ e ∈ l.middle → e ∈ l.full)) ∧
    (∀ (t : OmpThread) (out : RespaBuild), BuiltBy fuel env list t out →
      t.ifrom ≤ i → i < t.ito →
      ∃ l : RespaLists, storedLists out i = some l ∧
        (∃ js : List Nat, l.full = js.map (entryOf env i) ∧
          l.inner = (js.filter (fun j => decide (respaRsq env i j < env.cut_inner_sq))).map
            (entryOf env i) ∧
          ∃ ms : List Nat, ms.Sublist js ∧ l.middle = ms.map (entryOf env i)) ∧
        l.inner.Sublist l.full ∧ l.middle.Sublist l.full ∧
        (∀ e, e ∈ l.inner ∨ e ∈ l.middle → e ∈ l.full)) := by
  have hscan : ∀ l, ScanOf fuel env list i l →
      (∃ js : List Nat, l.full = js.map (entryOf env i) ∧
        l.inner = (js.filter (fun j => decide (respaRsq env i j < env.cut_inner_sq))).map
          (entryOf env i) ∧
        ∃ ms : List Nat, ms.Sublist js ∧ l.middle = ms.map (entryOf env i)) ∧
      l.inner.Sublist l.full ∧ l.middle.Sublist l.full ∧
      (∀ e, e ∈ l.inner ∨ e ∈ l.middle → e ∈ l.full) := by
    intro l hl
    obtain ⟨js, _, hjs⟩ := respaShape_of_scans fuel env list i l hl
    have hin : l.inner.Sublist l.full := by
      rw [hjs]
      exact List.Sublist.map _ (List.filter_sublist js)
    have hmi : l.middle.Sublist l.full := by
      rw [hjs]
      exact List.Sublist.map _ (List.filter_sublist js)
    refine ⟨⟨js, by rw [hjs]; rfl, by rw [hjs]; rfl, _, List.filter_sublist js,
      by rw [hjs]; rfl⟩, hin, hmi, ?_⟩
    intro e he
    rcases he with he | he
    · exact hin.subset he
    · exact hmi.subset he
  refine ⟨hscan, ?_⟩
  intro t out hb h1 h2
  obtain ⟨l, hl, hst⟩ := built_stored fuel env list t out hb i h1 h2
  exact ⟨l, hst, hscan l hl⟩

end RespaClaims

/-- Claim C23 (counterexample). A molecular system of two owned particles at distance 1 with
`cutneighsq = 16`, no include-group and no exclusion, in which `find_special` returns -1: the
index 1 passes the mask, the exclusion test and the separation test, and the full list of
the particle 0 is empty, in the scan and in the finished build. -/
theorem nsq_no_newton_special_dropped_example :
    (0 < 1 ∧ 1 < nallOf (pairNeighEnv true (-1) 1) ∧
      maskSkip (pairNeighEnv true (-1) 1) 1 = false ∧
      excludedPair (pairNeighEnv true (-1) 1) 0 1 = false ∧
      respaRsq (pairNeighEnv true (-1) 1) 0 1
        ≤ (pairNeighEnv true (-1) 1).cutneighsq 1 1) ∧
    (nsqNoNewtonAtom (pairNeighEnv true (-1) 1) true 0).full = [] ∧
    ∃ out, respa_nsq_no_newton_omp (pairNeighEnv true (-1) 1) demoList (oneThread 2)
        = some (.ok out) ∧
      (storedLists out 0).map RespaLists.full = some [] := by
  refine ⟨⟨by decide, by decide, by decide, by decide, by decide⟩, by decide, _, rfl, rfl⟩

/-- Witness of claim C23 (amended): in the non-molecular system of two particles at distance
1 the full list of the particle 0 is `[1]`. -/
theorem nsq_no_newton_full_list_witness :
    (nsqNoNewtonAtom (pairNeighEnv false 0 1) true 0).full = [1] :=
  ((nsq_no_newton_full_list (pairNeighEnv false 0 1) demoList 0).1).trans (by decide)

/-- Claim C24 (counterexample). Two particles at distance 3 with `cut_middle_sq = 9`,
`cut_middle_inside_sq = 1` and `cutneighsq = 16`: the pair has `rsq = cut_middle_sq`, it is in
the full list of `respa_nsq_no_newton_omp` and not in the middle list. -/
theorem middle_list_excludes_cut_middle_example :
    respaRsq (pairNeighEnv false 0 3) 0 1 = (pairNeighEnv false 0 3).cut_middle_sq ∧
    (pairNeighEnv false 0 3).cut_middle_inside_sq < respaRsq (pairNeighEnv false 0 3) 0 1 ∧
    ∃ out, respa_nsq_no_newton_omp (pairNeighEnv false 0 3) demoList (oneThread 2)
        = some (.ok out) ∧
      storedLists out 0 = some { full := [1], inner := [], middle := [] } := by
  refine ⟨by decide, by decide, _, rfl, rfl⟩

/-- Witness of claim C24 (amended): two particles at distance 2, inside the shell; the
middle list of the particle 0 is `[1]`. -/
theorem middle_list_open_shell_witness :
    ∃ js : List Nat,
      (nsqNoNewtonAtom (pairNeighEnv false 0 2) true 0).full
        = js.map (entryOf (pairNeighEnv false 0 2) 0) ∧
      (nsqNoNewtonAtom (pairNeighEnv false 0 2) true 0).middle
        = (js.filter (fun j =>
            decide ((pairNeighEnv false 0 2).cut_middle_inside_sq
              < respaRsq (pairNeighEnv false 0 2) 0 j) &&
            decide (respaRsq (pairNeighEnv false 0 2) 0 j
              < (pairNeighEnv false 0 2).cut_middle_sq))).map
          (entryOf (pairNeighEnv false 0 2) 0) := by
  obtain ⟨js, h1, h2, _⟩ :=
    (middle_list_open_shell 0 (pairNeighEnv false 0 2) demoList rfl 0).1 _ (Or.inl rfl)
  exact ⟨js, h1, h2⟩

section TieBreaks

variable {F : Type} [LinearOrderedRing F]

theorem triBelow_false_iff (env : NeighEnv F) (i j : Nat) :
    triBelow env i j = false ↔ triKey env i < triKey env j := by
  unfold triBelow triKey
  rw [Prod.Lex.lt_iff]
  simp only
  rcases lt_trichotomy (env.x j 2) (env.x i 2) with hz | hz | hz
  · simp [hz, not_lt.mpr (le_of_lt hz), hz.ne, hz.ne']
  · rw [Prod.Lex.lt_iff]
    simp only
    rcases lt_trichotomy (env.x j 1) (env.x i 1) with hy | hy | hy
    · simp [hz, hy, not_lt.mpr (le_of_lt hy), hy.ne, hy.ne']
    · rw [Prod.Lex.lt_iff]
      simp only
      rcases lt_trichotomy (env.x j 0) (env.x i 0) with hx | hx | hx
      · simp [hz, hy, hx, not_lt.mpr (le_of_lt hx), hx.ne, hx.ne']
      · simp [hz, hy, hx]
      · simp [hz, hy, hx, not_lt.mpr (le_of_lt hx), hx.ne, hx.ne']
    · simp [hz, hy, not_lt.mpr (le_of_lt hy), hy.ne, hy.ne']
  · simp [hz, not_lt.mpr (le_of_lt hz), hz.ne, hz.ne']

end TieBreaks

section TriKey

variable {F : Type}

theorem triKey_injective (env : NeighEnv F) (i j : Nat) (h : triKey env i = triKey env j) :
    i = j := by
  unfold triKey at h
  have h1 := congrArg (fun p => (ofLex (ofLex (ofLex p).2).2).2) h
  simpa using h1

end TriKey

section TriClaim

variable {F : Type} [LinearOrderedRing F]

/-- Claim C28. In `respa_bin_newton_tri_omp` a candidate `j` passes the tie-break for the
particle `i` if and only if `(z_j, y_j, x_j, j)` is strictly greater than
`(z_i, y_i, x_i, i)` in the lexicographic order; hence `i` never passes for itself, of two
different particles with identical coordinates the one of larger index passes for the other,
and for any two different particles exactly one of the ordered pairs passes. -/
theorem tri_tie_break_lexicographic (env : NeighEnv F) (i j : Nat) :
    (triBelow env i j = false ↔ triKey env i < triKey env j) ∧
    triBelow env i i = true ∧
    (i ≠ j → (∀ c, env.x i c = env.x j c) →
      (triBelow env i j = false ↔ i < j) ∧ (triBelow env j i = false ↔ j < i)) ∧
    (i ≠ j → (triBelow env i j = false ↔ triBelow env j i = true)) := by
  refine ⟨triBelow_false_iff env i j, ?_, ?_, ?_⟩
  · rw [← Bool.not_eq_false, triBelow_false_iff]
    exact lt_irrefl _
  · intro _ hx
    constructor
    · unfold triBelow
      simp [hx]
    · unfold triBelow
      simp [hx]
  · intro hij
    rw [triBelow_false_iff, ← Bool.not_eq_false, triBelow_false_iff]
    constructor
    · intro h
      exact not_lt.mpr (le_of_lt h)
    · intro h
      rcases lt_trichotomy (triKey env i) (triKey env j) with hlt | heq | hgt
      · exact hlt
      · exact absurd (triKey_injective env i j heq) hij
      · exact absurd hgt h

end TriClaim

/-- Witness of claim C28: two particles at the same place; the particle 1 passes for the
particle 0 and the particle 0 does not pass for the particle 1. -/
theorem tri_tie_break_lexicographic_witness :
    triBelow (pairNeighEnv false 0 0) 0 1 = false ∧
    triBelow (pairNeighEnv false 0 0) 1 0 = true :=
  ⟨by decide,
   ((tri_tie_break_lexicographic (pairNeighEnv false 0 0) 0 1).2.2.2 (by decide)).mp
     (by decide)⟩

section NsqCounts

variable {F : Type} [LinearOrderedRing F]

theorem mem_nsqNewtonPartners (env : NeighEnv F) (i j : Nat) :
    j ∈ nsqNewtonPartners env i ↔
      i < j ∧ j < nallOf env ∧ maskSkip env j = false ∧
      ¬ (nlocalOf env ≤ j ∧ tagSkip env i j = true) ∧ listed env i j = true := by
  simp only [nsqNewtonPartners, List.mem_filter, List.mem_range'_1, Bool.and_eq_true,
    Bool.not_eq_true', Bool.and_eq_false_iff, decide_eq_false_iff_not, not_and, not_le]
  constructor
  · rintro ⟨⟨h1, h2⟩, ⟨h3, h4⟩, h5⟩
    refine ⟨by omega, by omega, h3, ?_, h5⟩
    intro hle
    rcases h4 with h4 | h4
    · omega
    · simp [h4]
  · rintro ⟨h1, h2, h3, h4, h5⟩
    refine ⟨⟨by omega, by omega⟩, ⟨h3, ?_⟩, h5⟩
    by_cases hle : nlocalOf env ≤ j
    · right
      have := h4 hle
      simpa using this
    · left
      omega

theorem mem_nsqNoNewtonPartners_listed (env : NeighEnv F) (i j : Nat) :
    j ∈ nsqNoNewtonPartners env i ↔
      i < j ∧ j < nallOf env ∧ maskSkip env j = false ∧ listed env i j = true := by
  simp only [nsqNoNewtonPartners, List.mem_filter, List.mem_range'_1, Bool.and_eq_true,
    Bool.not_eq_true']
  constructor
  · rintro ⟨⟨h1, h2⟩, h3, h4⟩
    exact ⟨by omega, by omega, h3, h4⟩
  · rintro ⟨h1, h2, h3, h4⟩
    exact ⟨⟨by omega, by omega⟩, h3, h4⟩

theorem nsqNewtonPartners_sorted (env : NeighEnv F) (i : Nat) :
    (nsqNewtonPartners env i).Pairwise (fun a b => a < b) :=
  List.Pairwise.filter _ (List.pairwise_lt_range' _ _)

theorem nodup_of_sorted (l : List Nat) (h : l.Pairwise (fun a b => a < b)) : l.Nodup :=
  List.Pairwise.imp (fun hab => Nat.ne_of_lt hab) h

theorem count_of_sorted (l : List Nat) (h : l.Pairwise (fun a b => a < b)) (j : Nat) :
    l.count j = if j ∈ l then 1 else 0 := by
  split_ifs with hj
  · exact List.count_eq_one_of_mem (nodup_of_sorted l h) hj
  · exact List.count_eq_zero_of_not_mem hj

/-- Claim C30. In both brute-force builders the full list of the particle `i` holds the
entries of partners whose indices are strictly increasing and all greater than `i`; hence
the partners hold neither `i` nor a duplicate, and two owned particles `i < j` that pass the
include-group mask, are within `cutneighsq` and are not excluded give one entry in total:
`j` is once among the partners of `i` and `i` is not among the partners of `j`. -/
theorem nsq_full_lists_increasing (env : NeighEnv F) (rm : Bool) (i : Nat) :
    ((nsqNoNewtonAtom env rm i).full = (nsqNoNewtonPartners env i).map (entryOf env i) ∧
      (nsqNoNewtonPartners env i).Pairwise (fun a b => a < b) ∧
      (∀ j ∈ nsqNoNewtonPartners env i, i < j) ∧
      (nsqNoNewtonPartners env i).Nodup ∧ i ∉ nsqNoNewtonPartners env i) ∧
    ((nsqNewtonAtom env rm i).full = (nsqNewtonPartners env i).map (entryOf env i) ∧
      (nsqNewtonPartners env i).Pairwise (fun a b => a < b) ∧
      (∀ j ∈ nsqNewtonPartners env i, i < j) ∧
      (nsqNewtonPartners env i).Nodup ∧ i ∉ nsqNewtonPartners env i) ∧
    (env.molecular = false →
      (nsqNoNewtonAtom env rm i).full.Pairwise (fun a b => a < b) ∧
      (nsqNewtonAtom env rm i).full.Pairwise (fun a b => a < b)) ∧
    (∀ j, i < j → j < nlocalOf env → j < nallOf env → maskSkip env j = false →
      listed env i j = true →
      ((nsqNoNewtonPartners env i).count j = 1 ∧ (nsqNoNewtonPartners env j).count i = 0) ∧
      ((nsqNewtonPartners env i).count j = 1 ∧ (nsqNewtonPartners env j).count i = 0)) := by
  have h1 : ∀ j ∈ nsqNoNewtonPartners env i, i < j :=
    fun j hj => ((mem_nsqNoNewtonPartners_listed env i j).mp hj).1
  have h2 : ∀ j ∈ nsqNewtonPartners env i, i < j :=
    fun j hj => ((mem_nsqNewtonPartners env i j).mp hj).1
  refine ⟨⟨by rw [nsqNoNewtonAtom_eq]; rfl, nsqNoNewtonPartners_sorted env i, h1,
      nodup_of_sorted _ (nsqNoNewtonPartners_sorted env i),
      fun h => Nat.lt_irrefl i (h1 i h)⟩,
    ⟨by rw [nsqNewtonAtom_eq]; rfl, nsqNewtonPartners_sorted env i, h2,
      nodup_of_sorted _ (nsqNewtonPartners_sorted env i),
      fun h => Nat.lt_irrefl i (h2 i h)⟩, ?_, ?_⟩
  · intro hmol
    constructor
    · rw [nsqNoNewtonAtom_eq]
      show ((nsqNoNewtonPartners env i).map (entryOf env i)).Pairwise _
      rw [entryOf_plain env i hmol]
      exact nsqNoNewtonPartners_sorted env i
    · rw [nsqNewtonAtom_eq]
      show ((nsqNewtonPartners env i).map (entryOf env i)).Pairwise _
      rw [entryOf_plain env i hmol]
      exact nsqNewtonPartners_sorted env i
  · intro j hij hown hall hmask hlist
    refine ⟨⟨?_, ?_⟩, ⟨?_, ?_⟩⟩
    · rw [count_of_sorted _ (nsqNoNewtonPartners_sorted env i), if_pos]
      exact (mem_nsqNoNewtonPartners_listed env i j).mpr ⟨hij, hall, hmask, hlist⟩
    · apply List.count_eq_zero_of_not_mem
      intro h
      have := ((mem_nsqNoNewtonPartners_listed env j i).mp h).1
      omega
    · rw [count_of_sorted _ (nsqNewtonPartners_sorted env i), if_pos]
      exact (mem_nsqNewtonPartners env i j).mpr
        ⟨hij, hall, hmask, fun hh => by omega, hlist⟩
    · apply List.count_eq_zero_of_not_mem
      intro h
      have := ((mem_nsqNewtonPartners env j i).mp h).1
      omega

end NsqCounts

/-- Witness of claim C30: in the system of two owned particles at distance 1 the particle 1
is once among the partners of the particle 0, in both builders, and the particle 0 is not
among the partners of the particle 1. -/
theorem nsq_full_lists_increasing_witness :
    ((nsqNoNewtonPartners (pairNeighEnv false 0 1) 0).count 1 = 1 ∧
      (nsqNoNewtonPartners (pairNeighEnv false 0 1) 1).count 0 = 0) ∧
    ((nsqNewtonPartners (pairNeighEnv false 0 1) 0).count 1 = 1 ∧
      (nsqNewtonPartners (pairNeighEnv false 0 1) 1).count 0 = 0) :=
  (nsq_full_lists_increasing (pairNeighEnv false 0 1) true 0).2.2.2 1
    (by decide) (by decide) (by decide) (by decide) (by decide)

section Binned

variable {F : Type}

theorem stencilChain_of_chains (env : NeighEnv F) (fuel : Nat) (ibin : Int)
    (ch : Int → List Nat) :
    ∀ (stencil : List Int),
      (∀ k ∈ stencil, binChain env.bins fuel (env.binhead (ibin + k)) = some (ch k)) →
      stencilChain env fuel ibin stencil = some ((stencil.map ch).flatten) := by
  intro stencil
  induction stencil with
  | nil =>
    intro _
    rfl
  | cons k ks ih =>
    intro h
    simp only [stencilChain, h k (List.mem_cons_self _ _), Option.some_bind,
      Option.bind_eq_bind, ih (fun k' hk' => h k' (List.mem_cons_of_mem _ hk')),
      Option.map_some', List.map_cons, List.flatten_cons]

theorem stencil_cands_nodup (ibin : Int) (ch : Int → List Nat) (binOf : Nat → Int)
    (stencil : List Int) (hst : stencil.Nodup)
    (hnd : ∀ k ∈ stencil, (ch k).Nodup)
    (hmem : ∀ k ∈ stencil, ∀ j, j ∈ ch k → binOf j = ibin + k) :
    ((stencil.map ch).flatten).Nodup := by
  rw [List.nodup_flatten]
  refine ⟨?_, ?_⟩
  · intro l hl
    obtain ⟨k, hk, rfl⟩ := List.mem_map.mp hl
    exact hnd k hk
  · rw [List.pairwise_map]
    have hst' : stencil.Pairwise (fun a b => a ∈ stencil ∧ b ∈ stencil ∧ a ≠ b) := by
      have := List.Pairwise.and_mem.mp hst
      exact List.Pairwise.imp (fun h => ⟨h.1, h.2.1, h.2.2⟩) this
    refine List.Pairwise.imp ?_ hst'
    rintro k k' ⟨hk, hk', hne⟩
    intro j hj hj'
    have e1 := hmem k hk j hj
    have e2 := hmem k' hk' j hj'
    apply hne
    omega

end Binned

section BinnedClaim

variable {F : Type} [LinearOrderedRing F]

theorem listsOf_perm (env : NeighEnv F) (rm : Bool) (i : Nat) (js ks : List Nat)
    (h : js.Perm ks) :
    (listsOf env rm i js).full.Perm (listsOf env rm i ks).full ∧
    (listsOf env rm i js).inner.Perm (listsOf env rm i ks).inner ∧
    (listsOf env rm i js).middle.Perm (listsOf env rm i ks).middle :=
  ⟨h.map _, (h.filter _).map _, (h.filter _).map _⟩

/-- Under the hypotheses on the bins of claim C29, the binned scan of the particle `i` ends
and its three lists are permutations of those of the brute-force scan. -/
theorem bin_no_newton_scan_perm (fuel : Nat) (env : NeighEnv F) (list : NeighList)
    (i : Nat) (ch : Int → List Nat) (binOf : Nat → Int)
    (hgroup : env.includegroup = 0)
    (hchain : ∀ k ∈ list.stencil,
      binChain env.bins fuel (env.binhead (env.coord2bin i + k)) = some (ch k))
    (hnodup : ∀ k ∈ list.stencil, (ch k).Nodup)
    (hmem : ∀ k ∈ list.stencil, ∀ j,
      j ∈ ch k ↔ j < nallOf env ∧ binOf j = env.coord2bin i + k)
    (hstencil : list.stencil.Nodup)
    (hcover : ∀ j, i < j → j < nallOf env →
      respaRsq env i j ≤ env.cutneighsq (env.type i) (env.type j) →
      ∃ k ∈ list.stencil, binOf j = env.coord2bin i + k) :
    ∃ l, binNoNewtonAtom fuel env list i = some l ∧
      l.full.Perm (nsqNoNewtonAtom env list.respamiddle i).full ∧
      l.inner.Perm (nsqNoNewtonAtom env list.respamiddle i).inner ∧
      l.middle.Perm (nsqNoNewtonAtom env list.respamiddle i).middle ∧
      (∀ e, (e ∈ l.full ↔ e ∈ (nsqNoNewtonAtom env list.respamiddle i).full) ∧
        (e ∈ l.inner ↔ e ∈ (nsqNoNewtonAtom env list.respamiddle i).inner) ∧
        (e ∈ l.middle ↔ e ∈ (nsqNoNewtonAtom env list.respamiddle i).middle)) := by
  have hsc := stencilChain_of_chains env fuel (env.coord2bin i) ch list.stencil hchain
  have hcnd := stencil_cands_nodup (env.coord2bin i) ch binOf list.stencil hstencil hnodup
    (fun k hk j hj => ((hmem k hk j).mp hj).2)
  have hmask : ∀ j, maskSkip env j = false := by
    intro j
    simp [maskSkip, hgroup]
  have hperm : (((list.stencil.map ch).flatten).filter
      (fun j => !decide (j ≤ i) && listed env i j)).Perm (nsqNoNewtonPartners env i) := by
    rw [List.perm_ext_iff_of_nodup (hcnd.filter _)
      (nodup_of_sorted _ (nsqNoNewtonPartners_sorted env i))]
    intro j
    rw [mem_nsqNoNewtonPartners_listed]
    simp only [List.mem_filter, List.mem_flatten, List.mem_map, Bool.and_eq_true,
      Bool.not_eq_true', decide_eq_false_iff_not, not_le, hmask]
    constructor
    · rintro ⟨⟨l, ⟨k, hk, rfl⟩, hj⟩, hij, hl⟩
      exact ⟨hij, ((hmem k hk j).mp hj).1, trivial, hl⟩
    · rintro ⟨hij, hall, _, hl⟩
      have hcut : respaRsq env i j ≤ env.cutneighsq (env.type i) (env.type j) := by
        simp only [listed, withinCut, Bool.and_eq_true, decide_eq_true_eq] at hl
        exact hl.1.2
      obtain ⟨k, hk, hb⟩ := hcover j hij hall hcut
      exact ⟨⟨ch k, ⟨k, hk, rfl⟩, (hmem k hk j).mpr ⟨hall, hb⟩⟩, hij, hl⟩
  obtain ⟨p1, p2, p3⟩ := listsOf_perm env list.respamiddle i _ _ hperm
  refine ⟨listsOf env list.respamiddle i (((list.stencil.map ch).flatten).filter
      (fun j => !decide (j ≤ i) && listed env i j)), ?_, ?_, ?_, ?_, ?_⟩
  · rw [binNoNewtonAtom_eq, hsc]
    rfl
  · rw [nsqNoNewtonAtom_eq]
    exact p1
  · rw [nsqNoNewtonAtom_eq]
    exact p2
  · rw [nsqNoNewtonAtom_eq]
    exact p3
  · intro e
    rw [nsqNoNewtonAtom_eq]
    exact ⟨p1.mem_iff, p2.mem_iff, p3.mem_iff⟩

/-- A finished build of `respa_nsq_no_newton_omp` holds the scan of every particle of the
range of the thread. -/
theorem respa_nsq_no_newton_stored (env : NeighEnv F) (list : NeighList) (t : OmpThread)
    (out : RespaBuild) (h : respa_nsq_no_newton_omp env list t = some (.ok out)) (i : Nat)
    (h1 : t.ifrom ≤ i) (h2 : i < t.ito) :
    storedLists out i = some (nsqNoNewtonAtom env list.respamiddle i) := by
  have hnd : (List.range' t.ifrom (t.ito - t.ifrom)).Nodup := List.nodup_range' _ _
  have hi : i ∈ List.range' t.ifrom (t.ito - t.ifrom) := by
    simp only [List.mem_range'_1]
    omega
  obtain ⟨l, hl, hst⟩ := (respaLoop_stored env list.respamiddle t.nthreads _
    (fun hrm k l hk => scan_middle_off 0 env list k l
      (Or.inl (Option.some.inj hk).symm) hrm) _ _ out hnd (fun _ _ => rfl) h).2.2 i hi
  rw [hst, ← Option.some.inj hl]

/-- A finished build of `respa_bin_no_newton_omp` holds the scan of every particle of the
range of the thread. -/
theorem respa_bin_no_newton_stored (fuel : Nat) (env : NeighEnv F) (list : NeighList)
    (t : OmpThread) (out : RespaBuild)
    (h : respa_bin_no_newton_omp fuel env list t = some (.ok out)) (i : Nat)
    (h1 : t.ifrom ≤ i) (h2 : i < t.ito) :
    ∃ l, binNoNewtonAtom fuel env list i = some l ∧ storedLists out i = some l := by
  have hnd : (List.range' t.ifrom (t.ito - t.ifrom)).Nodup := List.nodup_range' _ _
  have hi : i ∈ List.range' t.ifrom (t.ito - t.ifrom) := by
    simp only [List.mem_range'_1]
    omega
  exact (respaLoop_stored env list.respamiddle t.nthreads _
    (fun hrm k l hk => scan_middle_off fuel env list k l
      (Or.inr (Or.inr (Or.inl hk))) hrm) _ _ out hnd (fun _ _ => rfl) h).2.2 i hi

/-- Claim C29. With no include-group, let every bin reached by the stencil from the bin of
the particle `i` have a chain that ends (`binChain` returns `ch k` within the fuel), holds no
particle twice and holds exactly the particles `j < nlocal + nghost` whose bin `binOf j` it
is; let the stencil offsets be distinct, and let every `j > i` with `rsq <= cutneighsq` lie
in a bin reached by the stencil. Then the scan of `respa_bin_no_newton_omp` ends, and its
full, inner and middle lists are permutations of those of `respa_nsq_no_newton_omp`, hence
hold the same entries; the same holds for what finished builds of the two builders store for
the particle `i`. -/
theorem bin_no_newton_matches_nsq (fuel : Nat) (env : NeighEnv F) (list : NeighList)
    (i : Nat) (ch : Int → List Nat) (binOf : Nat → Int)
    (hgroup : env.includegroup = 0)
    (hchain : ∀ k ∈ list.stencil,
      binChain env.bins fuel (env.binhead (env.coord2bin i + k)) = some (ch k))
    (hnodup : ∀ k ∈ list.stencil, (ch k).Nodup)
    (hmem : ∀ k ∈ list.stencil, ∀ j,
      j ∈ ch k ↔ j < nallOf env ∧ binOf j = env.coord2bin i + k)
    (hstencil : list.stencil.Nodup)
    (hcover : ∀ j, i < j → j < nallOf env →
      respaRsq env i j ≤ env.cutneighsq (env.type i) (env.type j) →
      ∃ k ∈ list.stencil, binOf j = env.coord2bin i + k) :
    (∃ l, binNoNewtonAtom fuel env list i = some l ∧
      l.full.Perm (nsqNoNewtonAtom env list.respamiddle i).full ∧
      l.inner.Perm (nsqNoNewtonAtom env list.respamiddle i).inner ∧
      l.middle.Perm (nsqNoNewtonAtom env list.respamiddle i).middle ∧
      (∀ e, (e ∈ l.full ↔ e ∈ (nsqNoNewtonAtom env list.respamiddle i).full) ∧
        (e ∈ l.inner ↔ e ∈ (nsqNoNewtonAtom env list.respamiddle i).inner) ∧
        (e ∈ l.middle ↔ e ∈ (nsqNoNewtonAtom env list.respamiddle i).middle))) ∧
    (∀ (tB tN : OmpThread) (outB outN : RespaBuild),
      respa_bin_no_newton_omp fuel env list tB = some (.ok outB) →
      respa_nsq_no_newton_omp env list tN = some (.ok outN) →
      tB.ifrom ≤ i → i < tB.ito → tN.ifrom ≤ i → i < tN.ito →
      ∃ lB lN, storedLists outB i = some lB ∧ storedLists outN i = some lN ∧
        lB.full.Perm lN.full ∧ lB.inner.Perm lN.inner ∧ lB.middle.Perm lN.middle) := by
  have hscan := bin_no_newton_scan_perm fuel env list i ch binOf hgroup hchain hnodup hmem
    hstencil hcover
  refine ⟨hscan, ?_⟩
  intro tB tN outB outN hB hN h1 h2 h3 h4
  obtain ⟨l, hl, p1, p2, p3, _⟩ := hscan
  obtain ⟨lB, hlB, hstB⟩ := respa_bin_no_newton_stored fuel env list tB outB hB i h1 h2
  rw [hl] at hlB
  cases hlB
  exact ⟨l, _, hstB, respa_nsq_no_newton_stored env list tN outN hN i h3 h4, p1, p2, p3⟩
end BinnedClaim

/-- Witness of claim C29: three particles in two bins; the binned scan of the particle 0
ends, and its lists are permutations of those of the brute-force scan. -/
theorem bin_no_newton_matches_nsq_witness :
    ∃ l, binNoNewtonAtom 3 twoBinEnv twoBinList 0 = some l ∧
      l.full.Perm (nsqNoNewtonAtom twoBinEnv true 0).full ∧
      l.inner.Perm (nsqNoNewtonAtom twoBinEnv true 0).inner ∧
      l.middle.Perm (nsqNoNewtonAtom twoBinEnv true 0).middle := by
  obtain ⟨⟨l, h1, h2, h3, h4, _⟩, _⟩ := bin_no_newton_matches_nsq 3 twoBinEnv twoBinList 0
    (fun k => if k = 0 then [0, 1] else if k = 1 then [2] else [])
    (fun j => if j = 2 then 1 else 0)
    rfl
    (by
      intro k hk
      simp only [twoBinList, List.mem_cons, List.mem_singleton, List.not_mem_nil,
        or_false] at hk
      rcases hk with rfl | rfl <;> rfl)
    (by
      intro k hk
      simp only [twoBinList, List.mem_cons, List.mem_singleton, List.not_mem_nil,
        or_false] at hk
      rcases hk with rfl | rfl <;> decide)
    (by
      intro k hk j
      simp only [twoBinList, List.mem_cons, List.mem_singleton, List.not_mem_nil,
        or_false] at hk
      have hn : nallOf twoBinEnv = 3 := rfl
      have hb : twoBinEnv.coord2bin 0 = 0 := rfl
      rw [hn, hb]
      rcases hk with rfl | rfl
      · simp only [if_true, List.mem_cons, List.mem_singleton, List.not_mem_nil, or_false]
        constructor
        · rintro (rfl | rfl) <;> decide
        · rintro ⟨h1, h2⟩
          split_ifs at h2 with h
          · omega
          · omega
      · simp only [if_true, List.mem_singleton, one_ne_zero, if_false]
        constructor
        · rintro rfl
          decide
        · rintro ⟨h1, h2⟩
          split_ifs at h2 with h
          · exact h
          · omega)
    (by decide)
    (by
      intro j h1 h2 _
      have hn : nallOf twoBinEnv = 3 := rfl
      rw [hn] at h2
      have hb : twoBinEnv.coord2bin 0 = 0 := rfl
      rw [hb]
      by_cases hj : j = 2
      · exact ⟨1, by decide, by simp [hj]⟩
      · exact ⟨0, by decide, by simp [hj]⟩)
  exact ⟨l, h1, h2, h3, h4⟩

/-! ### Claims on settings, the list pages, the force law, the pair symmetry, the
divisors and the half stencil -/

/-- Claim C40 (evaluation at the failing input). On a pair style with the cutoff 10,
`coeff 1 1 file A A 0 0` allocates the arrays and sets `setflag[1][1] = 1`,
`cut[1][1] = 10`; `settings` with the new cutoff 12 then stores `cut_global = 12` and leaves
the flag set, but `cut[1][1]` is still 10: the inner loop of line 536 starts at `i+1` and
never visits a diagonal pair. -/
theorem settings_skips_diagonal_example :
    ∃ st1 st2,
      coeff demoCoeffEnv (demoCoeffArgs "A".toList "A".toList) demoStyle = .ok st1 ∧
      st1.arrays.allocated = true ∧ st1.arrays.setflag 1 1 = 1 ∧ st1.arrays.cut 1 1 = 10 ∧
      settings demoCoeffEnv.ntypes 1 12 st1 = .ok st2 ∧
      st2.cut_global = 12 ∧ st2.arrays.setflag 1 1 = 1 ∧
      st2.arrays.cut 1 1 = 10 ∧ st2.arrays.cut 1 1 ≠ st2.cut_global := by
  refine ⟨_, _, rfl, rfl, by decide, by decide, rfl, by decide, by decide, by decide,
    by decide⟩

section Paging

variable {F : Type}

theorem claimRoom_room (env : NeighEnv F) (nthreads : Nat) (c : PageCursor)
    (hone : env.oneatom ≤ env.pgsize) :
    (claimRoom env nthreads c).npnt + env.oneatom ≤ env.pgsize := by
  unfold claimRoom
  split_ifs with h
  · simpa using hone
  · omega

theorem claimRoom_page (env : NeighEnv F) (t : OmpThread) (c : PageCursor)
    (h : PageOf t c.npage) : PageOf t (claimRoom env t.nthreads c).npage := by
  unfold claimRoom
  split_ifs with h1
  · obtain ⟨k, hk⟩ := h
    exact ⟨k + 1, by simp only [hk]; ring⟩
  · exact h

theorem respaLoop_induct (env : NeighEnv F) (rm : Bool) (nthreads : Nat)
    (scan : Nat → Option RespaLists) (P : RespaBuild → Prop)
    (hstep : ∀ b i l b1, P b → respaAtom env rm nthreads b i l = .ok b1 → P b1) :
    ∀ (is : List Nat) (b out : RespaBuild),
      respaLoop env rm nthreads scan is b = some (.ok out) → P b → P out := by
  intro is
  induction is with
  | nil =>
    intro b out h hb
    simp only [respaLoop, Option.some.injEq, Except.ok.injEq] at h
    subst h
    exact hb
  | cons i is ih =>
    intro b out h hb
    simp only [respaLoop] at h
    cases hs : scan i with
    | none => rw [hs] at h; cases h
    | some l =>
      rw [hs] at h
      simp only at h
      cases ha : respaAtom env rm nthreads b i l with
      | error e => rw [ha] at h; cases h
      | ok b1 =>
        rw [ha] at h
        exact ih b1 out h (hstep b i l b1 hb ha)

theorem respaAtom_fields (env : NeighEnv F) (rm : Bool) (nthreads : Nat) (b b1 : RespaBuild)
    (i : Nat) (l : RespaLists) (h : respaAtom env rm nthreads b i l = .ok b1) :
    b1.cur.npage = (claimRoom env nthreads b.cur).npage ∧
    b1.cur_inner.npage = (claimRoom env nthreads b.cur_inner).npage ∧
    b1.cur_middle.npage
      = (if rm then claimRoom env nthreads b.cur_middle else b.cur_middle).npage ∧
    l.full.length ≤ env.oneatom ∧
    (claimRoom env nthreads b.cur_inner).npnt + l.inner.length < env.pgsize ∧
    (rm = true → (claimRoom env nthreads b.cur_middle).npnt + l.middle.length < env.pgsize) ∧
    b1.full i = some { page := (claimRoom env nthreads b.cur).npage,
                       offset := (claimRoom env nthreads b.cur).npnt, neigh := l.full } ∧
    b1.inner i = some { page := (claimRoom env nthreads b.cur_inner).npage,
                        offset := (claimRoom env nthreads b.cur_inner).npnt,
                        neigh := l.inner } ∧
    (rm = true →
      b1.middle i = some { page := (claimRoom env nthreads b.cur_middle).npage,
                           offset := (claimRoom env nthreads b.cur_middle).npnt,
                           neigh := l.middle }) ∧
    (rm = false → b1.middle = b.middle) ∧
    (∀ k, k ≠ i → b1.full k = b.full k ∧ b1.inner k = b.inner k ∧ b1.middle k = b.middle k)
    := by
  unfold respaAtom at h
  simp only at h
  split_ifs at h with h1 h2 h3 h4
  · cases h
    subst h3
    simp only [not_lt, ge_iff_le, not_le, gt_iff_lt] at h1 h2 h4
    refine ⟨rfl, rfl, rfl, h1, h2, fun _ => h4, by simp, by simp, (fun _ => by simp),
      (fun hh => by cases hh), ?_⟩
    intro k hk
    simp [hk]
  · cases h
    have h3' : rm = false := by simpa using h3
    subst h3'
    simp only [not_lt, ge_iff_le, not_le, gt_iff_lt] at h1 h2
    refine ⟨rfl, rfl, rfl, h1, h2, (fun hh => by cases hh), by simp, by simp,
      (fun hh => by cases hh), fun _ => rfl, ?_⟩
    intro k hk
    simp [hk]

end Paging

section Paging2

variable {F : Type}

theorem respaLoop_has (env : NeighEnv F) (rm : Bool) (nthreads : Nat)
    (scan : Nat → Option RespaLists) :
    ∀ (is : List Nat) (b out : RespaBuild),
      respaLoop env rm nthreads scan is b = some (.ok out) →
      (∀ k, k ∉ is → out.full k = b.full k ∧ out.inner k = b.inner k ∧
        out.middle k = b.middle k) ∧
      ∀ i ∈ is, (∃ a, out.full i = some a) ∧ (∃ a, out.inner i = some a) ∧
        (rm = true → ∃ a, out.middle i = some a) := by
  intro is
  induction is with
  | nil =>
    intro b out h
    simp only [respaLoop, Option.some.injEq, Except.ok.injEq] at h
    subst h
    exact ⟨fun k _ => ⟨rfl, rfl, rfl⟩, fun i hi => absurd hi (List.not_mem_nil i)⟩
  | cons i is ih =>
    intro b out h
    simp only [respaLoop] at h
    cases hs : scan i with
    | none => rw [hs] at h; cases h
    | some l =>
      rw [hs] at h
      simp only at h
      cases ha : respaAtom env rm nthreads b i l with
      | error e => rw [ha] at h; cases h
      | ok b1 =>
        rw [ha] at h
        obtain ⟨ih1, ih2⟩ := ih b1 out h
        have hf := respaAtom_fields env rm nthreads b b1 i l ha
        obtain ⟨_, _, _, _, _, _, hfull, hinner, hmiddle, _, hrest⟩ := hf
        refine ⟨?_, ?_⟩
        · intro k hk
          have hki : k ≠ i := fun hh => hk (hh ▸ List.mem_cons_self _ _)
          have hkis : k ∉ is := fun hh => hk (List.mem_cons_of_mem _ hh)
          obtain ⟨a1, a2, a3⟩ := ih1 k hkis
          obtain ⟨c1, c2, c3⟩ := hrest k hki
          exact ⟨a1.trans c1, a2.trans c2, a3.trans c3⟩
        · intro j hj
          by_cases hjis : j ∈ is
          · exact ih2 j hjis
          · have hji : j = i := by
              rcases List.mem_cons.mp hj with hh | hh
              · exact hh
              · exact absurd hh hjis
            subst hji
            obtain ⟨a1, a2, a3⟩ := ih1 j hjis
            refine ⟨⟨_, a1.trans hfull⟩, ⟨_, a2.trans hinner⟩, fun hrm => ⟨_, a3.trans (hmiddle hrm)⟩⟩

theorem respaAtom_within (env : NeighEnv F) (rm : Bool) (nthreads : Nat)
    (hone : env.oneatom ≤ env.pgsize) (b i l b1)
    (hb : ∀ k a, StoredAt b k a → WithinPage env.pgsize a)
    (h : respaAtom env rm nthreads b i l = .ok b1) :
    ∀ k a, StoredAt b1 k a → WithinPage env.pgsize a := by
  obtain ⟨_, _, _, hn, hin, hmid, hfull, hinner, hmiddle, hoff, hrest⟩ :=
    respaAtom_fields env rm nthreads b b1 i l h
  have hroom := claimRoom_room env nthreads b.cur hone
  intro k a hka
  by_cases hk : k = i
  · subst hk
    rcases hka with hka | hka | hka
    · rw [hfull] at hka
      cases hka
      show _ + _ ≤ _
      simp only
      omega
    · rw [hinner] at hka
      cases hka
      show _ + _ ≤ _
      simp only
      omega
    · cases hrm : rm with
      | true =>
        rw [hmiddle hrm] at hka
        cases hka
        show _ + _ ≤ _
        simp only
        have := hmid hrm
        omega
      | false =>
        rw [hoff hrm] at hka
        exact hb k a (Or.inr (Or.inr hka))
  · obtain ⟨c1, c2, c3⟩ := hrest k hk
    apply hb k a
    rcases hka with hka | hka | hka
    · exact Or.inl (c1 ▸ hka)
    · exact Or.inr (Or.inl (c2 ▸ hka))
    · exact Or.inr (Or.inr (c3 ▸ hka))

theorem respaAtom_overflow (env : NeighEnv F) (rm : Bool) (nthreads : Nat)
    (hone : env.oneatom ≤ env.pgsize) (b : RespaBuild) (i : Nat) (l : RespaLists)
    (hov : env.pgsize < (claimRoom env nthreads b.cur).npnt + l.full.length ∨
      env.pgsize < (claimRoom env nthreads b.cur_inner).npnt + l.inner.length ∨
      (rm = true ∧
        env.pgsize < (claimRoom env nthreads b.cur_middle).npnt + l.middle.length)) :
    respaAtom env rm nthreads b i l
        = .error "Neighbor list overflow, boost neigh_modify one" ∨
      respaAtom env rm nthreads b i l
        = .error "Neighbor list overflow, boost neigh_modify one or page" := by
  cases hr : respaAtom env rm nthreads b i l with
  | error e =>
    unfold respaAtom at hr
    simp only at hr
    split_ifs at hr with h1 h2 h3 h4
    · cases hr; exact Or.inl rfl
    · cases hr; exact Or.inr rfl
    · cases hr; exact Or.inr rfl
  | ok b1 =>
    exfalso
    obtain ⟨_, _, _, hn, hin, hmid, _⟩ := respaAtom_fields env rm nthreads b b1 i l hr
    have hroom := claimRoom_room env nthreads b.cur hone
    rcases hov with h | h | ⟨hrm, h⟩
    · omega
    · omega
    · have := hmid hrm
      omega

theorem respaAtom_pages (env : NeighEnv F) (rm : Bool) (t : OmpThread) (b i l b1)
    (hb : PageOf t b.cur.npage ∧ PageOf t b.cur_inner.npage ∧ PageOf t b.cur_middle.npage ∧
      ∀ k a, StoredAt b k a → PageOf t a.page)
    (h : respaAtom env rm t.nthreads b i l = .ok b1) :
    PageOf t b1.cur.npage ∧ PageOf t b1.cur_inner.npage ∧ PageOf t b1.cur_middle.npage ∧
      ∀ k a, StoredAt b1 k a → PageOf t a.page := by
  obtain ⟨e1, e2, e3, _, _, _, hfull, hinner, hmiddle, hoff, hrest⟩ :=
    respaAtom_fields env rm t.nthreads b b1 i l h
  obtain ⟨p1, p2, p3, p4⟩ := hb
  have q1 := claimRoom_page env t b.cur p1
  have q2 := claimRoom_page env t b.cur_inner p2
  have q3 := claimRoom_page env t b.cur_middle p3
  refine ⟨e1 ▸ q1, e2 ▸ q2, ?_, ?_⟩
  · rw [e3]
    cases rm
    · exact p3
    · exact q3
  · intro k a hka
    by_cases hk : k = i
    · subst hk
      rcases hka with hka | hka | hka
      · rw [hfull] at hka
        cases hka
        exact q1
      · rw [hinner] at hka
        cases hka
        exact q2
      · cases hrm : rm with
        | true =>
          rw [hmiddle hrm] at hka
          cases hka
          exact q3
        | false =>
          rw [hoff hrm] at hka
          exact p4 k a (Or.inr (Or.inr hka))
    · obtain ⟨c1, c2, c3⟩ := hrest k hk
      apply p4 k a
      rcases hka with hka | hka | hka
      · exact Or.inl (c1 ▸ hka)
      · exact Or.inr (Or.inl (c2 ▸ hka))
      · exact Or.inr (Or.inr (c3 ▸ hka))

end Paging2

section Paging3

variable {F : Type} [LinearOrderedRing F]

theorem built_loop (fuel : Nat) (env : NeighEnv F) (list : NeighList) (t : OmpThread)
    (out : RespaBuild) (h : BuiltBy fuel env list t out) :
    ∃ scan, respaLoop env list.respamiddle t.nthreads scan
      (List.range' t.ifrom (t.ito - t.ifrom)) (respaStart t) = some (.ok out) := by
  rcases h with h | h | h | h | h
  · exact ⟨_, h⟩
  · exact ⟨_, h⟩
  · exact ⟨_, h⟩
  · exact ⟨_, h⟩
  · exact ⟨_, h⟩

theorem built_pages (fuel : Nat) (env : NeighEnv F) (list : NeighList) (t : OmpThread)
    (out : RespaBuild) (h : BuiltBy fuel env list t out) :
    PageOf t out.cur.npage ∧ PageOf t out.cur_inner.npage ∧ PageOf t out.cur_middle.npage ∧
      ∀ k a, StoredAt out k a → PageOf t a.page := by
  obtain ⟨scan, hl⟩ := built_loop fuel env list t out h
  refine respaLoop_induct env list.respamiddle t.nthreads scan
    (fun b => PageOf t b.cur.npage ∧ PageOf t b.cur_inner.npage ∧
      PageOf t b.cur_middle.npage ∧ ∀ k a, StoredAt b k a → PageOf t a.page)
    (fun b i l b1 hb hs => respaAtom_pages env list.respamiddle t b i l b1 hb hs)
    _ _ out hl ?_
  refine ⟨⟨0, by simp [respaStart]⟩, ⟨0, by simp [respaStart]⟩, ⟨0, by simp [respaStart]⟩, ?_⟩
  intro k a hka
  rcases hka with hka | hka | hka <;> cases hka

end Paging3

/-- Claim C32. In each of the five respa builders, with `oneatom <= pgsize`: a build that
ends without an overflow error holds, for every particle `i` of the thread, a full and an
inner sequence (and a middle sequence when the middle list is built), each with
`offset + count <= pgsize`; and if, for a particle, one of the three sequences scanned
would end past the end of its page, the loop body for that particle ends in one of the two
fatal errors `Neighbor list overflow`. -/
theorem lists_within_one_page {F : Type} [LinearOrderedRing F] (fuel : Nat)
    (env : NeighEnv F) (list : NeighList) (t : OmpThread)
    (hone : env.oneatom ≤ env.pgsize) :
    (∀ out, BuiltBy fuel env list t out → ∀ i, t.ifrom ≤ i → i < t.ito →
      (∃ a, out.full i = some a ∧ WithinPage env.pgsize a) ∧
      (∃ a, out.inner i = some a ∧ WithinPage env.pgsize a) ∧
      (list.respamiddle = true → ∃ a, out.middle i = some a ∧ WithinPage env.pgsize a)) ∧
    (∀ (b : RespaBuild) (i : Nat) (l : RespaLists),
      (env.pgsize < (claimRoom env t.nthreads b.cur).npnt + l.full.length ∨
        env.pgsize < (claimRoom env t.nthreads b.cur_inner).npnt + l.inner.length ∨
        (list.respamiddle = true ∧
          env.pgsize < (claimRoom env t.nthreads b.cur_middle).npnt + l.middle.length)) →
      respaAtom env list.respamiddle t.nthreads b i l
          = .error "Neighbor list overflow, boost neigh_modify one" ∨
        respaAtom env list.respamiddle t.nthreads b i l
          = .error "Neighbor list overflow, boost neigh_modify one or page") := by
  refine ⟨?_, fun b i l hov => respaAtom_overflow env list.respamiddle t.nthreads hone b i l hov⟩
  intro out h i h1 h2
  obtain ⟨scan, hl⟩ := built_loop fuel env list t out h
  have hi : i ∈ List.range' t.ifrom (t.ito - t.ifrom) := by
    simp only [List.mem_range'_1]
    omega
  have hw : ∀ k a, StoredAt out k a → WithinPage env.pgsize a := by
    refine respaLoop_induct env list.respamiddle t.nthreads scan
      (fun b => ∀ k a, StoredAt b k a → WithinPage env.pgsize a)
      (fun b i l b1 hb hs => respaAtom_within env list.respamiddle t.nthreads hone b i l b1
        hb hs) _ _ out hl ?_
    intro k a hka
    rcases hka with hka | hka | hka <;> cases hka
  obtain ⟨⟨a1, ha1⟩, ⟨a2, ha2⟩, h3⟩ :=
    (respaLoop_has env list.respamiddle t.nthreads scan _ _ out hl).2 i hi
  refine ⟨⟨a1, ha1, hw i a1 (Or.inl ha1)⟩, ⟨a2, ha2, hw i a2 (Or.inr (Or.inl ha2))⟩, ?_⟩
  intro hrm
  obtain ⟨a3, ha3⟩ := h3 hrm
  exact ⟨a3, ha3, hw i a3 (Or.inr (Or.inr ha3))⟩

/-- Witness of claim C32: the brute-force no-Newton build of the system of two owned
particles at distance 1 (`oneatom = 10`, `pgsize = 100`) by one thread ends without an error,
and the full sequence of the particle 0 starts at the offset 0 and holds one entry. -/
theorem lists_within_one_page_witness :
    (pairNeighEnv false 0 1).oneatom ≤ (pairNeighEnv false 0 1).pgsize ∧
    ∃ out, BuiltBy 0 (pairNeighEnv false 0 1) demoList (oneThread 2) out ∧
      (∃ a, out.full 0 = some a ∧ WithinPage (pairNeighEnv false 0 1).pgsize a) ∧
      out.full 0 = some { page := 0, offset := 0, neigh := [1] } :=
  ⟨by decide, _, Or.inl rfl,
    ((lists_within_one_page 0 (pairNeighEnv false 0 1) demoList (oneThread 2)
      (by decide)).1 _ (Or.inl rfl) 0 (by decide) (by decide)).1, rfl⟩

/-- Claim C33. In each of the five respa builders, for a build of the thread `t` that ends
without an overflow error: the page index of each of the three cursors, and the page of every
sequence stored in the full, inner or middle list, is `tid + k * nthreads` for some `k`,
hence congruent to `tid` modulo `nthreads`; and a build of another thread of the same team
(`tid < nthreads` for both, different `tid`) stores no sequence in a page in which this one
stores a sequence. The thread record is arbitrary, so the same holds after every number of
iterations of the loop. -/
theorem thread_pages_congruent {F : Type} [LinearOrderedRing F] (fuel : Nat)
    (env : NeighEnv F) (list : NeighList) (t : OmpThread) (out : RespaBuild)
    (h : BuiltBy fuel env list t out) :
    (PageOf t out.cur.npage ∧ PageOf t out.cur_inner.npage ∧ PageOf t out.cur_middle.npage) ∧
    (∀ i a, StoredAt out i a → PageOf t a.page ∧ a.page % t.nthreads = t.tid % t.nthreads) ∧
    (∀ (t2 : OmpThread) (out2 : RespaBuild), BuiltBy fuel env list t2 out2 →
      t2.nthreads = t.nthreads → t.tid < t.nthreads → t2.tid < t.nthreads →
      t2.tid ≠ t.tid →
      ∀ i j a a2, StoredAt out i a → StoredAt out2 j a2 → a.page ≠ a2.page) := by
  obtain ⟨p1, p2, p3, p4⟩ := built_pages fuel env list t out h
  have hmod : ∀ (s : OmpThread) (p : Nat), PageOf s p → p % s.nthreads = s.tid % s.nthreads := by
    rintro s p ⟨k, rfl⟩
    exact Nat.add_mul_mod_self_right _ _ _
  refine ⟨⟨p1, p2, p3⟩, fun i a ha => ⟨p4 i a ha, hmod t _ (p4 i a ha)⟩, ?_⟩
  intro t2 out2 h2 hn ht ht2 hne i j a a2 ha ha2 heq
  have q := (built_pages fuel env list t2 out2 h2).2.2.2 j a2 ha2
  have m1 := hmod t _ (p4 i a ha)
  have m2 := hmod t2 _ q
  rw [hn, ← heq, m1, Nat.mod_eq_of_lt ht, Nat.mod_eq_of_lt ht2] at m2
  exact hne m2.symm

/-- Witness of claim C33: in the system of two owned particles at distance 1 built by a team
of two threads, the thread 0 stores the full sequence of the particle 0 in the page 0, and
the thread 1 that of the particle 1 in the page 1. -/
theorem thread_pages_congruent_witness :
    ∃ out, BuiltBy 0 (pairNeighEnv false 0 1) demoList (teamThread 0) out ∧
      out.full 0 = some { page := 0, offset := 0, neigh := [1] } ∧
      (∀ i a, StoredAt out i a → a.page % 2 = 0) ∧
      ∃ out2, BuiltBy 0 (pairNeighEnv false 0 1) demoList (teamThread 1) out2 ∧
        out2.full 1 = some { page := 1, offset := 0, neigh := [] } ∧
        ∀ i j a a2, StoredAt out i a → StoredAt out2 j a2 → a.page ≠ a2.page :=
  ⟨_, Or.inl rfl, rfl,
    fun i a ha => ((thread_pages_congruent 0 (pairNeighEnv false 0 1) demoList (teamThread 0) _
      (Or.inl rfl)).2.1 i a ha).2,
    _, Or.inl rfl, rfl,
    (thread_pages_congruent 0 (pairNeighEnv false 0 1) demoList (teamThread 0) _
      (Or.inl rfl)).2.2 (teamThread 1) _ (Or.inl rfl) rfl (by decide) (by decide)
      (by decide)⟩

section OrderReal

/-- The previous-snapshot mixed energy of two pure A particles on one-fluid sites. -/
theorem pairEvdwlOld_pureA_fluid (m : MathLib ℝ) (hm : IsRealLib m) (fR fE : ℝ) :
    pairEvdwlOld m (oneSpeciesConfig 1 2 12 fR fE) (pairGeom m 9 100) 1 pureA pureA
      = (exp6Directed m (pairGeom m 9 100) 1 12 1 2).evdwl := by
  have h1 : m.sqrt (1 * 1) = 1 := sqrt_sq_real m hm 1 (by norm_num)
  simp only [pairEvdwlOld, pureA, mixPair_likeA m hm, mixSites, oneSpeciesConfig, if_true]
  simp only [likeA, h1]
  ring

/-- Claim C36 (evaluation at the failing input). Over the reals, one species A on both
one-fluid sites with `fuchslinR = -4`; four atoms on a line, spacing 3, cutoff 10, all
special factors 1. Atoms 2 and 3 held `1e-4` molecules in the previous snapshot, so for the
pair (2,3) the previous-snapshot mixed `rm` is 0 while the current one is 2. Two calls of
`compute` on the same data process the same two pairs (0,1) and (2,3) in the two orders,
the locals `fpairOldEXP6_12` and `fpairOldEXP6_21` holding the same value `u` on entry.
When (0,1) comes first, the pair (2,3) is tallied with a negative energy and a negative force
magnitude and the atom 2 receives a positive force; when (2,3) comes first, it is tallied
with the energy 0 and the force magnitude `u` and the atom 2 receives the force `-3*u`. -/
theorem pair_result_depends_on_order_example :
    let m : MathLib ℝ := ⟨Real.sqrt, Real.exp,
      fun x => if x < 0 then -(-x) ^ (3:ℝ)⁻¹ else x ^ (3:ℝ)⁻¹, fun x y => x ^ y⟩
    let dv : ℝ → ℝ → ℝ := fun a b => a / b
    let cfg : Exp6Config ℝ := oneSpeciesConfig 1 2 12 (-4) 0
    let firstneigh : Nat → List Nat := fun i => if i = 0 then [1] else if i = 2 then [3] else []
    ∀ u : ℝ, ∃ pd stA stB a1 a2 b1 b2,
      paramTable m dv cfg dvDilute 4 (fun _ => zeroParams) = .ok pd ∧
      (mixPair m (pd 2) (pd 3)).rmOld12_ij = 0 ∧ (mixPair m (pd 2) (pd 3)).rm12_ij = 2 ∧
      compute m dv cfg (lineEnv 4) dvDilute (fun _ => zeroParams) [0, 2] firstneigh
        (startState u) = .ok stA ∧
      compute m dv cfg (lineEnv 4) dvDilute (fun _ => zeroParams) [2, 0] firstneigh
        (startState u) = .ok stB ∧
      stA.tally = [a1, a2] ∧ stB.tally = [b1, b2] ∧
      a2.i = 2 ∧ a2.j = 3 ∧ b1.i = 2 ∧ b1.j = 3 ∧
      a2.evdwl < 0 ∧ b1.evdwl = 0 ∧ a2.fpair < 0 ∧ b1.fpair = u ∧
      0 < stA.f 2 0 ∧ stB.f 2 0 = -3 * u := by
  intro m dv cfg firstneigh u
  have hm : IsRealLib m := ⟨rfl, rfl, fun _ => rfl, fun _ _ => rfl⟩
  have hp01 := lineEnv_pair (F := ℝ) 4 0 (by norm_num)
  have hp23 := lineEnv_pair (F := ℝ) 4 2 (by norm_num)
  have hcut01 : pairRsq (lineEnv 4 : PairEnv ℝ) 0 1 < pairCutsq (lineEnv 4 : PairEnv ℝ) 0 1 := by
    rw [hp01.2.2.2.2.2.1, hp01.2.2.2.2.2.2]; norm_num
  have hcut23 : pairRsq (lineEnv 4 : PairEnv ℝ) 2 3 < pairCutsq (lineEnv 4 : PairEnv ℝ) 2 3 := by
    rw [hp23.2.2.2.2.2.1, hp23.2.2.2.2.2.2]; norm_num
  have hgeom01 : pairGeomOf m (lineEnv 4 : PairEnv ℝ) 0 1 = pairGeom m 9 100 := by
    unfold pairGeomOf
    rw [hp01.2.2.2.2.2.1, hp01.2.2.2.2.2.2]
  have htot : ∀ id, (1e-8:ℝ) ≤ specTotal cfg dvDilute id ∧
      (1e-8:ℝ) ≤ specTotalOld cfg dvDilute id := by
    intro id
    by_cases hid : id < 2 <;>
      simp [cfg, specTotal, specTotalOld, oneSpeciesConfig, dvDilute, List.range_succ, hid] <;>
      norm_num
  have hpd := paramTable_ok m dv cfg dvDilute (fun _ => zeroParams)
    (fun id => if id < 2 then pureA else diluteA) 4 (fun i _ => by
      rw [getParamsEXP6_resolved m dv _ _ i _ (htot i).1 (htot i).2, resolved_dilute m hm i])
  have hgA := gates_likeA m hm 1 1 1 1
  have hgD := gates_diluteA m hm
  have hev : (lineEnv 4 : PairEnv ℝ).evflag = true := rfl
  have hF := exp6Directed_AA m hm 1
  -- the table of resolved parameters
  let pd : Nat → ParamData ℝ :=
    fun k => if k < 4 then (if k < 2 then pureA else diluteA) else zeroParams
  have hpd0 : pd 0 = pureA := rfl
  have hpd1 : pd 1 = pureA := rfl
  have hpd2 : pd 2 = diluteA := rfl
  have hpd3 : pd 3 = diluteA := rfl
  have hE01 : pairEvdwlOld m cfg (pairGeomOf m (lineEnv 4) 0 1)
      (pairFactor (lineEnv 4 : PairEnv ℝ) 1) pureA pureA
      = (exp6Directed m (pairGeom m 9 100) 1 12 1 2).evdwl := by
    rw [hgeom01, hp01.2.1, pairEvdwlOld_pureA_fluid m hm (-4) 0]
  have hP01 : pairFpairOld m cfg (pairGeomOf m (lineEnv 4) 0 1)
      (pairFactor (lineEnv 4 : PairEnv ℝ) 1) pureA pureA
      = (exp6Directed m (pairGeom m 9 100) 1 12 1 2).forceExp6 * (1 / 9) := by
    rw [hgeom01, hp01.2.1, pairFpairOld_pureA_fluid m hm (-4) 0]
  -- run A: (0,1) then (2,3)
  obtain ⟨s1, hs1, hf1, he1, ht1⟩ := computePair_both m cfg (lineEnv 4) pd 0 1
    { startState u with evdwlOld := 0 }
    hcut01 (by simpa [hp01.1, hpd0, hpd1, pureA] using hgA.1)
    (by simpa [hp01.1, hpd0, hpd1, pureA] using hgA.2.1)
    (by simpa [hp01.1, hpd0, hpd1, pureA] using hgA.2.2.1)
    (by simpa [hp01.1, hpd0, hpd1, pureA] using hgA.2.2.2)
  obtain ⟨s1', hs1', _, hheld⟩ := computePair_both_held m cfg (lineEnv 4) pd 0 1
    { startState u with evdwlOld := 0 }
    hcut01 (by simpa [hp01.1, hpd0, hpd1, pureA] using hgA.1)
    (by simpa [hp01.1, hpd0, hpd1, pureA] using hgA.2.1)
    (by simpa [hp01.1, hpd0, hpd1, pureA] using hgA.2.2.1)
    (by simpa [hp01.1, hpd0, hpd1, pureA] using hgA.2.2.2)
  have hss : s1' = s1 := by
    rw [hs1] at hs1'
    exact (Except.ok.inj hs1').symm
  subst hss
  obtain ⟨s2, hs2, ht2⟩ := computePair_new_only m cfg (lineEnv 4) pd 2 3 s1'
    hcut23 (by simpa [hp23.1, hpd2, hpd3] using hgD.1)
    (by simpa [hp23.1, hpd2, hpd3] using hgD.2.1)
    (by simpa [hp23.1, hpd2, hpd3] using hgD.2.2)
  obtain ⟨s2', hs2', hf2⟩ := computePair_new_only_force m cfg (lineEnv 4) pd 2 3 s1'
    hcut23 (by simpa [hp23.1, hpd2, hpd3] using hgD.1)
    (by simpa [hp23.1, hpd2, hpd3] using hgD.2.1)
    (by simpa [hp23.1, hpd2, hpd3] using hgD.2.2)
  have hss2 : s2' = s2 := by
    rw [hs2] at hs2'
    exact (Except.ok.inj hs2').symm
  subst hss2
  -- run B: (2,3) then (0,1)
  obtain ⟨r1, hr1, hu1⟩ := computePair_new_only m cfg (lineEnv 4) pd 2 3
    { startState u with evdwlOld := 0 }
    hcut23 (by simpa [hp23.1, hpd2, hpd3] using hgD.1)
    (by simpa [hp23.1, hpd2, hpd3] using hgD.2.1)
    (by simpa [hp23.1, hpd2, hpd3] using hgD.2.2)
  obtain ⟨r1', hr1', hg1⟩ := computePair_new_only_force m cfg (lineEnv 4) pd 2 3
    { startState u with evdwlOld := 0 }
    hcut23 (by simpa [hp23.1, hpd2, hpd3] using hgD.1)
    (by simpa [hp23.1, hpd2, hpd3] using hgD.2.1)
    (by simpa [hp23.1, hpd2, hpd3] using hgD.2.2)
  have hrr : r1' = r1 := by
    rw [hr1] at hr1'
    exact (Except.ok.inj hr1').symm
  subst hrr
  obtain ⟨r2, hr2, hg2, _, hu2⟩ := computePair_both m cfg (lineEnv 4) pd 0 1 r1'
    hcut01 (by simpa [hp01.1, hpd0, hpd1, pureA] using hgA.1)
    (by simpa [hp01.1, hpd0, hpd1, pureA] using hgA.2.1)
    (by simpa [hp01.1, hpd0, hpd1, pureA] using hgA.2.2.1)
    (by simpa [hp01.1, hpd0, hpd1, pureA] using hgA.2.2.2)
  rw [hev, if_pos rfl] at ht1 ht2 hu1 hu2
  rw [ht1] at ht2
  rw [hu1] at hu2
  simp only [startState, List.nil_append, List.cons_append] at ht2 hu2
  -- the values held after the pair (0,1) in run A
  have hheld' : mixSites m cfg.isite1 cfg.isite2 (pd 2).fractionOld1
      (pd ((lineEnv 4 : PairEnv ℝ).neighmask 3)).fractionOld2 (pd 2).fractionOld2
      (pd ((lineEnv 4 : PairEnv ℝ).neighmask 3)).fractionOld1
      s1'.fpairOldEXP6_12 s1'.fpairOldEXP6_21
      = (exp6Directed m (pairGeom m 9 100) 1 12 1 2).forceExp6 * (1 / 9) := by
    have h := hheld
    rw [hp01.1, hpd0, hpd1, hP01] at h
    rw [hp23.1, hpd2, hpd3]
    exact h
  have hzero : mixSites m cfg.isite1 cfg.isite2 (pd 2).fractionOld1
      (pd ((lineEnv 4 : PairEnv ℝ).neighmask 3)).fractionOld2 (pd 2).fractionOld2
      (pd ((lineEnv 4 : PairEnv ℝ).neighmask 3)).fractionOld1
      ({ startState u with evdwlOld := 0 } : ComputeState ℝ).fpairOldEXP6_12
      ({ startState u with evdwlOld := 0 } : ComputeState ℝ).fpairOldEXP6_21 = u := by
    rw [hp23.1, hpd2, hpd3]
    simp only [mixSites, startState, oneSpeciesConfig, cfg, if_true, diluteA, likeA]
    rw [show Real.sqrt (1 * 1) = 1 from Real.sqrt_mul_self (by norm_num), one_mul]
  -- forces on the atom 2
  have hs1f2 : s1'.f 2 0 = 0 := by
    rw [hf1, hp01.1]
    exact (applyForce_apply (lineEnv 4)
      ({ startState u with evdwlOld := 0 } : ComputeState ℝ).f 0 1
      (pairDel (lineEnv 4 : PairEnv ℝ) 0 1) _ (by norm_num)).2.2.2.1 2 0 (by norm_num)
      (by norm_num)
  have hv2 : s2'.f 2 0
      = -3 * ((exp6Directed m (pairGeom m 9 100) 1 12 1 2).forceExp6 * (1 / 9)) := by
    rw [hf2, hheld', hp23.1,
      (applyForce_apply (lineEnv 4) s1'.f 2 3 (pairDel (lineEnv 4 : PairEnv ℝ) 2 3) _
        (by norm_num)).1 0 (by norm_num), hs1f2, hp23.2.2.1]
    ring
  have hw2 : r2.f 2 0 = -3 * u := by
    rw [hg2, hp01.1,
      (applyForce_apply (lineEnv 4) r1'.f 0 1 (pairDel (lineEnv 4 : PairEnv ℝ) 0 1) _
        (by norm_num)).2.2.2.1 2 0 (by norm_num) (by norm_num),
      hg1, hzero, hp23.1,
      (applyForce_apply (lineEnv 4)
        ({ startState u with evdwlOld := 0 } : ComputeState ℝ).f 2 3
        (pairDel (lineEnv 4 : PairEnv ℝ) 2 3) u (by norm_num)).1 0 (by norm_num), hp23.2.2.1]
    simp [startState]
  refine ⟨_, s2', r2, _, _, _, _, hpd, ?_, ?_, ?_, ?_, ht2, hu2, rfl, hp23.1, rfl, hp23.1,
    ?_, rfl, ?_, hzero, ?_, hw2⟩
  · show (mixPair m (pd 2) (pd 3)).rmOld12_ij = 0
    rw [hpd2, hpd3, mixPair_diluteA m hm]
  · show (mixPair m (pd 2) (pd 3)).rm12_ij = 2
    rw [hpd2, hpd3, mixPair_diluteA m hm]
  · rw [compute_of_table m dv _ _ _ _ _ _ _ _ hpd,
      computeLoop_two m _ _ _ 0 1 2 3 firstneigh rfl rfl]
    show (computePair m cfg (lineEnv 4) pd 0 _ 1).bind _ = _
    rw [hs1]
    exact hs2
  · rw [compute_of_table m dv _ _ _ _ _ _ _ _ hpd,
      computeLoop_two m _ _ _ 2 3 0 1 firstneigh rfl rfl]
    show (computePair m cfg (lineEnv 4) pd 2 _ 3).bind _ = _
    rw [hr1]
    exact hr2
  · show s1'.evdwlOld < 0
    rw [he1, hp01.1, hpd0, hpd1, hE01]
    exact hF.2.1
  · show mixSites m cfg.isite1 cfg.isite2 (pd 2).fractionOld1
      (pd ((lineEnv 4 : PairEnv ℝ).neighmask 3)).fractionOld2 (pd 2).fractionOld2
      (pd ((lineEnv 4 : PairEnv ℝ).neighmask 3)).fractionOld1
      s1'.fpairOldEXP6_12 s1'.fpairOldEXP6_21 < 0
    rw [hheld']
    have := hF.1
    linarith
  · rw [hv2]
    have := hF.1
    linarith

end OrderReal

section CoreSlope

theorem win1_alphaRinOne_pos (m : MathLib ℝ) (hm : IsRealLib m) (rsq : ℝ) :
    (exp6Terms m (pairGeom m rsq 40000) ((alphaRinOne : ℚ) : ℝ) 1 1).rin1 = 1.05 ∧
    0 < (coreTerms m (pairGeom m rsq 40000) ((alphaRinOne : ℚ) : ℝ)
      (exp6Terms m (pairGeom m rsq 40000) ((alphaRinOne : ℚ) : ℝ) 1 1)).win1 ∧
    (coreTerms m (pairGeom m rsq 40000) ((alphaRinOne : ℚ) : ℝ)
      (exp6Terms m (pairGeom m rsq 40000) ((alphaRinOne : ℚ) : ℝ) 1 1)).aRep < 0 := by
  have h200 : m.sqrt 40000 = 200 := by
    rw [show (40000:ℝ) = 200 * 200 by norm_num]; exact sqrt_sq_real m hm 200 (by norm_num)
  have hA1 : (6.93:ℝ) < ((alphaRinOne : ℚ) : ℝ) := by simp only [alphaRinOne]; norm_num
  have hA2 : ((alphaRinOne : ℚ) : ℝ) < (6.94:ℝ) := by simp only [alphaRinOne]; norm_num
  generalize hα : ((alphaRinOne : ℚ) : ℝ) = alpha at hA1 hA2
  have hfr : func_rin m alpha = 1 := by rw [← hα]; exact func_rin_alphaRinOne m hm
  have hrin : (exp6Terms m (pairGeom m rsq 40000) alpha 1 1).rin1 = 1.05 := by
    show shift * 1 * func_rin m alpha = 1.05
    rw [hfr]; simp only [shift]; norm_num
  have hcutexp : expValue m (alpha * (1 - m.sqrt 40000 * (1 / 1))) = 0 := by
    apply expValue_underflow
    rw [h200]; linarith
  have hrexp : expValue m (alpha * (1 - shift * 1 * func_rin m alpha * (1 / 1)))
      = Real.exp (-(alpha / 20)) := by
    rw [hfr, expValue_eq_exp m hm _ (by simp only [shift]; linarith)]
    congr 1; simp only [shift]; ring
  have hE := exp_neg_le_of_ge (alpha / 20) (by linarith)
  have hEpos := Real.exp_pos (-(alpha / 20))
  have hwin : 0 < (coreTerms m (pairGeom m rsq 40000) alpha
      (exp6Terms m (pairGeom m rsq 40000) alpha 1 1)).win1 := by
    show 0 < -(1 / (alpha - 6)) * (6 * alpha) *
        (shift * 1 * func_rin m alpha
            * expValue m (alpha * (1 - shift * 1 * func_rin m alpha * (1 / 1))) * (1 / 1)
          - 1 * 1 * (1 * 1) * (1 * 1) *
            (1 / (shift * 1 * func_rin m alpha * (shift * 1 * func_rin m alpha)
              * (shift * 1 * func_rin m alpha) * (shift * 1 * func_rin m alpha)
              * (shift * 1 * func_rin m alpha) * (shift * 1 * func_rin m alpha))))
      - shift * 1 * func_rin m alpha * (-(1 / (alpha - 6)) * (6 * alpha) *
          (expValue m (alpha * (1 - m.sqrt 40000 * (1 / 1))) * (1 / 1)
            - 1 / m.sqrt 40000 * (1 * 1 * (1 * 1) * (1 * 1))
              * (1 / 40000 * (1 / 40000) * (1 / 40000))))
    rw [hcutexp, hrexp, hfr, h200]
    simp only [shift]
    have hK : 0 < 1 / (alpha - 6) * (6 * alpha) := by
      apply mul_pos
      · apply one_div_pos.mpr; linarith
      · linarith
    have hb : 1.05 * 1 * 1 * Real.exp (-(alpha / 20)) * (1 / 1)
        - 1 * 1 * (1 * 1) * (1 * 1) *
          (1 / (1.05 * 1 * 1 * (1.05 * 1 * 1) * (1.05 * 1 * 1) * (1.05 * 1 * 1)
            * (1.05 * 1 * 1) * (1.05 * 1 * 1)))
        + 1.05 * 1 * 1 * (0 * (1 / 1) - 1 / 200 * (1 * 1 * (1 * 1) * (1 * 1))
            * (1 / 40000 * (1 / 40000) * (1 / 40000))) * (-1) < 0 := by
      norm_num
      linarith
    have := mul_neg_of_pos_of_neg hK hb
    linarith
  refine ⟨hrin, hwin, ?_⟩
  show -1 * (coreTerms m (pairGeom m rsq 40000) alpha
      (exp6Terms m (pairGeom m rsq 40000) alpha 1 1)).win1
      * powint (exp6Terms m (pairGeom m rsq 40000) alpha 1 1).rin1 nRep / (nRep : ℝ) < 0
  rw [hrin]
  have hp : (0:ℝ) < powint (1.05:ℝ) nRep := by
    simp only [powint]; positivity
  have hn : (0:ℝ) < (nRep : ℝ) := by simp [nRep]
  apply div_neg_of_neg_of_pos _ hn
  have := mul_pos hwin hp
  linarith

end CoreSlope

/-- Claim C35 (the relation the code has). Over the reals, for every evaluation of the core
branch at `r ≠ 0`: the core energy of line 322 is `U(r) = uin1 - uin1rep + aRep/r^12`, its
derivative at `r` is `-12*aRep/r^13`, so `-r * dU/dr = 12*aRep/r^12`; the force term of
line 319 is `-(12*aRep/r^12)`, the negative of that, and differs from it whenever
`aRep ≠ 0`. -/
theorem core_force_negates_energy_slope (g : PairGeom ℝ) (c : CoreTerms ℝ) (hr : g.r ≠ 0) :
    coreEvdwl g c = c.uin1 - c.uin1rep + c.aRep / g.r ^ 12 ∧
    HasDerivAt (fun r : ℝ => c.uin1 - c.uin1rep + c.aRep / r ^ 12)
      (-(12 * c.aRep / g.r ^ 13)) g.r ∧
    -g.r * (-(12 * c.aRep / g.r ^ 13)) = 12 * c.aRep / g.r ^ 12 ∧
    coreForceExp6 g c = -(12 * c.aRep / g.r ^ 12) ∧
    (c.aRep ≠ 0 → coreForceExp6 g c ≠ 12 * c.aRep / g.r ^ 12) := by
  have h12 : g.r ^ 12 ≠ 0 := pow_ne_zero _ hr
  have hforce : coreForceExp6 g c = -(12 * c.aRep / g.r ^ 12) := by
    simp only [coreForceExp6, powint, nRep]
    push_cast
    ring
  refine ⟨rfl, ?_, ?_, hforce, ?_⟩
  · have h1 : HasDerivAt (fun r : ℝ => r ^ 12) (12 * g.r ^ 11) g.r := by
      simpa using hasDerivAt_pow 12 g.r
    have h2 := ((hasDerivAt_const g.r c.aRep).div h1 h12).const_add (c.uin1 - c.uin1rep)
    convert h2 using 1
    field_simp
    ring
  · field_simp
    ring
  · intro ha h
    rw [hforce] at h
    have hq : 12 * c.aRep / g.r ^ 12 ≠ 0 :=
      div_ne_zero (mul_ne_zero (by norm_num) ha) h12
    apply hq
    linarith

/-- Witness of claim C35 (the failing input): epsilon 1, rm 1, cutoff 200 and an alpha for
which `rin1 = 1.05`, at `r = 1`, inside the core. There `aRep < 0`: the core energy rises
with `r`, `-r * dU/dr` is negative, and the force term of line 319 is positive. -/
theorem core_force_negates_energy_slope_witness :
    let m : MathLib ℝ := ⟨Real.sqrt, Real.exp,
      fun x => if x < 0 then -(-x) ^ (3:ℝ)⁻¹ else x ^ (3:ℝ)⁻¹, fun x y => x ^ y⟩
    let alpha : ℝ := ((alphaRinOne : ℚ) : ℝ)
    let g := pairGeom m 1 40000
    let t := exp6Terms m g alpha 1 1
    let c := coreTerms m g alpha t
    g.r = 1 ∧ t.rin1 = 1.05 ∧ g.r < t.rin1 ∧
    (exp6Directed m g 1 alpha 1 1).forceExp6 = coreForceExp6 g c ∧
    c.aRep < 0 ∧
    HasDerivAt (fun r : ℝ => c.uin1 - c.uin1rep + c.aRep / r ^ 12)
      (-(12 * c.aRep / g.r ^ 13)) g.r ∧
    -g.r * (-(12 * c.aRep / g.r ^ 13)) < 0 ∧
    0 < coreForceExp6 g c := by
  intro m alpha g t c
  have hm : IsRealLib m := ⟨rfl, rfl, fun _ => rfl, fun _ _ => rfl⟩
  have h1 : g.r = 1 := by
    show m.sqrt 1 = 1
    have h := sqrt_sq_real m hm 1 (by norm_num)
    rwa [mul_one] at h
  obtain ⟨hrin, _, haRep⟩ := win1_alphaRinOne_pos m hm 1
  have hlt : g.r < t.rin1 := by
    rw [h1]
    show (1:ℝ) < (exp6Terms m (pairGeom m 1 40000) ((alphaRinOne : ℚ) : ℝ) 1 1).rin1
    rw [hrin]; norm_num
  have h := core_force_negates_energy_slope g c (by rw [h1]; norm_num)
  have ha : c.aRep < 0 := haRep
  refine ⟨h1, hrin, hlt, ?_, ha, h.2.1, ?_, ?_⟩
  · show (exp6Directed m g 1 alpha 1 1).forceExp6 = _
    simp only [exp6Directed]
    rw [if_pos hlt]
  · rw [h.2.2.1, h1]
    norm_num
    linarith
  · rw [h.2.2.2.1, h1]
    norm_num
    linarith

section OuterSlope

theorem hasDerivAt_expValue (m : MathLib ℝ) (hm : IsRealLib m) (x : ℝ) (hx : x ≠ -1021) :
    HasDerivAt (expValue m) (expValue m x) x := by
  rcases lt_or_gt_of_ne hx with h | h
  · rw [expValue_underflow m x h]
    refine (hasDerivAt_const x (0:ℝ)).congr_of_eventuallyEq ?_
    exact Filter.eventually_of_mem (Iio_mem_nhds h) (fun y hy => expValue_underflow m y hy)
  · rw [expValue_eq_exp m hm x h.le]
    refine (Real.hasDerivAt_exp x).congr_of_eventuallyEq ?_
    exact Filter.eventually_of_mem (Ioi_mem_nhds h)
      (fun y hy => expValue_eq_exp m hm y (le_of_lt hy))

theorem exp6_slope (E : ℝ → ℝ) (K alpha rm r : ℝ) (hr : r ≠ 0) (hrm : rm ≠ 0)
    (hE : HasDerivAt E (E (alpha * (1 - r / rm))) (alpha * (1 - r / rm))) :
    HasDerivAt (fun s : ℝ => K * (6 * E (alpha * (1 - s / rm)) - alpha * rm ^ 6 / s ^ 6))
      (-(K * (6 * alpha) * (E (alpha * (1 - r / rm)) / rm - rm ^ 6 / r ^ 7))) r := by
  have hin : HasDerivAt (fun s : ℝ => alpha * (1 - s / rm)) (alpha * -(1 / rm)) r :=
    (((hasDerivAt_id' r).div_const rm).const_sub 1).const_mul alpha
  have hcomp : HasDerivAt (fun s : ℝ => E (alpha * (1 - s / rm)))
      (E (alpha * (1 - r / rm)) * (alpha * -(1 / rm))) r :=
    HasDerivAt.comp r hE hin
  have h6 : r ^ 6 ≠ 0 := pow_ne_zero _ hr
  have hpow : HasDerivAt (fun s : ℝ => s ^ 6) (6 * r ^ 5) r := by
    simpa using hasDerivAt_pow 6 r
  have hdiv := (hasDerivAt_const r (alpha * rm ^ 6)).div hpow h6
  have h := ((hcomp.const_mul 6).sub hdiv).const_mul K
  convert h using 1
  field_simp
  ring

end OuterSlope

/-- Claim C34. Over the reals, for `rsq > 0`, `cutsq > 0` and `rm ≠ 0`, with
`r = sqrt(rsq)` and `rCut = sqrt(cutsq)`: in the outer branch (`r >= rin1`) the directed
evaluation returns the force term of line 324 and the energy of line 327; that energy is
`U(r)` for `U(s) = buck1*(6*E(alpha*(1-s/rm)) - alpha*rm^6/s^6) - urc - durc*(s-rCut)`;
`durc` is the derivative at `rCut` of the unshifted energy
`buck1*(6*E(alpha*(1-s/rm)) - alpha*rm^6/s^6)`; and the force term is `-r * dU/dr`. Here `E`
is the exponential `exp` wherever the underflow guard of `expValue` is not taken at `r` and at
`rCut` (argument at least `DBL_MIN_EXP`), and in general the exponential `expValue` that the
code calls, away from the jump of its guard at `DBL_MIN_EXP`. -/
theorem outer_force_is_energy_slope (m : MathLib ℝ) (hm : IsRealLib m)
    (alpha epsilon rm rsq cutsq factor_lj : ℝ) (hrsq : 0 < rsq) (hcut : 0 < cutsq)
    (hrm : rm ≠ 0) :
    (¬ (pairGeom m rsq cutsq).r < (exp6Terms m (pairGeom m rsq cutsq) alpha epsilon rm).rin1 →
      (exp6Directed m (pairGeom m rsq cutsq) factor_lj alpha epsilon rm).forceExp6
        = outerForceExp6 (pairGeom m rsq cutsq)
            (exp6Terms m (pairGeom m rsq cutsq) alpha epsilon rm) ∧
      (exp6Directed m (pairGeom m rsq cutsq) factor_lj alpha epsilon rm).evdwl
        = outerEvdwl (pairGeom m rsq cutsq) alpha
            (exp6Terms m (pairGeom m rsq cutsq) alpha epsilon rm)) ∧
    ∀ E : ℝ → ℝ,
      (E = Real.exp ∧ -1021 ≤ alpha * (1 - (pairGeom m rsq cutsq).r / rm) ∧
          -1021 ≤ alpha * (1 - (pairGeom m rsq cutsq).rCut / rm)) ∨
        (E = expValue m ∧ alpha * (1 - (pairGeom m rsq cutsq).r / rm) ≠ -1021 ∧
          alpha * (1 - (pairGeom m rsq cutsq).rCut / rm) ≠ -1021) →
      outerEvdwl (pairGeom m rsq cutsq) alpha
          (exp6Terms m (pairGeom m rsq cutsq) alpha epsilon rm)
        = (exp6Terms m (pairGeom m rsq cutsq) alpha epsilon rm).buck1
            * (6 * E (alpha * (1 - (pairGeom m rsq cutsq).r / rm))
              - alpha * rm ^ 6 / (pairGeom m rsq cutsq).r ^ 6)
          - (exp6Terms m (pairGeom m rsq cutsq) alpha epsilon rm).urc
          - (exp6Terms m (pairGeom m rsq cutsq) alpha epsilon rm).durc
            * ((pairGeom m rsq cutsq).r - (pairGeom m rsq cutsq).rCut) ∧
      HasDerivAt
        (fun s : ℝ => (exp6Terms m (pairGeom m rsq cutsq) alpha epsilon rm).buck1
          * (6 * E (alpha * (1 - s / rm)) - alpha * rm ^ 6 / s ^ 6))
        (exp6Terms m (pairGeom m rsq cutsq) alpha epsilon rm).durc
        (pairGeom m rsq cutsq).rCut ∧
      ∃ D : ℝ,
        HasDerivAt
          (fun s : ℝ => (exp6Terms m (pairGeom m rsq cutsq) alpha epsilon rm).buck1
              * (6 * E (alpha * (1 - s / rm)) - alpha * rm ^ 6 / s ^ 6)
            - (exp6Terms m (pairGeom m rsq cutsq) alpha epsilon rm).urc
            - (exp6Terms m (pairGeom m rsq cutsq) alpha epsilon rm).durc
              * (s - (pairGeom m rsq cutsq).rCut))
          D (pairGeom m rsq cutsq).r ∧
        outerForceExp6 (pairGeom m rsq cutsq)
            (exp6Terms m (pairGeom m rsq cutsq) alpha epsilon rm)
          = -(pairGeom m rsq cutsq).r * D := by
  have hr_pos : 0 < Real.sqrt rsq := Real.sqrt_pos.mpr hrsq
  have hc_pos : 0 < Real.sqrt cutsq := Real.sqrt_pos.mpr hcut
  have hr_sq : Real.sqrt rsq ^ 2 = rsq := Real.sq_sqrt hrsq.le
  have hc_sq : Real.sqrt cutsq ^ 2 = cutsq := Real.sq_sqrt hcut.le
  have hgr : (pairGeom m rsq cutsq).r = Real.sqrt rsq := by
    show m.sqrt rsq = _
    rw [hm.sqrt_eq]
  have hgc : (pairGeom m rsq cutsq).rCut = Real.sqrt cutsq := by
    show m.sqrt cutsq = _
    rw [hm.sqrt_eq]
  refine ⟨?_, ?_⟩
  · intro hrin
    simp only [exp6Directed]
    rw [if_neg hrin]
    exact ⟨rfl, rfl⟩
  · intro E hE
    rw [hgr, hgc] at hE ⊢
    -- the code's exponentials are the values of `E`
    have hEr : expValue m (alpha * (1 - Real.sqrt rsq * (1 / rm)))
        = E (alpha * (1 - Real.sqrt rsq / rm)) := by
      rw [mul_one_div]
      rcases hE with ⟨h, h1, _⟩ | ⟨h, _, _⟩
      · rw [h, expValue_eq_exp m hm _ h1]
      · rw [h]
    have hEc : expValue m (alpha * (1 - Real.sqrt cutsq * (1 / rm)))
        = E (alpha * (1 - Real.sqrt cutsq / rm)) := by
      rw [mul_one_div]
      rcases hE with ⟨h, _, h2⟩ | ⟨h, _, _⟩
      · rw [h, expValue_eq_exp m hm _ h2]
      · rw [h]
    have hdr : HasDerivAt E (E (alpha * (1 - Real.sqrt rsq / rm)))
        (alpha * (1 - Real.sqrt rsq / rm)) := by
      rcases hE with ⟨h, _, _⟩ | ⟨h, h1, _⟩
      · rw [h]; exact Real.hasDerivAt_exp _
      · rw [h]; exact hasDerivAt_expValue m hm _ h1
    have hdc : HasDerivAt E (E (alpha * (1 - Real.sqrt cutsq / rm)))
        (alpha * (1 - Real.sqrt cutsq / rm)) := by
      rcases hE with ⟨h, _, _⟩ | ⟨h, _, h2⟩
      · rw [h]; exact Real.hasDerivAt_exp _
      · rw [h]; exact hasDerivAt_expValue m hm _ h2
    have hr6 : 1 / rsq * (1 / rsq) * (1 / rsq) = 1 / Real.sqrt rsq ^ 6 := by
      rw [show Real.sqrt rsq ^ 6 = (Real.sqrt rsq ^ 2) ^ 3 by ring, hr_sq]
      field_simp
      ring
    have hc6 : 1 / cutsq * (1 / cutsq) * (1 / cutsq) = 1 / Real.sqrt cutsq ^ 6 := by
      rw [show Real.sqrt cutsq ^ 6 = (Real.sqrt cutsq ^ 2) ^ 3 by ring, hc_sq]
      field_simp
      ring
    have hdurc : (exp6Terms m (pairGeom m rsq cutsq) alpha epsilon rm).durc
        = -(epsilon / (alpha - 6) * (6 * alpha)
            * (E (alpha * (1 - Real.sqrt cutsq / rm)) / rm
              - rm ^ 6 / Real.sqrt cutsq ^ 7)) := by
      show -(epsilon / (alpha - 6)) * (6 * alpha)
          * (expValue m (alpha * (1 - m.sqrt cutsq * (1 / rm))) * (1 / rm)
            - 1 / m.sqrt cutsq * (rm * rm * (rm * rm) * (rm * rm))
              * (1 / cutsq * (1 / cutsq) * (1 / cutsq))) = _
      rw [hm.sqrt_eq, hEc, hc6]
      field_simp
      ring
    have hbuck : (exp6Terms m (pairGeom m rsq cutsq) alpha epsilon rm).buck1
        = epsilon / (alpha - 6) := rfl
    have hU0r := exp6_slope E (epsilon / (alpha - 6)) alpha rm (Real.sqrt rsq)
      hr_pos.ne' hrm hdr
    have hU0c := exp6_slope E (epsilon / (alpha - 6)) alpha rm (Real.sqrt cutsq)
      hc_pos.ne' hrm hdc
    refine ⟨?_, ?_, ?_⟩
    · show epsilon / (alpha - 6) * (6 * expValue m (alpha * (1 - m.sqrt rsq * (1 / rm)))
          - alpha * (rm * rm * (rm * rm) * (rm * rm)) * (1 / rsq * (1 / rsq) * (1 / rsq)))
          - (exp6Terms m (pairGeom m rsq cutsq) alpha epsilon rm).urc
          - (exp6Terms m (pairGeom m rsq cutsq) alpha epsilon rm).durc
            * (m.sqrt rsq - m.sqrt cutsq) = _
      rw [hm.sqrt_eq, hEr, hr6, hbuck]
      ring
    · rw [hbuck, hdurc]
      exact hU0c
    · refine ⟨_, ((hU0r.sub_const
        (exp6Terms m (pairGeom m rsq cutsq) alpha epsilon rm).urc).sub
        (((hasDerivAt_id (Real.sqrt rsq)).sub_const (Real.sqrt cutsq)).const_mul
          (exp6Terms m (pairGeom m rsq cutsq) alpha epsilon rm).durc)), ?_⟩
      show epsilon / (alpha - 6) * (6 * alpha)
          * (m.sqrt rsq * expValue m (alpha * (1 - m.sqrt rsq * (1 / rm))) * (1 / rm)
            - rm * rm * (rm * rm) * (rm * rm) * (1 / rsq * (1 / rsq) * (1 / rsq)))
          + m.sqrt rsq * (exp6Terms m (pairGeom m rsq cutsq) alpha epsilon rm).durc = _
      rw [hm.sqrt_eq, hEr, hr6]
      have h7 : Real.sqrt rsq ^ 7 = Real.sqrt rsq ^ 6 * Real.sqrt rsq := by ring
      rw [h7]
      generalize (exp6Terms m (pairGeom m rsq cutsq) alpha epsilon rm).durc = d
      generalize E (alpha * (1 - Real.sqrt rsq / rm)) = e
      generalize epsilon / (alpha - 6) = K
      have hR := hr_pos.ne'
      field_simp
      ring

/-- Witness of claim C34 over the reals: alpha 12, epsilon 1, rm 2, `r = 3`, cutoff 10. The
pair is in the outer branch, the guard of `expValue` is taken neither at `r` nor at `rCut`,
and the force term returned is `-r * dU/dr` for the shifted energy `U` written with
`exp`. -/
theorem outer_force_is_energy_slope_witness :
    let m : MathLib ℝ := ⟨Real.sqrt, Real.exp,
      fun x => if x < 0 then -(-x) ^ (3:ℝ)⁻¹ else x ^ (3:ℝ)⁻¹, fun x y => x ^ y⟩
    ((0:ℝ) < 9 ∧ (0:ℝ) < 100 ∧ (2:ℝ) ≠ 0) ∧
    (pairGeom m 9 100).r = 3 ∧ (pairGeom m 9 100).rCut = 10 ∧
    ¬ (pairGeom m 9 100).r < (exp6Terms m (pairGeom m 9 100) 12 1 2).rin1 ∧
    ∃ D : ℝ,
      HasDerivAt
        (fun s : ℝ => (exp6Terms m (pairGeom m 9 100) 12 1 2).buck1
            * (6 * Real.exp (12 * (1 - s / 2)) - 12 * 2 ^ 6 / s ^ 6)
          - (exp6Terms m (pairGeom m 9 100) 12 1 2).urc
          - (exp6Terms m (pairGeom m 9 100) 12 1 2).durc * (s - (pairGeom m 9 100).rCut))
        D (pairGeom m 9 100).r ∧
      (exp6Directed m (pairGeom m 9 100) 1 12 1 2).forceExp6 = -(pairGeom m 9 100).r * D := by
  intro m
  have hm : IsRealLib m := ⟨rfl, rfl, fun _ => rfl, fun _ _ => rfl⟩
  have h3 : (pairGeom m 9 100).r = 3 := by
    show m.sqrt 9 = 3
    rw [show (9:ℝ) = 3 * 3 by norm_num]; exact sqrt_sq_real m hm 3 (by norm_num)
  have h10 : (pairGeom m 9 100).rCut = 10 := by
    show m.sqrt 100 = 10
    rw [show (100:ℝ) = 10 * 10 by norm_num]; exact sqrt_sq_real m hm 10 (by norm_num)
  have hrin : ¬ (pairGeom m 9 100).r < (exp6Terms m (pairGeom m 9 100) 12 1 2).rin1 := by
    rw [h3]
    show ¬ (3:ℝ) < shift * 2 * func_rin m 12
    have := func_rin_le_one m hm 12 (by norm_num)
    simp only [shift]
    linarith
  have h := outer_force_is_energy_slope m hm 12 1 2 9 100 1 (by norm_num) (by norm_num)
    (by norm_num)
  obtain ⟨_, _, D, hD, hF⟩ := h.2 Real.exp
    (Or.inl ⟨rfl, by rw [h3]; norm_num, by rw [h10]; norm_num⟩)
  refine ⟨⟨by norm_num, by norm_num, by norm_num⟩, h3, h10, hrin, D, hD, ?_⟩
  rw [(h.1 hrin).1]
  exact hF

section Swap

variable {F : Type} [LinearOrderedField F]

theorem mixPair_swap (m : MathLib F) (pa pb : ParamData F) :
    mixPair m pb pa =
      { alphaOld12_ij := (mixPair m pa pb).alphaOld21_ij
        rmOld12_ij := (mixPair m pa pb).rmOld21_ij
        epsilonOld12_ij := (mixPair m pa pb).epsilonOld21_ij
        alphaOld21_ij := (mixPair m pa pb).alphaOld12_ij
        rmOld21_ij := (mixPair m pa pb).rmOld12_ij
        epsilonOld21_ij := (mixPair m pa pb).epsilonOld12_ij
        alpha12_ij := (mixPair m pa pb).alpha21_ij
        rm12_ij := (mixPair m pa pb).rm21_ij
        epsilon12_ij := (mixPair m pa pb).epsilon21_ij
        alpha21_ij := (mixPair m pa pb).alpha12_ij
        rm21_ij := (mixPair m pa pb).rm12_ij
        epsilon21_ij := (mixPair m pa pb).epsilon12_ij } := by
  simp only [mixPair]
  simp only [mul_comm pb.alphaOld1, mul_comm pb.epsilonOld1, mul_comm pb.alphaOld2,
    mul_comm pb.epsilonOld2, mul_comm pb.alpha1, mul_comm pb.epsilon1, mul_comm pb.alpha2,
    mul_comm pb.epsilon2, add_comm pb.rmOld1, add_comm pb.rmOld2, add_comm pb.rm1,
    add_comm pb.rm2]

theorem mixSites_swap (m : MathLib F) (isite1 isite2 : Int) (f1a f2a f1b f2b v12 v21 : F)
    (h : isite1 = isite2 → f1a = f2a ∧ f1b = f2b ∧ v12 = v21) :
    mixSites m isite1 isite2 f1b f2a f2b f1a v21 v12
      = mixSites m isite1 isite2 f1a f2b f2a f1b v12 v21 := by
  unfold mixSites
  by_cases hs : isite1 = isite2
  · obtain ⟨h1, h2, h3⟩ := h hs
    rw [if_pos hs, if_pos hs, h3, ← h1, ← h2, mul_comm f1b f1a]
  · rw [if_neg hs, if_neg hs, mul_comm f1b f2a, mul_comm f2b f1a, add_comm]

theorem gates_swap (m : MathLib F) (pa pb : ParamData F) :
    (oldGate m pb pa ↔ oldGate m pa pb) ∧ (oldAlphaSix m pb pa ↔ oldAlphaSix m pa pb) ∧
    (newGate m pb pa ↔ newGate m pa pb) ∧ (newAlphaSix m pb pa ↔ newAlphaSix m pa pb) := by
  simp only [oldGate, oldAlphaSix, newGate, newAlphaSix, mixPair_swap m pa pb]
  exact ⟨and_comm, or_comm, and_comm, or_comm⟩

theorem pair_terms_swap (m : MathLib F) (cfg : Exp6Config F) (g : PairGeom F)
    (factor_lj : F) (pa pb : ParamData F)
    (h : cfg.isite1 = cfg.isite2 → SitesAgree pa ∧ SitesAgree pb) :
    pairEvdwlOld m cfg g factor_lj pb pa = pairEvdwlOld m cfg g factor_lj pa pb ∧
    pairEvdwlNew m cfg g factor_lj pb pa = pairEvdwlNew m cfg g factor_lj pa pb ∧
    pairFpairOld m cfg g factor_lj pb pa = pairFpairOld m cfg g factor_lj pa pb := by
  have hmix : cfg.isite1 = cfg.isite2 → MixesAgree (mixPair m pa pb) :=
    fun hs => mixesAgree_of_sitesAgree m pa pb (h hs).1 (h hs).2
  simp only [pairEvdwlOld, pairEvdwlNew, pairFpairOld, mixPair_swap m pa pb]
  refine ⟨?_, ?_, ?_⟩
  · rw [mixSites_swap m cfg.isite1 cfg.isite2 pa.fractionOld1 pa.fractionOld2 pb.fractionOld1
      pb.fractionOld2]
    intro hs
    obtain ⟨_, _, _, a4, a5, a6⟩ := hmix hs
    refine ⟨(h hs).1.2.2.2.2.2.2.2, (h hs).2.2.2.2.2.2.2.2, ?_⟩
    rw [a4, a5, a6]
  · rw [mixSites_swap m cfg.isite1 cfg.isite2 pa.fraction1 pa.fraction2 pb.fraction1
      pb.fraction2]
    intro hs
    obtain ⟨a1, a2, a3, _⟩ := hmix hs
    refine ⟨(h hs).1.2.2.2.1, (h hs).2.2.2.2.1, ?_⟩
    rw [a1, a2, a3]
  · rw [mixSites_swap m cfg.isite1 cfg.isite2 pa.fractionOld1 pa.fractionOld2 pb.fractionOld1
      pb.fractionOld2]
    intro hs
    obtain ⟨_, _, _, a4, a5, a6⟩ := hmix hs
    refine ⟨(h hs).1.2.2.2.2.2.2.2, (h hs).2.2.2.2.2.2.2.2, ?_⟩
    rw [a4, a5, a6]

theorem pairBody_both (m : MathLib F) (cfg : Exp6Config F) (env : PairEnv F)
    (g : PairGeom F) (factor_lj : F) (pi pj : ParamData F) (i j : Nat) (delx dely delz : F)
    (st : ComputeState F)
    (hog : oldGate m pi pj) (hoa : ¬ oldAlphaSix m pi pj)
    (hng : newGate m pi pj) (hna : ¬ newAlphaSix m pi pj) :
    ∃ s, (computePairOld m cfg env g factor_lj pi pj i j st).bind
        (computePairNew m cfg env g factor_lj pi pj i j delx dely delz) = .ok s ∧
      s.evdwlOld = pairEvdwlOld m cfg g factor_lj pi pj ∧
      s.f = applyForce env st.f i j delx dely delz (pairFpairOld m cfg g factor_lj pi pj) ∧
      s.uCGnew = creditHalves env st.uCGnew i j (pairEvdwlNew m cfg g factor_lj pi pj) := by
  obtain ⟨st1, h1, hf1, hn1, _, he1, hm1, _⟩ := computePairOld_open m cfg env g factor_lj
    pi pj i j st hog hoa
  obtain ⟨st2, h2, hf2, _, he2, _, _, hn2, _⟩ := computePairNew_open m cfg env g factor_lj
    pi pj i j delx dely delz st1 hng hna
  refine ⟨st2, ?_, ?_, ?_, ?_⟩
  · rw [h1]; exact h2
  · rw [he2, he1]
  · rw [hf2, hm1, hf1]
  · rw [hn2, hn1]; rfl

theorem pairBody_new_only (m : MathLib F) (cfg : Exp6Config F) (env : PairEnv F)
    (g : PairGeom F) (factor_lj : F) (pi pj : ParamData F) (i j : Nat) (delx dely delz : F)
    (st : ComputeState F)
    (hog : ¬ oldGate m pi pj) (hng : newGate m pi pj) (hna : ¬ newAlphaSix m pi pj) :
    ∃ s, (computePairOld m cfg env g factor_lj pi pj i j st).bind
        (computePairNew m cfg env g factor_lj pi pj i j delx dely delz) = .ok s ∧
      s.evdwlOld = st.evdwlOld ∧
      s.f = applyForce env st.f i j delx dely delz
        (mixSites m cfg.isite1 cfg.isite2 pi.fractionOld1 pj.fractionOld2 pi.fractionOld2
          pj.fractionOld1 st.fpairOldEXP6_12 st.fpairOldEXP6_21) ∧
      s.uCGnew = creditHalves env st.uCGnew i j (pairEvdwlNew m cfg g factor_lj pi pj) := by
  obtain ⟨st2, h2, hf2, _, he2, _, _, hn2, _⟩ := computePairNew_open m cfg env g factor_lj
    pi pj i j delx dely delz st hng hna
  refine ⟨st2, ?_, he2, hf2, ?_⟩
  · rw [computePairOld_closed m cfg env g factor_lj pi pj i j st hog]; exact h2
  · rw [hn2]; rfl

/-- The pair body when the current-snapshot block is skipped: no force is applied and
`uCGnew` is not touched; `evdwlOld` is the mixed previous-snapshot energy when the
previous-snapshot block is evaluated, and left as it is otherwise. -/
theorem pairBody_new_closed (m : MathLib F) (cfg : Exp6Config F) (env : PairEnv F)
    (g : PairGeom F) (factor_lj : F) (pi pj : ParamData F) (i j : Nat) (delx dely delz : F)
    (st : ComputeState F)
    (hng : ¬ newGate m pi pj) (hoa : oldGate m pi pj → ¬ oldAlphaSix m pi pj) :
    ∃ s, (computePairOld m cfg env g factor_lj pi pj i j st).bind
        (computePairNew m cfg env g factor_lj pi pj i j delx dely delz) = .ok s ∧
      s.f = st.f ∧ s.uCGnew = st.uCGnew ∧
      (oldGate m pi pj → s.evdwlOld = pairEvdwlOld m cfg g factor_lj pi pj) ∧
      (¬ oldGate m pi pj → s.evdwlOld = st.evdwlOld) := by
  by_cases hog : oldGate m pi pj
  · obtain ⟨st1, h1, hf1, hn1, _, he1, _, _⟩ := computePairOld_open m cfg env g factor_lj
      pi pj i j st hog (hoa hog)
    refine ⟨st1, ?_, hf1, hn1, fun _ => he1, fun h => absurd hog h⟩
    rw [h1]
    exact computePairNew_closed m cfg env g factor_lj pi pj i j delx dely delz st1 hng
  · refine ⟨st, ?_, rfl, rfl, fun h => absurd h hog, fun _ => rfl⟩
    rw [computePairOld_closed m cfg env g factor_lj pi pj i j st hog]
    exact computePairNew_closed m cfg env g factor_lj pi pj i j delx dely delz st hng

/-- Claim C37. For two particles `a` and `b` whose parameters `getParamsEXP6` has resolved
(when `isite1 == isite2`, the two sites being both one-fluid or both a species with a record,
under the invariant of `setup`), and a fixed geometry and special factor: the
previous-snapshot mixed energy, the current-snapshot mixed energy and the mixed force
magnitude of the pair are the same for `(i,j) = (a,b)` and `(i,j) = (b,a)`; the guards of the
two blocks and the alpha tests are the same too; and when both blocks are evaluated, the
pair body run from the same state with `(i,j) = (a,b)` and with `(i,j) = (b,a)` (separation
vector negated) leaves the same `evdwlOld`, applies the same force magnitude and credits the
same current energy. The same holds with `isite1 == isite2` when the previous-snapshot block
is skipped and the current one evaluated, the force magnitude being then mixed from the
values that the locals `fpairOldEXP6_12` and `fpairOldEXP6_21` hold on entry. With
`isite1 != isite2` no block is ever skipped: for the inputs that a successful `coeff` and
`fix rx` supply (`ValidSetup`), one of the two sites is pinned to a species with a record,
whose `rm` is positive, no resolved `rm` is negative, and both guards hold for `(a,b)` and
for `(b,a)`. When the current-snapshot block is skipped, in either order no force is applied
and `uCGnew` is not touched, and the two orders leave the same `evdwlOld`. -/
theorem pair_terms_symmetric (m : MathLib F) (dv : F → F → F) (cfg : Exp6Config F)
    (dvector : Nat → Nat → F) (a b : Nat) (inita initb pa pb : ParamData F)
    (hpa : getParamsEXP6 m dv cfg dvector a inita = .ok pa)
    (hpb : getParamsEXP6 m dv cfg dvector b initb = .ok pb)
    (hsites : cfg.isite1 = cfg.isite2 → EqualSites cfg)
    (hinv : ∀ t, t < cfg.nspecies → 0 ≤ cfg.mol2param t →
      (cfg.params (cfg.mol2param t).toNat).ispecies = (t : Int))
    (g : PairGeom F) (factor_lj : F) :
    (pairEvdwlOld m cfg g factor_lj pb pa = pairEvdwlOld m cfg g factor_lj pa pb ∧
      pairEvdwlNew m cfg g factor_lj pb pa = pairEvdwlNew m cfg g factor_lj pa pb ∧
      pairFpairOld m cfg g factor_lj pb pa = pairFpairOld m cfg g factor_lj pa pb) ∧
    ((oldGate m pb pa ↔ oldGate m pa pb) ∧ (oldAlphaSix m pb pa ↔ oldAlphaSix m pa pb) ∧
      (newGate m pb pa ↔ newGate m pa pb) ∧ (newAlphaSix m pb pa ↔ newAlphaSix m pa pb)) ∧
    (∀ (env : PairEnv F) (st : ComputeState F) (delx dely delz : F),
      oldGate m pa pb → ¬ oldAlphaSix m pa pb → newGate m pa pb → ¬ newAlphaSix m pa pb →
      ∃ s1 s2 eOld eNew fpair,
        (computePairOld m cfg env g factor_lj pa pb a b st).bind
          (computePairNew m cfg env g factor_lj pa pb a b delx dely delz) = .ok s1 ∧
        (computePairOld m cfg env g factor_lj pb pa b a st).bind
          (computePairNew m cfg env g factor_lj pb pa b a (-delx) (-dely) (-delz)) = .ok s2 ∧
        s1.evdwlOld = eOld ∧ s2.evdwlOld = eOld ∧
        s1.f = applyForce env st.f a b delx dely delz fpair ∧
        s2.f = applyForce env st.f b a (-delx) (-dely) (-delz) fpair ∧
        s1.uCGnew = creditHalves env st.uCGnew a b eNew ∧
        s2.uCGnew = creditHalves env st.uCGnew b a eNew) ∧
    (∀ (env : PairEnv F) (st : ComputeState F) (delx dely delz : F),
      cfg.isite1 = cfg.isite2 →
      ¬ oldGate m pa pb → newGate m pa pb → ¬ newAlphaSix m pa pb →
      ∃ s1 s2 eNew fpair,
        (computePairOld m cfg env g factor_lj pa pb a b st).bind
          (computePairNew m cfg env g factor_lj pa pb a b delx dely delz) = .ok s1 ∧
        (computePairOld m cfg env g factor_lj pb pa b a st).bind
          (computePairNew m cfg env g factor_lj pb pa b a (-delx) (-dely) (-delz)) = .ok s2 ∧
        s1.evdwlOld = st.evdwlOld ∧ s2.evdwlOld = st.evdwlOld ∧
        s1.f = applyForce env st.f a b delx dely delz fpair ∧
        s2.f = applyForce env st.f b a (-delx) (-dely) (-delz) fpair ∧
        s1.uCGnew = creditHalves env st.uCGnew a b eNew ∧
        s2.uCGnew = creditHalves env st.uCGnew b a eNew) ∧
    (ValidSetup m dv cfg dvector → cfg.isite1 ≠ cfg.isite2 →
      (oldGate m pa pb ∧ newGate m pa pb) ∧ (oldGate m pb pa ∧ newGate m pb pa)) ∧
    (∀ (env : PairEnv F) (st : ComputeState F) (delx dely delz : F),
      ¬ newGate m pa pb → (oldGate m pa pb → ¬ oldAlphaSix m pa pb) →
      ∃ s1 s2,
        (computePairOld m cfg env g factor_lj pa pb a b st).bind
          (computePairNew m cfg env g factor_lj pa pb a b delx dely delz) = .ok s1 ∧
        (computePairOld m cfg env g factor_lj pb pa b a st).bind
          (computePairNew m cfg env g factor_lj pb pa b a (-delx) (-dely) (-delz)) = .ok s2 ∧
        s1.evdwlOld = s2.evdwlOld ∧
        s1.f = st.f ∧ s2.f = st.f ∧ s1.uCGnew = st.uCGnew ∧ s2.uCGnew = st.uCGnew) := by
  have hagree : cfg.isite1 = cfg.isite2 → SitesAgree pa ∧ SitesAgree pb := by
    intro hs
    rw [getParamsEXP6_ok_eq m dv cfg dvector a inita pa hpa,
      getParamsEXP6_ok_eq m dv cfg dvector b initb pb hpb]
    exact ⟨resolved_sitesAgree m dv cfg dvector a inita (hsites hs) hinv,
      resolved_sitesAgree m dv cfg dvector b initb (hsites hs) hinv⟩
  have hsw := pair_terms_swap m cfg g factor_lj pa pb hagree
  have hg := gates_swap m pa pb
  refine ⟨hsw, hg, ?_, ?_, ?_, ?_⟩
  · intro env st delx dely delz hog hoa hng hna
    obtain ⟨s1, h1, e1, f1, n1⟩ := pairBody_both m cfg env g factor_lj pa pb a b delx dely
      delz st hog hoa hng hna
    obtain ⟨s2, h2, e2, f2, n2⟩ := pairBody_both m cfg env g factor_lj pb pa b a (-delx)
      (-dely) (-delz) st (hg.1.mpr hog) (fun h => hoa (hg.2.1.mp h)) (hg.2.2.1.mpr hng)
      (fun h => hna (hg.2.2.2.mp h))
    refine ⟨s1, s2, _, _, _, h1, h2, e1, ?_, f1, ?_, n1, ?_⟩
    · rw [e2, hsw.1]
    · rw [f2, hsw.2.2]
    · rw [n2, hsw.2.1]
  · intro env st delx dely delz hs hog hng hna
    obtain ⟨s1, h1, e1, f1, n1⟩ := pairBody_new_only m cfg env g factor_lj pa pb a b delx
      dely delz st hog hng hna
    obtain ⟨s2, h2, e2, f2, n2⟩ := pairBody_new_only m cfg env g factor_lj pb pa b a (-delx)
      (-dely) (-delz) st (fun h => hog (hg.1.mp h)) (hg.2.2.1.mpr hng)
      (fun h => hna (hg.2.2.2.mp h))
    refine ⟨s1, s2, _, _, h1, h2, e1, e2, f1, ?_, n1, ?_⟩
    · have q1 : pa.fractionOld1 = pa.fractionOld2 := (hagree hs).1.2.2.2.2.2.2.2
      have q2 : pb.fractionOld1 = pb.fractionOld2 := (hagree hs).2.2.2.2.2.2.2.2
      rw [f2]
      unfold mixSites
      rw [if_pos hs, if_pos hs, q1, ← q2, mul_comm pb.fractionOld1 pa.fractionOld2]
    · rw [n2, hsw.2.1]
  · intro hv hne
    have h := gates_open_of_sites_differ m dv cfg dvector a b inita initb hv hne
    rw [← getParamsEXP6_ok_eq m dv cfg dvector a inita pa hpa,
      ← getParamsEXP6_ok_eq m dv cfg dvector b initb pb hpb] at h
    exact ⟨h, hg.1.mpr h.1, hg.2.2.1.mpr h.2⟩
  · intro env st delx dely delz hng hoa
    obtain ⟨s1, h1, f1, n1, eo1, ec1⟩ := pairBody_new_closed m cfg env g factor_lj pa pb a b
      delx dely delz st hng hoa
    obtain ⟨s2, h2, f2, n2, eo2, ec2⟩ := pairBody_new_closed m cfg env g factor_lj pb pa b a
      (-delx) (-dely) (-delz) st (fun h => hng (hg.2.2.1.mp h))
      (fun h1 h2 => hoa (hg.1.mp h1) (hg.2.1.mp h2))
    refine ⟨s1, s2, h1, h2, ?_, f1, f2, n1, n2⟩
    by_cases hog : oldGate m pa pb
    · rw [eo1 hog, eo2 (hg.1.mpr hog), hsw.1]
    · rw [ec1 hog, ec2 (fun h => hog (hg.1.mp h))]

end Swap

section SwapReal

theorem validSetup_AB (m : MathLib ℝ) (hm : IsRealLib m) :
    ValidSetup m (fun a b => a / b) (scenarioConfig 0 1) dvTwo where
  setup_inv := by
    intro t ht _
    have : t = 0 ∨ t = 1 := by
      simp only [scenarioConfig] at ht; omega
    rcases this with h | h <;> subst h <;> simp [scenarioConfig, paramA, paramB]
  rm_pos := by
    intro t ht _
    have : t = 0 ∨ t = 1 := by
      simp only [scenarioConfig] at ht; omega
    rcases this with h | h <;> subst h <;> simp [scenarioConfig, paramA, paramB]
  site1 := Or.inr ⟨0, by simp [scenarioConfig], rfl, by simp [scenarioConfig],
    by simp [scenarioConfig, paramA]⟩
  site2 := Or.inr ⟨1, by simp [scenarioConfig], rfl, by simp [scenarioConfig],
    by simp [scenarioConfig, paramB]⟩
  conc_nonneg := by
    intro s id
    unfold dvTwo
    split_ifs <;> norm_num
  pow_nonneg := by
    intro a b ha
    rw [hm.pow_eq]
    exact Real.rpow_nonneg ha b
  dv_div := fun _ _ _ => rfl

/-- Site 1 pinned to A and site 2 to B in the two-species scenario: the current fraction of
site 1 is the share of A in the particle. -/
theorem resolved_AB_fraction1 (m : MathLib ℝ) (hm : IsRealLib m) (id : Nat)
    (init : ParamData ℝ) :
    (resolved m (fun a b => a / b) (scenarioConfig 0 1) dvTwo id init).fraction1
      = dvTwo 0 id / (dvTwo 0 id + dvTwo 1 id) := by
  have hv := validSetup_AB m hm
  have hn : (getTotals (scenarioConfig 0 1) (dvTwo : Nat → Nat → ℝ) id).nTotal
      = dvTwo 0 id + dvTwo 1 id := by
    rw [getTotals_nTotal]
    simp [specTotal, scenarioConfig, List.range_succ]
  have h1 := outerStep_site1 m (fun a b => a / b) (scenarioConfig 0 1) dvTwo id
    (getTotals (scenarioConfig 0 1) dvTwo id)
    ((getTotals (scenarioConfig 0 1) dvTwo id).nTotalOFA
      / (getTotals (scenarioConfig 0 1) dvTwo id).nTotal)
    ((getTotals (scenarioConfig 0 1) dvTwo id).nTotalOFA_old
      / (getTotals (scenarioConfig 0 1) dvTwo id).nTotal_old)
    0 (by simp [scenarioConfig]) rfl (by simp [scenarioConfig])
    (by simp [scenarioConfig, paramA]) hv.setup_inv init
  have h2 := ofaSites_pinned1 m (fun a b => a / b) (scenarioConfig 0 1)
    (getTotals (scenarioConfig 0 1) dvTwo id)
    ((getTotals (scenarioConfig 0 1) dvTwo id).nTotalOFA
      / (getTotals (scenarioConfig 0 1) dvTwo id).nTotal)
    ((getTotals (scenarioConfig 0 1) dvTwo id).nTotalOFA_old
      / (getTotals (scenarioConfig 0 1) dvTwo id).nTotal_old)
    (resolveLoop m (fun a b => a / b) (scenarioConfig 0 1) dvTwo id
      (getTotals (scenarioConfig 0 1) dvTwo id)
      ((getTotals (scenarioConfig 0 1) dvTwo id).nTotalOFA
        / (getTotals (scenarioConfig 0 1) dvTwo id).nTotal)
      ((getTotals (scenarioConfig 0 1) dvTwo id).nTotalOFA_old
        / (getTotals (scenarioConfig 0 1) dvTwo id).nTotal_old) init) rfl
  show (ofaSites m _ _ _ _ _ _).fraction1 = _
  rw [h2.2.2.2.1, h1.2.2.2.1, hn]

end SwapReal

/-- Witness of claim C37 over the reals: the two species A and B of the end-to-end scenario,
site 1 pinned to A and site 2 to B; the particle 0 is one half A and the particle 1 one
quarter A, so that their resolved fractions differ. Both blocks are evaluated, and the mixed
energies and the mixed force magnitude are the same for `(i,j) = (0,1)` and `(1,0)`. -/
theorem pair_terms_symmetric_witness :
    let m : MathLib ℝ := ⟨Real.sqrt, Real.exp,
      fun x => if x < 0 then -(-x) ^ (3:ℝ)⁻¹ else x ^ (3:ℝ)⁻¹, fun x y => x ^ y⟩
    ∃ pa pb,
      getParamsEXP6 m (fun a b => a / b) (scenarioConfig 0 1) dvTwo 0 zeroParams = .ok pa ∧
      getParamsEXP6 m (fun a b => a / b) (scenarioConfig 0 1) dvTwo 1 zeroParams = .ok pb ∧
      pa.fraction1 = 1 / 2 ∧ pb.fraction1 = 1 / 4 ∧
      (scenarioConfig 0 1 : Exp6Config ℝ).isite1 ≠ (scenarioConfig 0 1 : Exp6Config ℝ).isite2 ∧
      oldGate m pa pb ∧ newGate m pa pb ∧
      pairEvdwlOld m (scenarioConfig 0 1) (pairGeom m 9 100) 1 pb pa
        = pairEvdwlOld m (scenarioConfig 0 1) (pairGeom m 9 100) 1 pa pb ∧
      pairEvdwlNew m (scenarioConfig 0 1) (pairGeom m 9 100) 1 pb pa
        = pairEvdwlNew m (scenarioConfig 0 1) (pairGeom m 9 100) 1 pa pb ∧
      pairFpairOld m (scenarioConfig 0 1) (pairGeom m 9 100) 1 pb pa
        = pairFpairOld m (scenarioConfig 0 1) (pairGeom m 9 100) 1 pa pb := by
  intro m
  have hm : IsRealLib m := ⟨rfl, rfl, fun _ => rfl, fun _ _ => rfl⟩
  have hv := validSetup_AB m hm
  have hne : (scenarioConfig 0 1 : Exp6Config ℝ).isite1
      ≠ (scenarioConfig 0 1 : Exp6Config ℝ).isite2 := by
    simp [scenarioConfig]
  have htot : ∀ id, (1e-8:ℝ) ≤ specTotal (scenarioConfig 0 1) dvTwo id ∧
      (1e-8:ℝ) ≤ specTotalOld (scenarioConfig 0 1) dvTwo id := by
    intro id
    by_cases hid : id = 0 <;>
      simp [specTotal, specTotalOld, scenarioConfig, dvTwo, List.range_succ, hid] <;> norm_num
  have h0 := getParamsEXP6_resolved m (fun a b => a / b) (scenarioConfig 0 1) dvTwo 0
    zeroParams (htot 0).1 (htot 0).2
  have h1 := getParamsEXP6_resolved m (fun a b => a / b) (scenarioConfig 0 1) dvTwo 1
    zeroParams (htot 1).1 (htot 1).2
  have h := pair_terms_symmetric m (fun a b => a / b) (scenarioConfig 0 1) dvTwo 0 1 zeroParams
    zeroParams _ _ h0 h1 (fun hs => absurd hs hne) hv.setup_inv (pairGeom m 9 100) 1
  have hgates := h.2.2.2.2.1 hv hne
  refine ⟨_, _, h0, h1, ?_, ?_, hne, hgates.1.1, hgates.1.2, h.1⟩
  · rw [resolved_AB_fraction1 m hm 0 zeroParams]
    simp [dvTwo]
    norm_num
  · rw [resolved_AB_fraction1 m hm 1 zeroParams]
    simp [dvTwo]
    norm_num

section Unassigned

variable {F : Type} [LinearOrderedField F]

theorem outerStep_out_unassigned (m : MathLib F) (dv : F → F → F) (cfg : Exp6Config F)
    (dvector : Nat → Nat → F) (id : Nat) (tot : Totals F) (fo fo_old : F) (acc : Resolve F)
    (t : Nat)
    (hno : skipSpecies cfg t = true ∨
      (cfg.isite1 ≠ (cfg.params (cfg.mol2param t).toNat).ispecies ∧
        cfg.isite2 ≠ (cfg.params (cfg.mol2param t).toNat).ispecies)) :
    (outerStep m dv cfg dvector id tot fo fo_old acc t).out = acc.out := by
  unfold outerStep
  by_cases hs : skipSpecies cfg t = true
  · rw [if_pos hs]
  · rw [if_neg hs]
    rcases hno with h | ⟨h1, h2⟩
    · exact absurd h hs
    · simp only [if_neg h1, if_neg h2]
      split_ifs <;> rfl

theorem resolveLoop_out_unassigned (m : MathLib F) (dv : F → F → F) (cfg : Exp6Config F)
    (dvector : Nat → Nat → F) (id : Nat) (tot : Totals F) (fo fo_old : F)
    (init : ParamData F)
    (hno : ∀ t, t < cfg.nspecies → skipSpecies cfg t = true ∨
      (cfg.isite1 ≠ (cfg.params (cfg.mol2param t).toNat).ispecies ∧
        cfg.isite2 ≠ (cfg.params (cfg.mol2param t).toNat).ispecies)) :
    (resolveLoop m dv cfg dvector id tot fo fo_old init).out = init := by
  unfold resolveLoop
  have key : ∀ (l : List Nat) (acc : Resolve F), (∀ t ∈ l, t < cfg.nspecies) →
      (l.foldl (outerStep m dv cfg dvector id tot fo fo_old) acc).out = acc.out := by
    intro l
    induction l with
    | nil => intro acc _; rfl
    | cons t l ih =>
      intro acc hl
      rw [List.foldl_cons, ih _ (fun s hs => hl s (List.mem_cons_of_mem _ hs))]
      exact outerStep_out_unassigned m dv cfg dvector id tot fo fo_old acc t
        (hno t (hl t (List.mem_cons_self _ _)))
  exact key _ _ (fun t ht => List.mem_range.mp ht)

/-- A site that is neither the one-fluid site nor the species of a record that the loop
visits is never written: `getParamsEXP6` returns the entry values of all sixteen
out-parameters. -/
theorem getParamsEXP6_unassigned (m : MathLib F) (dv : F → F → F) (cfg : Exp6Config F)
    (dvector : Nat → Nat → F) (id : Nat) (init : ParamData F)
    (h1 : isOneFluidApprox cfg.isite1 = false) (h2 : isOneFluidApprox cfg.isite2 = false)
    (hno : ∀ t, t < cfg.nspecies → skipSpecies cfg t = true ∨
      (cfg.isite1 ≠ (cfg.params (cfg.mol2param t).toNat).ispecies ∧
        cfg.isite2 ≠ (cfg.params (cfg.mol2param t).toNat).ispecies))
    (htot : 1e-8 ≤ specTotal cfg dvector id) (htotOld : 1e-8 ≤ specTotalOld cfg dvector id) :
    getParamsEXP6 m dv cfg dvector id init = .ok init := by
  rw [getParamsEXP6_resolved m dv cfg dvector id init htot htotOld]
  congr 1
  unfold resolved
  simp only [ofaSites, h1, h2, Bool.false_eq_true, if_false]
  exact resolveLoop_out_unassigned m dv cfg dvector id _ _ _ init hno

end Unassigned

/-- Claim C38 (evaluation at the failing input). With the species `A` and `B` declared and a
potential file that holds a record of `A` only, `coeff 1 1 file B B 0 0` succeeds: both site
names are declared species, `isite1 = isite2 = 1` and `mol2param[1] = -1`. With the
configuration it leaves, `getParamsEXP6` returns, for every particle whose totals are at
least 1e-8, the sixteen out-parameters with the values they had on entry: none is assigned.
For a particle holding one molecule of each species in both snapshots, two different
contents of the parameter arrays on entry give two different results. -/
theorem unrecorded_site_leaves_outputs_example :
    ∃ st,
      coeff demoCoeffEnv unrecordedArgs demoStyle = .ok st ∧
      "B".toList ∈ demoCoeffEnv.dname ∧
      st.cfg.isite1 = 1 ∧ st.cfg.isite2 = 1 ∧ st.cfg.mol2param 1 = -1 ∧
      (∀ (m : MathLib ℚ) (dv : ℚ → ℚ → ℚ) (dvector : Nat → Nat → ℚ) (id : Nat)
          (init : ParamData ℚ),
        1e-8 ≤ specTotal st.cfg dvector id → 1e-8 ≤ specTotalOld st.cfg dvector id →
        getParamsEXP6 m dv st.cfg dvector id init = .ok init) ∧
      (∀ (m : MathLib ℚ) (dv : ℚ → ℚ → ℚ),
        getParamsEXP6 m dv st.cfg (fun _ _ => 1) 0 zeroParams = .ok zeroParams ∧
        getParamsEXP6 m dv st.cfg (fun _ _ => 1) 0 (skewA 2 0) = .ok (skewA 2 0) ∧
        (skewA 2 0 : ParamData ℚ).rm1 ≠ (zeroParams : ParamData ℚ).rm1) := by
  have hok : ∃ st, coeff demoCoeffEnv unrecordedArgs demoStyle = .ok st ∧
      st.cfg.isite1 = 1 ∧ st.cfg.isite2 = 1 ∧ st.cfg.mol2param 1 = -1 ∧
      st.cfg.nspecies = 2 ∧
      isOneFluidApprox st.cfg.isite1 = false ∧ isOneFluidApprox st.cfg.isite2 = false ∧
      skipSpecies st.cfg 1 = true ∧
      (st.cfg.params (st.cfg.mol2param 0).toNat).ispecies = 0 :=
    ⟨_, rfl, by decide, by decide, by decide, rfl, by decide, by decide, by decide,
      by decide⟩
  obtain ⟨st, hst, hs1, hs2, hmol, hn, ho1, ho2, hskip, hisp⟩ := hok
  have hno : ∀ t, t < st.cfg.nspecies → skipSpecies st.cfg t = true ∨
      (st.cfg.isite1 ≠ (st.cfg.params (st.cfg.mol2param t).toNat).ispecies ∧
        st.cfg.isite2 ≠ (st.cfg.params (st.cfg.mol2param t).toNat).ispecies) := by
    intro t ht
    rw [hn] at ht
    have : t = 0 ∨ t = 1 := by omega
    rcases this with h | h
    · subst h
      right
      rw [hs1, hs2, hisp]
      exact ⟨by decide, by decide⟩
    · subst h
      exact Or.inl hskip
  have hall : ∀ (m : MathLib ℚ) (dv : ℚ → ℚ → ℚ) (dvector : Nat → Nat → ℚ) (id : Nat)
      (init : ParamData ℚ),
      1e-8 ≤ specTotal st.cfg dvector id → 1e-8 ≤ specTotalOld st.cfg dvector id →
      getParamsEXP6 m dv st.cfg dvector id init = .ok init :=
    fun m dv dvector id init h1 h2 =>
      getParamsEXP6_unassigned m dv st.cfg dvector id init ho1 ho2 hno h1 h2
  have ht1 : (1e-8 : ℚ) ≤ specTotal st.cfg (fun _ _ => 1) 0 := by
    simp only [specTotal, hn, List.range_succ, List.range_zero, List.nil_append,
      List.map_cons, List.map_nil, List.sum_cons, List.sum_nil, List.cons_append]
    norm_num
  have ht2 : (1e-8 : ℚ) ≤ specTotalOld st.cfg (fun _ _ => 1) 0 := by
    simp only [specTotalOld, hn, List.range_succ, List.range_zero, List.nil_append,
      List.map_cons, List.map_nil, List.sum_cons, List.sum_nil, List.cons_append]
    norm_num
  refine ⟨st, hst, by decide, hs1, hs2, hmol, hall, fun m dv => ⟨hall m dv _ _ _ ht1 ht2,
    hall m dv _ _ _ ht1 ht2, ?_⟩⟩
  simp [skewA, zeroParams]

section Divisors

variable {F : Type} [LinearOrderedField F]

theorem underflowBound_pos : (0 : F) < underflowBound := by
  unfold underflowBound
  positivity

theorem underflowBound_lt_one : (underflowBound : F) < 1 := by
  unfold underflowBound
  rw [div_lt_one (by positivity)]
  exact one_lt_pow₀ one_lt_two (by norm_num)

theorem mulDouble_of_lt (x y : F) (h : underflowBound < x * y) : mulDouble x y = x * y := by
  unfold mulDouble
  rw [if_neg]
  rw [not_le]
  exact lt_of_lt_of_le h (le_abs_self _)

theorem powintDouble_of_lt (x : F) (n : Nat) (h : underflowBound < x ^ n) :
    powintDouble x n = x ^ n := by
  unfold powintDouble powint
  rw [if_neg]
  rw [not_le]
  exact lt_of_lt_of_le h (le_abs_self _)

/-- A power of a positive number that does not underflow: no lower power underflows. -/
theorem pow_above_underflow (x : F) (hx : 0 < x) (n k : Nat) (hk : k ≤ n)
    (h : underflowBound < x ^ n) : underflowBound < x ^ k := by
  by_cases h1 : x ≤ 1
  · exact lt_of_lt_of_le h (pow_le_pow_of_le_one hx.le h1 hk)
  · exact lt_of_lt_of_le underflowBound_lt_one (one_le_pow₀ (le_of_lt (not_le.mp h1)))

theorem exp6Divisors_ne_zero (m : MathLib F) (g : PairGeom F) (alpha epsilon rm : F)
    (hr : 0 < g.r) (hunder : underflowBound < g.r ^ nRep) (hrm : rm ≠ 0) (ha : alpha ≠ 6) :
    ∀ d ∈ exp6Divisors m g alpha epsilon rm, d ≠ 0 := by
  intro d hd
  simp only [exp6Divisors, List.mem_append, List.mem_cons, List.mem_singleton,
    List.not_mem_nil, or_false] at hd
  rcases hd with (h | h) | h
  · rw [h]; exact hrm
  · rw [h]; exact sub_ne_zero.mpr ha
  · by_cases hc : g.r < (exp6Terms m g alpha epsilon rm).rin1
    · rw [if_pos hc] at h
      have hrin : 0 < (exp6Terms m g alpha epsilon rm).rin1 := lt_trans hr hc
      have h12 : underflowBound < (exp6Terms m g alpha epsilon rm).rin1 ^ nRep :=
        lt_trans hunder (pow_lt_pow_left₀ hc hr.le (by decide))
      have hk : ∀ k, k ≤ nRep → underflowBound < (exp6Terms m g alpha epsilon rm).rin1 ^ k :=
        fun k hk => pow_above_underflow _ hrin nRep k hk h12
      simp only [List.mem_cons, List.mem_singleton, List.not_mem_nil, or_false] at h
      rcases h with h | h | h | h
      · rw [h]
        generalize (exp6Terms m g alpha epsilon rm).rin1 = x at hrin hk
        have e2 : mulDouble x x = x ^ 2 := by
          rw [mulDouble_of_lt _ _ (by have := hk 2 (by decide); rwa [pow_two] at this), pow_two]
        have e3 : mulDouble (x ^ 2) x = x ^ 3 := by
          rw [mulDouble_of_lt _ _ (by have := hk 3 (by decide); rwa [pow_succ] at this),
            ← pow_succ]
        have e4 : mulDouble (x ^ 3) x = x ^ 4 := by
          rw [mulDouble_of_lt _ _ (by have := hk 4 (by decide); rwa [pow_succ] at this),
            ← pow_succ]
        have e5 : mulDouble (x ^ 4) x = x ^ 5 := by
          rw [mulDouble_of_lt _ _ (by have := hk 5 (by decide); rwa [pow_succ] at this),
            ← pow_succ]
        have e6 : mulDouble (x ^ 5) x = x ^ 6 := by
          rw [mulDouble_of_lt _ _ (by have := hk 6 (by decide); rwa [pow_succ] at this),
            ← pow_succ]
        rw [e2, e3, e4, e5, e6]
        exact pow_ne_zero _ hrin.ne'
      · rw [h]; simp [nRep]
      · rw [h, powintDouble_of_lt _ _ h12]; exact pow_ne_zero _ hrin.ne'
      · rw [h, powintDouble_of_lt _ _ hunder]; exact pow_ne_zero _ hr.ne'
    · rw [if_neg hc] at h
      cases h

theorem computePair_ok_alpha (m : MathLib F) (cfg : Exp6Config F) (env : PairEnv F)
    (pd : Nat → ParamData F) (i jraw : Nat) (st st' : ComputeState F)
    (hcut : pairRsq env i jraw < pairCutsq env i jraw)
    (hok : computePair m cfg env pd i st jraw = .ok st') :
    (oldGate m (pd i) (pd (env.neighmask jraw)) →
      ¬ oldAlphaSix m (pd i) (pd (env.neighmask jraw))) ∧
    (newGate m (pd i) (pd (env.neighmask jraw)) →
      ¬ newAlphaSix m (pd i) (pd (env.neighmask jraw))) := by
  rw [computePair_within m cfg env pd i jraw st hcut] at hok
  have hold : oldGate m (pd i) (pd (env.neighmask jraw)) →
      ¬ oldAlphaSix m (pd i) (pd (env.neighmask jraw)) := by
    intro hg ha
    rw [computePairOld_error m cfg env _ _ _ _ _ _ st hg ha] at hok
    cases hok
  refine ⟨hold, ?_⟩
  intro hg ha
  by_cases hog : oldGate m (pd i) (pd (env.neighmask jraw))
  · obtain ⟨st1, h1, _⟩ := computePairOld_open m cfg env (pairGeomOf m env i jraw)
      (pairFactor env jraw) (pd i) (pd (env.neighmask jraw)) i (env.neighmask jraw) st hog
      (hold hog)
    rw [h1] at hok
    have herr := computePairNew_error m cfg env (pairGeomOf m env i jraw)
      (pairFactor env jraw) (pd i) (pd (env.neighmask jraw)) i (env.neighmask jraw)
      (pairDel env i jraw 0) (pairDel env i jraw 1) (pairDel env i jraw 2) st1 hg ha
    change computePairNew m cfg env (pairGeomOf m env i jraw) (pairFactor env jraw) (pd i)
      (pd (env.neighmask jraw)) i (env.neighmask jraw) (pairDel env i jraw 0)
      (pairDel env i jraw 1) (pairDel env i jraw 2) st1 = .ok st' at hok
    rw [herr] at hok
    cases hok
  · rw [computePairOld_closed m cfg env _ _ _ _ _ _ st hog] at hok
    have herr := computePairNew_error m cfg env (pairGeomOf m env i jraw)
      (pairFactor env jraw) (pd i) (pd (env.neighmask jraw)) i (env.neighmask jraw)
      (pairDel env i jraw 0) (pairDel env i jraw 1) (pairDel env i jraw 2) st hg ha
    change computePairNew m cfg env (pairGeomOf m env i jraw) (pairFactor env jraw) (pd i)
      (pd (env.neighmask jraw)) i (env.neighmask jraw) (pairDel env i jraw 0)
      (pairDel env i jraw 1) (pairDel env i jraw 2) st = .ok st' at hok
    rw [herr] at hok
    cases hok
/-- Claim C39 (amended). For a list entry with `0 < rsq < cutsq` that `compute` processes
without a fatal error, with a square root that is positive on positive arguments, and whose
`r^12` does not underflow in double precision (its exact value exceeds `2^-1075`): every
divisor of a division performed for the pair is nonzero, namely `rsq`, `cutsq`, `rCut`, and
for each directed evaluation of an evaluated block the mixed `rm`, `alpha_ij - 6` and, in the
core branch, `rin6`, `nRep`, `powint(rin1,nRep)` and `powint(r,nRep)` as `double`s; moreover
`r > 0`, and a directed evaluation enters the core branch only with `rin1 > r > 0`. -/
theorem divisors_nonzero (m : MathLib F) (cfg : Exp6Config F) (env : PairEnv F)
    (pd : Nat → ParamData F) (i jraw : Nat) (st st' : ComputeState F)
    (hsqrt : ∀ x : F, 0 < x → 0 < m.sqrt x)
    (hpos : 0 < pairRsq env i jraw)
    (hcut : pairRsq env i jraw < pairCutsq env i jraw)
    (hunder : underflowBound < (pairGeomOf m env i jraw).r ^ nRep)
    (hok : computePair m cfg env pd i st jraw = .ok st') :
    (∀ d ∈ pairDivisors m (pairRsq env i jraw) (pairCutsq env i jraw) (pd i)
        (pd (env.neighmask jraw)), d ≠ 0) ∧
    0 < (pairGeomOf m env i jraw).r ∧ 0 < (pairGeomOf m env i jraw).rCut ∧
    (oldGate m (pd i) (pd (env.neighmask jraw)) →
      (mixPair m (pd i) (pd (env.neighmask jraw))).alphaOld12_ij - 6 ≠ 0 ∧
      (mixPair m (pd i) (pd (env.neighmask jraw))).alphaOld21_ij - 6 ≠ 0) ∧
    (newGate m (pd i) (pd (env.neighmask jraw)) →
      (mixPair m (pd i) (pd (env.neighmask jraw))).alpha12_ij - 6 ≠ 0 ∧
      (mixPair m (pd i) (pd (env.neighmask jraw))).alpha21_ij - 6 ≠ 0) ∧
    (∀ alpha epsilon rm : F,
      (pairGeomOf m env i jraw).r
          < (exp6Terms m (pairGeomOf m env i jraw) alpha epsilon rm).rin1 →
        0 < (exp6Terms m (pairGeomOf m env i jraw) alpha epsilon rm).rin1 ∧
        powintDouble (exp6Terms m (pairGeomOf m env i jraw) alpha epsilon rm).rin1 nRep ≠ 0 ∧
        powintDouble (pairGeomOf m env i jraw).r nRep ≠ 0) := by
  have hcpos : 0 < pairCutsq env i jraw := lt_trans hpos hcut
  have hr : 0 < (pairGeomOf m env i jraw).r := hsqrt _ hpos
  have hrc : 0 < (pairGeomOf m env i jraw).rCut := hsqrt _ hcpos
  obtain ⟨hoa, hna⟩ := computePair_ok_alpha m cfg env pd i jraw st st' hcut hok
  have hold : oldGate m (pd i) (pd (env.neighmask jraw)) →
      (mixPair m (pd i) (pd (env.neighmask jraw))).alphaOld12_ij ≠ 6 ∧
      (mixPair m (pd i) (pd (env.neighmask jraw))).alphaOld21_ij ≠ 6 := by
    intro hg
    have h := hoa hg
    unfold oldAlphaSix at h
    exact ⟨fun h1 => h (Or.inr h1), fun h1 => h (Or.inl h1)⟩
  have hnew : newGate m (pd i) (pd (env.neighmask jraw)) →
      (mixPair m (pd i) (pd (env.neighmask jraw))).alpha12_ij ≠ 6 ∧
      (mixPair m (pd i) (pd (env.neighmask jraw))).alpha21_ij ≠ 6 := by
    intro hg
    have h := hna hg
    unfold newAlphaSix at h
    exact ⟨fun h1 => h (Or.inr h1), fun h1 => h (Or.inl h1)⟩
  refine ⟨?_, hr, hrc, fun hg => ⟨sub_ne_zero.mpr (hold hg).1, sub_ne_zero.mpr (hold hg).2⟩,
    fun hg => ⟨sub_ne_zero.mpr (hnew hg).1, sub_ne_zero.mpr (hnew hg).2⟩, ?_⟩
  · intro d hd
    simp only [pairDivisors, List.mem_append, List.mem_cons, List.mem_singleton,
      List.not_mem_nil, or_false] at hd
    rcases hd with ((h | h | h) | h) | h
    · rw [h]; exact hpos.ne'
    · rw [h]; exact hcpos.ne'
    · rw [h]; exact hrc.ne'
    · by_cases hg : oldGate m (pd i) (pd (env.neighmask jraw))
      · have hg' := hg
        unfold oldGate at hg'
        rw [if_pos hg'] at h
        rcases List.mem_append.mp h with h | h
        · exact exp6Divisors_ne_zero m _ _ _ _ hr hunder hg'.1 (hold hg).1 d h
        · exact exp6Divisors_ne_zero m _ _ _ _ hr hunder hg'.2 (hold hg).2 d h
      · have hg' := hg
        unfold oldGate at hg'
        rw [if_neg hg'] at h
        cases h
    · by_cases hg : newGate m (pd i) (pd (env.neighmask jraw))
      · have hg' := hg
        unfold newGate at hg'
        rw [if_pos hg'] at h
        rcases List.mem_append.mp h with h | h
        · exact exp6Divisors_ne_zero m _ _ _ _ hr hunder hg'.1 (hnew hg).1 d h
        · exact exp6Divisors_ne_zero m _ _ _ _ hr hunder hg'.2 (hnew hg).2 d h
      · have hg' := hg
        unfold newGate at hg'
        rw [if_neg hg'] at h
        cases h
  · intro alpha epsilon rm hc
    have hrin := lt_trans hr hc
    have h12 : underflowBound
        < (exp6Terms m (pairGeomOf m env i jraw) alpha epsilon rm).rin1 ^ nRep :=
      lt_trans hunder (pow_lt_pow_left₀ hc hr.le (by decide))
    refine ⟨hrin, ?_, ?_⟩
    · rw [powintDouble_of_lt _ _ h12]; exact pow_ne_zero _ hrin.ne'
    · rw [powintDouble_of_lt _ _ hunder]; exact pow_ne_zero _ hr.ne'

end Divisors

section DivisorsReal

theorem closeEnv_pair {F : Type} [LinearOrderedField F] :
    (closeEnv : PairEnv F).neighmask 1 = 1 ∧
    pairFactor (closeEnv : PairEnv F) 1 = 1 ∧
    pairRsq (closeEnv : PairEnv F) 0 1 = 1e-30 * 1e-30 ∧
    pairCutsq (closeEnv : PairEnv F) 0 1 = 100 := by
  refine ⟨rfl, rfl, ?_, rfl⟩
  have hn : (closeEnv : PairEnv F).neighmask 1 = 1 := rfl
  simp only [pairRsq, pairDel, hn]
  simp only [closeEnv]
  norm_num

/-- The inner radius of two A sites exceeds `1e-30`. -/
theorem rin1_AA_lower (m : MathLib ℝ) (hm : IsRealLib m) (g : PairGeom ℝ) :
    1e-30 < (exp6Terms m g 12 1 2).rin1 := by
  show (1e-30 : ℝ) < shift * 2 * func_rin m 12
  have hs : m.sqrt 12 ≤ 4 := by
    rw [hm.sqrt_eq]
    rw [show (4:ℝ) = Real.sqrt (4 * 4) from (Real.sqrt_mul_self (by norm_num)).symm]
    exact Real.sqrt_le_sqrt (by norm_num)
  have hv : (-2 : ℝ) ≤ 3.7682065 + -1.4308614 * m.sqrt 12 := by nlinarith
  have he : Real.exp (-2) ≤ func_rin m 12 := by
    unfold func_rin
    simp only
    rw [expValue_eq_exp m hm _ (by linarith)]
    exact Real.exp_le_exp.mpr hv
  have h2 : (1 / 9 : ℝ) ≤ Real.exp (-2) := by
    rw [Real.exp_neg, one_div]
    apply inv_anti₀ (Real.exp_pos 2)
    have h1 := Real.exp_one_lt_d9
    have : Real.exp 2 = Real.exp 1 * Real.exp 1 := by
      rw [← Real.exp_add]; norm_num
    rw [this]
    have hp := Real.exp_pos 1
    nlinarith
  unfold shift
  nlinarith

theorem closeEnv_geom (m : MathLib ℝ) (hm : IsRealLib m) :
    pairGeomOf m (closeEnv : PairEnv ℝ) 0 1 = pairGeom m (1e-30 * 1e-30) 100 ∧
    (pairGeom m (1e-30 * 1e-30) 100).r = 1e-30 := by
  have hp := closeEnv_pair (F := ℝ)
  refine ⟨?_, sqrt_sq_real m hm 1e-30 (by norm_num)⟩
  unfold pairGeomOf
  rw [hp.2.2.1, hp.2.2.2]

end DivisorsReal

/-- Claim C39 (counterexample). Over the reals, two particles of pure species A (both sites
pinned to A, `rm = 2`, `alpha = 12`) at the separation `r = 1e-30` with cutoff 10: the pair has
`0 < rsq < cutsq` and is processed without error, both blocks are evaluated and the directed
evaluations enter the core branch (`r < rin1`), where `powint(r,12)`, whose exact value
`1e-360` is below the smallest positive `double`, is `0.0`: the divisions of lines 319 and
322 have a zero divisor. -/
theorem core_power_underflows_example :
    let m : MathLib ℝ := ⟨Real.sqrt, Real.exp,
      fun x => if x < 0 then -(-x) ^ (3:ℝ)⁻¹ else x ^ (3:ℝ)⁻¹, fun x y => x ^ y⟩
    0 < pairRsq (closeEnv : PairEnv ℝ) 0 1 ∧
    pairRsq (closeEnv : PairEnv ℝ) 0 1 < pairCutsq (closeEnv : PairEnv ℝ) 0 1 ∧
    ∃ st', computePair m (scenarioConfig 0 0) closeEnv (fun _ => pureA) 0 (startState 0) 1
        = .ok st' ∧
      oldGate m pureA pureA ∧
      (pairGeomOf m (closeEnv : PairEnv ℝ) 0 1).r = 1e-30 ∧
      (pairGeomOf m (closeEnv : PairEnv ℝ) 0 1).r
        < (exp6Terms m (pairGeomOf m (closeEnv : PairEnv ℝ) 0 1)
            (mixPair m pureA pureA).alphaOld12_ij (mixPair m pureA pureA).epsilonOld12_ij
            (mixPair m pureA pureA).rmOld12_ij).rin1 ∧
      powintDouble (pairGeomOf m (closeEnv : PairEnv ℝ) 0 1).r nRep = 0 ∧
      (0 : ℝ) ∈ pairDivisors m (pairRsq (closeEnv : PairEnv ℝ) 0 1)
        (pairCutsq (closeEnv : PairEnv ℝ) 0 1) pureA pureA := by
  intro m
  have hm : IsRealLib m := ⟨rfl, rfl, fun _ => rfl, fun _ _ => rfl⟩
  have hp := closeEnv_pair (F := ℝ)
  have hg := gates_likeA m hm 1 1 1 1
  have hgeom := closeEnv_geom m hm
  have hpos : 0 < pairRsq (closeEnv : PairEnv ℝ) 0 1 := by
    rw [hp.2.2.1]; norm_num
  have hcut : pairRsq (closeEnv : PairEnv ℝ) 0 1 < pairCutsq (closeEnv : PairEnv ℝ) 0 1 := by
    rw [hp.2.2.1, hp.2.2.2]; norm_num
  obtain ⟨st', hok, _⟩ := computePair_both m (scenarioConfig 0 0) closeEnv
    (fun _ => pureA) 0 1 (startState 0) hcut hg.1 hg.2.1 hg.2.2.1 hg.2.2.2
  have hr : (pairGeomOf m (closeEnv : PairEnv ℝ) 0 1).r = 1e-30 := by
    rw [hgeom.1]; exact hgeom.2
  have hmix := mixPair_likeA m hm 1 1 1 1
  have hcore : (pairGeomOf m (closeEnv : PairEnv ℝ) 0 1).r
      < (exp6Terms m (pairGeomOf m (closeEnv : PairEnv ℝ) 0 1) 12 1 2).rin1 := by
    rw [hr]; exact rin1_AA_lower m hm _
  have hzero : powintDouble (pairGeomOf m (closeEnv : PairEnv ℝ) 0 1).r nRep = 0 := by
    rw [hr]
    unfold powintDouble powint underflowBound nRep
    rw [if_pos]
    rw [abs_of_nonneg (by positivity)]
    norm_num
  have hmem : (0 : ℝ) ∈ exp6Divisors m (pairGeomOf m (closeEnv : PairEnv ℝ) 0 1) 12 1 2 := by
    unfold exp6Divisors
    simp only [if_pos hcore, hzero]
    simp
  refine ⟨hpos, hcut, st', hok, hg.1, hr, ?_, hzero, ?_⟩
  · unfold pureA
    rw [hmix]
    exact hcore
  · have hog : (mixPair m (pureA : ParamData ℝ) pureA).rmOld12_ij ≠ 0 ∧
        (mixPair m (pureA : ParamData ℝ) pureA).rmOld21_ij ≠ 0 := hg.1
    unfold pairDivisors
    simp only [if_pos hog]
    apply List.mem_append_left
    apply List.mem_append_right
    apply List.mem_append_left
    have h := hmem
    unfold pairGeomOf at h
    unfold pureA
    rw [hmix]
    exact h

/-- Witness of claim C39 (amended) over the reals: two particles of pure species A (both
sites pinned to A) at separation 3 with cutoff 10; `r^12 = 531441` does not underflow, the
pair is processed without error and all its divisors are nonzero. -/
theorem divisors_nonzero_witness :
    let m : MathLib ℝ := ⟨Real.sqrt, Real.exp,
      fun x => if x < 0 then -(-x) ^ (3:ℝ)⁻¹ else x ^ (3:ℝ)⁻¹, fun x y => x ^ y⟩
    0 < pairRsq (lineEnv 2 : PairEnv ℝ) 0 1 ∧
    pairRsq (lineEnv 2 : PairEnv ℝ) 0 1 < pairCutsq (lineEnv 2 : PairEnv ℝ) 0 1 ∧
    underflowBound < (pairGeomOf m (lineEnv 2 : PairEnv ℝ) 0 1).r ^ nRep ∧
    ∃ st', computePair m (scenarioConfig 0 0) (lineEnv 2) (fun _ => pureA) 0 (startState 0) 1
        = .ok st' ∧
      ∀ d ∈ pairDivisors m (pairRsq (lineEnv 2 : PairEnv ℝ) 0 1)
        (pairCutsq (lineEnv 2 : PairEnv ℝ) 0 1) pureA pureA, d ≠ 0 := by
  intro m
  have hm : IsRealLib m := ⟨rfl, rfl, fun _ => rfl, fun _ _ => rfl⟩
  have hp := lineEnv_pair (F := ℝ) 2 0 (by norm_num)
  have hg := gates_likeA m hm 1 1 1 1
  have hpos : 0 < pairRsq (lineEnv 2 : PairEnv ℝ) 0 1 := by
    rw [hp.2.2.2.2.2.1]; norm_num
  have hcut : pairRsq (lineEnv 2 : PairEnv ℝ) 0 1 < pairCutsq (lineEnv 2 : PairEnv ℝ) 0 1 := by
    rw [hp.2.2.2.2.2.1, hp.2.2.2.2.2.2]; norm_num
  have hr : (pairGeomOf m (lineEnv 2 : PairEnv ℝ) 0 1).r = 3 := by
    unfold pairGeomOf
    rw [hp.2.2.2.2.2.1]
    show m.sqrt 9 = 3
    rw [show (9:ℝ) = 3 * 3 by norm_num]; exact sqrt_sq_real m hm 3 (by norm_num)
  have hunder : underflowBound < (pairGeomOf m (lineEnv 2 : PairEnv ℝ) 0 1).r ^ nRep := by
    rw [hr]
    exact lt_trans underflowBound_lt_one (by norm_num [nRep])
  obtain ⟨st', hok, _⟩ := computePair_both m (scenarioConfig 0 0) (lineEnv 2)
    (fun _ => pureA) 0 1 (startState 0) hcut hg.1 hg.2.1 hg.2.2.1 hg.2.2.2
  exact ⟨hpos, hcut, hunder, st', hok,
    (divisors_nonzero m (scenarioConfig 0 0) (lineEnv 2) (fun _ => pureA) 0 1 (startState 0)
      st' (fun x hx => Real.sqrt_pos.mpr hx) hpos hcut hunder hok).1⟩

section ChainSuffix

theorem binChain_mono (bins : Nat → Int) :
    ∀ (fuel : Nat) (j : Int) (c : List Nat),
      binChain bins fuel j = some c → binChain bins (fuel + 1) j = some c := by
  intro fuel
  induction fuel with
  | zero =>
    intro j c h
    simp only [binChain] at h ⊢
    split_ifs at h ⊢ with hj
    exact h
  | succ fuel ih =>
    intro j c h
    rw [binChain] at h ⊢
    split_ifs at h ⊢ with hj
    · exact h
    · cases hc : binChain bins fuel (bins j.toNat) with
      | none => rw [hc] at h; cases h
      | some l =>
        rw [hc] at h
        rw [ih _ _ hc]
        exact h

theorem binChain_suffix (bins : Nat → Int) :
    ∀ (fuel : Nat) (j : Int) (c : List Nat),
      binChain bins fuel j = some c → c.Nodup → ∀ a ∈ c,
        binChain bins fuel (bins a) = some (c.drop (c.indexOf a + 1)) := by
  intro fuel
  induction fuel with
  | zero =>
    intro j c h _ a ha
    simp only [binChain] at h
    split_ifs at h
    cases h
    cases ha
  | succ fuel ih =>
    intro j c h hnd a ha
    rw [binChain] at h
    split_ifs at h with hj
    · cases h
      cases ha
    · cases hc : binChain bins fuel (bins j.toNat) with
      | none => rw [hc] at h; cases h
      | some l =>
        rw [hc] at h
        simp only [Option.map_some', Option.some.injEq] at h
        subst h
        by_cases hah : a = j.toNat
        · subst hah
          rw [List.indexOf_cons_self]
          exact binChain_mono bins fuel _ _ hc
        · have hal : a ∈ l := by
            rcases List.mem_cons.mp ha with h1 | h1
            · exact absurd h1 hah
            · exact h1
          rw [List.indexOf_cons_ne _ (fun h => hah h.symm)]
          have := ih _ _ hc (List.nodup_cons.mp hnd).2 a hal
          exact binChain_mono bins fuel _ _ this

theorem mem_drop_iff_of_nodup :
    ∀ (c : List Nat), c.Nodup → ∀ (b : Nat), b ∈ c → ∀ n : Nat,
      (b ∈ c.drop n ↔ n ≤ c.indexOf b) := by
  intro c
  induction c with
  | nil => intro _ b hb; cases hb
  | cons x l ih =>
    intro hnd b hb n
    cases n with
    | zero => simp [hb]
    | succ n =>
      rw [List.drop_succ_cons]
      by_cases hbx : b = x
      · subst hbx
        rw [List.indexOf_cons_self]
        constructor
        · intro h
          exact absurd (List.mem_of_mem_drop h) (List.nodup_cons.mp hnd).1
        · intro h
          omega
      · have hbl : b ∈ l := by
          rcases List.mem_cons.mp hb with h1 | h1
          · exact absurd h1 hbx
          · exact h1
        rw [List.indexOf_cons_ne _ (fun h => hbx h.symm),
          ih (List.nodup_cons.mp hnd).2 b hbl n]
        omega

theorem indexOf_ne_of_ne (c : List Nat) (a b : Nat) (ha : a ∈ c) (hab : a ≠ b) :
    c.indexOf a ≠ c.indexOf b := by
  intro h
  have h1 := List.indexOf_get (List.indexOf_lt_length.mpr ha)
  by_cases hb : b ∈ c
  · have h2 := List.indexOf_get (List.indexOf_lt_length.mpr hb)
    apply hab
    rw [← h1, ← h2]
    congr 1
    exact Fin.ext h
  · have := List.indexOf_lt_length.mpr ha
    have h3 : c.indexOf b = c.length := List.indexOf_eq_length.mpr hb
    omega

/-- Two different particles of one duplicate-free chain: exactly one of them is in the rest
of the chain after the other. -/
theorem chain_rest_counts (c : List Nat) (hnd : c.Nodup) (a b : Nat) (ha : a ∈ c)
    (hb : b ∈ c) (hab : a ≠ b) :
    ((c.drop (c.indexOf a + 1)).count b = 1 ∧ (c.drop (c.indexOf b + 1)).count a = 0) ∨
    ((c.drop (c.indexOf a + 1)).count b = 0 ∧ (c.drop (c.indexOf b + 1)).count a = 1) := by
  have hne := indexOf_ne_of_ne c a b ha hab
  have hnda : (c.drop (c.indexOf a + 1)).Nodup := hnd.sublist (List.drop_sublist _ _)
  have hndb : (c.drop (c.indexOf b + 1)).Nodup := hnd.sublist (List.drop_sublist _ _)
  have m1 := mem_drop_iff_of_nodup c hnd b hb (c.indexOf a + 1)
  have m2 := mem_drop_iff_of_nodup c hnd a ha (c.indexOf b + 1)
  rcases Nat.lt_or_gt_of_ne hne with h | h
  · left
    refine ⟨List.count_eq_one_of_mem hnda (m1.mpr h), List.count_eq_zero_of_not_mem ?_⟩
    intro hh
    have := m2.mp hh
    omega
  · right
    refine ⟨List.count_eq_zero_of_not_mem ?_, List.count_eq_one_of_mem hndb (m2.mpr h)⟩
    intro hh
    have := m1.mp hh
    omega

end ChainSuffix

section BinNewton

variable {F : Type} [LinearOrderedRing F]

theorem binNewtonAtom_partners (fuel : Nat) (env : NeighEnv F) (list : NeighList) (i : Nat) :
    binNewtonAtom fuel env list i
      = (binNewtonPartners fuel env list i).map (listsOf env list.respamiddle i) := by
  rw [binNewtonAtom_eq]
  unfold binNewtonPartners
  cases binChain env.bins fuel (env.bins i) with
  | none => rfl
  | some own =>
    simp only [Option.some_bind, Option.bind_eq_bind]
    cases stencilChain env fuel (env.coord2bin i) list.stencil <;> rfl

/-- The scan of one owned particle under the hypotheses on the bins: it ends, and the other
owned particle `b` is counted among the partners of `a` once when it is in the rest of the
chain of `a` or in a bin of the stencil, and not at all otherwise. -/
theorem binNewton_scan_count (fuel : Nat) (env : NeighEnv F) (list : NeighList)
    (ch : Int → List Nat)
    (hchain : ∀ β, binChain env.bins fuel (env.binhead β) = some (ch β))
    (hnodup : ∀ β, (ch β).Nodup)
    (hmem : ∀ β j, j ∈ ch β ↔ j < nallOf env ∧ env.coord2bin j = β)
    (hstencil : list.stencil.Nodup)
    (a b : Nat) (ha : a < nallOf env) (hbl : b < nlocalOf env) (hb : b < nallOf env)
    (hlist : listed env a b = true) :
    ∃ pa, binNewtonPartners fuel env list a = some pa ∧
      pa.count b
        = ((ch (env.coord2bin a)).drop ((ch (env.coord2bin a)).indexOf a + 1)).count b
          + (if env.coord2bin b - env.coord2bin a ∈ list.stencil then 1 else 0) := by
  have haA : a ∈ ch (env.coord2bin a) := (hmem _ a).mpr ⟨ha, rfl⟩
  have hown := binChain_suffix env.bins fuel _ _ (hchain (env.coord2bin a))
    (hnodup _) a haA
  have hsc := stencilChain_of_chains env fuel (env.coord2bin a)
    (fun k => ch (env.coord2bin a + k)) list.stencil (fun k _ => hchain _)
  have hcnd := stencil_cands_nodup (env.coord2bin a) (fun k => ch (env.coord2bin a + k))
    env.coord2bin list.stencil hstencil (fun k _ => hnodup _)
    (fun k _ j hj => ((hmem _ j).mp hj).2)
  refine ⟨((ch (env.coord2bin a)).drop ((ch (env.coord2bin a)).indexOf a + 1)).filter
      (fun j => !(decide (nlocalOf env ≤ j) && coordBelow env a j) && listed env a j)
    ++ ((list.stencil.map (fun k => ch (env.coord2bin a + k))).flatten).filter
      (fun j => listed env a j), ?_, ?_⟩
  · unfold binNewtonPartners
    rw [hown, hsc]
    rfl
  · have hfa : (fun j => !(decide (nlocalOf env ≤ j) && coordBelow env a j)
        && listed env a j) b = true := by
      have : ¬ nlocalOf env ≤ b := by omega
      simp [this, hlist]
    have c1 : (((ch (env.coord2bin a)).drop ((ch (env.coord2bin a)).indexOf a + 1)).filter
        (fun j => !(decide (nlocalOf env ≤ j) && coordBelow env a j)
          && listed env a j)).count b
        = ((ch (env.coord2bin a)).drop ((ch (env.coord2bin a)).indexOf a + 1)).count b :=
      List.count_filter hfa
    have c2 : (((list.stencil.map (fun k => ch (env.coord2bin a + k))).flatten).filter
        (fun j => listed env a j)).count b
        = ((list.stencil.map (fun k => ch (env.coord2bin a + k))).flatten).count b :=
      List.count_filter hlist
    rw [List.count_append, c1, c2]
    congr 1
    by_cases hk : env.coord2bin b - env.coord2bin a ∈ list.stencil
    · rw [if_pos hk]
      apply List.count_eq_one_of_mem hcnd
      rw [List.mem_flatten]
      refine ⟨ch (env.coord2bin a + (env.coord2bin b - env.coord2bin a)),
        List.mem_map.mpr ⟨_, hk, rfl⟩, ?_⟩
      rw [hmem]
      exact ⟨hb, by omega⟩
    · rw [if_neg hk]
      apply List.count_eq_zero_of_not_mem
      intro hmemb
      obtain ⟨l, hl, hbl'⟩ := List.mem_flatten.mp hmemb
      obtain ⟨k, hkst, rfl⟩ := List.mem_map.mp hl
      have := ((hmem _ b).mp hbl').2
      apply hk
      have hkk : env.coord2bin b - env.coord2bin a = k := by omega
      rw [hkk]
      exact hkst

/-- Claim C31 (amended). In `respa_bin_newton_omp`, let every bin chain end within the fuel,
hold no particle twice and hold exactly the particles `j < nlocal + nghost` whose bin
`coord2bin(x[j])` it is; let the stencil offsets be distinct and nonzero; and let `a` and `b`
be two different owned particles, each accepted as a partner of the other (not excluded,
within `cutneighsq`, special code not negative), such that, when they are in different bins,
exactly one of the two opposite offsets between their bins is in the stencil. Then the scans
of `a` and `b` end, their full lists hold the entries of their accepted partners, and the
pair gives one full-list entry in total: one of the two particles has the other once among
its partners, and the other does not have it. -/
theorem bin_newton_pair_once (fuel : Nat) (env : NeighEnv F) (list : NeighList)
    (ch : Int → List Nat)
    (hchain : ∀ β, binChain env.bins fuel (env.binhead β) = some (ch β))
    (hnodup : ∀ β, (ch β).Nodup)
    (hmem : ∀ β j, j ∈ ch β ↔ j < nallOf env ∧ env.coord2bin j = β)
    (hstencil : list.stencil.Nodup) (hnz : ∀ k ∈ list.stencil, k ≠ 0)
    (a b : Nat) (hab : a ≠ b) (ha : a < nlocalOf env) (hb : b < nlocalOf env)
    (hall : nlocalOf env ≤ nallOf env)
    (hlab : listed env a b = true) (hlba : listed env b a = true)
    (hhalf : env.coord2bin a ≠ env.coord2bin b →
      (env.coord2bin b - env.coord2bin a ∈ list.stencil ∧
        env.coord2bin a - env.coord2bin b ∉ list.stencil) ∨
      (env.coord2bin b - env.coord2bin a ∉ list.stencil ∧
        env.coord2bin a - env.coord2bin b ∈ list.stencil)) :
    ∃ pa pb la lb,
      binNewtonPartners fuel env list a = some pa ∧
      binNewtonPartners fuel env list b = some pb ∧
      binNewtonAtom fuel env list a = some la ∧ la.full = pa.map (entryOf env a) ∧
      binNewtonAtom fuel env list b = some lb ∧ lb.full = pb.map (entryOf env b) ∧
      pa.count b + pb.count a = 1 ∧
      ((pa.count b = 1 ∧ pb.count a = 0) ∨ (pa.count b = 0 ∧ pb.count a = 1)) := by
  have ha' : a < nallOf env := lt_of_lt_of_le ha hall
  have hb' : b < nallOf env := lt_of_lt_of_le hb hall
  obtain ⟨pa, hpa, hca⟩ := binNewton_scan_count fuel env list ch hchain hnodup hmem hstencil
    a b ha' hb hb' hlab
  obtain ⟨pb, hpb, hcb⟩ := binNewton_scan_count fuel env list ch hchain hnodup hmem hstencil
    b a hb' ha ha' hlba
  have hcases : (pa.count b = 1 ∧ pb.count a = 0) ∨ (pa.count b = 0 ∧ pb.count a = 1) := by
    by_cases hbin : env.coord2bin a = env.coord2bin b
    · -- one bin: the stencil does not reach it, the chain orders the two particles
      have hz : env.coord2bin b - env.coord2bin a ∉ list.stencil := by
        intro h
        exact hnz _ h (by omega)
      have hz' : env.coord2bin a - env.coord2bin b ∉ list.stencil := by
        intro h
        exact hnz _ h (by omega)
      rw [if_neg hz, add_zero] at hca
      rw [if_neg hz', add_zero, ← hbin] at hcb
      rw [hca, hcb]
      exact chain_rest_counts (ch (env.coord2bin a)) (hnodup _) a b
        ((hmem _ a).mpr ⟨ha', rfl⟩) ((hmem _ b).mpr ⟨hb', hbin.symm⟩) hab
    · -- two bins: neither chain holds the other particle, one offset reaches it
      have hna : ((ch (env.coord2bin a)).drop
          ((ch (env.coord2bin a)).indexOf a + 1)).count b = 0 := by
        apply List.count_eq_zero_of_not_mem
        intro h
        exact hbin ((hmem _ b).mp (List.mem_of_mem_drop h)).2.symm
      have hnb : ((ch (env.coord2bin b)).drop
          ((ch (env.coord2bin b)).indexOf b + 1)).count a = 0 := by
        apply List.count_eq_zero_of_not_mem
        intro h
        exact hbin ((hmem _ a).mp (List.mem_of_mem_drop h)).2
      rw [hna, zero_add] at hca
      rw [hnb, zero_add] at hcb
      rcases hhalf hbin with ⟨h1, h2⟩ | ⟨h1, h2⟩
      · left
        rw [hca, hcb, if_pos h1, if_neg h2]
        exact ⟨rfl, rfl⟩
      · right
        rw [hca, hcb, if_neg h1, if_pos h2]
        exact ⟨rfl, rfl⟩
  refine ⟨pa, pb, listsOf env list.respamiddle a pa, listsOf env list.respamiddle b pb,
    hpa, hpb, ?_, rfl, ?_, rfl, ?_, hcases⟩
  · rw [binNewtonAtom_partners, hpa]; rfl
  · rw [binNewtonAtom_partners, hpb]; rfl
  · rcases hcases with ⟨h1, h2⟩ | ⟨h1, h2⟩ <;> omega

end BinNewton

section TwoBin

theorem twoBin_chains (β : Int) :
    binChain twoBinEnv.bins 3 (twoBinEnv.binhead β) = some (twoBinChains β) := by
  by_cases h0 : β = 0
  · subst h0; rfl
  · by_cases h1 : β = 1
    · subst h1; rfl
    · have hb : twoBinEnv.binhead β = -1 := by
        show (if β = 0 then (0:Int) else if β = 1 then 2 else -1) = -1
        rw [if_neg h0, if_neg h1]
      have hc : twoBinChains β = [] := by
        show (if β = 0 then [0, 1] else if β = 1 then [2] else []) = ([] : List Nat)
        rw [if_neg h0, if_neg h1]
      rw [hb, hc]
      rfl

theorem twoBin_nodup (β : Int) : (twoBinChains β).Nodup := by
  unfold twoBinChains
  split_ifs <;> decide

theorem twoBin_mem (β : Int) (j : Nat) :
    j ∈ twoBinChains β ↔ j < nallOf twoBinEnv ∧ twoBinEnv.coord2bin j = β := by
  have hn : nallOf twoBinEnv = 3 := rfl
  have hc : twoBinEnv.coord2bin j = if j = 2 then 1 else 0 := rfl
  rw [hn, hc]
  unfold twoBinChains
  by_cases h0 : β = 0
  · subst h0
    simp only [if_true, List.mem_cons, List.mem_singleton, List.not_mem_nil, or_false]
    constructor
    · rintro (rfl | rfl) <;> decide
    · rintro ⟨h1, h2⟩
      split_ifs at h2 with h
      · omega
      · omega
  · by_cases h1 : β = 1
    · subst h1
      simp only [one_ne_zero, if_false, if_true, List.mem_singleton]
      constructor
      · rintro rfl
        decide
      · rintro ⟨_, h2⟩
        split_ifs at h2 with h
        · exact h
        · omega
    · rw [if_neg h0, if_neg h1]
      constructor
      · intro h
        cases h
      · rintro ⟨_, h2⟩
        split_ifs at h2 with h
        · exact absurd h2.symm h1
        · exact absurd h2.symm h0

end TwoBin

/-- Claim C31 (counterexample). Three owned particles on the x axis at 0, 1 and 5, the first
two in the bin 0 (chain `0, 1`) and the third in the bin 1 (chain `2`), every other bin
empty; `cutneighsq = 16`, no exclusion. With the stencil `[2]` the offsets are distinct and
nonzero, and of the two opposite offsets `1` and `-1` between the bins 0 and 1 none is in the
stencil. The particles 1 and 2 are at distance 4, within `cutneighsq`, and each is accepted
as a partner of the other; the scans of `respa_bin_newton_omp` end with an empty full list
for both: the pair gives no entry. -/
theorem bin_newton_uncovered_pair_example :
    binChain twoBinEnv.bins 3 (twoBinEnv.binhead 0) = some [0, 1] ∧
    binChain twoBinEnv.bins 3 (twoBinEnv.binhead 1) = some [2] ∧
    (∀ β : Int, β ≠ 0 → β ≠ 1 → twoBinEnv.binhead β = -1) ∧
    twoBinEnv.coord2bin 1 = 0 ∧ twoBinEnv.coord2bin 2 = 1 ∧
    sparseStencilList.stencil = [2] ∧ sparseStencilList.stencil.Nodup ∧
    (0 : Int) ∉ sparseStencilList.stencil ∧
    (1 : Int) ∉ sparseStencilList.stencil ∧ (-1 : Int) ∉ sparseStencilList.stencil ∧
    1 < nlocalOf twoBinEnv ∧ 2 < nlocalOf twoBinEnv ∧
    respaRsq twoBinEnv 1 2 ≤ twoBinEnv.cutneighsq (twoBinEnv.type 1) (twoBinEnv.type 2) ∧
    listed twoBinEnv 1 2 = true ∧ listed twoBinEnv 2 1 = true ∧
    ∃ l1 l2,
      binNewtonAtom 3 twoBinEnv sparseStencilList 1 = some l1 ∧
      binNewtonAtom 3 twoBinEnv sparseStencilList 2 = some l2 ∧
      l1.full = [] ∧ l2.full = [] := by
  refine ⟨rfl, rfl, ?_, rfl, rfl, rfl, by decide, by decide, by decide, by decide,
    by decide, by decide, by decide, by decide, by decide, _, _, rfl, rfl, by decide,
    by decide⟩
  intro β h0 h1
  show (if β = 0 then (0:Int) else if β = 1 then 2 else -1) = -1
  rw [if_neg h0, if_neg h1]

/-- Witness of claim C31 (amended): in the same system with the half stencil `[1]`, which
holds the offset `1` from the bin 0 to the bin 1 and not the offset `-1`, the particle 1 has
the particle 2 once among its partners and the particle 2 does not have the particle 1. -/
theorem bin_newton_pair_once_witness :
    ∃ pa pb,
      binNewtonPartners 3 twoBinEnv halfStencilList 1 = some pa ∧
      binNewtonPartners 3 twoBinEnv halfStencilList 2 = some pb ∧
      pa.count 2 + pb.count 1 = 1 ∧ pa = [2] ∧ pb = [] := by
  obtain ⟨pa, pb, _, _, hpa, hpb, _, _, _, _, hsum, _⟩ :=
    bin_newton_pair_once 3 twoBinEnv halfStencilList twoBinChains twoBin_chains twoBin_nodup
      twoBin_mem (by decide) (by decide) 1 2 (by decide) (by decide) (by decide) (by decide)
      (by decide) (by decide) (fun _ => Or.inl ⟨by decide, by decide⟩)
  have ha : binNewtonPartners 3 twoBinEnv halfStencilList 1 = some [2] := rfl
  have hb : binNewtonPartners 3 twoBinEnv halfStencilList 2 = some [] := rfl
  rw [ha] at hpa
  rw [hb] at hpb
  cases hpa
  cases hpb
  exact ⟨_, _, ha, hb, hsum, rfl, rfl⟩

end PairExp6rx
